import Mathlib

/-!
# Simutrace storage server: stream buffer and segment lifecycle

A shallow embedding of `storageserver/ServerStreamBuffer.cpp` (release build:
`assert`, `dbgSanityFill`, `dbgSanityCheck` and the log macros compile to
nothing) run by one thread at a time.

* A `Segment*` is the index of the descriptor in `_segments` (`none` is
  `nullptr`); a `ServerStream*` is the stream's immutable description.
* The `SegmentFlags` bitset over the six bits `SgfInUse .. SgfPrefetch` is a
  record of six booleans; `SgfFree` is the record with every bit clear.
* The shared control elements (`StreamBuffer::getControlElement`) and the
  payload bytes (`StreamBuffer::getSegment`) are part of the state; the client
  may overwrite them at any time (`clientWriteControl`, `clientWritePayload`).
* Calls that leave the buffer (the encoder, `ThreadBase::sleep`) are appended
  to `calls`; what `encoder.write` and `encoder.read` answer is an argument of
  the operation that calls them.
* An operation returns the state it leaves behind together with its value or
  the exception it throws.
-/

namespace SimuTrace

/-! ## Constants -/

/-- SimuBaseTypes.h: `std::numeric_limits<uint32_t>::max()`. -/
def INVALID_OBJECT_ID : Nat := 4294967295

/-- SimuBaseTypes.h: `std::numeric_limits<uint64_t>::max()`. -/
def INVALID_LARGE_OBJECT_ID : Nat := 18446744073709551615

/-- Modelled from the spec: the invalid stream id of SimuStorTypes.h (an
`ObjectId`), which is not among the sources. -/
def INVALID_STREAM_ID : Nat := INVALID_OBJECT_ID

/-- Modelled from the spec: the invalid sequence number of SimuStorTypes.h. -/
def INVALID_STREAM_SEGMENT_ID : Nat := INVALID_OBJECT_ID

/-- Modelled from the spec: the invalid segment id of SimuStorTypes.h. -/
def INVALID_SEGMENT_ID : Nat := INVALID_OBJECT_ID

/-- Modelled from the spec: the invalid store id of SimuStorTypes.h. -/
def INVALID_STORE_ID : Nat := INVALID_OBJECT_ID

/-- Modelled from the spec: the `INVALID` cycle-count sentinel. -/
def INVALID_CYCLE_COUNT : Nat := INVALID_LARGE_OBJECT_ID

/-- Modelled from the spec: the `INVALID` time stamp. -/
def INVALID_TIME_STAMP : Nat := INVALID_LARGE_OBJECT_ID

/-- Modelled from the spec: the invalid entry index. -/
def INVALID_ENTRY_INDEX : Nat := INVALID_LARGE_OBJECT_ID

/-- Modelled from the spec: the mask of the 48-bit cycle count. -/
def TEMPORAL_ORDER_CYCLE_COUNT_MASK : Nat := 281474976710655

/-! ## Data model -/

/-- The bitset `SegmentFlags`, one boolean per bit. -/
structure SegmentFlags where
  inUse : Bool
  readOnly : Bool
  scratch : Bool
  cacheable : Bool
  lowPriority : Bool
  prefetch : Bool
  deriving DecidableEq, Repr, Inhabited

/-- `SgfFree = SgfNone = 0`. -/
def SgfFree : SegmentFlags :=
  { inUse := false, readOnly := false, scratch := false,
    cacheable := false, lowPriority := false, prefetch := false }

/-- `SgfInUse = 1 << 0` alone. -/
def SgfInUse : SegmentFlags := { SgfFree with inUse := true }

/-- `StreamSegmentLink`: owner of a segment. -/
structure StreamSegmentLink where
  stream : Nat
  sequenceNumber : Nat
  deriving DecidableEq, Repr, Inhabited

/-- `StoreStreamSegmentLink`: key of the standby index. -/
structure StoreStreamSegmentLink where
  store : Nat
  stream : Nat
  sequenceNumber : Nat
  deriving DecidableEq, Repr, Inhabited

/-- Modelled from the spec: `SegmentControlElement` is declared in
SimuStorTypes.h, which is not among the sources; the fields are those the
spec lists and the code reads and writes. -/
structure SegmentControlElement where
  cookie : Nat
  link : StreamSegmentLink
  startCycle : Nat
  endCycle : Nat
  startTime : Nat
  endTime : Nat
  startIndex : Nat
  entryCount : Nat
  rawEntryCount : Nat
  deriving DecidableEq, Repr, Inhabited

/-- The control element after `memset(control, 0, sizeof(SegmentControlElement))`. -/
def zeroControl : SegmentControlElement :=
  { cookie := 0, link := { stream := 0, sequenceNumber := 0 },
    startCycle := 0, endCycle := 0, startTime := 0, endTime := 0,
    startIndex := 0, entryCount := 0, rawEntryCount := 0 }

/-- The 8-byte words of a control element in memory, each given by the fields
it holds, with the cookie in the first word. This is the layout
`_computeControlCookie` presupposes: it skips the first 8 bytes of the element
so as "not [to] include the cookie itself". The element is declared in
SimuStorTypes.h, which is not among the sources. -/
def controlWords (c : SegmentControlElement) : List (List Nat) :=
  [[c.cookie], [c.link.stream, c.link.sequenceNumber], [c.startCycle], [c.endCycle],
   [c.startTime], [c.endTime], [c.startIndex], [c.entryCount, c.rawEntryCount]]

/-- What `_computeControlCookie` passes to the hash: the code skips the first
8 bytes of the element (`buffer++`, "do not include the cookie itself") and
hashes the `sizeof(SegmentControlElement) - 8` bytes that follow. These are the
fields of the words of the control element after the first. -/
def controlBody (c : SegmentControlElement) : List Nat :=
  (controlWords c).tail.flatten

/-- `StreamRangeInformation` as used by Store.h. -/
structure StreamRangeInformation where
  startIndex : Nat
  endIndex : Nat
  startCycle : Nat
  endCycle : Nat
  startTime : Nat
  endTime : Nat
  deriving DecidableEq, Repr, Inhabited

/-- Store.h: `struct StorageLocation`. -/
structure StorageLocation where
  link : StreamSegmentLink
  ranges : StreamRangeInformation
  compressedSize : Nat
  rawEntryCount : Nat
  deriving DecidableEq, Repr, Inhabited

/-- What the code asks of a stream's `StreamTypeDescriptor`.
`isVariableEntrySize` and `getEntrySize` are declared in SimuStorTypes.h,
which is not among the sources: their results for the descriptor are carried
as `variableEntrySize` and `effectiveEntrySize`; `entrySize` is the raw field
`desc.entrySize` and `temporalOrder` the flag `StfTemporalOrder`. -/
structure StreamTypeDescriptor where
  entrySize : Nat
  variableEntrySize : Bool
  effectiveEntrySize : Nat
  temporalOrder : Bool
  deriving DecidableEq, Repr, Inhabited

/-- What the buffer asks of a `ServerStream`: `getId()`,
`getStore().getId()` and `getType()`. -/
structure ServerStream where
  id : Nat
  store : Nat
  type : StreamTypeDescriptor
  deriving DecidableEq, Repr, Inhabited

/-- `struct Segment` without its lock. -/
structure Segment where
  next : Option Nat
  prev : Option Nat
  id : Nat
  flags : SegmentFlags
  isSubmitted : Bool
  stream : Option ServerStream
  sequenceNumber : Nat
  control : SegmentControlElement
  deriving DecidableEq, Repr

instance : Inhabited Segment :=
  ⟨{ next := none, prev := none, id := 0, flags := SgfFree, isSubmitted := false,
     stream := none, sequenceNumber := INVALID_STREAM_SEGMENT_ID,
     control := zeroControl }⟩

/-- A call that leaves the buffer. -/
inductive Call where
  | write (stream : Nat) (segment : Nat)
  | read (stream : Nat) (segment : Nat) (prefetch : Bool)
  | drop (stream : Nat) (segment : Nat)
  | notifySegmentCacheClosed (stream : Nat) (sequenceNumber : Nat)
  | sleep (ms : Nat)
  deriving DecidableEq, Repr

/-- The state of a `ServerStreamBuffer`. -/
structure ServerStreamBuffer where
  cookie : Nat
  segmentSize : Nat
  segments : List Segment
  freeHead : Option Nat
  enableCache : Bool
  standbyHead : Option Nat
  standbyIndex : List (StoreStreamSegmentLink × Nat)
  shared : List SegmentControlElement
  payload : List (List Nat)
  calls : List Call
  deriving DecidableEq, Repr

/-- The message of an `Exception` thrown by `_submitSegment`. -/
inductive Corruption where
  | invalidCookie
  | invalidEntryCount
  | invalidCycles
  deriving DecidableEq, Repr

/-- The exceptions of the engine boundary (SimuBaseTypes.h,
`RuntimeException`, and the plain `Exception`). `encoder` is whatever the
encoder throws. -/
inductive Error where
  | ArgumentException
  | ArgumentOutOfBoundsException
  | ArgumentNullException
  | InvalidOperationException
  | OperationInProgressException
  | Exception (what : Corruption)
  | encoder (code : Nat)
  deriving DecidableEq, Repr

/-- What `encoder.write(buffer, segment, location)` does when called. -/
inductive WriteOutcome where
  | returns (completed : Bool) (location : Option StorageLocation)
  | throws (code : Nat)
  deriving DecidableEq, Repr

/-- What `encoder.read(buffer, segment, flags, location, prefetch)` does. -/
inductive ReadOutcome where
  | returns (completed : Bool)
  | throws (code : Nat)
  deriving DecidableEq, Repr

/-- The bits of `StreamAccessFlags` the buffer looks at. -/
structure StreamAccessFlags where
  randomAccess : Bool
  sequentialScan : Bool
  synchronous : Bool
  deriving DecidableEq, Repr, Inhabited

/-- `StreamAccessFlags::SafNone`. -/
def SafNone : StreamAccessFlags :=
  { randomAccess := false, sequentialScan := false, synchronous := false }

/-- What the buffer takes from outside: the configuration values read by
`_handleContention` and `Hash::murmur3_32` (declared in a file that is not
among the sources), applied to the words of the control element and the seed. -/
structure Env where
  retryCount : Nat
  retrySleep : Nat
  murmur3_32 : List Nat → Nat → Nat

deriving instance DecidableEq for Except

/-- State and outcome of an operation. -/
abbrev Result (α : Type) := ServerStreamBuffer × Except Error α

namespace ServerStreamBuffer

/-! ## Access to descriptors, shared control elements and payload -/

/-- The descriptor `_segments[i]`. -/
def seg (b : ServerStreamBuffer) (i : Nat) : Segment :=
  b.segments.getD i default

/-- Assignment to the descriptor `_segments[i]`. -/
def setSeg (b : ServerStreamBuffer) (i : Nat) (s : Segment) : ServerStreamBuffer :=
  { b with segments := b.segments.set i s }

/-- Assignment through a `Segment*`; nothing is modelled for `nullptr`. -/
def modifyAt (b : ServerStreamBuffer) (p : Option Nat) (f : Segment → Segment) :
    ServerStreamBuffer :=
  match p with
  | none => b
  | some i => b.setSeg i (f (b.seg i))

/-- `getNumSegments()`. -/
def getNumSegments (b : ServerStreamBuffer) : Nat :=
  b.segments.length

/-- `StreamBuffer::getControlElement(segment)`: the control element in the
memory shared with the client. -/
def sharedControl (b : ServerStreamBuffer) (i : Nat) : SegmentControlElement :=
  b.shared.getD i zeroControl

/-- Assignment to the shared control element of segment `i`. -/
def setShared (b : ServerStreamBuffer) (i : Nat) (c : SegmentControlElement) :
    ServerStreamBuffer :=
  { b with shared := b.shared.set i c }

/-- The client overwrites the shared control element of segment `i`. -/
def clientWriteControl (b : ServerStreamBuffer) (i : Nat) (c : SegmentControlElement) :
    ServerStreamBuffer :=
  b.setShared i c

/-- The client overwrites the payload bytes of segment `i`. -/
def clientWritePayload (b : ServerStreamBuffer) (i : Nat) (bytes : List Nat) :
    ServerStreamBuffer :=
  { b with payload := b.payload.set i bytes }

/-- The little-endian 64-bit word at byte offset `off` of the payload of
segment `i` (`*reinterpret_cast<const CycleCount*>(getSegment(i) + off)`). -/
def readCycleCount (b : ServerStreamBuffer) (i : Nat) (off : Nat) : Nat :=
  let bytes := b.payload.getD i []
  (List.range 8).foldr (fun k acc => (bytes.getD (off + k) 0) % 256 + 256 * acc) 0

/-- Assignment to `_freeHead`. -/
def setFreeHead (b : ServerStreamBuffer) (p : Option Nat) : ServerStreamBuffer :=
  { b with freeHead := p }

/-- Assignment to `_standbyHead`. -/
def setStandbyHead (b : ServerStreamBuffer) (p : Option Nat) : ServerStreamBuffer :=
  { b with standbyHead := p }

/-- Assignment to `_standbyIndex`. -/
def setStandbyIndex (b : ServerStreamBuffer) (idx : List (StoreStreamSegmentLink × Nat)) :
    ServerStreamBuffer :=
  { b with standbyIndex := idx }

/-- Record a call that leaves the buffer. -/
def call (b : ServerStreamBuffer) (c : Call) : ServerStreamBuffer :=
  { b with calls := b.calls ++ [c] }

/-- Record several calls, in order. -/
def callAll (b : ServerStreamBuffer) (cs : List Call) : ServerStreamBuffer :=
  { b with calls := b.calls ++ cs }

/-- `stream->getId()`, or `INVALID_STREAM_ID` for `nullptr` as in `_prepareSegment`. -/
def streamId (stream : Option ServerStream) : Nat :=
  match stream with
  | none => INVALID_STREAM_ID
  | some s => s.id

/-- `stream->getStore().getId()`; `INVALID_STORE_ID` stands for the
dereference of `nullptr`, which the callers exclude. -/
def storeId (stream : Option ServerStream) : Nat :=
  match stream with
  | none => INVALID_STORE_ID
  | some s => s.store

/-! ## Standby index (`_standbyIndex`) -/

/-- `_standbyIndex.find(link)`. -/
def indexFind (idx : List (StoreStreamSegmentLink × Nat)) (link : StoreStreamSegmentLink) :
    Option Nat :=
  (idx.find? (fun e => e.1 == link)).map (fun e => e.2)

/-- `_standbyIndex.erase(it)` for the entry of `link`. -/
def indexErase (idx : List (StoreStreamSegmentLink × Nat)) (link : StoreStreamSegmentLink) :
    List (StoreStreamSegmentLink × Nat) :=
  idx.filter (fun e => !(e.1 == link))

/-- `_standbyIndex[link] = segment`. -/
def indexSet (idx : List (StoreStreamSegmentLink × Nat)) (link : StoreStreamSegmentLink)
    (i : Nat) : List (StoreStreamSegmentLink × Nat) :=
  (link, i) :: indexErase idx link

/-! ## Construction -/

/-- The descriptor written by `_initializeSegments` for index `i` of `segCount`. -/
def initialSegment (segCount i : Nat) : Segment :=
  { next := if i = segCount - 1 then none else some (i + 1),
    prev := none, id := i, flags := SgfFree, stream := none,
    sequenceNumber := INVALID_STREAM_SEGMENT_ID, isSubmitted := false,
    control := zeroControl }

/-- The constructor with `_initializeSegments`: `cookie` is the random pool
cookie, `enableCache` the negated configuration value
`server.memmgmt.disableCache`. The shared memory starts zeroed. -/
def create (cookie segmentSize numSegments : Nat) (enableCache : Bool) :
    ServerStreamBuffer :=
  { cookie := cookie, segmentSize := segmentSize,
    segments := (List.range numSegments).map (initialSegment numSegments),
    freeHead := some 0, enableCache := enableCache,
    standbyHead := none, standbyIndex := [],
    shared := List.replicate numSegments zeroControl,
    payload := List.replicate numSegments [],
    calls := [] }

/-! ## Control cookie -/

/-- `_computeControlCookie(control, segment)`. -/
def _computeControlCookie (env : Env) (b : ServerStreamBuffer)
    (control : SegmentControlElement) (segment : Segment) : Nat :=
  let cookie := b.cookie
  let cookie := cookie ^^^ ((segment.id <<< 32) ||| segment.id)
  let cookie := cookie ^^^ (control.link.stream <<< 32)
  let cookie := cookie ^^^ control.link.sequenceNumber
  let cookie := cookie ^^^ control.startTime
  if segment.flags.readOnly then
    let seed := cookie &&& 4294967295
    -- the hash overwrites the lower 32 bits of the cookie
    (cookie - cookie % 4294967296) + env.murmur3_32 (controlBody control) seed % 4294967296
  else
    cookie

/-- The value of `_computeControlCookie` as a function of what it reads: the
pool cookie, the id and the `ReadOnly` bit of the segment, and the control
element (`computeControlCookie_eq`). -/
def cookieValue (env : Env) (poolCookie id : Nat) (readOnly : Bool)
    (control : SegmentControlElement) : Nat :=
  let cookie := poolCookie ^^^ ((id <<< 32) ||| id) ^^^ (control.link.stream <<< 32)
    ^^^ control.link.sequenceNumber ^^^ control.startTime
  if readOnly then
    (cookie - cookie % 4294967296) +
      env.murmur3_32 (controlBody control) (cookie &&& 4294967295) % 4294967296
  else
    cookie

/-- `_testControlCookie(control, segment)`. -/
def _testControlCookie (env : Env) (b : ServerStreamBuffer)
    (control : SegmentControlElement) (segment : Segment) : Bool :=
  control.cookie == b._computeControlCookie env control segment

/-- `_notifyEncoderCacheClosed(segment)`. -/
def _notifyEncoderCacheClosed (b : ServerStreamBuffer) (i : Nat) : ServerStreamBuffer :=
  b.call (Call.notifySegmentCacheClosed (streamId (b.seg i).stream) (b.seg i).sequenceNumber)

/-! ## Free list -/

/-- `_dequeueFromFreeList()`; the compare-and-swap succeeds at once when no
other thread runs. -/
def _dequeueFromFreeList (b : ServerStreamBuffer) : ServerStreamBuffer × Option Nat :=
  match b.freeHead with
  | none => (b, none)
  | some i =>
    let b := b.setFreeHead (b.seg i).next
    let b := b.setSeg i { b.seg i with isSubmitted := false, flags := SgfInUse, next := none }
    (b, some i)

/-- `_enqueueToFreeList(segment)`. -/
def _enqueueToFreeList (b : ServerStreamBuffer) (i : Nat) : ServerStreamBuffer :=
  let b := b.setSeg i { b.seg i with
    stream := none, sequenceNumber := INVALID_STREAM_SEGMENT_ID,
    flags := SgfFree, next := b.freeHead }
  b.setFreeHead (some i)

/-- `_prepareSegment(segment, stream, sequenceNumber)`; `now` is the value of
`Clock::getTimestamp()`. -/
def _prepareSegment (env : Env) (b : ServerStreamBuffer) (segment : Nat)
    (stream : Option ServerStream) (sequenceNumber : Nat) (now : Nat) :
    ServerStreamBuffer :=
  let control : SegmentControlElement :=
    { zeroControl with
      link := { stream := streamId stream, sequenceNumber := sequenceNumber },
      startCycle := INVALID_CYCLE_COUNT, endCycle := INVALID_CYCLE_COUNT,
      startTime := now, endTime := INVALID_TIME_STAMP }
  let control := { control with cookie := b._computeControlCookie env control (b.seg segment) }
  let b := b.setShared segment control
  b.setSeg segment { b.seg segment with
    control := control, stream := stream, sequenceNumber := sequenceNumber }

/-- The control element `_prepareSegment` leaves in a writable segment `id`
of a pool with cookie `poolCookie`. -/
def freshControl (env : Env) (poolCookie id : Nat) (stream : Option ServerStream)
    (sequenceNumber now : Nat) : SegmentControlElement :=
  let control : SegmentControlElement :=
    { zeroControl with
      link := { stream := streamId stream, sequenceNumber := sequenceNumber },
      startCycle := INVALID_CYCLE_COUNT, endCycle := INVALID_CYCLE_COUNT,
      startTime := now, endTime := INVALID_TIME_STAMP }
  { control with cookie := cookieValue env poolCookie id false control }

/-- `_handleContention(tryCount, isScratch)`. -/
def _handleContention (env : Env) (b : ServerStreamBuffer) (tryCount : Nat) :
    ServerStreamBuffer × Bool :=
  if tryCount ≥ env.retryCount then (b, false)
  else (b.call (Call.sleep env.retrySleep), true)

/-! ## Standby list -/

/-- `_dequeueFromStandbyList(segment)`. -/
def _dequeueFromStandbyList (b : ServerStreamBuffer) (i : Nat) : ServerStreamBuffer :=
  let b :=
    if (b.seg i).next = some i then
      b.setStandbyHead none
    else
      let b := b.modifyAt (b.seg i).prev (fun p => { p with next := (b.seg i).next })
      let b := b.modifyAt (b.seg i).next (fun n => { n with prev := (b.seg i).prev })
      if some i = b.standbyHead then b.setStandbyHead (b.seg i).next else b
  b.setSeg i { b.seg i with isSubmitted := false, next := none, prev := none }

/-- `_enqueueToStandbyList(segment)`. -/
def _enqueueToStandbyList (b : ServerStreamBuffer) (i : Nat) : ServerStreamBuffer :=
  match b.standbyHead with
  | none =>
    let b := b.setSeg i { b.seg i with next := some i, prev := some i }
    b.setStandbyHead (some i)
  | some h =>
    let b := b.setSeg i { b.seg i with next := some h, prev := (b.seg h).prev }
    let b := b.modifyAt (b.seg h).prev (fun p => { p with next := some i })
    let b := b.setSeg h { b.seg h with prev := some i }
    if !(b.seg i).flags.lowPriority || (b.seg i).flags.prefetch then
      let b := b.setStandbyHead (some i)
      b.setSeg i { b.seg i with flags := { (b.seg i).flags with prefetch := false } }
    else b

/-- `_findStandbySegment(link, erase)`. -/
def _findStandbySegment (b : ServerStreamBuffer) (link : StoreStreamSegmentLink)
    (erase : Bool) : ServerStreamBuffer × Option Nat :=
  match indexFind b.standbyIndex link with
  | none => (b, none)
  | some i =>
    if erase then (b.setStandbyIndex (indexErase b.standbyIndex link), some i)
    else (b, some i)

/-- The key of segment `i` in the standby index:
`StoreStreamSegmentLink(seg.stream->getStore().getId(), seg.control.link)`. -/
def standbyKey (b : ServerStreamBuffer) (i : Nat) : StoreStreamSegmentLink :=
  { store := storeId (b.seg i).stream,
    stream := (b.seg i).control.link.stream,
    sequenceNumber := (b.seg i).control.link.sequenceNumber }

/-- `_evictFromStandbyList()`. -/
def _evictFromStandbyList (b : ServerStreamBuffer) : ServerStreamBuffer × Option Nat :=
  match b.standbyHead with
  | none => (b, none)
  | some h =>
    match (b.seg h).prev with
    | none => (b, none) -- `assert(seg != nullptr)`
    | some i =>
      let b := b._notifyEncoderCacheClosed i
      let b := (b._findStandbySegment (b.standbyKey i) true).1
      let b := b._dequeueFromStandbyList i
      let b := b.setSeg i { b.seg i with flags := SgfInUse }
      (b, some i)

/-- `_removeStandbySegment(link)`. -/
def _removeStandbySegment (b : ServerStreamBuffer) (link : StoreStreamSegmentLink) :
    ServerStreamBuffer × Option Nat :=
  match b._findStandbySegment link true with
  | (b, some i) => (b._dequeueFromStandbyList i, some i)
  | (b, none) => (b, none)

/-- `_purgeSegment(segment)`. -/
def _purgeSegment (b : ServerStreamBuffer) (segment : Nat) : ServerStreamBuffer :=
  let b := if (b.seg segment).stream.isSome then b._notifyEncoderCacheClosed segment else b
  b._enqueueToFreeList segment

/-- `_addStandbySegment(segment)`. -/
def _addStandbySegment (b : ServerStreamBuffer) (i : Nat) : ServerStreamBuffer :=
  let link := b.standbyKey i
  match (b._findStandbySegment link false).2 with
  | some _ => b._purgeSegment (b.seg i).id
  | none =>
    let b := b.setStandbyIndex (indexSet b.standbyIndex link i)
    b._enqueueToStandbyList i

/-- `_freeSegment(segment, prefetch)`. -/
def _freeSegment (env : Env) (b : ServerStreamBuffer) (segment : Nat) (prefetch : Bool) :
    ServerStreamBuffer :=
  let b := b.setSeg segment { b.seg segment with isSubmitted := true }
  if (b.seg segment).flags.cacheable && b.enableCache &&
      decide ((b.seg segment).control.rawEntryCount > 0) then
    let b := if prefetch then
        b.setSeg segment { b.seg segment with
          flags := { (b.seg segment).flags with prefetch := true } }
      else b
    let b := if !(b.seg segment).flags.readOnly then
        let b := b.setSeg segment { b.seg segment with
          flags := { (b.seg segment).flags with readOnly := true } }
        let b := b.setSeg segment { b.seg segment with
          control := { (b.seg segment).control with
            cookie := b._computeControlCookie env (b.seg segment).control (b.seg segment) } }
        b.setShared (b.seg segment).id (b.seg segment).control
      else b
    b._addStandbySegment segment
  else
    b._purgeSegment segment

/-! ## Allocation -/

/-- One try of `_tryAllocateFreeSegment`: the free list and, if it is empty,
the eviction from the standby list. -/
def allocateOnce (b : ServerStreamBuffer) : ServerStreamBuffer × Option Nat :=
  match b._dequeueFromFreeList with
  | (b, none) => b._evictFromStandbyList
  | (b, some i) => (b, some i)

/-- The loop of `_tryAllocateFreeSegment`, entered with try number `tryCount`.
The first argument bounds the number of further iterations; the loop leaves
before it runs out whenever it is at least `retryCount - tryCount`
(`tryAllocateLoop_fuel`). -/
def tryAllocateLoop (env : Env) (stream : Option ServerStream) (sequenceNumber : Nat)
    (prefetch : Bool) (now : Nat) :
    Nat → Nat → ServerStreamBuffer → ServerStreamBuffer × Option Nat
  | fuel, tryCount, b =>
    match b.allocateOnce with
    | (b, some i) =>
      (b._prepareSegment env (b.seg i).id stream sequenceNumber now, some i)
    | (b, none) =>
      if prefetch then (b, none)
      else
        match b._handleContention env tryCount with
        | (b, false) => (b, none)
        | (b, true) =>
          match fuel with
          | 0 => (b, none)
          | fuel + 1 =>
            tryAllocateLoop env stream sequenceNumber prefetch now fuel (tryCount + 1) b

/-- `_tryAllocateFreeSegment(stream, sequenceNumber, location, flags, prefetch)`. -/
def _tryAllocateFreeSegment (env : Env) (b : ServerStreamBuffer)
    (stream : Option ServerStream) (sequenceNumber : Nat) (prefetch : Bool) (now : Nat) :
    ServerStreamBuffer × Option Nat :=
  tryAllocateLoop env stream sequenceNumber prefetch now env.retryCount 1 b

end ServerStreamBuffer

/-- Store.h: `StorageLocation::getEntryCount()`, in 64-bit and then 32-bit
unsigned arithmetic. -/
def StorageLocation.getEntryCount (l : StorageLocation) : Nat :=
  if l.ranges.startIndex = INVALID_ENTRY_INDEX then 0
  else
    (((l.ranges.endIndex + 18446744073709551616 - l.ranges.startIndex)
        % 18446744073709551616) % 4294967296 + 1) % 4294967296

namespace ServerStreamBuffer

/-- `seg.stream->getType()`; the default descriptor stands for the
dereference of `nullptr`, which `submitSegment` excludes. -/
def streamType (stream : Option ServerStream) : StreamTypeDescriptor :=
  match stream with
  | none => default
  | some s => s.type

/-- "Source 1" of `_requestSegment`: the lookup in the standby list, made for
a stream only. -/
def lookupStandby (b : ServerStreamBuffer) (stream : Option ServerStream)
    (sequenceNumber : Nat) : ServerStreamBuffer × Option Nat :=
  match stream with
  | some s =>
    b._removeStandbySegment
      { store := s.store, stream := s.id, sequenceNumber := sequenceNumber }
  | none => (b, none)

/-- The flags `_requestSegment` adds to a segment that is loaded from the
store: `ReadOnly`, with caching enabled `Cacheable`, and `LowPriority` for
random access or a sequential scan. -/
def markLoaded (b : ServerStreamBuffer) (i : Nat) (flags : StreamAccessFlags) :
    ServerStreamBuffer :=
  let b := b.setSeg i { b.seg i with flags := { (b.seg i).flags with readOnly := true } }
  if b.enableCache then
    let b := b.setSeg i { b.seg i with
      flags := { (b.seg i).flags with cacheable := true } }
    if flags.randomAccess || flags.sequentialScan then
      b.setSeg i { b.seg i with flags := { (b.seg i).flags with lowPriority := true } }
    else b
  else b

/-- The control element `_requestSegment` writes for a segment that is loaded
from the location `loc`, before the cookie ("Initialize Control Segment"). -/
def locationControl (control : SegmentControlElement) (loc : StorageLocation) :
    SegmentControlElement :=
  { control with
    startCycle := loc.ranges.startCycle, endCycle := loc.ranges.endCycle,
    startTime := loc.ranges.startTime, endTime := loc.ranges.endTime,
    startIndex := loc.ranges.startIndex,
    entryCount :=
      if loc.ranges.startIndex ≠ INVALID_ENTRY_INDEX then loc.getEntryCount
      else control.entryCount,
    rawEntryCount := loc.rawEntryCount }

/-- `_requestSegment`, "Initialize Control Segment" and "Update control cookie
and internal control element" for the location `loc`. -/
def loadControl (env : Env) (b : ServerStreamBuffer) (i : Nat) (loc : StorageLocation) :
    ServerStreamBuffer :=
  let control := locationControl (b.sharedControl (b.seg i).id) loc
  let control := { control with cookie := b._computeControlCookie env control (b.seg i) }
  let b := b.setShared (b.seg i).id control
  b.setSeg i { b.seg i with control := control }

/-- The branch `location != nullptr` of `_requestSegment` for the allocated
segment `i`: the segment becomes read-only and the encoder reads into it. -/
def requestLoad (env : Env) (b : ServerStreamBuffer) (i : Nat)
    (stream : Option ServerStream) (flags : StreamAccessFlags) (loc : StorageLocation)
    (prefetch : Bool) (rd : ReadOutcome) : Result (Nat × Bool) :=
  let b := b.markLoaded i flags
  let b := b.loadControl env i loc
  let b := b.call (Call.read (streamId stream) (b.seg i).id prefetch)
  match rd with
  | .returns completed => (b, .ok ((b.seg i).id, completed))
  | .throws code => (b._purgeSegment (b.seg i).id, .error (Error.encoder code))

/-- The branch `location == nullptr` of `_requestSegment` for the allocated
segment `i`: a scratch segment or a new write segment. -/
def requestFresh (b : ServerStreamBuffer) (i : Nat) (stream : Option ServerStream) :
    Result (Nat × Bool) :=
  let b :=
    match stream with
    | none =>
      b.setSeg i { b.seg i with flags := { (b.seg i).flags with scratch := true } }
    | some _ =>
      if b.enableCache then
        b.setSeg i { b.seg i with
          flags := { (b.seg i).flags with cacheable := true, lowPriority := true } }
      else b
  (b, .ok ((b.seg i).id, true))

/-- `_requestSegment(segment, stream, sequenceNumber, flags, location, prefetch)`:
returns the segment id written to `segment` and the `completed` flag. `now` is
the clock value and `rd` what `encoder.read` does if it is called. -/
def _requestSegment (env : Env) (b : ServerStreamBuffer) (stream : Option ServerStream)
    (sequenceNumber : Nat) (flags : StreamAccessFlags) (location : Option StorageLocation)
    (prefetch : Bool) (now : Nat) (rd : ReadOutcome) : Result (Nat × Bool) :=
  -- Source 1: the standby list
  match b.lookupStandby stream sequenceNumber with
  | (b, some i) => (b, .ok ((b.seg i).id, true))
  | (b, none) =>
    -- Source 2: the free list, or eviction
    match b._tryAllocateFreeSegment env stream sequenceNumber prefetch now with
    | (b, none) => (b, .ok (INVALID_SEGMENT_ID, true))
    | (b, some i) =>
      match location with
      | some loc => b.requestLoad env i stream flags loc prefetch rd
      | none => b.requestFresh i stream

/-! ## Submission -/

/-- The shared control element of a segment with its link replaced by the
recorded owner of the segment: the value `_submitSegment` checks and keeps for
a writable segment. -/
def copiedControl (b : ServerStreamBuffer) (segment : Nat) : SegmentControlElement :=
  { b.sharedControl segment with
    link := { stream := streamId (b.seg segment).stream,
              sequenceNumber := (b.seg segment).sequenceNumber } }

/-- The first block of `_submitSegment`: a writable segment gets a private
copy of the shared control element, with the link forced to the recorded
owner. -/
def submitCopyControl (b : ServerStreamBuffer) (segment : Nat) : ServerStreamBuffer :=
  if !(b.seg segment).flags.readOnly then
    let b := b.setSeg segment { b.seg segment with control := b.sharedControl segment }
    b.setSeg segment { b.seg segment with
      control := { (b.seg segment).control with
        link := { stream := streamId (b.seg segment).stream,
                  sequenceNumber := (b.seg segment).sequenceNumber } } }
  else b

/-- The `try` block of `_submitSegment`, "Fix entry count". -/
def submitFixEntryCount (b : ServerStreamBuffer) (segment : Nat) : ServerStreamBuffer :=
  if !(streamType (b.seg segment).stream).variableEntrySize then
    b.setSeg segment { b.seg segment with
      control := { (b.seg segment).control with
        entryCount := (b.seg segment).control.rawEntryCount } }
  else b

/-- `validBufferLength` in `_submitSegment`. It is a `size_t`; the types of
its factors are declared in SimuStorTypes.h, which is not among the sources,
and the product is taken without wrap-around. -/
def validBufferLength (b : ServerStreamBuffer) (segment : Nat) : Nat :=
  (streamType (b.seg segment).stream).effectiveEntrySize *
    (b.seg segment).control.rawEntryCount

/-- The condition of the first `ThrowOn` of the `try` block ("Invalid number
of entries in control element"). -/
def entryCountInvalid (b : ServerStreamBuffer) (segment : Nat) : Bool :=
  decide (b.validBufferLength segment > b.segmentSize) ||
  (!(streamType (b.seg segment).stream).variableEntrySize &&
    decide ((b.seg segment).control.entryCount ≠ (b.seg segment).control.rawEntryCount)) ||
  decide ((b.seg segment).control.entryCount > (b.seg segment).control.rawEntryCount)

/-- The `try` block of `_submitSegment`, from `endTime` to the cycle counts:
the assignments to the private control element. -/
def submitStampRanges (b : ServerStreamBuffer) (segment : Nat) (now : Nat) :
    ServerStreamBuffer :=
  let b := b.setSeg segment { b.seg segment with
    control := { (b.seg segment).control with endTime := now } }
  if (streamType (b.seg segment).stream).temporalOrder then
    let b := b.setSeg segment { b.seg segment with
      control := { (b.seg segment).control with
        startCycle := b.readCycleCount segment 0 &&& TEMPORAL_ORDER_CYCLE_COUNT_MASK } }
    b.setSeg segment { b.seg segment with
      control := { (b.seg segment).control with
        endCycle :=
          b.readCycleCount segment
            (b.validBufferLength segment - (streamType (b.seg segment).stream).entrySize)
          &&& TEMPORAL_ORDER_CYCLE_COUNT_MASK } }
  else
    b.setSeg segment { b.seg segment with
      control := { (b.seg segment).control with
        startCycle := INVALID_CYCLE_COUNT, endCycle := INVALID_CYCLE_COUNT } }

/-- The condition of the second `ThrowOn` of the `try` block ("Invalid cycle
information"), which only a temporally ordered stream reaches. -/
def cyclesInvalid (b : ServerStreamBuffer) (segment : Nat) : Bool :=
  (streamType (b.seg segment).stream).temporalOrder &&
  (decide ((b.seg segment).control.startCycle = INVALID_CYCLE_COUNT) ||
   decide ((b.seg segment).control.endCycle = INVALID_CYCLE_COUNT) ||
   decide ((b.seg segment).control.startCycle > (b.seg segment).control.endCycle))

/-- The `try` block of `_submitSegment`, from the new cookie to its end. -/
def submitEncode (env : Env) (b : ServerStreamBuffer) (segment : Nat) (wr : WriteOutcome) :
    Result (Bool × Option StorageLocation) :=
  let b := b.setSeg segment { b.seg segment with
    control := { (b.seg segment).control with
      cookie := b._computeControlCookie env (b.seg segment).control (b.seg segment) } }
  let b := b.call (Call.write (streamId (b.seg segment).stream) segment)
  match wr with
  | .throws code => (b, .error (Error.encoder code))
  | .returns completed location =>
    let b :=
      if completed then
        if location.isSome then b._freeSegment env segment false
        else b._purgeSegment segment
      else b
    (b, .ok (completed, location))

/-- The `try` block of `_submitSegment`. -/
def submitTry (env : Env) (b : ServerStreamBuffer) (segment : Nat) (now : Nat)
    (wr : WriteOutcome) : Result (Bool × Option StorageLocation) :=
  let b := b.submitFixEntryCount segment
  if b.entryCountInvalid segment then
    (b, .error (Error.Exception Corruption.invalidEntryCount))
  else
    let b := b.submitStampRanges segment now
    if b.cyclesInvalid segment then
      (b, .error (Error.Exception Corruption.invalidCycles))
    else b.submitEncode env segment wr

/-- The `catch` block of `_submitSegment`, which rethrows. -/
def submitCatch (b : ServerStreamBuffer) (segment : Nat) : ServerStreamBuffer :=
  b.setSeg segment { b.seg segment with isSubmitted := false }

/-- The `try`/`catch` of `_submitSegment` around an outcome of the `try`
block: an exception runs the `catch` block and is thrown again. -/
def withSubmitCatch {α : Type} (segment : Nat) (r : Result α) : Result α :=
  match r with
  | (b, .error e) => (b.submitCatch segment, .error e)
  | (b, .ok a) => (b, .ok a)

/-- `_submitSegment(segment, location)`: returns `completed` and `location`.
`now` is the clock value and `wr` what `encoder.write` does if it is called. -/
def _submitSegment (env : Env) (b : ServerStreamBuffer) (segment : Nat) (now : Nat)
    (wr : WriteOutcome) : Result (Bool × Option StorageLocation) :=
  let writable := !(b.seg segment).flags.readOnly
  let b := b.submitCopyControl segment
  let control := if writable then (b.seg segment).control else b.sharedControl segment
  if !b._testControlCookie env control (b.seg segment) then
    (b, .error (Error.Exception Corruption.invalidCookie))
  else
    let b := b.setSeg segment { b.seg segment with isSubmitted := true }
    if (b.seg segment).flags.readOnly then
      (b._freeSegment env segment false, .ok (true, none))
    else if (b.seg segment).control.rawEntryCount = 0 then
      let b := b.call (Call.drop (streamId (b.seg segment).stream) (b.seg segment).id)
      (b._purgeSegment segment, .ok (true, none))
    else
      withSubmitCatch segment (b.submitTry env segment now wr)

/-! ## Engine API -/

/-- `requestSegment(stream, sequenceNumber)`. -/
def requestSegment (env : Env) (b : ServerStreamBuffer) (stream : ServerStream)
    (sequenceNumber : Nat) (now : Nat) : Result Nat :=
  if sequenceNumber = INVALID_STREAM_SEGMENT_ID then (b, .error Error.ArgumentException)
  else
    match b._requestSegment env (some stream) sequenceNumber SafNone none false now
        (ReadOutcome.returns true) with
    | (b, .ok (id, _)) => (b, .ok id)
    | (b, .error e) => (b, .error e)

/-- `requestScratchSegment()`. -/
def requestScratchSegment (env : Env) (b : ServerStreamBuffer) (now : Nat) : Result Nat :=
  match b._requestSegment env none INVALID_STREAM_SEGMENT_ID SafNone none false now
      (ReadOutcome.returns true) with
  | (b, .ok (id, _)) => (b, .ok id)
  | (b, .error e) => (b, .error e)

/-- `freeSegment(segment, prefetch)`. -/
def freeSegment (env : Env) (b : ServerStreamBuffer) (segment : Nat) (prefetch : Bool) :
    Result Unit :=
  if segment ≥ b.getNumSegments then (b, .error Error.ArgumentOutOfBoundsException)
  else if !(b.seg segment).flags.inUse || (b.seg segment).next.isSome ||
      (!(b.seg segment).flags.readOnly && !(b.seg segment).isSubmitted) then
    (b, .error Error.InvalidOperationException)
  else (b._freeSegment env segment prefetch, .ok ())

/-- `purgeSegment(segment)`. -/
def purgeSegment (b : ServerStreamBuffer) (segment : Nat) : Result Unit :=
  if segment ≥ b.getNumSegments then (b, .error Error.ArgumentOutOfBoundsException)
  else if !(b.seg segment).flags.inUse || (b.seg segment).next.isSome then
    (b, .error Error.InvalidOperationException)
  else (b._purgeSegment segment, .ok ())

/-- `submitSegment(segment, locationOut)`. -/
def submitSegment (env : Env) (b : ServerStreamBuffer) (segment : Nat) (now : Nat)
    (wr : WriteOutcome) : Result (Bool × Option StorageLocation) :=
  if segment ≥ b.getNumSegments then (b, .error Error.ArgumentOutOfBoundsException)
  else if (b.seg segment).stream.isNone then (b, .error Error.InvalidOperationException)
  else if !(b.seg segment).flags.inUse || (b.seg segment).next.isSome ||
      (b.seg segment).isSubmitted then
    (b, .error Error.InvalidOperationException)
  else b._submitSegment env segment now wr

/-- `openSegment(segment, stream, flags, location, prefetch)`. -/
def openSegment (env : Env) (b : ServerStreamBuffer) (stream : ServerStream)
    (flags : StreamAccessFlags) (location : StorageLocation) (prefetch : Bool) (now : Nat)
    (rd : ReadOutcome) : Result (Nat × Bool) :=
  b._requestSegment env (some stream) location.link.sequenceNumber flags (some location)
    prefetch now rd

/-- The loop of `flushStandbyList` at segment `seg`, `last` being the element
before the head on entry; the first argument bounds the number of iterations. -/
def flushLoop (store : Nat) (last : Nat) : Nat → Nat → ServerStreamBuffer → ServerStreamBuffer
  | 0, _, b => b
  | fuel + 1, seg, b =>
    let nseg := (b.seg seg).next
    let streamStore := storeId (b.seg seg).stream
    let b :=
      if store = INVALID_STORE_ID ∨ streamStore = store then
        let b := b._notifyEncoderCacheClosed seg
        let b := (b._findStandbySegment (b.standbyKey seg) true).1
        let b := b._dequeueFromStandbyList seg
        b._purgeSegment (b.seg seg).id
      else b
    if seg = last then b
    else
      match nseg with
      | none => b
      | some n => flushLoop store last fuel n b

/-- `flushStandbyList(store)`. -/
def flushStandbyList (b : ServerStreamBuffer) (store : Nat) : ServerStreamBuffer :=
  match b.standbyHead with
  | none => b
  | some h =>
    match (b.seg h).prev with
    | none => b
    | some last => flushLoop store last b.getNumSegments h b

/-- `getControlElement(segment)`. -/
def getControlElement (b : ServerStreamBuffer) (segment : Nat) :
    Except Error SegmentControlElement :=
  if segment ≥ b.getNumSegments then .error Error.ArgumentOutOfBoundsException
  else if (b.seg segment).isSubmitted || (b.seg segment).flags.readOnly then
    .ok (b.seg segment).control
  else .ok (b.sharedControl segment)

/-! ## Reachable states -/

/-- The states the engine reaches: a pool of at least one segment as the
constructor leaves it, followed by calls of the engine API with any arguments
and any behaviour of the encoder, and by writes of the client to the shared
control elements and the payload. -/
inductive Reachable (env : Env) : ServerStreamBuffer → Prop
  | create (cookie segmentSize numSegments : Nat) (enableCache : Bool)
      (h : 0 < numSegments) :
      Reachable env (create cookie segmentSize numSegments enableCache)
  | requestSegment (b : ServerStreamBuffer) (stream : ServerStream)
      (sequenceNumber now : Nat) :
      Reachable env b → Reachable env (requestSegment env b stream sequenceNumber now).1
  | requestScratchSegment (b : ServerStreamBuffer) (now : Nat) :
      Reachable env b → Reachable env (requestScratchSegment env b now).1
  | openSegment (b : ServerStreamBuffer) (stream : ServerStream) (flags : StreamAccessFlags)
      (location : StorageLocation) (prefetch : Bool) (now : Nat) (rd : ReadOutcome) :
      Reachable env b →
      Reachable env (openSegment env b stream flags location prefetch now rd).1
  | submitSegment (b : ServerStreamBuffer) (segment now : Nat) (wr : WriteOutcome) :
      Reachable env b → Reachable env (submitSegment env b segment now wr).1
  | freeSegment (b : ServerStreamBuffer) (segment : Nat) (prefetch : Bool) :
      Reachable env b → Reachable env (freeSegment env b segment prefetch).1
  | purgeSegment (b : ServerStreamBuffer) (segment : Nat) :
      Reachable env b → Reachable env (purgeSegment b segment).1
  | flushStandbyList (b : ServerStreamBuffer) (store : Nat) :
      Reachable env b → Reachable env (flushStandbyList b store)
  | clientWriteControl (b : ServerStreamBuffer) (i : Nat) (c : SegmentControlElement) :
      Reachable env b → Reachable env (clientWriteControl b i c)
  | clientWritePayload (b : ServerStreamBuffer) (i : Nat) (bytes : List Nat) :
      Reachable env b → Reachable env (clientWritePayload b i bytes)

/-- Every pointer of the state is null or points to a descriptor of the pool,
every descriptor carries its index as `id`, and every segment has its shared
control element. -/
def PointersValid (b : ServerStreamBuffer) : Prop :=
  b.shared.length = b.getNumSegments ∧
  (∀ j, j < b.getNumSegments → (b.seg j).id = j) ∧
  (∀ i, b.freeHead = some i → i < b.getNumSegments) ∧
  (∀ i, b.standbyHead = some i → i < b.getNumSegments) ∧
  (∀ j i, j < b.getNumSegments → (b.seg j).next = some i → i < b.getNumSegments) ∧
  (∀ j i, j < b.getNumSegments → (b.seg j).prev = some i → i < b.getNumSegments) ∧
  (∀ e, e ∈ b.standbyIndex → e.2 < b.getNumSegments)

/-- A state of a pool of `n` segments whose pointers are valid. -/
def ValidPool (n : Nat) (b : ServerStreamBuffer) : Prop :=
  PointersValid b ∧ b.getNumSegments = n

end ServerStreamBuffer

namespace ServerStreamBuffer

/-! ## The free list and the standby list as sequences -/

/-- The segments met along `next` from the pointer `cur`, the last of them
being the one whose `next` is `stop`; at most `fuel` of them. -/
def walkNext (b : ServerStreamBuffer) (stop : Option Nat) : Nat → Option Nat → List Nat
  | 0, _ => []
  | _ + 1, none => []
  | fuel + 1, some i =>
    i :: (if (b.seg i).next = stop then [] else walkNext b stop fuel (b.seg i).next)

/-- The free list, from `_freeHead` along `next` to the null pointer. -/
def freeList (b : ServerStreamBuffer) : List Nat :=
  b.walkNext none b.getNumSegments b.freeHead

/-- The standby list, from `_standbyHead` along `next` once around the ring:
the first element is the head, the last one (`_standbyHead->prev`) the next
victim. -/
def standbyList (b : ServerStreamBuffer) : List Nat :=
  b.walkNext b.standbyHead b.getNumSegments b.standbyHead

/-- `x->next == y` and `y->prev == x`. -/
def Linked (b : ServerStreamBuffer) (x y : Nat) : Prop :=
  (b.seg x).next = some y ∧ (b.seg y).prev = some x

/-- The segments `x`, those of `l` and `y` are linked one to the next. -/
def LinkedPath (b : ServerStreamBuffer) : Nat → List Nat → Nat → Prop
  | x, [], y => b.Linked x y
  | x, z :: l, y => b.Linked x z ∧ LinkedPath b z l y

/-- The segments of the list form a ring: each is linked to the next and the
last one to the first. -/
def LinkedRing (b : ServerStreamBuffer) : List Nat → Prop
  | [] => True
  | x :: l => b.LinkedPath x l x

/-- The pointer `p` leads along `next` through the segments of the list, in
this order, to the null pointer. -/
def FreeChain (b : ServerStreamBuffer) : Option Nat → List Nat → Prop
  | p, [] => p = none
  | p, i :: l => p = some i ∧ FreeChain b (b.seg i).next l

/-- The standby list is the ring of the pairwise distinct segments `ls`,
`_standbyHead` pointing to the first. -/
structure ListL (b : ServerStreamBuffer) (ls : List Nat) : Prop where
  lt : ∀ i, i ∈ ls → i < b.getNumSegments
  nodup : ls.Nodup
  head : b.standbyHead = ls.head?
  cycle : b.LinkedRing ls

/-- The standby index has one entry for each segment of `ls`, under the key
of the segment, and no other entry. -/
structure IndexL (b : ServerStreamBuffer) (ls : List Nat) : Prop where
  mem : ∀ e, e ∈ b.standbyIndex → e.2 ∈ ls ∧ e.1 = b.standbyKey e.2
  all : ∀ i, i ∈ ls → (b.standbyKey i, i) ∈ b.standbyIndex
  nodup : (b.standbyIndex.map Prod.fst).Nodup

/-- The standby cache is well formed and holds the segments `ls`, most
recently used first: the list, the index, and the ids of the descriptors. -/
structure StandbyL (b : ServerStreamBuffer) (ls : List Nat) : Prop where
  list : b.ListL ls
  index : b.IndexL ls
  ids : ∀ j, j < b.getNumSegments → (b.seg j).id = j

/-- The free list is the chain of the pairwise distinct segments `lf`. -/
structure FreeL (b : ServerStreamBuffer) (lf : List Nat) : Prop where
  lt : ∀ i, i ∈ lf → i < b.getNumSegments
  nodup : lf.Nodup
  chain : b.FreeChain b.freeHead lf

/-- The pool is well formed with free list `lf` and standby list `ls`: every
segment is on the free list with flags `Free` and no stream, or on the standby
list with the flags `InUse`, `ReadOnly` and `Cacheable`, or held (`InUse` and
not linked). -/
structure InvL (b : ServerStreamBuffer) (lf ls : List Nat) : Prop where
  shared : b.shared.length = b.getNumSegments
  free : b.FreeL lf
  standby : b.StandbyL ls
  freeFlags : ∀ i, i ∈ lf → (b.seg i).flags = SgfFree ∧ (b.seg i).prev = none ∧
    (b.seg i).stream = none
  standbyFlags : ∀ i, i ∈ ls → (b.seg i).flags.inUse = true ∧
    (b.seg i).flags.readOnly = true ∧ (b.seg i).flags.cacheable = true
  held : ∀ i, i < b.getNumSegments → i ∉ lf → i ∉ ls →
    (b.seg i).flags.inUse = true ∧ (b.seg i).next = none ∧ (b.seg i).prev = none

/-- The pool is well formed. -/
def WellFormed (b : ServerStreamBuffer) : Prop :=
  b.InvL b.freeList b.standbyList

end ServerStreamBuffer

/-- The descriptor without its links: what the list operations leave alone. -/
def Segment.unlinked (s : Segment) : Segment :=
  { s with next := none, prev := none }

namespace ServerStreamBuffer

/-- The calls `_purgeSegment(segment)` makes: the notification of the encoder,
for a segment that has a stream. -/
def purgeCalls (b : ServerStreamBuffer) (i : Nat) : List Call :=
  if (b.seg i).stream.isSome then
    [Call.notifySegmentCacheClosed (streamId (b.seg i).stream) (b.seg i).sequenceNumber]
  else []

end ServerStreamBuffer

namespace ServerStreamBuffer

/-- The pool is well formed with free list `lf` and standby list `ls`, and
segment `i` is held: a descriptor of the pool on neither list. -/
def HeldL (b : ServerStreamBuffer) (lf ls : List Nat) (i : Nat) : Prop :=
  b.InvL lf ls ∧ i < b.getNumSegments ∧ i ∉ lf ∧ i ∉ ls

end ServerStreamBuffer

namespace ServerStreamBuffer

/-- What `flushStandbyList` does to a segment it flushes: the notification of
the encoder, the removal from the index and from the list, the purge. -/
def flushOne (b : ServerStreamBuffer) (seg : Nat) : ServerStreamBuffer :=
  let b := b._notifyEncoderCacheClosed seg
  let b := (b._findStandbySegment (b.standbyKey seg) true).1
  let b := b._dequeueFromStandbyList seg
  b._purgeSegment (b.seg seg).id

/-- The test of `flushStandbyList(store)` on the store `s` of a segment's
stream. -/
def flushes (store s : Nat) : Bool :=
  decide (store = INVALID_STORE_ID ∨ s = store)

end ServerStreamBuffer

namespace ServerStreamBuffer

/-- The private control element of a writable segment when `_submitSegment`
calls the encoder, but for its new cookie: the copy of the shared element with
the link of the recorded owner, the entry count fixed for fixed-size entries,
the end time and the cycle counts. -/
def stampedControl (b : ServerStreamBuffer) (i now : Nat) : SegmentControlElement :=
  { b.copiedControl i with
    entryCount :=
      if (streamType (b.seg i).stream).variableEntrySize then (b.sharedControl i).entryCount
      else (b.sharedControl i).rawEntryCount,
    endTime := now,
    startCycle :=
      if (streamType (b.seg i).stream).temporalOrder then
        b.readCycleCount i 0 &&& TEMPORAL_ORDER_CYCLE_COUNT_MASK
      else INVALID_CYCLE_COUNT,
    endCycle :=
      if (streamType (b.seg i).stream).temporalOrder then
        b.readCycleCount i
            ((streamType (b.seg i).stream).effectiveEntrySize *
              (b.sharedControl i).rawEntryCount - (streamType (b.seg i).stream).entrySize)
          &&& TEMPORAL_ORDER_CYCLE_COUNT_MASK
      else INVALID_CYCLE_COUNT }

end ServerStreamBuffer

namespace ServerStreamBuffer

/-- The state in which `_submitSegment(segment)` calls `encoder.write` for a
writable segment: the private control element is the stamped one with its new
cookie, `isSubmitted` is set, and the call is recorded. -/
def writeState (env : Env) (b : ServerStreamBuffer) (i now : Nat) : ServerStreamBuffer :=
  (b.setSeg i { b.seg i with
    isSubmitted := true,
    control := { b.stampedControl i now with
      cookie := b._computeControlCookie env (b.stampedControl i now) (b.seg i) } }).call
    (Call.write (streamId (b.seg i).stream) i)

end ServerStreamBuffer

namespace ServerStreamBuffer

/-- The condition under which `_freeSegment(segment)` hands the segment to
the standby cache: it is `Cacheable`, caching is enabled, and its private
control element counts entries. -/
def cacheWanted (b : ServerStreamBuffer) (segment : Nat) : Bool :=
  (b.seg segment).flags.cacheable && b.enableCache &&
    decide ((b.seg segment).control.rawEntryCount > 0)

/-- The part of `_freeSegment(segment, prefetch)` between the test of the
condition and `_addStandbySegment`: the segment is submitted, it gets the
`Prefetch` flag of a prefetch free, and a writable segment becomes read-only
with a new cookie, written to the shared control element as well. -/
def cacheState (env : Env) (b : ServerStreamBuffer) (segment : Nat) (prefetch : Bool) :
    ServerStreamBuffer :=
  let b := b.setSeg segment { b.seg segment with isSubmitted := true }
  let b := if prefetch then
      b.setSeg segment { b.seg segment with
        flags := { (b.seg segment).flags with prefetch := true } }
    else b
  if !(b.seg segment).flags.readOnly then
    let b := b.setSeg segment { b.seg segment with
      flags := { (b.seg segment).flags with readOnly := true } }
    let b := b.setSeg segment { b.seg segment with
      control := { (b.seg segment).control with
        cookie := b._computeControlCookie env (b.seg segment).control (b.seg segment) } }
    b.setShared (b.seg segment).id (b.seg segment).control
  else b

end ServerStreamBuffer

/-- An operation of the standby cache on its own: the insertion of a segment,
an eviction, or the lookup of a key with removal of the segment found. -/
inductive StandbyOp where
  | insert (segment : Nat)
  | evict
  | lookup (link : StoreStreamSegmentLink)
  deriving DecidableEq, Repr

namespace ServerStreamBuffer

/-- The operations run in order, `_addStandbySegment`, `_evictFromStandbyList`
and `_removeStandbySegment`, with the segments the evictions returned, in that
order. -/
def runStandbyOps : ServerStreamBuffer → List StandbyOp → ServerStreamBuffer × List Nat
  | b, [] => (b, [])
  | b, StandbyOp.insert j :: ops => runStandbyOps (b._addStandbySegment j) ops
  | b, StandbyOp.evict :: ops =>
    match b._evictFromStandbyList.2 with
    | some i =>
      ((runStandbyOps b._evictFromStandbyList.1 ops).1,
        i :: (runStandbyOps b._evictFromStandbyList.1 ops).2)
    | none => runStandbyOps b._evictFromStandbyList.1 ops
  | b, StandbyOp.lookup k :: ops => runStandbyOps (b._removeStandbySegment k).1 ops

/-- The operations, run in order from `b`, concern segments other than `A` and
`L`: an insertion is that of another segment, which is held (`InUse`, on no
list), read-only and cacheable at that moment, as `_freeSegment` has it, and a
lookup returns neither `A` nor `L`. -/
def OpsOnOthers (A L : Nat) : ServerStreamBuffer → List StandbyOp → Prop
  | _, [] => True
  | b, StandbyOp.insert j :: ops =>
    j ≠ A ∧ j ≠ L ∧ j < b.getNumSegments ∧ (b.seg j).flags.inUse = true ∧
    (b.seg j).next = none ∧ (b.seg j).flags.readOnly = true ∧
    (b.seg j).flags.cacheable = true ∧ OpsOnOthers A L (b._addStandbySegment j) ops
  | b, StandbyOp.evict :: ops => OpsOnOthers A L b._evictFromStandbyList.1 ops
  | b, StandbyOp.lookup k :: ops =>
    (b._removeStandbySegment k).2 ≠ some A ∧ (b._removeStandbySegment k).2 ≠ some L ∧
    OpsOnOthers A L (b._removeStandbySegment k).1 ops

end ServerStreamBuffer

namespace ServerStreamBuffer

/-- The body of the loop of `flushStandbyList(store)` for segment `seg`: the
segment is flushed if its stream is of the store, or if the store id is the
invalid one. -/
def flushVisit (store : Nat) (b : ServerStreamBuffer) (seg : Nat) : ServerStreamBuffer :=
  if flushes store (storeId (b.seg seg).stream) then b.flushOne seg else b

end ServerStreamBuffer

/-- Store.h: the constructor `StorageLocation(SegmentControlElement& ctrl)`.
`init` is the value-initialised member `ranges()`: `StreamRangeInformation` is
declared in SimuStorTypes.h, which is not among the sources. The end index is
computed in 64-bit unsigned arithmetic. -/
def StorageLocation.ofControl (init : StreamRangeInformation) (ctrl : SegmentControlElement) :
    StorageLocation :=
  { link := ctrl.link,
    ranges :=
      { startIndex :=
          if ctrl.startIndex ≠ INVALID_ENTRY_INDEX then ctrl.startIndex else init.startIndex,
        endIndex :=
          if ctrl.startIndex ≠ INVALID_ENTRY_INDEX then
            (ctrl.startIndex + ctrl.rawEntryCount + 18446744073709551616 - 1)
              % 18446744073709551616
          else init.endIndex,
        startCycle := ctrl.startCycle, endCycle := ctrl.endCycle,
        startTime := ctrl.startTime, endTime := ctrl.endTime },
    compressedSize := 0,
    rawEntryCount := ctrl.rawEntryCount }

/-- A call of the engine API, or a write of the client to the shared memory,
with what the clock and the encoder do during the call. -/
inductive ApiOp where
  | requestSegment (stream : ServerStream) (sequenceNumber now : Nat)
  | requestScratchSegment (now : Nat)
  | openSegment (stream : ServerStream) (flags : StreamAccessFlags)
      (location : StorageLocation) (prefetch : Bool) (now : Nat) (rd : ReadOutcome)
  | submitSegment (segment now : Nat) (wr : WriteOutcome)
  | freeSegment (segment : Nat) (prefetch : Bool)
  | purgeSegment (segment : Nat)
  | flushStandbyList (store : Nat)
  | clientWriteControl (i : Nat) (c : SegmentControlElement)
  | clientWritePayload (i : Nat) (bytes : List Nat)

/-- The segment a call names, if it names one. -/
def ApiOp.target : ApiOp → Option Nat
  | ApiOp.submitSegment segment _ _ => some segment
  | ApiOp.freeSegment segment _ => some segment
  | ApiOp.purgeSegment segment => some segment
  | _ => none

namespace ServerStreamBuffer

/-- The state after a call. -/
def applyOp (env : Env) (b : ServerStreamBuffer) : ApiOp → ServerStreamBuffer
  | ApiOp.requestSegment stream sequenceNumber now =>
    (requestSegment env b stream sequenceNumber now).1
  | ApiOp.requestScratchSegment now => (requestScratchSegment env b now).1
  | ApiOp.openSegment stream flags location prefetch now rd =>
    (openSegment env b stream flags location prefetch now rd).1
  | ApiOp.submitSegment segment now wr => (submitSegment env b segment now wr).1
  | ApiOp.freeSegment segment prefetch => (freeSegment env b segment prefetch).1
  | ApiOp.purgeSegment segment => (purgeSegment b segment).1
  | ApiOp.flushStandbyList store => b.flushStandbyList store
  | ApiOp.clientWriteControl i c => b.clientWriteControl i c
  | ApiOp.clientWritePayload i bytes => b.clientWritePayload i bytes

/-- The state after a sequence of calls. -/
def applyOps (env : Env) (b : ServerStreamBuffer) (ops : List ApiOp) : ServerStreamBuffer :=
  ops.foldl (applyOp env) b

end ServerStreamBuffer

/-- The cookie of the private control element of a descriptor is the one
`_computeControlCookie` gives for a read-only segment of a pool with cookie
`poolCookie`, if the descriptor is `ReadOnly`. -/
def Segment.cookieOk (env : Env) (poolCookie : Nat) (s : Segment) : Prop :=
  s.flags.readOnly = true →
    s.control.cookie = ServerStreamBuffer.cookieValue env poolCookie s.id true s.control

namespace ServerStreamBuffer

/-- Every read-only segment of the pool has a valid cookie in its private
control element. -/
def CookiesOk (env : Env) (b : ServerStreamBuffer) : Prop :=
  ∀ j, (b.seg j).cookieOk env b.cookie

/-- Every read-only segment of the pool has a valid cookie in its private
control element, and segment `i` is writable. -/
def WritableOk (env : Env) (i : Nat) (b : ServerStreamBuffer) : Prop :=
  b.CookiesOk env ∧ (b.seg i).flags.readOnly = false

end ServerStreamBuffer

/-- A request to the operating system to suspend the calling thread. -/
inductive SleepRequest where
  | Sleep (milliseconds : Nat)
  | usleep (microseconds : Nat)
  deriving DecidableEq, Repr

/-- ThreadBase.cpp, `ThreadBase::sleep(ms)`: `::Sleep(ms)` on Windows, else
`::usleep(ms * 1000)`, the product taken in 32-bit unsigned arithmetic (`ms` is
a `uint32_t`). -/
def ThreadBase.sleep (win32 : Bool) (ms : Nat) : SleepRequest :=
  if win32 then SleepRequest.Sleep ms
  else SleepRequest.usleep ((ms * 1000) % 4294967296)

/-- The length of a requested sleep in microseconds. -/
def SleepRequest.microseconds : SleepRequest → Nat
  | SleepRequest.Sleep ms => ms * 1000
  | SleepRequest.usleep us => us

namespace ServerStreamBuffer

/-- The value of the local variable `tryCount` when the loop of
`_tryAllocateFreeSegment`, entered with try number `tryCount`, is left. The
variable starts at 1 and is incremented before every further pass, and every
pass makes one allocation attempt (`_dequeueFromFreeList`, then
`_evictFromStandbyList`), so from the start value 1 this is the number of
attempts. The first argument bounds the number of further passes, as in
`tryAllocateLoop`. -/
def tryAllocateTries (env : Env) (prefetch : Bool) :
    Nat → Nat → ServerStreamBuffer → Nat
  | fuel, tryCount, b =>
    match b.allocateOnce with
    | (_, some _) => tryCount
    | (b, none) =>
      if prefetch then tryCount
      else
        match b._handleContention env tryCount with
        | (_, false) => tryCount
        | (b, true) =>
          match fuel with
          | 0 => tryCount
          | fuel + 1 => tryAllocateTries env prefetch fuel (tryCount + 1) b

end ServerStreamBuffer

/-- A request that keeps the segment it allocates: `requestSegment` with a
valid sequence number, `requestScratchSegment`, or `openSegment` with an
encoder whose `read` returns. -/
def ApiOp.isRequest : ApiOp → Bool
  | ApiOp.requestSegment _ sequenceNumber _ =>
    decide (sequenceNumber ≠ INVALID_STREAM_SEGMENT_ID)
  | ApiOp.requestScratchSegment _ => true
  | ApiOp.openSegment _ _ _ _ _ (ReadOutcome.returns _) => true
  | _ => false

namespace ServerStreamBuffer

/-- The segment id a request returns to its caller. -/
def returnedSegment (env : Env) (b : ServerStreamBuffer) : ApiOp → Option Nat
  | ApiOp.requestSegment stream sequenceNumber now =>
    match (requestSegment env b stream sequenceNumber now).2 with
    | .ok id => some id
    | .error _ => none
  | ApiOp.requestScratchSegment now =>
    match (requestScratchSegment env b now).2 with
    | .ok id => some id
    | .error _ => none
  | ApiOp.openSegment stream flags location prefetch now rd =>
    match (openSegment env b stream flags location prefetch now rd).2 with
    | .ok (id, _) => some id
    | .error _ => none
  | _ => none

/-- The segment ids a sequence of calls returns, one after the other. -/
def returnedSegments (env : Env) : ServerStreamBuffer → List ApiOp → List (Option Nat)
  | _, [] => []
  | b, op :: ops => returnedSegment env b op :: returnedSegments env (applyOp env b op) ops

end ServerStreamBuffer

/-- A descriptor that is `Cacheable` has a stream. -/
def Segment.streamOk (s : Segment) : Prop :=
  s.flags.cacheable = true → s.stream.isSome = true

namespace ServerStreamBuffer

/-- Every `Cacheable` segment of the pool has a stream. -/
def StreamsOk (b : ServerStreamBuffer) : Prop :=
  ∀ j, (b.seg j).streamOk

/-- The call `_notifyEncoderCacheClosed(segment)` makes for segment `i`. -/
def notifyCall (b : ServerStreamBuffer) (i : Nat) : Call :=
  Call.notifySegmentCacheClosed (streamId (b.seg i).stream) (b.seg i).sequenceNumber

end ServerStreamBuffer

namespace ServerStreamBuffer

/-- The calls the claim counts for `flushStandbyList(store)` on the segments
`l` of the standby list of `b`: two notifications of the encoder for every
segment of the store, in the order of the list. -/
def flushCalls (store : Nat) (b : ServerStreamBuffer) : List Nat → List Call
  | [] => []
  | x :: l =>
    (if flushes store (storeId (b.seg x).stream) then [b.notifyCall x, b.notifyCall x]
     else []) ++ flushCalls store b l

end ServerStreamBuffer

/-! ## The locks taken on the call paths of the engine -/

/-- An event of a `LockScope`: the mutex of a segment (`seg.lock`) or
`_standbyLock` is acquired where the scope begins and released where it
ends. -/
inductive LockEvent where
  | acquireSegment (i : Nat)
  | releaseSegment (i : Nat)
  | acquireStandby
  | releaseStandby
  deriving DecidableEq, Repr

/-- Whether the trace acquires `_standbyLock` at a point at which the mutex of
a segment is held; `held` is the number of segment mutexes held on entry. -/
def acquiresStandbyUnderSegment : Nat → List LockEvent → Bool
  | _, [] => false
  | held, LockEvent.acquireSegment _ :: l => acquiresStandbyUnderSegment (held + 1) l
  | held, LockEvent.releaseSegment _ :: l => acquiresStandbyUnderSegment (held - 1) l
  | held, LockEvent.acquireStandby :: l =>
    decide (0 < held) || acquiresStandbyUnderSegment held l
  | held, LockEvent.releaseStandby :: l => acquiresStandbyUnderSegment held l

/-- Whether the trace acquires the mutex of a segment at a point at which
`_standbyLock` is held; `standby` tells whether it is held on entry. -/
def acquiresSegmentUnderStandby : Bool → List LockEvent → Bool
  | _, [] => false
  | standby, LockEvent.acquireSegment _ :: l =>
    standby || acquiresSegmentUnderStandby standby l
  | standby, LockEvent.releaseSegment _ :: l => acquiresSegmentUnderStandby standby l
  | _, LockEvent.acquireStandby :: l => acquiresSegmentUnderStandby true l
  | _, LockEvent.releaseStandby :: l => acquiresSegmentUnderStandby false l

/-- A trace made of scopes of `_standbyLock` that follow one another, with no
other event. -/
inductive StandbyScopes : List LockEvent → Prop
  | nil : StandbyScopes []
  | scope (l : List LockEvent) : StandbyScopes l →
      StandbyScopes (LockEvent.acquireStandby :: LockEvent.releaseStandby :: l)

/-- A trace that is empty or one scope of `_standbyLock`. -/
def OptionalScope (l : List LockEvent) : Prop :=
  l = [] ∨ l = [LockEvent.acquireStandby, LockEvent.releaseStandby]

namespace ServerStreamBuffer

/-- The lock events of `_evictFromStandbyList()`: the scope of `_standbyLock`
is entered when `_standbyHead` is not null. -/
def evictLocks (b : ServerStreamBuffer) : List LockEvent :=
  match b.standbyHead with
  | none => []
  | some _ => [LockEvent.acquireStandby, LockEvent.releaseStandby]

/-- The lock events of `_removeStandbySegment(link)`. -/
def removeStandbyLocks : List LockEvent :=
  [LockEvent.acquireStandby, LockEvent.releaseStandby]

/-- The lock events of `_addStandbySegment(segment)`; `_purgeSegment` and
`_enqueueToStandbyList`, called inside the scope, take no lock. -/
def addStandbyLocks : List LockEvent :=
  [LockEvent.acquireStandby, LockEvent.releaseStandby]

/-- The lock events of `_freeSegment(segment, prefetch)`. -/
def freeLocks (b : ServerStreamBuffer) (segment : Nat) : List LockEvent :=
  let b := b.setSeg segment { b.seg segment with isSubmitted := true }
  if (b.seg segment).flags.cacheable && b.enableCache &&
      decide ((b.seg segment).control.rawEntryCount > 0) then
    addStandbyLocks
  else []

/-- The lock events of one try of `_tryAllocateFreeSegment`. -/
def allocateOnceLocks (b : ServerStreamBuffer) : List LockEvent :=
  match b._dequeueFromFreeList with
  | (b, none) => b.evictLocks
  | (_, some _) => []

/-- The lock events of the loop of `_tryAllocateFreeSegment`, entered with
try number `tryCount`; the first argument bounds the number of further
passes, as in `tryAllocateLoop`. -/
def tryAllocateLocks (env : Env) (prefetch : Bool) :
    Nat → Nat → ServerStreamBuffer → List LockEvent
  | fuel, tryCount, b =>
    b.allocateOnceLocks ++
    match b.allocateOnce with
    | (_, some _) => []
    | (b, none) =>
      if prefetch then []
      else
        match b._handleContention env tryCount with
        | (_, false) => []
        | (b, true) =>
          match fuel with
          | 0 => []
          | fuel + 1 => tryAllocateLocks env prefetch fuel (tryCount + 1) b

/-- The lock events of `_requestSegment` after the lookup in the standby
list: the allocation, and for a load the scope of the mutex of the segment,
inside which the encoder reads and a failed load purges the segment. -/
def allocateLocks (env : Env) (b : ServerStreamBuffer) (stream : Option ServerStream)
    (sequenceNumber : Nat) (location : Option StorageLocation) (prefetch : Bool) (now : Nat) :
    List LockEvent :=
  tryAllocateLocks env prefetch env.retryCount 1 b ++
  match b._tryAllocateFreeSegment env stream sequenceNumber prefetch now with
  | (_, none) => []
  | (_, some i) =>
    match location with
    | some _ => [LockEvent.acquireSegment i, LockEvent.releaseSegment i]
    | none => []

/-- The lock events of `_requestSegment`. -/
def requestLocks (env : Env) (b : ServerStreamBuffer) (stream : Option ServerStream)
    (sequenceNumber : Nat) (location : Option StorageLocation) (prefetch : Bool) (now : Nat) :
    List LockEvent :=
  match stream with
  | some s =>
    removeStandbyLocks ++
    match b._removeStandbySegment
        { store := s.store, stream := s.id, sequenceNumber := sequenceNumber } with
    | (_, some _) => []
    | (b, none) => allocateLocks env b stream sequenceNumber location prefetch now
  | none => allocateLocks env b stream sequenceNumber location prefetch now

/-- The lock events of the `try` block of `_submitSegment` from the new
cookie on: a completed write with a location frees the segment. -/
def submitEncodeLocks (env : Env) (b : ServerStreamBuffer) (segment : Nat)
    (wr : WriteOutcome) : List LockEvent :=
  let b := b.setSeg segment { b.seg segment with
    control := { (b.seg segment).control with
      cookie := b._computeControlCookie env (b.seg segment).control (b.seg segment) } }
  let b := b.call (Call.write (streamId (b.seg segment).stream) segment)
  match wr with
  | .throws _ => []
  | .returns completed location =>
    if completed then
      if location.isSome then b.freeLocks segment else []
    else []

/-- The lock events of the `try` block of `_submitSegment`. -/
def submitTryLocks (env : Env) (b : ServerStreamBuffer) (segment : Nat) (now : Nat)
    (wr : WriteOutcome) : List LockEvent :=
  let b := b.submitFixEntryCount segment
  if b.entryCountInvalid segment then []
  else
    let b := b.submitStampRanges segment now
    if b.cyclesInvalid segment then []
    else b.submitEncodeLocks env segment wr

/-- The lock events of `_submitSegment(segment, location)`. -/
def submitLocks (env : Env) (b : ServerStreamBuffer) (segment : Nat) (now : Nat)
    (wr : WriteOutcome) : List LockEvent :=
  let writable := !(b.seg segment).flags.readOnly
  let b := b.submitCopyControl segment
  let control := if writable then (b.seg segment).control else b.sharedControl segment
  if !b._testControlCookie env control (b.seg segment) then []
  else
    let b := b.setSeg segment { b.seg segment with isSubmitted := true }
    if (b.seg segment).flags.readOnly then b.freeLocks segment
    else if (b.seg segment).control.rawEntryCount = 0 then []
    else b.submitTryLocks env segment now wr

/-- The lock events of a call of the engine: `freeSegment`, `purgeSegment`
and `submitSegment` hold the mutex of their segment from their state check to
their end, `flushStandbyList` holds `_standbyLock` throughout, and the writes
of the client take no lock. -/
def lockTrace (env : Env) (b : ServerStreamBuffer) : ApiOp → List LockEvent
  | ApiOp.requestSegment stream sequenceNumber now =>
    if sequenceNumber = INVALID_STREAM_SEGMENT_ID then []
    else requestLocks env b (some stream) sequenceNumber none false now
  | ApiOp.requestScratchSegment now =>
    requestLocks env b none INVALID_STREAM_SEGMENT_ID none false now
  | ApiOp.openSegment stream _ location prefetch now _ =>
    requestLocks env b (some stream) location.link.sequenceNumber (some location) prefetch now
  | ApiOp.submitSegment segment now wr =>
    if segment ≥ b.getNumSegments then []
    else if (b.seg segment).stream.isNone then []
    else
      [LockEvent.acquireSegment segment] ++
      (if !(b.seg segment).flags.inUse || (b.seg segment).next.isSome ||
          (b.seg segment).isSubmitted then []
       else b.submitLocks env segment now wr) ++
      [LockEvent.releaseSegment segment]
  | ApiOp.freeSegment segment _ =>
    if segment ≥ b.getNumSegments then []
    else
      [LockEvent.acquireSegment segment] ++
      (if !(b.seg segment).flags.inUse || (b.seg segment).next.isSome ||
          (!(b.seg segment).flags.readOnly && !(b.seg segment).isSubmitted) then []
       else b.freeLocks segment) ++
      [LockEvent.releaseSegment segment]
  | ApiOp.purgeSegment segment =>
    if segment ≥ b.getNumSegments then []
    else [LockEvent.acquireSegment segment, LockEvent.releaseSegment segment]
  | ApiOp.flushStandbyList _ => [LockEvent.acquireStandby, LockEvent.releaseStandby]
  | ApiOp.clientWriteControl _ _ => []
  | ApiOp.clientWritePayload _ _ => []

end ServerStreamBuffer

/-! ## ClientStream: the handles of a stream of the client library -/

/-- The bits of `StreamStateFlags` that `ClientStream` tests. -/
structure StreamStateFlags where
  SsfRead : Bool
  SsfDynamic : Bool
  deriving DecidableEq, Repr

/-- What `ClientStream` reads of the `StreamStateDescriptor` a `StreamHandle`
points to (the type is declared in a header that is not among the sources):
`address` is the address of the object, by which handles are compared,
`stream` is the pointer in its field `stream`, `flags` its field `flags`, and
`control` tells whether `stat.control` is not null. -/
structure StreamStateDescriptor where
  address : Nat
  stream : Nat
  flags : StreamStateFlags
  control : Bool
  deriving DecidableEq, Repr

/-- `StreamHandle`: a pointer to a `StreamStateDescriptor`, or `nullptr`. -/
abbrev StreamHandle := Option StreamStateDescriptor

/-- A call of one of the handle routines of a `ClientStream`. -/
inductive HandleCall where
  | callAppend (handle : StreamHandle)
  | callOpen (type value : Nat) (flags : StreamAccessFlags) (handle : StreamHandle)
  | callCloseHandle (handle : StreamStateDescriptor)
  | callReleaseHandle (handle : StreamStateDescriptor)
  deriving DecidableEq, Repr

/-- The state of a `ClientStream`: `address` is `this`, `_writeHandle` and
`_readHandles` are the members of these names, and `calls` lists the calls of
handle routines made so far. -/
structure ClientStream where
  address : Nat
  _writeHandle : Option StreamStateDescriptor
  _readHandles : List StreamStateDescriptor
  calls : List HandleCall
  deriving DecidableEq, Repr

/-- Modelled from the spec: `_append`, `_open` and `_closeHandle` are
implemented by the subclasses of `ClientStream`, which are not among the
sources and which the specification leaves to the stream handle manager; they
are arbitrary functions of the state that may throw. -/
structure ClientStreamImpl where
  _append : ClientStream → StreamHandle → ClientStream × Except Error StreamHandle
  _open : ClientStream → Nat → Nat → StreamAccessFlags → StreamHandle →
    ClientStream × Except Error StreamHandle
  _closeHandle : ClientStream → StreamStateDescriptor → ClientStream × Except Error Unit

namespace ClientStream

/-- Records a call of a handle routine. -/
def call (s : ClientStream) (c : HandleCall) : ClientStream :=
  { s with calls := s.calls ++ [c] }

/-- `_addHandle(handle)`. -/
def _addHandle (s : ClientStream) (handle : StreamStateDescriptor) : ClientStream :=
  if !handle.flags.SsfRead then { s with _writeHandle := some handle }
  else { s with _readHandles := s._readHandles ++ [handle] }

/-- `_releaseHandle(handle)`, recorded in `calls`: the write handle is reset if `handle` is its
address, otherwise the first read handle of this address is erased, if there
is one. -/
def _releaseHandle (s : ClientStream) (handle : StreamStateDescriptor) : ClientStream :=
  let s := s.call (HandleCall.callReleaseHandle handle)
  if s._writeHandle.map (fun w => w.address) = some handle.address then
    { s with _writeHandle := none }
  else
    { s with _readHandles := s._readHandles.eraseP (fun r => r.address == handle.address) }

/-- `append(handle)`. -/
def append (impl : ClientStreamImpl) (s : ClientStream) (handle : StreamHandle) :
    ClientStream × Except Error StreamHandle :=
  match handle with
  | some h =>
    if h.stream ≠ s.address then (s, .error Error.InvalidOperationException)
    else if h.flags.SsfRead then (s, .error Error.InvalidOperationException)
    else impl._append (s.call (HandleCall.callAppend handle)) handle
  | none => impl._append (s.call (HandleCall.callAppend handle)) handle

/-- `close(handle)`. -/
def close (impl : ClientStreamImpl) (s : ClientStream) (handle : StreamHandle) :
    ClientStream × Except Error Unit :=
  match handle with
  | none => (s, .error Error.ArgumentNullException)
  | some h =>
    if h.stream ≠ s.address then (s, .error Error.InvalidOperationException)
    else
      let r : ClientStream × Except Error Unit :=
        if h.flags.SsfDynamic || h.control then
          impl._closeHandle (s.call (HandleCall.callCloseHandle h)) h
        else (s, .ok ())
      match r with
      | (s, .error e) => (s, .error e)
      | (s, .ok _) => (s._releaseHandle h, .ok ())

end ClientStream

/-- `open(type, value, flags, handle)`. -/
def ClientStream.open (impl : ClientStreamImpl) (s : ClientStream) (type value : Nat)
    (flags : StreamAccessFlags) (handle : StreamHandle) :
    ClientStream × Except Error StreamHandle :=
  match handle with
  | some h =>
    if h.stream ≠ s.address then (s, .error Error.InvalidOperationException)
    else if !h.flags.SsfRead then (s, .error Error.InvalidOperationException)
    else impl._open (s.call (HandleCall.callOpen type value flags handle)) type value flags handle
  | none =>
    impl._open (s.call (HandleCall.callOpen type value flags handle)) type value flags handle

/-- A sample environment: three tries, 10 ms between them, and a stand-in for
`Hash::murmur3_32`. -/
def sampleEnv : Env :=
  { retryCount := 3, retrySleep := 10,
    murmur3_32 := fun ws seed => ws.foldl (fun a w => (a * 31 + w) % 4294967296) seed }

/-- A sample stream of store 1 with fixed-size entries of 16 bytes. -/
def sampleStream : ServerStream :=
  { id := 7, store := 1,
    type := { entrySize := 16, variableEntrySize := false, effectiveEntrySize := 16,
              temporalOrder := false } }

/-- A fresh pool of two segments of 1024 bytes with caching enabled. -/
def samplePool : ServerStreamBuffer :=
  ServerStreamBuffer.create 12345 1024 2 true

/-- The sample pool after `requestSegment(sampleStream, 0)` at time 100: the
writer holds segment 0. -/
def sampleHeld : ServerStreamBuffer :=
  (ServerStreamBuffer.requestSegment sampleEnv samplePool sampleStream 0 100).1

/-- The client has written one entry to segment 0 of `sampleHeld` and set
`rawEntryCount` to 1. -/
def sampleWritten : ServerStreamBuffer :=
  sampleHeld.clientWriteControl 0 { sampleHeld.sharedControl 0 with rawEntryCount := 1 }

/-- A storage location for sequence number 0 of the sample stream, as an
encoder returns it for `sampleWritten`. -/
def sampleLocation : StorageLocation :=
  { link := { stream := 7, sequenceNumber := 0 },
    ranges := { startIndex := 0, endIndex := 0,
                startCycle := INVALID_CYCLE_COUNT, endCycle := INVALID_CYCLE_COUNT,
                startTime := 100, endTime := 200 },
    compressedSize := 8, rawEntryCount := 1 }

/-- The state after `submitSegment(0)` on `sampleWritten` at time 200 with an
encoder that completes and returns `sampleLocation`: segment 0 is cached. -/
def sampleCached : ServerStreamBuffer :=
  (ServerStreamBuffer.submitSegment sampleEnv sampleWritten 0 200
    (WriteOutcome.returns true (some sampleLocation))).1

/-- The client has overwritten the cookie of segment 0 of `sampleHeld`. -/
def sampleBadCookie : ServerStreamBuffer :=
  sampleHeld.clientWriteControl 0 { sampleHeld.sharedControl 0 with cookie := 0 }

/-- The client has changed only `link.sequenceNumber` (from 0 to 5) in the
shared control element of segment 0 of `sampleHeld`. -/
def sampleBadLink : ServerStreamBuffer :=
  sampleHeld.clientWriteControl 0
    { sampleHeld.sharedControl 0 with
      link := { stream := (sampleHeld.sharedControl 0).link.stream, sequenceNumber := 5 } }

/-- A pool of one segment whose only segment is held by a writer. -/
def sampleExhausted : ServerStreamBuffer :=
  (ServerStreamBuffer.requestSegment sampleEnv (ServerStreamBuffer.create 12345 1024 1 true)
    sampleStream 0 100).1

/-- A sample temporally ordered stream of store 1 with fixed-size entries of 16
bytes. -/
def sampleTemporalStream : ServerStream :=
  { id := 7, store := 1,
    type := { entrySize := 16, variableEntrySize := false, effectiveEntrySize := 16,
              temporalOrder := true } }

/-- The sample pool after `requestSegment(sampleTemporalStream, 0)` at time
100. -/
def sampleTemporalHeld : ServerStreamBuffer :=
  (ServerStreamBuffer.requestSegment sampleEnv samplePool sampleTemporalStream 0 100).1

/-- The client has written two entries to segment 0 of `sampleTemporalHeld`, of
cycle counts 5 and 9, and set `rawEntryCount` to 2. -/
def sampleTemporalWritten : ServerStreamBuffer :=
  (sampleTemporalHeld.clientWriteControl 0
    { sampleTemporalHeld.sharedControl 0 with rawEntryCount := 2 }).clientWritePayload 0
    [5, 0, 0, 0, 0, 0, 0, 0, 1, 1, 1, 1, 1, 1, 1, 1,
     9, 0, 0, 0, 0, 0, 0, 0, 2, 2, 2, 2, 2, 2, 2, 2]

/-- The state after `submitSegment(0)` on `sampleWritten` at time 200 with an
encoder that has not completed: segment 0 is still held by the caller, and it
is submitted. -/
def sampleSubmitted : ServerStreamBuffer :=
  (ServerStreamBuffer.submitSegment sampleEnv sampleWritten 0 200
    (WriteOutcome.returns false none)).1

/-- Two writers hold segments 0 and 1 of the sample pool, both requested for
sequence number 0 of the sample stream; segment 0 has been written, submitted
and cached, segment 1 is still held. -/
def sampleDuplicate : ServerStreamBuffer :=
  (ServerStreamBuffer.submitSegment sampleEnv
    (((ServerStreamBuffer.requestSegment sampleEnv sampleHeld sampleStream 0 100).1).clientWriteControl
      0 { sampleHeld.sharedControl 0 with rawEntryCount := 1 })
    0 200 (WriteOutcome.returns true (some sampleLocation))).1

/-- A storage location for sequence number 1 of the sample stream. -/
def sampleLocation1 : StorageLocation :=
  { link := { stream := 7, sequenceNumber := 1 },
    ranges := { startIndex := 1, endIndex := 1,
                startCycle := INVALID_CYCLE_COUNT, endCycle := INVALID_CYCLE_COUNT,
                startTime := 100, endTime := 200 },
    compressedSize := 8, rawEntryCount := 1 }

/-- A storage location for sequence number 2 of the sample stream. -/
def sampleLocation2 : StorageLocation :=
  { link := { stream := 7, sequenceNumber := 2 },
    ranges := { startIndex := 2, endIndex := 2,
                startCycle := INVALID_CYCLE_COUNT, endCycle := INVALID_CYCLE_COUNT,
                startTime := 100, endTime := 200 },
    compressedSize := 8, rawEntryCount := 1 }

/-- Two readers hold segments 0 and 1 of the sample pool, opened without access
flags for sequence numbers 0 and 1 of the sample stream. -/
def sampleOpened : ServerStreamBuffer :=
  (ServerStreamBuffer.openSegment sampleEnv
    (ServerStreamBuffer.openSegment sampleEnv samplePool sampleStream SafNone sampleLocation
      false 100 (ReadOutcome.returns true)).1
    sampleStream SafNone sampleLocation1 false 100 (ReadOutcome.returns true)).1

/-- Segment 0 of the sample pool has been opened without access flags for
sequence number 0 of the sample stream and freed into the standby cache; then
segment 1 has been opened with `RandomAccess` for sequence number 1, and its
reader still holds it. -/
def sampleLruHeld : ServerStreamBuffer :=
  (ServerStreamBuffer.openSegment sampleEnv
    (ServerStreamBuffer.freeSegment sampleEnv
      (ServerStreamBuffer.openSegment sampleEnv samplePool sampleStream SafNone sampleLocation
        false 100 (ReadOutcome.returns true)).1 0 false).1
    sampleStream { randomAccess := true, sequentialScan := false, synchronous := false }
    sampleLocation1 false 100 (ReadOutcome.returns true)).1

/-- A control element of a stream of variable-size entries: two raw entries
that hold one entry, of index 10. -/
def sampleVariableControl : SegmentControlElement :=
  { zeroControl with startIndex := 10, entryCount := 1, rawEntryCount := 2 }

/-- Segment 0 of the sample pool has been opened with `RandomAccess` for
sequence number 0 of the sample stream; its reader holds it. The standby list
is empty. -/
def sampleRandomHeld : ServerStreamBuffer :=
  (ServerStreamBuffer.openSegment sampleEnv samplePool sampleStream
    { randomAccess := true, sequentialScan := false, synchronous := false }
    sampleLocation false 100 (ReadOutcome.returns true)).1

/-- After `sampleRandomHeld`: segment 0 has been freed with `prefetch = true`
into the empty standby cache; segment 1 has been opened without access flags
for sequence number 1 and freed; then sequence number 0 has been opened again,
a hit that returns segment 0 to a reader. -/
def samplePrefetchHit : ServerStreamBuffer :=
  (ServerStreamBuffer.openSegment sampleEnv
    (ServerStreamBuffer.freeSegment sampleEnv
      (ServerStreamBuffer.openSegment sampleEnv
        (ServerStreamBuffer.freeSegment sampleEnv sampleRandomHeld 0 true).1
        sampleStream SafNone sampleLocation1 false 100 (ReadOutcome.returns true)).1
      1 false).1
    sampleStream SafNone sampleLocation false 100 (ReadOutcome.returns true)).1

/-- Calls made while a scratch segment is held in segment 0: a reader opens
sequence number 0 of the sample stream in segment 1 and frees it, which caches
it, and the cache of store 1 is flushed; the scratch segment is named by a
submission and a free, which fail. -/
def sampleScratchOps : List ApiOp :=
  [ApiOp.openSegment sampleStream SafNone sampleLocation false 101 (ReadOutcome.returns true),
   ApiOp.submitSegment 0 102 (WriteOutcome.returns true (some sampleLocation)),
   ApiOp.freeSegment 0 false,
   ApiOp.freeSegment 1 false,
   ApiOp.flushStandbyList 1]

/-- Two readers hold segments 0 and 1 of the sample pool, both opened for
`sampleLocation` (sequence number 0 of the sample stream), with no free
between the two calls. -/
def sampleOpenedTwice : ServerStreamBuffer :=
  (ServerStreamBuffer.openSegment sampleEnv
    (ServerStreamBuffer.openSegment sampleEnv samplePool sampleStream SafNone sampleLocation
      false 100 (ReadOutcome.returns true)).1
    sampleStream SafNone sampleLocation false 101 (ReadOutcome.returns true)).1

/-- A pool of two segments with caching disabled
(`server.memmgmt.disableCache` set). -/
def sampleUncachedPool : ServerStreamBuffer :=
  ServerStreamBuffer.create 12345 1024 2 false

/-- Two requests on a fresh pool: a writer's and one for a scratch segment. -/
def sampleRequests : List ApiOp :=
  [ApiOp.requestSegment sampleStream 0 100, ApiOp.requestScratchSegment 101]

/-- A client stream at address 1000 with a write handle at address 1 and a
read handle at address 2. -/
def sampleClientStream : ClientStream :=
  { address := 1000,
    _writeHandle := some { address := 1, stream := 1000,
                           flags := { SsfRead := false, SsfDynamic := false }, control := true },
    _readHandles := [{ address := 2, stream := 1000,
                       flags := { SsfRead := true, SsfDynamic := false }, control := true }],
    calls := [] }

/-- Handle routines that do nothing but return the handle they are given. -/
def sampleClientImpl : ClientStreamImpl :=
  { _append := fun s handle => (s, .ok handle),
    _open := fun s _ _ _ handle => (s, .ok handle),
    _closeHandle := fun s _ => (s, .ok ()) }

/-- The write handle of `sampleClientStream`. -/
def sampleWriteHandle : StreamStateDescriptor :=
  { address := 1, stream := 1000,
    flags := { SsfRead := false, SsfDynamic := false }, control := true }

/-- The read handle of `sampleClientStream`. -/
def sampleReadHandle : StreamStateDescriptor :=
  { address := 2, stream := 1000,
    flags := { SsfRead := true, SsfDynamic := false }, control := true }

/-- A read handle of another stream, at address 2000. -/
def sampleForeignHandle : StreamStateDescriptor :=
  { address := 3, stream := 2000,
    flags := { SsfRead := true, SsfDynamic := false }, control := true }

/-- The client has written two entries to segment 0 of `sampleTemporalHeld`
and set `rawEntryCount` to 2. The first 8 bytes of entry 0 are 1, 2, 0, 0, 0,
0, 255, 255, the word `0xFFFF000000000201`; those of entry 1 are 3, 4, 0, 0,
0, 0, 0, 128, the word `0x8000000000000403`. -/
def sampleTemporalMasked : ServerStreamBuffer :=
  (sampleTemporalHeld.clientWriteControl 0
    { sampleTemporalHeld.sharedControl 0 with rawEntryCount := 2 }).clientWritePayload 0
    [1, 2, 0, 0, 0, 0, 255, 255, 7, 7, 7, 7, 7, 7, 7, 7,
     3, 4, 0, 0, 0, 0, 0, 128, 8, 8, 8, 8, 8, 8, 8, 8]

open ServerStreamBuffer

/-! ## Reading a state after an assignment -/

section StateLemmas

variable (b : ServerStreamBuffer) (i j : Nat) (s : Segment) (c : SegmentControlElement)
  (p : Option Nat) (idx : List (StoreStreamSegmentLink × Nat)) (k : Call)

@[simp] theorem getNumSegments_setSeg : (b.setSeg i s).getNumSegments = b.getNumSegments := by
  simp [setSeg, getNumSegments]

@[simp] theorem getNumSegments_setShared : (b.setShared i c).getNumSegments = b.getNumSegments := rfl
@[simp] theorem getNumSegments_setFreeHead : (b.setFreeHead p).getNumSegments = b.getNumSegments := rfl
@[simp] theorem getNumSegments_setStandbyHead : (b.setStandbyHead p).getNumSegments = b.getNumSegments := rfl
@[simp] theorem getNumSegments_setStandbyIndex : (b.setStandbyIndex idx).getNumSegments = b.getNumSegments := rfl
@[simp] theorem getNumSegments_call : (b.call k).getNumSegments = b.getNumSegments := rfl

theorem seg_setSeg_self (h : i < b.getNumSegments) : (b.setSeg i s).seg i = s := by
  simp only [seg, setSeg, getNumSegments] at *
  simp [List.getD_eq_getElem?_getD, h]

theorem seg_setSeg_ne (h : j ≠ i) : (b.setSeg i s).seg j = b.seg j := by
  simp [seg, setSeg, List.getD_eq_getElem?_getD, List.getElem?_set_ne (Ne.symm h)]

theorem seg_setSeg : (b.setSeg i s).seg j =
    if j = i ∧ i < b.getNumSegments then s else b.seg j := by
  by_cases hji : j = i
  · subst hji
    by_cases h : j < b.getNumSegments
    · simp [h, seg_setSeg_self]
    · have : b.setSeg j s = b := by
        cases b
        simp only [setSeg, getNumSegments, not_lt] at *
        simp [List.set_eq_of_length_le h]
      simp [h, this]
  · simp [hji, seg_setSeg_ne]

@[simp] theorem seg_setShared : (b.setShared i c).seg j = b.seg j := rfl
@[simp] theorem seg_setFreeHead : (b.setFreeHead p).seg j = b.seg j := rfl
@[simp] theorem seg_setStandbyHead : (b.setStandbyHead p).seg j = b.seg j := rfl
@[simp] theorem seg_setStandbyIndex : (b.setStandbyIndex idx).seg j = b.seg j := rfl
@[simp] theorem seg_call : (b.call k).seg j = b.seg j := rfl

@[simp] theorem freeHead_setSeg : (b.setSeg i s).freeHead = b.freeHead := rfl
@[simp] theorem freeHead_setShared : (b.setShared i c).freeHead = b.freeHead := rfl
@[simp] theorem freeHead_setFreeHead : (b.setFreeHead p).freeHead = p := rfl
@[simp] theorem freeHead_setStandbyHead : (b.setStandbyHead p).freeHead = b.freeHead := rfl
@[simp] theorem freeHead_setStandbyIndex : (b.setStandbyIndex idx).freeHead = b.freeHead := rfl
@[simp] theorem freeHead_call : (b.call k).freeHead = b.freeHead := rfl

@[simp] theorem standbyHead_setSeg : (b.setSeg i s).standbyHead = b.standbyHead := rfl
@[simp] theorem standbyHead_setShared : (b.setShared i c).standbyHead = b.standbyHead := rfl
@[simp] theorem standbyHead_setFreeHead : (b.setFreeHead p).standbyHead = b.standbyHead := rfl
@[simp] theorem standbyHead_setStandbyHead : (b.setStandbyHead p).standbyHead = p := rfl
@[simp] theorem standbyHead_setStandbyIndex :
    (b.setStandbyIndex idx).standbyHead = b.standbyHead := rfl
@[simp] theorem standbyHead_call : (b.call k).standbyHead = b.standbyHead := rfl

@[simp] theorem standbyIndex_setSeg : (b.setSeg i s).standbyIndex = b.standbyIndex := rfl
@[simp] theorem standbyIndex_setShared : (b.setShared i c).standbyIndex = b.standbyIndex := rfl
@[simp] theorem standbyIndex_setFreeHead : (b.setFreeHead p).standbyIndex = b.standbyIndex := rfl
@[simp] theorem standbyIndex_setStandbyHead :
    (b.setStandbyHead p).standbyIndex = b.standbyIndex := rfl
@[simp] theorem standbyIndex_setStandbyIndex : (b.setStandbyIndex idx).standbyIndex = idx := rfl
@[simp] theorem standbyIndex_call : (b.call k).standbyIndex = b.standbyIndex := rfl

@[simp] theorem calls_setSeg : (b.setSeg i s).calls = b.calls := rfl
@[simp] theorem calls_setShared : (b.setShared i c).calls = b.calls := rfl
@[simp] theorem calls_setFreeHead : (b.setFreeHead p).calls = b.calls := rfl
@[simp] theorem calls_setStandbyHead : (b.setStandbyHead p).calls = b.calls := rfl
@[simp] theorem calls_setStandbyIndex : (b.setStandbyIndex idx).calls = b.calls := rfl
@[simp] theorem calls_call : (b.call k).calls = b.calls ++ [k] := rfl

@[simp] theorem cookie_setSeg : (b.setSeg i s).cookie = b.cookie := rfl
@[simp] theorem cookie_setShared : (b.setShared i c).cookie = b.cookie := rfl
@[simp] theorem cookie_setFreeHead : (b.setFreeHead p).cookie = b.cookie := rfl
@[simp] theorem cookie_setStandbyHead : (b.setStandbyHead p).cookie = b.cookie := rfl
@[simp] theorem cookie_setStandbyIndex : (b.setStandbyIndex idx).cookie = b.cookie := rfl
@[simp] theorem cookie_call : (b.call k).cookie = b.cookie := rfl

@[simp] theorem enableCache_setSeg : (b.setSeg i s).enableCache = b.enableCache := rfl
@[simp] theorem enableCache_setShared : (b.setShared i c).enableCache = b.enableCache := rfl
@[simp] theorem enableCache_setFreeHead : (b.setFreeHead p).enableCache = b.enableCache := rfl
@[simp] theorem enableCache_setStandbyHead :
    (b.setStandbyHead p).enableCache = b.enableCache := rfl
@[simp] theorem enableCache_setStandbyIndex :
    (b.setStandbyIndex idx).enableCache = b.enableCache := rfl
@[simp] theorem enableCache_call : (b.call k).enableCache = b.enableCache := rfl

@[simp] theorem segmentSize_setSeg : (b.setSeg i s).segmentSize = b.segmentSize := rfl
@[simp] theorem segmentSize_setShared : (b.setShared i c).segmentSize = b.segmentSize := rfl
@[simp] theorem segmentSize_setFreeHead : (b.setFreeHead p).segmentSize = b.segmentSize := rfl
@[simp] theorem segmentSize_setStandbyHead :
    (b.setStandbyHead p).segmentSize = b.segmentSize := rfl
@[simp] theorem segmentSize_setStandbyIndex :
    (b.setStandbyIndex idx).segmentSize = b.segmentSize := rfl
@[simp] theorem segmentSize_call : (b.call k).segmentSize = b.segmentSize := rfl

@[simp] theorem sharedControl_setSeg : (b.setSeg i s).sharedControl j = b.sharedControl j := rfl
@[simp] theorem sharedControl_setFreeHead :
    (b.setFreeHead p).sharedControl j = b.sharedControl j := rfl
@[simp] theorem sharedControl_setStandbyHead :
    (b.setStandbyHead p).sharedControl j = b.sharedControl j := rfl
@[simp] theorem sharedControl_setStandbyIndex :
    (b.setStandbyIndex idx).sharedControl j = b.sharedControl j := rfl
@[simp] theorem sharedControl_call : (b.call k).sharedControl j = b.sharedControl j := rfl

theorem sharedControl_setShared_self (h : i < b.shared.length) :
    (b.setShared i c).sharedControl i = c := by
  simp [sharedControl, setShared, List.getD_eq_getElem?_getD, h]

theorem sharedControl_setShared_ne (h : j ≠ i) :
    (b.setShared i c).sharedControl j = b.sharedControl j := by
  simp [sharedControl, setShared, List.getD_eq_getElem?_getD, List.getElem?_set_ne (Ne.symm h)]

@[simp] theorem readCycleCount_setSeg :
    (b.setSeg i s).readCycleCount = b.readCycleCount := rfl

@[simp] theorem computeControlCookie_setSeg (env : Env) :
    (b.setSeg i s)._computeControlCookie env = b._computeControlCookie env := rfl
@[simp] theorem computeControlCookie_setShared (env : Env) :
    (b.setShared i c)._computeControlCookie env = b._computeControlCookie env := rfl
@[simp] theorem computeControlCookie_call (env : Env) :
    (b.call k)._computeControlCookie env = b._computeControlCookie env := rfl

end StateLemmas

/-! ## The blocks of `_submitSegment` -/

theorem setSeg_setSeg (b : ServerStreamBuffer) (i : Nat) (s s' : Segment) :
    (b.setSeg i s).setSeg i s' = b.setSeg i s' := by
  simp [setSeg, List.set_set]

theorem computeControlCookie_eq (env : Env) (b : ServerStreamBuffer)
    (c : SegmentControlElement) (s : Segment) :
    b._computeControlCookie env c s = cookieValue env b.cookie s.id s.flags.readOnly c := rfl

@[simp] theorem withSubmitCatch_error {α : Type} (i : Nat) (b : ServerStreamBuffer)
    (e : Error) :
    withSubmitCatch i ((b, .error e) : Result α) = (b.submitCatch i, .error e) := rfl

@[simp] theorem withSubmitCatch_ok {α : Type} (i : Nat) (b : ServerStreamBuffer) (a : α) :
    withSubmitCatch i ((b, .ok a) : Result α) = (b, .ok a) := rfl

theorem submitCopyControl_writable (b : ServerStreamBuffer) (i : Nat)
    (hlt : i < b.getNumSegments) (hw : (b.seg i).flags.readOnly = false) :
    b.submitCopyControl i = b.setSeg i { b.seg i with control := b.copiedControl i } := by
  simp [submitCopyControl, hw, seg_setSeg_self, hlt, setSeg_setSeg, copiedControl]

theorem submitSegment_eq (env : Env) (b : ServerStreamBuffer) (i now : Nat)
    (wr : WriteOutcome) (st : ServerStream)
    (hlt : i < b.getNumSegments)
    (hst : (b.seg i).stream = some st)
    (hu : (b.seg i).flags.inUse = true)
    (hn : (b.seg i).next = none)
    (hs : (b.seg i).isSubmitted = false) :
    submitSegment env b i now wr = b._submitSegment env i now wr := by
  unfold submitSegment
  simp [Nat.not_le.mpr hlt, hst, hu, hn, hs]

theorem submitSegment_writable (env : Env) (b : ServerStreamBuffer) (i now : Nat)
    (wr : WriteOutcome) (st : ServerStream)
    (hlt : i < b.getNumSegments)
    (hst : (b.seg i).stream = some st)
    (hw : (b.seg i).flags.readOnly = false) :
    b._submitSegment env i now wr =
      if (b.sharedControl i).cookie ≠ b._computeControlCookie env (b.copiedControl i) (b.seg i)
      then (b.setSeg i { b.seg i with control := b.copiedControl i },
            .error (Error.Exception Corruption.invalidCookie))
      else if (b.sharedControl i).rawEntryCount = 0 then
        (((b.setSeg i { b.seg i with control := b.copiedControl i, isSubmitted := true }).call
            (Call.drop st.id (b.seg i).id))._purgeSegment i, .ok (true, none))
      else
        withSubmitCatch i
          ((b.setSeg i { b.seg i with control := b.copiedControl i, isSubmitted := true }).submitTry
            env i now wr) := by
  unfold _submitSegment
  rw [submitCopyControl_writable b i hlt hw]
  have hcc : (b.copiedControl i).cookie = (b.sharedControl i).cookie := rfl
  have hcr : (b.copiedControl i).rawEntryCount = (b.sharedControl i).rawEntryCount := rfl
  simp only [hw, Bool.not_false, if_true, seg_setSeg_self, hlt, getNumSegments_setSeg,
    _testControlCookie, setSeg_setSeg, computeControlCookie_eq, cookie_setSeg, hcc, hcr]
  simp only [hw, hst, streamId, ne_eq, ite_not]
  by_cases hc : (b.sharedControl i).cookie =
      cookieValue env b.cookie (b.seg i).id false (b.copiedControl i)
  · simp only [hc, beq_self_eq_true, Bool.not_true, Bool.false_eq_true, if_false, if_true]
  · have hne : ((b.sharedControl i).cookie ==
        cookieValue env b.cookie (b.seg i).id false (b.copiedControl i)) = false := by
      simpa using hc
    simp only [hc, hne, Bool.not_false, if_true, if_false]

theorem setSeg_seg_self (b : ServerStreamBuffer) (i : Nat) : b.setSeg i (b.seg i) = b := by
  cases b with
  | mk ck sz segs fh ec sh si shr pl cl =>
    simp only [setSeg, seg, ServerStreamBuffer.mk.injEq, true_and, and_true]
    apply List.ext_getElem?
    intro n
    by_cases hn : i = n
    · subst hn
      by_cases hl : i < segs.length
      · simp [List.getElem?_set_self, hl, List.getD_eq_getElem?_getD]
      · simp [List.set_eq_of_length_le (Nat.le_of_not_lt hl)]
    · simp [List.getElem?_set_ne hn]

theorem submitFixEntryCount_eq (b : ServerStreamBuffer) (i : Nat) (_ : i < b.getNumSegments) :
    b.submitFixEntryCount i = b.setSeg i { b.seg i with
      control := { (b.seg i).control with
        entryCount :=
          if (streamType (b.seg i).stream).variableEntrySize then (b.seg i).control.entryCount
          else (b.seg i).control.rawEntryCount } } := by
  unfold submitFixEntryCount
  cases hv : (streamType (b.seg i).stream).variableEntrySize
  · simp
  · simp only [Bool.not_true, Bool.false_eq_true, if_false, if_true]
    exact (setSeg_seg_self b i).symm

theorem submitStampRanges_eq (b : ServerStreamBuffer) (i now : Nat)
    (hlt : i < b.getNumSegments) :
    b.submitStampRanges i now = b.setSeg i { b.seg i with
      control := { (b.seg i).control with
        endTime := now,
        startCycle :=
          if (streamType (b.seg i).stream).temporalOrder then
            b.readCycleCount i 0 &&& TEMPORAL_ORDER_CYCLE_COUNT_MASK
          else INVALID_CYCLE_COUNT,
        endCycle :=
          if (streamType (b.seg i).stream).temporalOrder then
            b.readCycleCount i
                (b.validBufferLength i - (streamType (b.seg i).stream).entrySize)
              &&& TEMPORAL_ORDER_CYCLE_COUNT_MASK
          else INVALID_CYCLE_COUNT } } := by
  unfold submitStampRanges
  cases ht : (streamType (b.seg i).stream).temporalOrder <;>
    simp [seg_setSeg_self, hlt, setSeg_setSeg, ht, validBufferLength]

theorem submitCatch_setSeg (b : ServerStreamBuffer) (i : Nat) (s : Segment)
    (hlt : i < b.getNumSegments) :
    (b.setSeg i s).submitCatch i = b.setSeg i { s with isSubmitted := false } := by
  simp [submitCatch, seg_setSeg_self, hlt, setSeg_setSeg]

theorem submitEncode_error (env : Env) (b : ServerStreamBuffer) (i : Nat) (wr : WriteOutcome)
    (e : Error) (h : (b.submitEncode env i wr).2 = .error e) :
    ∃ code, e = Error.encoder code := by
  unfold submitEncode at h
  cases wr with
  | returns completed location => simp at h
  | throws code =>
    simp only [Except.error.injEq] at h
    exact ⟨code, h.symm⟩

theorem submitFixEntryCount_shape (b : ServerStreamBuffer) (i : Nat)
    (hlt : i < b.getNumSegments) :
    ∃ c, b.submitFixEntryCount i = b.setSeg i { b.seg i with control := c } :=
  ⟨_, submitFixEntryCount_eq b i hlt⟩

theorem submitStampRanges_shape (b : ServerStreamBuffer) (i now : Nat)
    (hlt : i < b.getNumSegments) :
    ∃ c, b.submitStampRanges i now = b.setSeg i { b.seg i with control := c } :=
  ⟨_, submitStampRanges_eq b i now hlt⟩

theorem submitTry_corruption (env : Env) (b : ServerStreamBuffer) (i now : Nat)
    (wr : WriteOutcome) (w : Corruption) (hlt : i < b.getNumSegments)
    (h : (b.submitTry env i now wr).2 = .error (Error.Exception w)) :
    w ≠ Corruption.invalidCookie ∧
    ∃ c, (b.submitTry env i now wr).1 = b.setSeg i { b.seg i with control := c } := by
  obtain ⟨c1, h1⟩ := submitFixEntryCount_shape b i hlt
  obtain ⟨c2, h2⟩ := submitStampRanges_shape (b.submitFixEntryCount i) i now
    (by rw [h1]; simpa using hlt)
  have h2' : (b.submitFixEntryCount i).submitStampRanges i now =
      b.setSeg i { b.seg i with control := c2 } := by
    rw [h2, h1]
    simp only [seg_setSeg_self, hlt, setSeg_setSeg]
  unfold submitTry at h ⊢
  simp only at h ⊢
  by_cases hA : (b.submitFixEntryCount i).entryCountInvalid i = true
  · simp only [hA, if_true, Except.error.injEq, Error.Exception.injEq] at h ⊢
    exact ⟨by rw [← h]; simp, c1, h1⟩
  · simp only [hA, if_false, Bool.false_eq_true] at h ⊢
    by_cases hB : ((b.submitFixEntryCount i).submitStampRanges i now).cyclesInvalid i = true
    · simp only [hB, if_true, Except.error.injEq, Error.Exception.injEq] at h ⊢
      exact ⟨by rw [← h]; simp, c2, h2'⟩
    · simp only [hB, if_false, Bool.false_eq_true] at h ⊢
      obtain ⟨code, hc⟩ := submitEncode_error _ _ _ _ _ h
      simp at hc

theorem calls_submitCatch (b : ServerStreamBuffer) (i : Nat) :
    (b.submitCatch i).calls = b.calls := rfl

theorem submitTry_invalid_entry_count (env : Env) (b : ServerStreamBuffer) (i now : Nat)
    (wr : WriteOutcome) (h : (b.submitFixEntryCount i).entryCountInvalid i = true) :
    b.submitTry env i now wr =
      (b.submitFixEntryCount i, .error (Error.Exception Corruption.invalidEntryCount)) := by
  unfold submitTry
  simp only [h, if_true]

theorem calls_submitFixEntryCount (b : ServerStreamBuffer) (i : Nat) :
    (b.submitFixEntryCount i).calls = b.calls := by
  unfold submitFixEntryCount
  split_ifs <;> rfl

theorem calls_submitStampRanges (b : ServerStreamBuffer) (i now : Nat) :
    (b.submitStampRanges i now).calls = b.calls := by
  unfold submitStampRanges
  simp only
  split_ifs <;> rfl

/-- The outcome of the `try` block of `_submitSegment`: an `Exception` thrown
before any call left the buffer, or `encoder.write` reached (`submitEncode`)
from a state whose private control element carries the entry count fixed by
the block and the raw entry count it started with. -/
theorem submitTry_cases (env : Env) (b : ServerStreamBuffer) (i now : Nat)
    (wr : WriteOutcome) (hlt : i < b.getNumSegments) :
    ((b.submitTry env i now wr).1.calls = b.calls ∧
      ∃ w, (b.submitTry env i now wr).2 = .error (Error.Exception w)) ∨
    (∃ b2 : ServerStreamBuffer, b.submitTry env i now wr = b2.submitEncode env i wr ∧ b2.calls = b.calls ∧
      (b2.seg i).control.rawEntryCount = (b.seg i).control.rawEntryCount ∧
      (b2.seg i).control.entryCount =
        (if (streamType (b.seg i).stream).variableEntrySize then (b.seg i).control.entryCount
         else (b.seg i).control.rawEntryCount) ∧
      (b.submitFixEntryCount i).entryCountInvalid i = false) := by
  unfold submitTry
  simp only
  by_cases hA : (b.submitFixEntryCount i).entryCountInvalid i = true
  · left
    simp only [hA, if_true, calls_submitFixEntryCount, true_and]
    exact ⟨_, rfl⟩
  · simp only [hA, if_false, Bool.false_eq_true]
    by_cases hB : ((b.submitFixEntryCount i).submitStampRanges i now).cyclesInvalid i = true
    · left
      simp only [hB, if_true, calls_submitStampRanges, calls_submitFixEntryCount, true_and]
      exact ⟨_, rfl⟩
    · right
      simp only [hB, if_false, Bool.false_eq_true]
      refine ⟨_, rfl, ?_, ?_, ?_, by simp [hA]⟩
      · rw [calls_submitStampRanges, calls_submitFixEntryCount]
      · rw [submitStampRanges_eq _ i now (by rw [submitFixEntryCount_eq b i hlt]; simpa using hlt),
          submitFixEntryCount_eq b i hlt]
        simp only [seg_setSeg_self, hlt, setSeg_setSeg, getNumSegments_setSeg]
      · rw [submitStampRanges_eq _ i now (by rw [submitFixEntryCount_eq b i hlt]; simpa using hlt),
          submitFixEntryCount_eq b i hlt]
        simp only [seg_setSeg_self, hlt, setSeg_setSeg, getNumSegments_setSeg]

theorem entryCountInvalid_fix (b : ServerStreamBuffer) (i : Nat) (hlt : i < b.getNumSegments) :
    (b.submitFixEntryCount i).entryCountInvalid i =
      (decide ((streamType (b.seg i).stream).effectiveEntrySize *
          (b.seg i).control.rawEntryCount > b.segmentSize) ||
       decide ((if (streamType (b.seg i).stream).variableEntrySize then
            (b.seg i).control.entryCount else (b.seg i).control.rawEntryCount) >
          (b.seg i).control.rawEntryCount)) := by
  rw [submitFixEntryCount_eq b i hlt]
  unfold entryCountInvalid validBufferLength
  simp only [seg_setSeg_self, hlt, segmentSize_setSeg]
  cases hv : (streamType (b.seg i).stream).variableEntrySize <;> simp

/-! ## The pointers of a reachable state are valid -/

theorem ServerStreamBuffer.PointersValid.setSeg {b : ServerStreamBuffer} (h : PointersValid b) (i : Nat)
    (s : Segment) (hid : i < b.getNumSegments → s.id = i)
    (hnext : ∀ k, s.next = some k → k < b.getNumSegments)
    (hprev : ∀ k, s.prev = some k → k < b.getNumSegments) :
    PointersValid (b.setSeg i s) := by
  obtain ⟨h1, h2, h3, h4, h5, h6, h7⟩ := h
  refine ⟨by simpa using h1, ?_, by simpa using h3, by simpa using h4, ?_, ?_,
    by simpa using h7⟩
  · intro j hj
    rw [seg_setSeg]
    split_ifs with hc
    · rw [hc.1]; exact hid hc.2
    · exact h2 j (by simpa using hj)
  · intro j k hj
    rw [seg_setSeg]
    split_ifs with hc
    · intro hk; simpa using hnext k hk
    · intro hk; simpa using h5 j k (by simpa using hj) hk
  · intro j k hj
    rw [seg_setSeg]
    split_ifs with hc
    · intro hk; simpa using hprev k hk
    · intro hk; simpa using h6 j k (by simpa using hj) hk

theorem ServerStreamBuffer.PointersValid.setShared' {b : ServerStreamBuffer} (h : PointersValid b) (i : Nat)
    (c : SegmentControlElement) : PointersValid (b.setShared i c) := by
  obtain ⟨h1, h2, h3, h4, h5, h6, h7⟩ := h
  refine ⟨?_, h2, h3, h4, h5, h6, h7⟩
  simp only [ServerStreamBuffer.setShared, List.length_set]
  exact h1

theorem ServerStreamBuffer.PointersValid.setFreeHead {b : ServerStreamBuffer} (h : PointersValid b)
    (p : Option Nat) (hp : ∀ k, p = some k → k < b.getNumSegments) :
    PointersValid (b.setFreeHead p) := by
  obtain ⟨h1, h2, h3, h4, h5, h6, h7⟩ := h
  exact ⟨h1, h2, hp, h4, h5, h6, h7⟩

theorem ServerStreamBuffer.PointersValid.setStandbyHead {b : ServerStreamBuffer} (h : PointersValid b)
    (p : Option Nat) (hp : ∀ k, p = some k → k < b.getNumSegments) :
    PointersValid (b.setStandbyHead p) := by
  obtain ⟨h1, h2, h3, h4, h5, h6, h7⟩ := h
  exact ⟨h1, h2, h3, hp, h5, h6, h7⟩

theorem ServerStreamBuffer.PointersValid.setStandbyIndex {b : ServerStreamBuffer} (h : PointersValid b)
    (idx : List (StoreStreamSegmentLink × Nat))
    (hidx : ∀ e, e ∈ idx → e.2 < b.getNumSegments) :
    PointersValid (b.setStandbyIndex idx) := by
  obtain ⟨h1, h2, h3, h4, h5, h6, h7⟩ := h
  exact ⟨h1, h2, h3, h4, h5, h6, hidx⟩

theorem ServerStreamBuffer.PointersValid.call' {b : ServerStreamBuffer} (h : PointersValid b) (k : Call) :
    PointersValid (b.call k) := h

theorem ServerStreamBuffer.PointersValid.callAll {b : ServerStreamBuffer} (h : PointersValid b) (l : List Call) :
    PointersValid (b.callAll l) := h

theorem ServerStreamBuffer.PointersValid.id_eq' {b : ServerStreamBuffer} (h : PointersValid b) {j : Nat}
    (hj : j < b.getNumSegments) : (b.seg j).id = j := h.2.1 j hj

theorem ServerStreamBuffer.PointersValid.next_lt {b : ServerStreamBuffer} (h : PointersValid b) {j k : Nat}
    (hj : j < b.getNumSegments) (hk : (b.seg j).next = some k) : k < b.getNumSegments :=
  h.2.2.2.2.1 j k hj hk

theorem ServerStreamBuffer.PointersValid.prev_lt {b : ServerStreamBuffer} (h : PointersValid b) {j k : Nat}
    (hj : j < b.getNumSegments) (hk : (b.seg j).prev = some k) : k < b.getNumSegments :=
  h.2.2.2.2.2.1 j k hj hk

/-- An assignment to fields of `_segments[i]` other than `id`, `next` and
`prev` keeps the pointers valid. -/
theorem ServerStreamBuffer.PointersValid.setSeg_fields' {b : ServerStreamBuffer} (h : PointersValid b) (i : Nat)
    (s : Segment) (hid : s.id = (b.seg i).id) (hnext : s.next = (b.seg i).next)
    (hprev : s.prev = (b.seg i).prev) : PointersValid (b.setSeg i s) := by
  by_cases hi : i < b.getNumSegments
  · refine h.setSeg i s (fun _ => by rw [hid]; exact h.id_eq' hi) ?_ ?_
    · intro k hk; rw [hnext] at hk; exact h.next_lt hi hk
    · intro k hk; rw [hprev] at hk; exact h.prev_lt hi hk
  · have : b.setSeg i s = b := by
      cases b
      simp only [ServerStreamBuffer.setSeg, getNumSegments, not_lt] at *
      simp [List.set_eq_of_length_le hi]
    rw [this]; exact h

theorem ServerStreamBuffer.PointersValid.modifyAt {b : ServerStreamBuffer} (h : PointersValid b) (p : Option Nat)
    (f : Segment → Segment) (hid : ∀ s, (f s).id = s.id)
    (hnext : ∀ s k, (f s).next = some k → k < b.getNumSegments)
    (hprev : ∀ s k, (f s).prev = some k → k < b.getNumSegments) :
    PointersValid (b.modifyAt p f) := by
  cases p with
  | none => exact h
  | some i =>
    exact h.setSeg i _ (fun hi => by rw [hid]; exact h.id_eq' hi) (hnext _) (hprev _)

theorem getNumSegments_modifyAt (b : ServerStreamBuffer) (p : Option Nat)
    (f : Segment → Segment) : (b.modifyAt p f).getNumSegments = b.getNumSegments := by
  cases p <;> simp [ServerStreamBuffer.modifyAt]

theorem seg_create (cookie segmentSize numSegments j : Nat) (enableCache : Bool)
    (hj : j < numSegments) :
    (create cookie segmentSize numSegments enableCache).seg j = initialSegment numSegments j := by
  simp [create, seg, List.getD_eq_getElem?_getD, hj]

theorem getNumSegments_create (cookie segmentSize numSegments : Nat) (enableCache : Bool) :
    (create cookie segmentSize numSegments enableCache).getNumSegments = numSegments := by
  simp [create, getNumSegments]

theorem create_valid (cookie segmentSize numSegments : Nat) (enableCache : Bool)
    (h : 0 < numSegments) :
    PointersValid (create cookie segmentSize numSegments enableCache) := by
  unfold PointersValid
  rw [getNumSegments_create]
  refine ⟨by simp [create], ?_, ?_, ?_, ?_, ?_, ?_⟩
  · intro j hj
    rw [seg_create _ _ _ _ _ hj]; rfl
  · intro i hi
    simp only [create, Option.some.injEq] at hi
    omega
  · intro i hi
    simp [create] at hi
  · intro j i hj
    rw [seg_create _ _ _ _ _ hj]
    simp only [initialSegment]
    split_ifs with hc
    · simp
    · intro hi
      simp only [Option.some.injEq] at hi
      omega
  · intro j i hj
    rw [seg_create _ _ _ _ _ hj]
    simp [initialSegment]
  · intro e he
    simp [create] at he

theorem dequeueFromFreeList_valid {b : ServerStreamBuffer} (h : PointersValid b) :
    PointersValid b._dequeueFromFreeList.1 ∧
    b._dequeueFromFreeList.1.getNumSegments = b.getNumSegments ∧
    ∀ i, b._dequeueFromFreeList.2 = some i → i < b.getNumSegments := by
  unfold _dequeueFromFreeList
  cases hf : b.freeHead with
  | none => exact ⟨h, rfl, by simp⟩
  | some i =>
    have hi : i < b.getNumSegments := h.2.2.1 i hf
    refine ⟨?_, by simp, by simp [hi]⟩
    have h1 : PointersValid (b.setFreeHead (b.seg i).next) :=
      h.setFreeHead _ (fun k hk => h.next_lt hi hk)
    exact h1.setSeg i _ (fun _ => h.id_eq' hi) (by simp) (fun k hk => h.prev_lt hi hk)

theorem enqueueToFreeList_valid {b : ServerStreamBuffer} (h : PointersValid b) (i : Nat)
    (hi : i < b.getNumSegments) :
    PointersValid (b._enqueueToFreeList i) ∧
    (b._enqueueToFreeList i).getNumSegments = b.getNumSegments := by
  unfold _enqueueToFreeList
  refine ⟨?_, by simp⟩
  have h1 : PointersValid (b.setSeg i { b.seg i with
      stream := none, sequenceNumber := INVALID_STREAM_SEGMENT_ID, flags := SgfFree,
      next := b.freeHead }) :=
    h.setSeg i _ (fun _ => h.id_eq' hi) (fun k hk => h.2.2.1 k hk) (fun k hk => h.prev_lt hi hk)
  exact h1.setFreeHead _ (fun k hk => by simp only [Option.some.injEq] at hk; simpa [← hk] using hi)

theorem prepareSegment_valid {b : ServerStreamBuffer} (h : PointersValid b) (env : Env)
    (i : Nat) (stream : Option ServerStream) (sequenceNumber now : Nat) :
    PointersValid (b._prepareSegment env i stream sequenceNumber now) ∧
    (b._prepareSegment env i stream sequenceNumber now).getNumSegments = b.getNumSegments := by
  unfold _prepareSegment
  refine ⟨?_, by simp⟩
  exact (h.setShared' i _).setSeg_fields' i _ rfl rfl rfl

theorem notifyEncoderCacheClosed_valid {b : ServerStreamBuffer} (h : PointersValid b) (i : Nat) :
    PointersValid (b._notifyEncoderCacheClosed i) ∧
    (b._notifyEncoderCacheClosed i).getNumSegments = b.getNumSegments :=
  ⟨h, rfl⟩

theorem purgeSegment_valid {b : ServerStreamBuffer} (h : PointersValid b) (i : Nat)
    (hi : i < b.getNumSegments) :
    PointersValid (b._purgeSegment i) ∧
    (b._purgeSegment i).getNumSegments = b.getNumSegments := by
  unfold _purgeSegment
  simp only
  split_ifs
  · exact enqueueToFreeList_valid (notifyEncoderCacheClosed_valid h i).1 i hi
  · exact enqueueToFreeList_valid h i hi

theorem seg_oob (b : ServerStreamBuffer) (i : Nat) (hi : ¬ i < b.getNumSegments) :
    b.seg i = default := by
  simp only [getNumSegments, not_lt] at hi
  simp [seg, List.getD_eq_getElem?_getD, List.getElem?_eq_none hi]

theorem ServerStreamBuffer.PointersValid.next_lt' {b : ServerStreamBuffer}
    (h : PointersValid b) (j : Nat) {k : Nat} (hk : (b.seg j).next = some k) :
    k < b.getNumSegments := by
  by_cases hj : j < b.getNumSegments
  · exact h.next_lt hj hk
  · rw [seg_oob b j hj] at hk
    exact absurd hk (by simp [default])

theorem ServerStreamBuffer.PointersValid.prev_lt' {b : ServerStreamBuffer}
    (h : PointersValid b) (j : Nat) {k : Nat} (hk : (b.seg j).prev = some k) :
    k < b.getNumSegments := by
  by_cases hj : j < b.getNumSegments
  · exact h.prev_lt hj hk
  · rw [seg_oob b j hj] at hk
    exact absurd hk (by simp [default])

/-- A step that keeps the pointers valid and the pool size. -/
theorem ServerStreamBuffer.PointersValid.modifyAt_next {b : ServerStreamBuffer}
    (h : PointersValid b) (p q : Option Nat) (hq : ∀ k, q = some k → k < b.getNumSegments) :
    PointersValid (b.modifyAt p (fun s => { s with next := q })) ∧
    (b.modifyAt p (fun s => { s with next := q })).getNumSegments = b.getNumSegments := by
  refine ⟨?_, getNumSegments_modifyAt _ _ _⟩
  cases p with
  | none => exact h
  | some i =>
    exact h.setSeg i _ (fun hi => h.id_eq' hi) hq (fun k hk => h.prev_lt' i hk)

theorem ServerStreamBuffer.PointersValid.modifyAt_prev {b : ServerStreamBuffer}
    (h : PointersValid b) (p q : Option Nat) (hq : ∀ k, q = some k → k < b.getNumSegments) :
    PointersValid (b.modifyAt p (fun s => { s with prev := q })) ∧
    (b.modifyAt p (fun s => { s with prev := q })).getNumSegments = b.getNumSegments := by
  refine ⟨?_, getNumSegments_modifyAt _ _ _⟩
  cases p with
  | none => exact h
  | some i =>
    exact h.setSeg i _ (fun hi => h.id_eq' hi) (fun k hk => h.next_lt' i hk) hq

theorem dequeueFromStandbyList_valid {b : ServerStreamBuffer} (h : PointersValid b) (i : Nat) :
    PointersValid (b._dequeueFromStandbyList i) ∧
    (b._dequeueFromStandbyList i).getNumSegments = b.getNumSegments := by
  unfold _dequeueFromStandbyList
  simp only
  have hA := h.modifyAt_next (b.seg i).prev (b.seg i).next (fun k hk => h.next_lt' i hk)
  have hB := hA.1.modifyAt_prev
    ((b.modifyAt (b.seg i).prev (fun p => { p with next := (b.seg i).next })).seg i).next
    ((b.modifyAt (b.seg i).prev (fun p => { p with next := (b.seg i).next })).seg i).prev
    (fun k hk => hA.1.prev_lt' i hk)
  split_ifs with h1 h2
  · exact ⟨(h.setStandbyHead none (by simp)).setSeg i _ (fun hi => h.id_eq' hi) (by simp)
      (by simp), by simp⟩
  · refine ⟨?_, by simp [hB.2, hA.2]⟩
    exact ((hB.1.setStandbyHead _ (fun k hk => hB.1.next_lt' i hk))).setSeg i _
      (fun hi => hB.1.id_eq' (by simpa using hi)) (by simp) (by simp)
  · refine ⟨?_, by simp [hB.2, hA.2]⟩
    exact hB.1.setSeg i _ (fun hi => hB.1.id_eq' hi) (by simp) (by simp)

theorem enqueueToStandbyList_valid {b : ServerStreamBuffer} (h : PointersValid b) (i : Nat)
    (hi : i < b.getNumSegments) :
    PointersValid (b._enqueueToStandbyList i) ∧
    (b._enqueueToStandbyList i).getNumSegments = b.getNumSegments := by
  unfold _enqueueToStandbyList
  cases hh : b.standbyHead with
  | none =>
    simp only
    refine ⟨?_, by simp⟩
    have h1 : PointersValid (b.setSeg i { b.seg i with next := some i, prev := some i }) :=
      h.setSeg i _ (fun _ => h.id_eq' hi) (fun k hk => by simp at hk; omega)
        (fun k hk => by simp at hk; omega)
    exact h1.setStandbyHead _ (fun k hk => by simp at hk; simp; omega)
  | some hd =>
    simp only
    have h1 : PointersValid (b.setSeg i { b.seg i with next := some hd, prev := (b.seg hd).prev }) :=
      h.setSeg i _ (fun _ => h.id_eq' hi)
        (fun k hk => by simp at hk; rw [← hk]; exact h.2.2.2.1 hd hh)
        (fun k hk => h.prev_lt' hd hk)
    have h2 := h1.modifyAt_next
      ((b.setSeg i { b.seg i with next := some hd, prev := (b.seg hd).prev }).seg hd).prev
      (some i) (fun k hk => by simp at hk; simp; omega)
    have h3 : PointersValid
        ((((b.setSeg i { b.seg i with next := some hd, prev := (b.seg hd).prev }).modifyAt
          ((b.setSeg i { b.seg i with next := some hd, prev := (b.seg hd).prev }).seg hd).prev
          (fun p => { p with next := some i }))).setSeg hd
          { (((b.setSeg i { b.seg i with next := some hd, prev := (b.seg hd).prev }).modifyAt
          ((b.setSeg i { b.seg i with next := some hd, prev := (b.seg hd).prev }).seg hd).prev
          (fun p => { p with next := some i }))).seg hd with prev := some i }) :=
      h2.1.setSeg hd _ (fun hh' => h2.1.id_eq' hh') (fun k hk => h2.1.next_lt' hd hk)
        (fun k hk => by simp at hk; rw [h2.2]; simp; omega)
    split_ifs
    · refine ⟨?_, by simp [h2.2]⟩
      exact (h3.setStandbyHead _ (fun k hk => by simp at hk; simp [h2.2]; omega)).setSeg_fields'
        i _ rfl rfl rfl
    · exact ⟨h3, by simp [h2.2]⟩

theorem indexFind_mem (idx : List (StoreStreamSegmentLink × Nat)) (link : StoreStreamSegmentLink)
    (i : Nat) (h : indexFind idx link = some i) : ∃ e, e ∈ idx ∧ e.2 = i := by
  unfold indexFind at h
  cases hf : idx.find? (fun e => e.1 == link) with
  | none => simp [hf] at h
  | some e =>
    simp only [hf, Option.map_some', Option.some.injEq] at h
    exact ⟨e, List.mem_of_find?_eq_some hf, h⟩

theorem findStandbySegment_valid {b : ServerStreamBuffer} (h : PointersValid b)
    (link : StoreStreamSegmentLink) (erase : Bool) :
    PointersValid (b._findStandbySegment link erase).1 ∧
    (b._findStandbySegment link erase).1.getNumSegments = b.getNumSegments ∧
    ∀ i, (b._findStandbySegment link erase).2 = some i → i < b.getNumSegments := by
  unfold _findStandbySegment
  cases hf : indexFind b.standbyIndex link with
  | none => exact ⟨h, rfl, by simp⟩
  | some i =>
    obtain ⟨e, he, hei⟩ := indexFind_mem _ _ _ hf
    have hi : i < b.getNumSegments := by rw [← hei]; exact h.2.2.2.2.2.2 e he
    simp only
    split_ifs
    · refine ⟨?_, rfl, by simp [hi]⟩
      exact h.setStandbyIndex _ (fun e he => h.2.2.2.2.2.2 e (List.mem_of_mem_filter he))
    · exact ⟨h, rfl, by simp [hi]⟩

theorem evictFromStandbyList_valid {b : ServerStreamBuffer} (h : PointersValid b) :
    PointersValid b._evictFromStandbyList.1 ∧
    b._evictFromStandbyList.1.getNumSegments = b.getNumSegments ∧
    ∀ i, b._evictFromStandbyList.2 = some i → i < b.getNumSegments := by
  unfold _evictFromStandbyList
  cases hh : b.standbyHead with
  | none => exact ⟨h, rfl, by simp⟩
  | some hd =>
    simp only
    cases hp : (b.seg hd).prev with
    | none => exact ⟨h, rfl, by simp⟩
    | some i =>
      have hi : i < b.getNumSegments := h.prev_lt' hd hp
      simp only
      have h1 := notifyEncoderCacheClosed_valid h i
      have h2 := findStandbySegment_valid h1.1 ((b._notifyEncoderCacheClosed i).standbyKey i) true
      have h3 := dequeueFromStandbyList_valid h2.1 i
      refine ⟨?_, by simp [h3.2, h2.2.1, h1.2], by simp [hi]⟩
      exact h3.1.setSeg_fields' i _ rfl rfl rfl

theorem removeStandbySegment_valid {b : ServerStreamBuffer} (h : PointersValid b)
    (link : StoreStreamSegmentLink) :
    PointersValid (b._removeStandbySegment link).1 ∧
    (b._removeStandbySegment link).1.getNumSegments = b.getNumSegments ∧
    ∀ i, (b._removeStandbySegment link).2 = some i → i < b.getNumSegments := by
  unfold _removeStandbySegment
  have h1 := findStandbySegment_valid h link true
  rcases hf : b._findStandbySegment link true with ⟨b1, _ | i⟩
  · rw [hf] at h1
    exact ⟨h1.1, h1.2.1, by simp⟩
  · rw [hf] at h1
    have h2 := dequeueFromStandbyList_valid h1.1 i
    exact ⟨h2.1, by simp [h2.2, h1.2.1], by
      intro k hk
      simp only [Option.some.injEq] at hk
      rw [← hk]; exact h1.2.2 i rfl⟩

theorem addStandbySegment_valid {b : ServerStreamBuffer} (h : PointersValid b) (i : Nat)
    (hi : i < b.getNumSegments) :
    PointersValid (b._addStandbySegment i) ∧
    (b._addStandbySegment i).getNumSegments = b.getNumSegments := by
  unfold _addStandbySegment
  simp only
  split
  · rw [h.id_eq' hi]
    exact purgeSegment_valid h i hi
  · have h1 : PointersValid (b.setStandbyIndex (indexSet b.standbyIndex (b.standbyKey i) i)) :=
      h.setStandbyIndex _ (fun e he => by
        simp only [indexSet, indexErase, List.mem_cons] at he
        rcases he with he | he
        · rw [he]; exact hi
        · exact h.2.2.2.2.2.2 e (List.mem_of_mem_filter he))
    exact enqueueToStandbyList_valid h1 i hi

/-! Steps on a pool of `n` segments, in the form the operations compose them. -/

theorem ServerStreamBuffer.ValidPool.setSeg_fields {n : Nat} {b : ServerStreamBuffer} (h : ValidPool n b) (i : Nat)
    (s : Segment) (hid : s.id = (b.seg i).id) (hnext : s.next = (b.seg i).next)
    (hprev : s.prev = (b.seg i).prev) : ValidPool n (b.setSeg i s) :=
  ⟨h.1.setSeg_fields' i s hid hnext hprev, by simpa using h.2⟩

theorem ServerStreamBuffer.ValidPool.setShared {n : Nat} {b : ServerStreamBuffer} (h : ValidPool n b) (i : Nat)
    (c : SegmentControlElement) : ValidPool n (b.setShared i c) :=
  ⟨h.1.setShared' i c, h.2⟩

theorem ServerStreamBuffer.ValidPool.call {n : Nat} {b : ServerStreamBuffer} (h : ValidPool n b) (k : Call) :
    ValidPool n (b.call k) := h

theorem ServerStreamBuffer.ValidPool.purge {n : Nat} {b : ServerStreamBuffer} (h : ValidPool n b) (i : Nat)
    (hi : i < n) : ValidPool n (b._purgeSegment i) :=
  ⟨(purgeSegment_valid h.1 i (by rw [h.2]; exact hi)).1,
   (purgeSegment_valid h.1 i (by rw [h.2]; exact hi)).2.trans h.2⟩

theorem ServerStreamBuffer.ValidPool.addStandby {n : Nat} {b : ServerStreamBuffer} (h : ValidPool n b) (i : Nat)
    (hi : i < n) : ValidPool n (b._addStandbySegment i) :=
  ⟨(addStandbySegment_valid h.1 i (by rw [h.2]; exact hi)).1,
   (addStandbySegment_valid h.1 i (by rw [h.2]; exact hi)).2.trans h.2⟩

theorem ServerStreamBuffer.ValidPool.prepare {n : Nat} {b : ServerStreamBuffer} (h : ValidPool n b) (env : Env)
    (i : Nat) (stream : Option ServerStream) (sequenceNumber now : Nat) :
    ValidPool n (b._prepareSegment env i stream sequenceNumber now) :=
  ⟨(prepareSegment_valid h.1 env i stream sequenceNumber now).1,
   (prepareSegment_valid h.1 env i stream sequenceNumber now).2.trans h.2⟩

theorem ServerStreamBuffer.ValidPool.dequeueFree {n : Nat} {b : ServerStreamBuffer} (h : ValidPool n b) :
    ValidPool n b._dequeueFromFreeList.1 ∧ ∀ i, b._dequeueFromFreeList.2 = some i → i < n :=
  ⟨⟨(dequeueFromFreeList_valid h.1).1, (dequeueFromFreeList_valid h.1).2.1.trans h.2⟩,
   fun i hi => by rw [← h.2]; exact (dequeueFromFreeList_valid h.1).2.2 i hi⟩

theorem ServerStreamBuffer.ValidPool.evict {n : Nat} {b : ServerStreamBuffer} (h : ValidPool n b) :
    ValidPool n b._evictFromStandbyList.1 ∧ ∀ i, b._evictFromStandbyList.2 = some i → i < n :=
  ⟨⟨(evictFromStandbyList_valid h.1).1, (evictFromStandbyList_valid h.1).2.1.trans h.2⟩,
   fun i hi => by rw [← h.2]; exact (evictFromStandbyList_valid h.1).2.2 i hi⟩

theorem ServerStreamBuffer.ValidPool.removeStandby {n : Nat} {b : ServerStreamBuffer} (h : ValidPool n b)
    (link : StoreStreamSegmentLink) :
    ValidPool n (b._removeStandbySegment link).1 ∧
    ∀ i, (b._removeStandbySegment link).2 = some i → i < n :=
  ⟨⟨(removeStandbySegment_valid h.1 link).1, (removeStandbySegment_valid h.1 link).2.1.trans h.2⟩,
   fun i hi => by rw [← h.2]; exact (removeStandbySegment_valid h.1 link).2.2 i hi⟩

theorem ServerStreamBuffer.ValidPool.free {n : Nat} {b : ServerStreamBuffer} (h : ValidPool n b) (env : Env)
    (i : Nat) (prefetch : Bool) (hi : i < n) : ValidPool n (b._freeSegment env i prefetch) := by
  unfold _freeSegment
  simp only
  repeat (first
    | exact h
    | apply ValidPool.addStandby _ _ hi
    | apply ValidPool.purge _ _ hi
    | apply ValidPool.setShared
    | apply ValidPool.setSeg_fields _ _ _ (by rfl) (by rfl) (by rfl)
    | split_ifs)

theorem ServerStreamBuffer.ValidPool.id_eq {n : Nat} {b : ServerStreamBuffer}
    (h : ValidPool n b) {j : Nat} (hj : j < n) : (b.seg j).id = j :=
  h.1.id_eq' (by rw [h.2]; exact hj)

theorem ServerStreamBuffer.ValidPool.allocateOnce {n : Nat} {b : ServerStreamBuffer}
    (h : ValidPool n b) :
    ValidPool n b.allocateOnce.1 ∧ ∀ i, b.allocateOnce.2 = some i → i < n := by
  unfold SimuTrace.ServerStreamBuffer.allocateOnce
  have h1 := h.dequeueFree
  rcases hd : b._dequeueFromFreeList with ⟨b1, _ | i⟩
  · rw [hd] at h1
    exact h1.1.evict
  · rw [hd] at h1
    exact h1

theorem ServerStreamBuffer.ValidPool.tryAllocateLoop {n : Nat} (env : Env)
    (stream : Option ServerStream) (sequenceNumber : Nat) (prefetch : Bool) (now : Nat) :
    ∀ (fuel tryCount : Nat) (b : ServerStreamBuffer), ValidPool n b →
      ValidPool n (tryAllocateLoop env stream sequenceNumber prefetch now fuel tryCount b).1 ∧
      ∀ i, (tryAllocateLoop env stream sequenceNumber prefetch now fuel tryCount b).2 = some i →
        i < n := by
  intro fuel
  induction fuel with
  | zero =>
    intro tryCount b h
    unfold SimuTrace.ServerStreamBuffer.tryAllocateLoop
    have h1 := h.allocateOnce
    rcases hd : b.allocateOnce with ⟨b1, _ | i⟩
    · rw [hd] at h1
      simp only
      split_ifs
      · exact ⟨h1.1, by simp⟩
      · unfold _handleContention
        split_ifs
        · exact ⟨h1.1, by simp⟩
        · exact ⟨h1.1.call _, by simp⟩
    · rw [hd] at h1
      exact ⟨h1.1.prepare env _ _ _ _, fun k hk => by
        simp only [Option.some.injEq] at hk; rw [← hk]; exact h1.2 i rfl⟩
  | succ fuel ih =>
    intro tryCount b h
    unfold SimuTrace.ServerStreamBuffer.tryAllocateLoop
    have h1 := h.allocateOnce
    rcases hd : b.allocateOnce with ⟨b1, _ | i⟩
    · rw [hd] at h1
      simp only
      split_ifs
      · exact ⟨h1.1, by simp⟩
      · unfold _handleContention
        split_ifs
        · exact ⟨h1.1, by simp⟩
        · exact ih _ _ (h1.1.call _)
    · rw [hd] at h1
      exact ⟨h1.1.prepare env _ _ _ _, fun k hk => by
        simp only [Option.some.injEq] at hk; rw [← hk]; exact h1.2 i rfl⟩

theorem ServerStreamBuffer.ValidPool.lookupStandby {n : Nat} {b : ServerStreamBuffer}
    (h : ValidPool n b) (stream : Option ServerStream) (sequenceNumber : Nat) :
    ValidPool n (b.lookupStandby stream sequenceNumber).1 ∧
    ∀ i, (b.lookupStandby stream sequenceNumber).2 = some i → i < n := by
  unfold SimuTrace.ServerStreamBuffer.lookupStandby
  cases stream with
  | none => exact ⟨h, by simp⟩
  | some s => exact h.removeStandby _

theorem ServerStreamBuffer.ValidPool.requestFresh {n : Nat} {b : ServerStreamBuffer}
    (h : ValidPool n b) (i : Nat) (stream : Option ServerStream) :
    ValidPool n (b.requestFresh i stream).1 := by
  unfold SimuTrace.ServerStreamBuffer.requestFresh
  cases stream with
  | none => exact h.setSeg_fields _ _ rfl rfl rfl
  | some s =>
    simp only
    split_ifs
    · exact h.setSeg_fields _ _ rfl rfl rfl
    · exact h

theorem ServerStreamBuffer.ValidPool.purge_id {n : Nat} {b : ServerStreamBuffer}
    (h : ValidPool n b) (i : Nat) (hi : i < n) : ValidPool n (b._purgeSegment (b.seg i).id) := by
  rw [h.id_eq hi]
  exact h.purge i hi

theorem ServerStreamBuffer.ValidPool.markLoaded {n : Nat} {b : ServerStreamBuffer}
    (h : ValidPool n b) (i : Nat) (flags : StreamAccessFlags) :
    ValidPool n (b.markLoaded i flags) := by
  unfold SimuTrace.ServerStreamBuffer.markLoaded
  simp only
  repeat (first
    | apply ValidPool.setSeg_fields _ _ _ (by rfl) (by rfl) (by rfl)
    | split_ifs
    | exact h)

theorem ServerStreamBuffer.ValidPool.loadControl {n : Nat} {b : ServerStreamBuffer}
    (h : ValidPool n b) (env : Env) (i : Nat) (loc : StorageLocation) :
    ValidPool n (b.loadControl env i loc) := by
  unfold SimuTrace.ServerStreamBuffer.loadControl
  simp only
  apply ValidPool.setSeg_fields _ _ _ (by rfl) (by rfl) (by rfl)
  exact h.setShared _ _

theorem ServerStreamBuffer.ValidPool.requestLoad {n : Nat} {b : ServerStreamBuffer}
    (h : ValidPool n b) (env : Env) (i : Nat) (hi : i < n) (stream : Option ServerStream)
    (flags : StreamAccessFlags) (loc : StorageLocation) (prefetch : Bool) (rd : ReadOutcome) :
    ValidPool n (b.requestLoad env i stream flags loc prefetch rd).1 := by
  unfold SimuTrace.ServerStreamBuffer.requestLoad
  have h1 := ((h.markLoaded i flags).loadControl env i loc).call
    (Call.read (streamId stream) (((b.markLoaded i flags).loadControl env i loc).seg i).id prefetch)
  cases rd with
  | returns completed => exact h1
  | throws code => exact h1.purge_id i hi

theorem ServerStreamBuffer.ValidPool.requestSegment' {n : Nat} {b : ServerStreamBuffer}
    (h : ValidPool n b) (env : Env) (stream : Option ServerStream) (sequenceNumber : Nat)
    (flags : StreamAccessFlags) (location : Option StorageLocation) (prefetch : Bool)
    (now : Nat) (rd : ReadOutcome) :
    ValidPool n
      (b._requestSegment env stream sequenceNumber flags location prefetch now rd).1 := by
  unfold _requestSegment
  have h1 := h.lookupStandby stream sequenceNumber
  rcases hl : b.lookupStandby stream sequenceNumber with ⟨b1, _ | i⟩
  · rw [hl] at h1
    simp only
    have h2 := ValidPool.tryAllocateLoop env stream sequenceNumber prefetch now
      env.retryCount 1 b1 h1.1
    unfold _tryAllocateFreeSegment
    rcases ha : SimuTrace.ServerStreamBuffer.tryAllocateLoop env stream sequenceNumber prefetch
      now env.retryCount 1 b1 with ⟨b2, _ | i⟩
    · rw [ha] at h2
      exact h2.1
    · rw [ha] at h2
      cases location with
      | none => exact h2.1.requestFresh i stream
      | some loc => exact h2.1.requestLoad env i (h2.2 i rfl) stream flags loc prefetch rd
  · rw [hl] at h1
    exact h1.1

theorem ServerStreamBuffer.ValidPool.submitCopyControl {n : Nat} {b : ServerStreamBuffer}
    (h : ValidPool n b) (i : Nat) : ValidPool n (b.submitCopyControl i) := by
  unfold SimuTrace.ServerStreamBuffer.submitCopyControl
  simp only
  repeat (first
    | apply ValidPool.setSeg_fields _ _ _ (by rfl) (by rfl) (by rfl)
    | split_ifs
    | exact h)

theorem ServerStreamBuffer.ValidPool.submitFixEntryCount {n : Nat} {b : ServerStreamBuffer}
    (h : ValidPool n b) (i : Nat) : ValidPool n (b.submitFixEntryCount i) := by
  unfold SimuTrace.ServerStreamBuffer.submitFixEntryCount
  repeat (first
    | apply ValidPool.setSeg_fields _ _ _ (by rfl) (by rfl) (by rfl)
    | split_ifs
    | exact h)

theorem ServerStreamBuffer.ValidPool.submitStampRanges {n : Nat} {b : ServerStreamBuffer}
    (h : ValidPool n b) (i now : Nat) : ValidPool n (b.submitStampRanges i now) := by
  unfold SimuTrace.ServerStreamBuffer.submitStampRanges
  simp only
  repeat (first
    | apply ValidPool.setSeg_fields _ _ _ (by rfl) (by rfl) (by rfl)
    | split_ifs
    | exact h)

theorem ServerStreamBuffer.ValidPool.submitCatch {n : Nat} {b : ServerStreamBuffer}
    (h : ValidPool n b) (i : Nat) : ValidPool n (b.submitCatch i) :=
  h.setSeg_fields _ _ rfl rfl rfl

theorem ServerStreamBuffer.ValidPool.release {n : Nat} {b : ServerStreamBuffer}
    (h : ValidPool n b) (env : Env) (i : Nat) (hi : i < n) (completed : Bool)
    (location : Option StorageLocation) :
    ValidPool n (if completed = true then
        if location.isSome = true then b._freeSegment env i false else b._purgeSegment i
      else b) := by
  split_ifs
  · exact h.free env i false hi
  · exact h.purge i hi
  · exact h

theorem ServerStreamBuffer.ValidPool.submitEncode {n : Nat} {b : ServerStreamBuffer}
    (h : ValidPool n b) (env : Env) (i : Nat) (hi : i < n) (wr : WriteOutcome) :
    ValidPool n (b.submitEncode env i wr).1 := by
  unfold SimuTrace.ServerStreamBuffer.submitEncode
  cases wr with
  | throws code =>
    simp only
    apply ValidPool.call
    apply ValidPool.setSeg_fields _ _ _ (by rfl) (by rfl) (by rfl)
    exact h
  | returns completed location =>
    simp only
    apply ValidPool.release _ env i hi
    apply ValidPool.call
    apply ValidPool.setSeg_fields _ _ _ (by rfl) (by rfl) (by rfl)
    exact h

theorem ServerStreamBuffer.ValidPool.submitTry {n : Nat} {b : ServerStreamBuffer}
    (h : ValidPool n b) (env : Env) (i : Nat) (hi : i < n) (now : Nat) (wr : WriteOutcome) :
    ValidPool n (b.submitTry env i now wr).1 := by
  unfold SimuTrace.ServerStreamBuffer.submitTry
  simp only
  split_ifs
  · exact h.submitFixEntryCount i
  · exact (h.submitFixEntryCount i).submitStampRanges i now
  · exact ((h.submitFixEntryCount i).submitStampRanges i now).submitEncode env i hi wr

theorem ServerStreamBuffer.ValidPool.withSubmitCatch {n : Nat} {α : Type} (i : Nat)
    (r : Result α) (h : ValidPool n r.1) : ValidPool n (withSubmitCatch i r).1 := by
  rcases r with ⟨b, e | a⟩
  · exact h.submitCatch i
  · exact h

theorem ServerStreamBuffer.ValidPool.submitSegment' {n : Nat} {b : ServerStreamBuffer}
    (h : ValidPool n b) (env : Env) (i : Nat) (hi : i < n) (now : Nat) (wr : WriteOutcome) :
    ValidPool n (b._submitSegment env i now wr).1 := by
  unfold _submitSegment
  simp only
  have h1 := h.submitCopyControl i
  generalize b.submitCopyControl i = b1 at h1 ⊢
  have h2 : ValidPool n (b1.setSeg i { b1.seg i with isSubmitted := true }) :=
    h1.setSeg_fields _ _ rfl rfl rfl
  generalize b1.setSeg i { b1.seg i with isSubmitted := true } = b2 at h2 ⊢
  split_ifs
  all_goals first
    | exact h1
    | exact h2.free env i false hi
    | exact (h2.call _).purge i hi
    | exact ValidPool.withSubmitCatch i _ (h2.submitTry env i hi now wr)

theorem ServerStreamBuffer.ValidPool.flushLoop {n : Nat} (store last : Nat) :
    ∀ (fuel seg : Nat) (b : ServerStreamBuffer), ValidPool n b → seg < n →
      ValidPool n (flushLoop store last fuel seg b) := by
  intro fuel
  induction fuel with
  | zero => intro seg b h _; exact h
  | succ fuel ih =>
    intro seg b h hseg
    unfold SimuTrace.ServerStreamBuffer.flushLoop
    simp only
    have hstep : ValidPool n (if store = INVALID_STORE_ID ∨ storeId (b.seg seg).stream = store then
        (((b._notifyEncoderCacheClosed seg)._findStandbySegment
              ((b._notifyEncoderCacheClosed seg).standbyKey seg) true).1._dequeueFromStandbyList
            seg)._purgeSegment
          ((((b._notifyEncoderCacheClosed seg)._findStandbySegment
                ((b._notifyEncoderCacheClosed seg).standbyKey seg) true).1._dequeueFromStandbyList
              seg).seg seg).id
        else b) := by
      split_ifs
      · have h1 : ValidPool n (b._notifyEncoderCacheClosed seg) := h
        have h2 : ValidPool n ((b._notifyEncoderCacheClosed seg)._findStandbySegment
            ((b._notifyEncoderCacheClosed seg).standbyKey seg) true).1 :=
          ⟨(findStandbySegment_valid h1.1 _ true).1,
           (findStandbySegment_valid h1.1 _ true).2.1.trans h1.2⟩
        have h3 : ValidPool n (((b._notifyEncoderCacheClosed seg)._findStandbySegment
            ((b._notifyEncoderCacheClosed seg).standbyKey seg) true).1._dequeueFromStandbyList
              seg) :=
          ⟨(dequeueFromStandbyList_valid h2.1 seg).1,
           (dequeueFromStandbyList_valid h2.1 seg).2.trans h2.2⟩
        exact h3.purge_id seg hseg
      · exact h
    generalize (if store = INVALID_STORE_ID ∨ storeId (b.seg seg).stream = store then
        (((b._notifyEncoderCacheClosed seg)._findStandbySegment
              ((b._notifyEncoderCacheClosed seg).standbyKey seg) true).1._dequeueFromStandbyList
            seg)._purgeSegment
          ((((b._notifyEncoderCacheClosed seg)._findStandbySegment
                ((b._notifyEncoderCacheClosed seg).standbyKey seg) true).1._dequeueFromStandbyList
              seg).seg seg).id
        else b) = b' at hstep ⊢
    split_ifs
    · exact hstep
    · cases hn : (b.seg seg).next with
      | none => exact hstep
      | some k =>
        simp only
        exact ih k b' hstep (by rw [← h.2]; exact h.1.next_lt' seg hn)

theorem ServerStreamBuffer.ValidPool.flushStandbyList {n : Nat} {b : ServerStreamBuffer}
    (h : ValidPool n b) (store : Nat) : ValidPool n (b.flushStandbyList store) := by
  unfold SimuTrace.ServerStreamBuffer.flushStandbyList
  cases hh : b.standbyHead with
  | none => exact h
  | some hd =>
    simp only
    cases hp : (b.seg hd).prev with
    | none => exact h
    | some last =>
      simp only
      exact ValidPool.flushLoop store last _ hd b h (by rw [← h.2]; exact h.1.2.2.2.1 hd hh)

/-- In every reachable state the pointers are valid. -/
theorem ServerStreamBuffer.Reachable.validPool {env : Env} {b : ServerStreamBuffer} (h : Reachable env b) :
    ∃ n, 0 < n ∧ ValidPool n b := by
  induction h with
  | create cookie segmentSize numSegments enableCache hpos =>
    exact ⟨numSegments, hpos, create_valid _ _ _ _ hpos, getNumSegments_create _ _ _ _⟩
  | requestSegment b stream sequenceNumber now _ ih =>
    obtain ⟨n, hn, hv⟩ := ih
    refine ⟨n, hn, ?_⟩
    unfold SimuTrace.ServerStreamBuffer.requestSegment
    split_ifs
    · exact hv
    · have h1 := hv.requestSegment' env (some stream) sequenceNumber SafNone none false now
        (ReadOutcome.returns true)
      rcases hr : b._requestSegment env (some stream) sequenceNumber SafNone none false now
        (ReadOutcome.returns true) with ⟨b1, e | ⟨id, c⟩⟩
      · rw [hr] at h1; exact h1
      · rw [hr] at h1; exact h1
  | requestScratchSegment b now _ ih =>
    obtain ⟨n, hn, hv⟩ := ih
    refine ⟨n, hn, ?_⟩
    unfold SimuTrace.ServerStreamBuffer.requestScratchSegment
    have h1 := hv.requestSegment' env none INVALID_STREAM_SEGMENT_ID SafNone none false now
      (ReadOutcome.returns true)
    rcases hr : b._requestSegment env none INVALID_STREAM_SEGMENT_ID SafNone none false now
      (ReadOutcome.returns true) with ⟨b1, e | ⟨id, c⟩⟩
    · rw [hr] at h1; exact h1
    · rw [hr] at h1; exact h1
  | openSegment b stream flags location prefetch now rd _ ih =>
    obtain ⟨n, hn, hv⟩ := ih
    exact ⟨n, hn, hv.requestSegment' env _ _ _ _ _ _ _⟩
  | submitSegment b segment now wr _ ih =>
    obtain ⟨n, hn, hv⟩ := ih
    refine ⟨n, hn, ?_⟩
    unfold SimuTrace.ServerStreamBuffer.submitSegment
    split_ifs with h1
    · exact hv
    · exact hv
    · exact hv
    · exact hv.submitSegment' env segment (by rw [← hv.2]; omega) now wr
  | freeSegment b segment prefetch _ ih =>
    obtain ⟨n, hn, hv⟩ := ih
    refine ⟨n, hn, ?_⟩
    unfold SimuTrace.ServerStreamBuffer.freeSegment
    split_ifs with h1
    · exact hv
    · exact hv
    · exact hv.free env segment prefetch (by rw [← hv.2]; omega)
  | purgeSegment b segment _ ih =>
    obtain ⟨n, hn, hv⟩ := ih
    refine ⟨n, hn, ?_⟩
    unfold SimuTrace.ServerStreamBuffer.purgeSegment
    split_ifs with h1
    · exact hv
    · exact hv
    · exact hv.purge segment (by rw [← hv.2]; omega)
  | flushStandbyList b store _ ih =>
    obtain ⟨n, hn, hv⟩ := ih
    exact ⟨n, hn, hv.flushStandbyList store⟩
  | clientWriteControl b i c _ ih =>
    obtain ⟨n, hn, hv⟩ := ih
    exact ⟨n, hn, hv.setShared i c⟩
  | clientWritePayload b i bytes _ ih =>
    obtain ⟨n, hn, hv⟩ := ih
    exact ⟨n, hn, hv⟩

/-! ## What an allocation returns -/

theorem modifyAt_seg_of_fields (b : ServerStreamBuffer) (p : Option Nat) (f : Segment → Segment)
    (j : Nat) :
    (b.modifyAt p f).seg j = b.seg j ∨ (b.modifyAt p f).seg j = f (b.seg j) := by
  cases p with
  | none => exact Or.inl rfl
  | some i =>
    simp only [ServerStreamBuffer.modifyAt, seg_setSeg]
    split_ifs with hc
    · right; rw [hc.1]
    · left; rfl

/-- `_dequeueFromStandbyList` changes `next`, `prev` and `isSubmitted` only. -/
theorem dequeueFromStandbyList_fields (b : ServerStreamBuffer) (i j : Nat) :
    ((b._dequeueFromStandbyList i).seg j).flags = (b.seg j).flags ∧
    ((b._dequeueFromStandbyList i).seg j).control = (b.seg j).control ∧
    ((b._dequeueFromStandbyList i).seg j).stream = (b.seg j).stream ∧
    ((b._dequeueFromStandbyList i).seg j).sequenceNumber = (b.seg j).sequenceNumber ∧
    ((b._dequeueFromStandbyList i).seg j).id = (b.seg j).id := by
  unfold _dequeueFromStandbyList
  simp only
  have hA : ∀ (b : ServerStreamBuffer) (p q : Option Nat) (j : Nat),
      ((b.modifyAt p (fun s => { s with next := q })).seg j).flags = (b.seg j).flags ∧
      ((b.modifyAt p (fun s => { s with next := q })).seg j).control = (b.seg j).control ∧
      ((b.modifyAt p (fun s => { s with next := q })).seg j).stream = (b.seg j).stream ∧
      ((b.modifyAt p (fun s => { s with next := q })).seg j).sequenceNumber =
        (b.seg j).sequenceNumber ∧
      ((b.modifyAt p (fun s => { s with next := q })).seg j).id = (b.seg j).id := by
    intro b p q j
    rcases modifyAt_seg_of_fields b p (fun s => { s with next := q }) j with h | h <;>
      rw [h] <;> exact ⟨rfl, rfl, rfl, rfl, rfl⟩
  have hB : ∀ (b : ServerStreamBuffer) (p q : Option Nat) (j : Nat),
      ((b.modifyAt p (fun s => { s with prev := q })).seg j).flags = (b.seg j).flags ∧
      ((b.modifyAt p (fun s => { s with prev := q })).seg j).control = (b.seg j).control ∧
      ((b.modifyAt p (fun s => { s with prev := q })).seg j).stream = (b.seg j).stream ∧
      ((b.modifyAt p (fun s => { s with prev := q })).seg j).sequenceNumber =
        (b.seg j).sequenceNumber ∧
      ((b.modifyAt p (fun s => { s with prev := q })).seg j).id = (b.seg j).id := by
    intro b p q j
    rcases modifyAt_seg_of_fields b p (fun s => { s with prev := q }) j with h | h <;>
      rw [h] <;> exact ⟨rfl, rfl, rfl, rfl, rfl⟩
  have hAB := fun j => (hB (b.modifyAt (b.seg i).prev (fun p => { p with next := (b.seg i).next }))
    ((b.modifyAt (b.seg i).prev (fun p => { p with next := (b.seg i).next })).seg i).next
    ((b.modifyAt (b.seg i).prev (fun p => { p with next := (b.seg i).next })).seg i).prev j)
  have hA' := hA b (b.seg i).prev (b.seg i).next
  split_ifs with h1 h2
  · rw [seg_setSeg]
    split_ifs with hc
    · rw [hc.1]; exact ⟨rfl, rfl, rfl, rfl, rfl⟩
    · exact ⟨rfl, rfl, rfl, rfl, rfl⟩
  · rw [seg_setSeg]
    split_ifs with hc
    · simp only [seg_setStandbyHead]
      rw [hc.1]
      exact ⟨(hAB i).1.trans (hA' i).1, (hAB i).2.1.trans (hA' i).2.1,
        (hAB i).2.2.1.trans (hA' i).2.2.1, (hAB i).2.2.2.1.trans (hA' i).2.2.2.1,
        (hAB i).2.2.2.2.trans (hA' i).2.2.2.2⟩
    · simp only [seg_setStandbyHead]
      exact ⟨(hAB j).1.trans (hA' j).1, (hAB j).2.1.trans (hA' j).2.1,
        (hAB j).2.2.1.trans (hA' j).2.2.1, (hAB j).2.2.2.1.trans (hA' j).2.2.2.1,
        (hAB j).2.2.2.2.trans (hA' j).2.2.2.2⟩
  · rw [seg_setSeg]
    split_ifs with hc
    · rw [hc.1]
      exact ⟨(hAB i).1.trans (hA' i).1, (hAB i).2.1.trans (hA' i).2.1,
        (hAB i).2.2.1.trans (hA' i).2.2.1, (hAB i).2.2.2.1.trans (hA' i).2.2.2.1,
        (hAB i).2.2.2.2.trans (hA' i).2.2.2.2⟩
    · exact ⟨(hAB j).1.trans (hA' j).1, (hAB j).2.1.trans (hA' j).2.1,
        (hAB j).2.2.1.trans (hA' j).2.2.1, (hAB j).2.2.2.1.trans (hA' j).2.2.2.1,
        (hAB j).2.2.2.2.trans (hA' j).2.2.2.2⟩

/-- After `_dequeueFromStandbyList(segment)` the segment is linked nowhere and
not submitted. -/
theorem dequeueFromStandbyList_self (b : ServerStreamBuffer) (i : Nat)
    (hi : i < b.getNumSegments) :
    ((b._dequeueFromStandbyList i).seg i).next = none ∧
    ((b._dequeueFromStandbyList i).seg i).prev = none ∧
    ((b._dequeueFromStandbyList i).seg i).isSubmitted = false := by
  unfold _dequeueFromStandbyList
  simp only
  split_ifs
  · rw [seg_setSeg_self _ _ _ (by simpa using hi)]
    exact ⟨rfl, rfl, rfl⟩
  · rw [seg_setSeg_self _ _ _ (by simpa [getNumSegments_modifyAt] using hi)]
    exact ⟨rfl, rfl, rfl⟩
  · rw [seg_setSeg_self _ _ _ (by simpa [getNumSegments_modifyAt] using hi)]
    exact ⟨rfl, rfl, rfl⟩

theorem dequeueFromStandbyList_frame (b : ServerStreamBuffer) (i : Nat) :
    (b._dequeueFromStandbyList i).cookie = b.cookie ∧
    (b._dequeueFromStandbyList i).enableCache = b.enableCache ∧
    (b._dequeueFromStandbyList i).shared = b.shared ∧
    (b._dequeueFromStandbyList i).standbyIndex = b.standbyIndex ∧
    (b._dequeueFromStandbyList i).calls = b.calls := by
  have hm : ∀ (b : ServerStreamBuffer) (p : Option Nat) (f : Segment → Segment),
      (b.modifyAt p f).cookie = b.cookie ∧ (b.modifyAt p f).enableCache = b.enableCache ∧
      (b.modifyAt p f).shared = b.shared ∧ (b.modifyAt p f).standbyIndex = b.standbyIndex ∧
      (b.modifyAt p f).calls = b.calls := by
    intro b p f
    cases p <;> exact ⟨rfl, rfl, rfl, rfl, rfl⟩
  unfold _dequeueFromStandbyList
  simp only
  have h1 := hm b (b.seg i).prev (fun p => { p with next := (b.seg i).next })
  have h2 := hm (b.modifyAt (b.seg i).prev (fun p => { p with next := (b.seg i).next }))
    ((b.modifyAt (b.seg i).prev (fun p => { p with next := (b.seg i).next })).seg i).next
    (fun n => { n with prev :=
      ((b.modifyAt (b.seg i).prev (fun p => { p with next := (b.seg i).next })).seg i).prev })
  split_ifs
  · exact ⟨rfl, rfl, rfl, rfl, rfl⟩
  · exact ⟨h2.1.trans h1.1, h2.2.1.trans h1.2.1, h2.2.2.1.trans h1.2.2.1,
      h2.2.2.2.1.trans h1.2.2.2.1, h2.2.2.2.2.trans h1.2.2.2.2⟩
  · exact ⟨h2.1.trans h1.1, h2.2.1.trans h1.2.1, h2.2.2.1.trans h1.2.2.1,
      h2.2.2.2.1.trans h1.2.2.2.1, h2.2.2.2.2.trans h1.2.2.2.2⟩

/-- One successful try yields a descriptor of the pool whose flags are exactly
`InUse`, which is not submitted and not linked; the pool cookie, the cache
switch and the shared control elements are untouched. -/
theorem allocateOnce_some {n : Nat} {b b1 : ServerStreamBuffer} {i : Nat}
    (h : ValidPool n b) (hres : b.allocateOnce = (b1, some i)) :
    i < n ∧ ValidPool n b1 ∧ (b1.seg i).flags = SgfInUse ∧ (b1.seg i).isSubmitted = false ∧
    (b1.seg i).next = none ∧ b1.cookie = b.cookie ∧ b1.enableCache = b.enableCache ∧
    b1.shared = b.shared := by
  have hv := h.allocateOnce
  rw [hres] at hv
  have hi : i < n := hv.2 i rfl
  refine ⟨hi, hv.1, ?_⟩
  unfold allocateOnce at hres
  cases hf : b.freeHead with
  | some k =>
    have hk : k < b.getNumSegments := h.1.2.2.1 k hf
    simp only [_dequeueFromFreeList, hf, Prod.mk.injEq, Option.some.injEq] at hres
    obtain ⟨hb1, hki⟩ := hres
    subst hki
    rw [← hb1, seg_setSeg_self _ _ _ (by simpa using hk)]
    exact ⟨rfl, rfl, rfl, rfl, rfl, rfl⟩
  | none =>
    simp only [_dequeueFromFreeList, hf] at hres
    unfold _evictFromStandbyList at hres
    cases hh : b.standbyHead with
    | none => simp [hh] at hres
    | some hd =>
      simp only [hh] at hres
      cases hp : (b.seg hd).prev with
      | none => simp [hp] at hres
      | some k =>
        simp only [hp, Prod.mk.injEq, Option.some.injEq] at hres
        obtain ⟨hb1, hki⟩ := hres
        subst hki
        have hlt : k < ((b._notifyEncoderCacheClosed k)._findStandbySegment
            ((b._notifyEncoderCacheClosed k).standbyKey k) true).1.getNumSegments := by
          rw [(findStandbySegment_valid (notifyEncoderCacheClosed_valid h.1 k).1 _ true).2.1]
          rw [(notifyEncoderCacheClosed_valid h.1 k).2, h.2]
          exact hi
        have hself := dequeueFromStandbyList_self _ k hlt
        have hframe := dequeueFromStandbyList_frame
          ((b._notifyEncoderCacheClosed k)._findStandbySegment
            ((b._notifyEncoderCacheClosed k).standbyKey k) true).1 k
        have hfind : ∀ (b0 : ServerStreamBuffer) (link : StoreStreamSegmentLink),
            (b0._findStandbySegment link true).1.cookie = b0.cookie ∧
            (b0._findStandbySegment link true).1.enableCache = b0.enableCache ∧
            (b0._findStandbySegment link true).1.shared = b0.shared := by
          intro b0 link
          unfold _findStandbySegment
          cases indexFind b0.standbyIndex link <;> exact ⟨rfl, rfl, rfl⟩
        have hf2 := hfind (b._notifyEncoderCacheClosed k)
          ((b._notifyEncoderCacheClosed k).standbyKey k)
        have hlt2 : k < (((b._notifyEncoderCacheClosed k)._findStandbySegment
            ((b._notifyEncoderCacheClosed k).standbyKey k) true).1._dequeueFromStandbyList
              k).getNumSegments := by
          rw [(dequeueFromStandbyList_valid
            (findStandbySegment_valid (notifyEncoderCacheClosed_valid h.1 k).1 _ true).1 k).2]
          exact hlt
        rw [← hb1, seg_setSeg_self _ _ _ hlt2]
        refine ⟨rfl, hself.2.2, hself.1, ?_, ?_, ?_⟩
        · exact hframe.1.trans hf2.1
        · exact hframe.2.1.trans hf2.2.1
        · exact hframe.2.2.1.trans hf2.2.2

/-- The control element `_prepareSegment` writes, before the cookie. -/
theorem prepareSegment_spec (env : Env) (b : ServerStreamBuffer) (i : Nat)
    (stream : Option ServerStream) (sequenceNumber now : Nat)
    (hi : i < b.getNumSegments) (hsh : b.shared.length = b.getNumSegments) :
    ((b._prepareSegment env i stream sequenceNumber now).seg i).flags = (b.seg i).flags ∧
    ((b._prepareSegment env i stream sequenceNumber now).seg i).isSubmitted =
      (b.seg i).isSubmitted ∧
    ((b._prepareSegment env i stream sequenceNumber now).seg i).next = (b.seg i).next ∧
    ((b._prepareSegment env i stream sequenceNumber now).seg i).id = (b.seg i).id ∧
    ((b._prepareSegment env i stream sequenceNumber now).seg i).stream = stream ∧
    ((b._prepareSegment env i stream sequenceNumber now).seg i).sequenceNumber =
      sequenceNumber ∧
    ((b._prepareSegment env i stream sequenceNumber now).seg i).control =
      (b._prepareSegment env i stream sequenceNumber now).sharedControl i ∧
    (b._prepareSegment env i stream sequenceNumber now).sharedControl i =
      { cookie := b._computeControlCookie env
          { zeroControl with
            link := { stream := streamId stream, sequenceNumber := sequenceNumber },
            startCycle := INVALID_CYCLE_COUNT, endCycle := INVALID_CYCLE_COUNT,
            startTime := now, endTime := INVALID_TIME_STAMP } (b.seg i),
        link := { stream := streamId stream, sequenceNumber := sequenceNumber },
        startCycle := INVALID_CYCLE_COUNT, endCycle := INVALID_CYCLE_COUNT,
        startTime := now, endTime := INVALID_TIME_STAMP,
        startIndex := 0, entryCount := 0, rawEntryCount := 0 } ∧
    (b._prepareSegment env i stream sequenceNumber now).enableCache = b.enableCache ∧
    (b._prepareSegment env i stream sequenceNumber now).cookie = b.cookie := by
  unfold _prepareSegment
  simp only
  rw [seg_setSeg_self _ _ _ (by simpa using hi), sharedControl_setSeg,
    sharedControl_setShared_self _ _ _ (by rw [hsh]; exact hi)]
  exact ⟨rfl, rfl, rfl, rfl, rfl, rfl, rfl, rfl, rfl, rfl⟩

theorem allocateOnce_none {b b1 : ServerStreamBuffer} (hres : b.allocateOnce = (b1, none)) :
    b1 = b := by
  unfold allocateOnce at hres
  cases hf : b.freeHead with
  | some k => simp [_dequeueFromFreeList, hf] at hres
  | none =>
    simp only [_dequeueFromFreeList, hf] at hres
    unfold _evictFromStandbyList at hres
    cases hh : b.standbyHead with
    | none =>
      simp only [hh, Prod.mk.injEq, and_true] at hres
      exact hres.symm
    | some hd =>
      simp only [hh] at hres
      cases hp : (b.seg hd).prev with
      | none =>
        simp only [hp, Prod.mk.injEq, and_true] at hres
        exact hres.symm
      | some k => simp [hp] at hres

/-- What `_tryAllocateFreeSegment` returns when it returns a segment: a
descriptor of the pool with flags exactly `InUse`, not submitted, not linked,
bound to the stream and sequence number, whose private and shared control
elements are the freshly prepared one. -/
theorem tryAllocateLoop_some {n : Nat} (env : Env) (stream : Option ServerStream)
    (sequenceNumber : Nat) (prefetch : Bool) (now : Nat) :
    ∀ (fuel tryCount : Nat) (b b' : ServerStreamBuffer) (i : Nat),
      ValidPool n b → b.shared.length = n →
      tryAllocateLoop env stream sequenceNumber prefetch now fuel tryCount b = (b', some i) →
      i < n ∧ ValidPool n b' ∧ (b'.seg i).id = i ∧ (b'.seg i).flags = SgfInUse ∧
      (b'.seg i).isSubmitted = false ∧ (b'.seg i).next = none ∧
      (b'.seg i).stream = stream ∧ (b'.seg i).sequenceNumber = sequenceNumber ∧
      (b'.seg i).control = b'.sharedControl i ∧
      b'.sharedControl i = freshControl env b.cookie i stream sequenceNumber now ∧
      b'.enableCache = b.enableCache ∧ b'.cookie = b.cookie := by
  intro fuel
  induction fuel with
  | zero =>
    intro tryCount b b' i h hsh hres
    unfold tryAllocateLoop at hres
    rcases hd : b.allocateOnce with ⟨b1, _ | k⟩
    · rw [hd] at hres
      simp only [_handleContention] at hres
      split_ifs at hres <;> simp at hres
    · rw [hd] at hres
      simp only [Prod.mk.injEq, Option.some.injEq] at hres
      obtain ⟨hb', hki⟩ := hres
      subst hki
      obtain ⟨hk, hv1, hfl, hsub, hnx, hck, hec, hshared⟩ := allocateOnce_some h hd
      have hid : (b1.seg k).id = k := hv1.id_eq hk
      rw [hid] at hb'
      have hsp := prepareSegment_spec env b1 k stream sequenceNumber now
        (by rw [hv1.2]; exact hk) (by rw [hshared, hsh, hv1.2])
      rw [hb'] at hsp
      obtain ⟨s1, s2, s3, s4, s5, s6, s7, s8, s9, s10⟩ := hsp
      refine ⟨hk, ?_, s4.trans hid, s1.trans hfl, s2.trans hsub, s3.trans hnx, s5, s6, s7, ?_,
        s9.trans hec, s10.trans hck⟩
      · rw [← hb']; exact hv1.prepare env _ _ _ _
      · rw [s8]
        simp only [freshControl, computeControlCookie_eq, hid, hfl, hck, SgfInUse, SgfFree]
        rfl
  | succ fuel ih =>
    intro tryCount b b' i h hsh hres
    unfold tryAllocateLoop at hres
    rcases hd : b.allocateOnce with ⟨b1, _ | k⟩
    · rw [hd] at hres
      have hb1 : b1 = b := allocateOnce_none hd
      subst hb1
      simp only [_handleContention] at hres
      split_ifs at hres
      · simp at hres
      · simp at hres
      · exact ih (tryCount + 1) (b1.call (Call.sleep env.retrySleep)) b' i (h.call _) hsh hres
    · rw [hd] at hres
      simp only [Prod.mk.injEq, Option.some.injEq] at hres
      obtain ⟨hb', hki⟩ := hres
      subst hki
      obtain ⟨hk, hv1, hfl, hsub, hnx, hck, hec, hshared⟩ := allocateOnce_some h hd
      have hid : (b1.seg k).id = k := hv1.id_eq hk
      rw [hid] at hb'
      have hsp := prepareSegment_spec env b1 k stream sequenceNumber now
        (by rw [hv1.2]; exact hk) (by rw [hshared, hsh, hv1.2])
      rw [hb'] at hsp
      obtain ⟨s1, s2, s3, s4, s5, s6, s7, s8, s9, s10⟩ := hsp
      refine ⟨hk, ?_, s4.trans hid, s1.trans hfl, s2.trans hsub, s3.trans hnx, s5, s6, s7, ?_,
        s9.trans hec, s10.trans hck⟩
      · rw [← hb']; exact hv1.prepare env _ _ _ _
      · rw [s8]
        simp only [freshControl, computeControlCookie_eq, hid, hfl, hck, SgfInUse, SgfFree]
        rfl

/-- The bound on the iterations of `tryAllocateLoop` does not matter once
it is at least `retryCount - tryCount`: the loop of `_tryAllocateFreeSegment`
terminates, and `retryCount` iterations are enough for it. -/
theorem tryAllocateLoop_fuel (env : Env) (stream : Option ServerStream)
    (sequenceNumber : Nat) (prefetch : Bool) (now : Nat) :
    ∀ (fuel fuel' tryCount : Nat) (b : ServerStreamBuffer),
      env.retryCount ≤ fuel + tryCount → env.retryCount ≤ fuel' + tryCount →
      tryAllocateLoop env stream sequenceNumber prefetch now fuel tryCount b =
        tryAllocateLoop env stream sequenceNumber prefetch now fuel' tryCount b := by
  intro fuel
  induction fuel with
  | zero =>
    intro fuel' tryCount b h1 h2
    have hge : tryCount ≥ env.retryCount := by omega
    unfold tryAllocateLoop
    rcases b.allocateOnce with ⟨b1, _ | k⟩
    · simp only [_handleContention, hge, if_true]
    · rfl
  | succ fuel ih =>
    intro fuel' tryCount b h1 h2
    cases fuel' with
    | zero =>
      have hge : tryCount ≥ env.retryCount := by omega
      unfold tryAllocateLoop
      rcases b.allocateOnce with ⟨b1, _ | k⟩
      · simp only [_handleContention, hge, if_true]
      · rfl
    | succ fuel' =>
      unfold tryAllocateLoop
      rcases b.allocateOnce with ⟨b1, _ | k⟩
      · simp only [_handleContention]
        split_ifs
        · rfl
        · rfl
        · exact ih fuel' (tryCount + 1) _ (by omega) (by omega)
      · rfl

/-! ## The claims -/

/-! ## State errors of `submitSegment`, `freeSegment` and `purgeSegment` -/

/-- C6: for a segment id below the pool size, `submitSegment` throws
`InvalidOperationException` whenever the segment is not `InUse`, or is already
submitted, or is linked (`next` is not null); the state it leaves, the
recorded encoder calls included, is the state it found. -/
theorem submitSegment_wrong_state (env : Env) (b : ServerStreamBuffer) (segment now : Nat)
    (wr : WriteOutcome) (hlt : segment < b.getNumSegments)
    (h : (b.seg segment).flags.inUse = false ∨ (b.seg segment).isSubmitted = true ∨
         (b.seg segment).next ≠ none) :
    submitSegment env b segment now wr = (b, .error Error.InvalidOperationException) := by
  unfold submitSegment
  simp only [ge_iff_le, Nat.not_le.mpr hlt, if_false]
  split
  · rfl
  · rcases h with h | h | h
    · simp [h]
    · simp [h]
    · cases hn : (b.seg segment).next <;> simp_all

/-- C7: for a segment id below the pool size, `freeSegment` throws
`InvalidOperationException` exactly when the segment is not `InUse`, or is
linked (`next` is not null), or is writable and not submitted; whenever it
throws, the state is unchanged. -/
theorem freeSegment_invalid_operation (env : Env) (b : ServerStreamBuffer) (segment : Nat)
    (prefetch : Bool) (hlt : segment < b.getNumSegments) :
    ((freeSegment env b segment prefetch).2 = .error Error.InvalidOperationException ↔
      ((b.seg segment).flags.inUse = false ∨ (b.seg segment).next ≠ none ∨
        ((b.seg segment).flags.readOnly = false ∧ (b.seg segment).isSubmitted = false))) ∧
    (∀ e, (freeSegment env b segment prefetch).2 = .error e →
      (freeSegment env b segment prefetch).1 = b) := by
  unfold freeSegment
  simp only [ge_iff_le, Nat.not_le.mpr hlt, if_false]
  cases hn : (b.seg segment).next <;> cases hu : (b.seg segment).flags.inUse <;>
    cases hr : (b.seg segment).flags.readOnly <;> cases hs : (b.seg segment).isSubmitted <;>
    simp

/-- C8: for a segment id below the pool size, `purgeSegment` throws
`InvalidOperationException` and leaves the state unchanged exactly when the
segment is not `InUse` or is linked (`next` is not null); otherwise it returns,
the segment has flags `Free`, no stream, the invalid sequence number, is the
head of the free list in front of the former head, and
`notifySegmentCacheClosed` was called (once, for its stream and sequence
number) if and only if the segment had a stream. -/
theorem purgeSegment_spec (b : ServerStreamBuffer) (segment : Nat)
    (hlt : segment < b.getNumSegments) :
    ((purgeSegment b segment).2 = .error Error.InvalidOperationException ↔
      ((b.seg segment).flags.inUse = false ∨ (b.seg segment).next ≠ none)) ∧
    (((b.seg segment).flags.inUse = false ∨ (b.seg segment).next ≠ none) →
      (purgeSegment b segment).1 = b) ∧
    (¬ ((b.seg segment).flags.inUse = false ∨ (b.seg segment).next ≠ none) →
      (purgeSegment b segment).2 = .ok () ∧
      ((purgeSegment b segment).1.seg segment).flags = SgfFree ∧
      ((purgeSegment b segment).1.seg segment).stream = none ∧
      ((purgeSegment b segment).1.seg segment).sequenceNumber = INVALID_STREAM_SEGMENT_ID ∧
      (purgeSegment b segment).1.freeHead = some segment ∧
      ((purgeSegment b segment).1.seg segment).next = b.freeHead ∧
      (purgeSegment b segment).1.calls =
        b.calls ++ (match (b.seg segment).stream with
          | some s => [Call.notifySegmentCacheClosed s.id (b.seg segment).sequenceNumber]
          | none => [])) := by
  unfold purgeSegment
  simp only [ge_iff_le, Nat.not_le.mpr hlt, if_false]
  cases hn : (b.seg segment).next <;> cases hu : (b.seg segment).flags.inUse <;> simp
  unfold _purgeSegment _enqueueToFreeList _notifyEncoderCacheClosed
  cases hst : (b.seg segment).stream <;>
    simp [seg_setSeg_self, hlt, streamId, hst]

/-- C9: a writable segment that passes the state checks of `submitSegment`,
whose shared control element carries the cookie of its recorded owner and has
`rawEntryCount == 0`: `submitSegment` calls the encoder's `drop` for the
segment once and never `write` (the calls it adds are `drop` and the
`notifySegmentCacheClosed` of the purge), purges the segment (flags `Free`, no
stream, head of the free list) and returns `completed = true` without a
location. -/
theorem submitSegment_empty (env : Env) (b : ServerStreamBuffer) (segment now : Nat)
    (wr : WriteOutcome) (st : ServerStream)
    (hlt : segment < b.getNumSegments)
    (hst : (b.seg segment).stream = some st)
    (hid : (b.seg segment).id = segment)
    (hu : (b.seg segment).flags.inUse = true)
    (hn : (b.seg segment).next = none)
    (hs : (b.seg segment).isSubmitted = false)
    (hw : (b.seg segment).flags.readOnly = false)
    (hc : (b.sharedControl segment).cookie =
      b._computeControlCookie env
        { b.sharedControl segment with
          link := { stream := st.id, sequenceNumber := (b.seg segment).sequenceNumber } }
        (b.seg segment))
    (hraw : (b.sharedControl segment).rawEntryCount = 0) :
    (submitSegment env b segment now wr).2 = .ok (true, none) ∧
    (submitSegment env b segment now wr).1.calls =
      b.calls ++ [Call.drop st.id segment,
        Call.notifySegmentCacheClosed st.id (b.seg segment).sequenceNumber] ∧
    ((submitSegment env b segment now wr).1.seg segment).flags = SgfFree ∧
    ((submitSegment env b segment now wr).1.seg segment).stream = none ∧
    (submitSegment env b segment now wr).1.freeHead = some segment ∧
    ((submitSegment env b segment now wr).1.seg segment).next = b.freeHead := by
  have hcopy : b.copiedControl segment =
      { b.sharedControl segment with
        link := { stream := st.id, sequenceNumber := (b.seg segment).sequenceNumber } } := by
    simp [copiedControl, hst, streamId]
  rw [submitSegment_eq env b segment now wr st hlt hst hu hn hs,
    submitSegment_writable env b segment now wr st hlt hst hw, hcopy,
    if_neg (not_not.mpr hc), if_pos hraw]
  simp [_purgeSegment, _enqueueToFreeList, _notifyEncoderCacheClosed,
    seg_setSeg_self, hlt, hst, hid, streamId]

/-- C2: for a writable segment that passes the state checks of
`submitSegment`, the call throws the invalid-cookie `Exception` exactly when
the cookie in the shared control element differs from `_computeControlCookie`
of the copy of that element whose link is the recorded (stream id, sequence
number); when it does, no call has left the buffer (neither `write` nor
`drop`) and `isSubmitted` is still false. -/
theorem submitSegment_cookie_mismatch_iff (env : Env) (b : ServerStreamBuffer)
    (segment now : Nat) (wr : WriteOutcome) (st : ServerStream)
    (hlt : segment < b.getNumSegments)
    (hst : (b.seg segment).stream = some st)
    (hu : (b.seg segment).flags.inUse = true)
    (hn : (b.seg segment).next = none)
    (hs : (b.seg segment).isSubmitted = false)
    (hw : (b.seg segment).flags.readOnly = false) :
    ((submitSegment env b segment now wr).2 =
        .error (Error.Exception Corruption.invalidCookie) ↔
      (b.sharedControl segment).cookie ≠
        b._computeControlCookie env
          { b.sharedControl segment with
            link := { stream := st.id, sequenceNumber := (b.seg segment).sequenceNumber } }
          (b.seg segment)) ∧
    ((b.sharedControl segment).cookie ≠
        b._computeControlCookie env
          { b.sharedControl segment with
            link := { stream := st.id, sequenceNumber := (b.seg segment).sequenceNumber } }
          (b.seg segment) →
      (submitSegment env b segment now wr).1.calls = b.calls ∧
      ((submitSegment env b segment now wr).1.seg segment).isSubmitted = false) := by
  have hcopy : b.copiedControl segment =
      { b.sharedControl segment with
        link := { stream := st.id, sequenceNumber := (b.seg segment).sequenceNumber } } := by
    simp [copiedControl, hst, streamId]
  rw [submitSegment_eq env b segment now wr st hlt hst hu hn hs,
    submitSegment_writable env b segment now wr st hlt hst hw, ← hcopy]
  by_cases hc : (b.sharedControl segment).cookie =
      b._computeControlCookie env (b.copiedControl segment) (b.seg segment)
  · simp only [hc, ne_eq, not_true_eq_false, if_false, false_implies, and_true, iff_false]
    split_ifs with hraw
    · simp
    · rcases hT : (b.setSeg segment { b.seg segment with
          control := b.copiedControl segment, isSubmitted := true }).submitTry env segment now wr
        with ⟨bT, e | r⟩
      · simp only [withSubmitCatch_error, Except.error.injEq]
        intro he
        have h2 : ((b.setSeg segment { b.seg segment with
            control := b.copiedControl segment, isSubmitted := true }).submitTry
              env segment now wr).2 = .error (Error.Exception Corruption.invalidCookie) := by
          rw [hT, he]
        exact (submitTry_corruption _ _ _ _ _ _ (by simpa using hlt) h2).1 rfl
      · simp
  · simp [hc, seg_setSeg_self, hlt, hs]

theorem submitSegment_error_pre (env : Env) (b : ServerStreamBuffer) (i now : Nat)
    (wr : WriteOutcome) (w : Corruption)
    (h : (submitSegment env b i now wr).2 = .error (Error.Exception w)) :
    i < b.getNumSegments ∧ (∃ st, (b.seg i).stream = some st) ∧
    (b.seg i).flags.inUse = true ∧ (b.seg i).next = none ∧ (b.seg i).isSubmitted = false := by
  unfold submitSegment at h
  by_cases hlt : i < b.getNumSegments
  · simp only [ge_iff_le, Nat.not_le.mpr hlt, if_false] at h
    cases hst : (b.seg i).stream with
    | none => simp [hst] at h
    | some st =>
      cases hu : (b.seg i).flags.inUse <;> cases hn : (b.seg i).next <;>
        cases hs : (b.seg i).isSubmitted <;> simp [hst, hu, hn, hs] at h
      exact ⟨hlt, ⟨st, rfl⟩, rfl, rfl, rfl⟩
  · simp [Nat.le_of_not_lt hlt] at h

theorem submitSegment_corruption_state (env : Env) (b : ServerStreamBuffer) (i now : Nat)
    (wr : WriteOutcome) (w : Corruption)
    (h : (submitSegment env b i now wr).2 = .error (Error.Exception w)) :
    ∃ c, (submitSegment env b i now wr).1 =
      b.setSeg i { b.seg i with control := c, isSubmitted := false } := by
  obtain ⟨hlt, ⟨st, hst⟩, hu, hn, hs⟩ := submitSegment_error_pre env b i now wr w h
  rw [submitSegment_eq env b i now wr st hlt hst hu hn hs] at h ⊢
  cases hw : (b.seg i).flags.readOnly
  · rw [submitSegment_writable env b i now wr st hlt hst hw] at h ⊢
    split_ifs at h ⊢ with hc hraw
    · refine ⟨b.copiedControl i, ?_⟩
      simp only [hs]
    · rcases hT : (b.setSeg i { b.seg i with
          control := b.copiedControl i, isSubmitted := true }).submitTry env i now wr
        with ⟨bT, e | r⟩
      · rw [hT] at h
        simp only [withSubmitCatch_error, Except.error.injEq] at h
        have h2 : ((b.setSeg i { b.seg i with
            control := b.copiedControl i, isSubmitted := true }).submitTry
              env i now wr).2 = .error (Error.Exception w) := by
          rw [hT, h]
        obtain ⟨-, c, hc2⟩ := submitTry_corruption _ _ _ _ _ _ (by simpa using hlt) h2
        rw [hT] at hc2
        simp only at hc2
        refine ⟨c, ?_⟩
        simp only [withSubmitCatch_error, hc2, seg_setSeg_self, hlt, setSeg_setSeg,
          submitCatch_setSeg]
      · rw [hT] at h
        simp at h
  · unfold _submitSegment at h ⊢
    have hcp : b.submitCopyControl i = b := by simp [submitCopyControl, hw]
    simp only [hcp, hw, Bool.not_true, Bool.false_eq_true, if_false] at h ⊢
    split_ifs at h ⊢ with hc
    · refine ⟨(b.seg i).control, ?_⟩
      have : ({ b.seg i with control := (b.seg i).control, isSubmitted := false } : Segment) =
          b.seg i := by
        cases hseg : b.seg i
        simp [hseg] at hs
        simp [hs]
      simp only [this, setSeg_seg_self]
    · rename_i hro _
      rw [seg_setSeg_self _ _ _ hlt] at hro
      simp [hw] at hro

/-- C10: a writable segment that passes the state checks of `submitSegment`
and whose shared control element has `rawEntryCount > 0`. (1) Whenever the
entry size of the stream times `rawEntryCount` exceeds the segment size, or
the entry count that is validated (the client's for a variable-size stream,
`rawEntryCount` itself once a fixed-size stream had its count fixed) exceeds
`rawEntryCount`, `submitSegment` throws an `Exception` and no call has left
the buffer, so `encoder.write` was not called. (2) For a fixed-size entry
stream, either an `Exception` is thrown before any call left the buffer, or
the rest of the call is the last part of the `try` block (`submitEncode`: the
new cookie, then `encoder.write`, under the `catch` block) entered in a state
whose private control element has `entryCount == rawEntryCount`, the client's
`rawEntryCount`. -/
theorem submitSegment_entry_count_validation (env : Env) (b : ServerStreamBuffer)
    (segment now : Nat) (wr : WriteOutcome) (st : ServerStream)
    (hlt : segment < b.getNumSegments)
    (hst : (b.seg segment).stream = some st)
    (hu : (b.seg segment).flags.inUse = true)
    (hn : (b.seg segment).next = none)
    (hs : (b.seg segment).isSubmitted = false)
    (hw : (b.seg segment).flags.readOnly = false)
    (hraw : 0 < (b.sharedControl segment).rawEntryCount) :
    ((st.type.effectiveEntrySize * (b.sharedControl segment).rawEntryCount > b.segmentSize ∨
      (if st.type.variableEntrySize then (b.sharedControl segment).entryCount
       else (b.sharedControl segment).rawEntryCount) >
        (b.sharedControl segment).rawEntryCount) →
      (∃ w, (submitSegment env b segment now wr).2 = .error (Error.Exception w)) ∧
      (submitSegment env b segment now wr).1.calls = b.calls) ∧
    (st.type.variableEntrySize = false →
      ((∃ w, (submitSegment env b segment now wr).2 = .error (Error.Exception w)) ∧
        (submitSegment env b segment now wr).1.calls = b.calls) ∨
      ∃ b2 : ServerStreamBuffer,
        (b2.seg segment).control.entryCount = (b2.seg segment).control.rawEntryCount ∧
        (b2.seg segment).control.rawEntryCount = (b.sharedControl segment).rawEntryCount ∧
        b2.calls = b.calls ∧
        submitSegment env b segment now wr =
          withSubmitCatch segment (b2.submitEncode env segment wr)) := by
  rw [submitSegment_eq env b segment now wr st hlt hst hu hn hs,
    submitSegment_writable env b segment now wr st hlt hst hw]
  have hraw0 : (b.sharedControl segment).rawEntryCount ≠ 0 := Nat.pos_iff_ne_zero.mp hraw
  by_cases hc : (b.sharedControl segment).cookie ≠
      b._computeControlCookie env (b.copiedControl segment) (b.seg segment)
  · rw [if_pos hc]
    simp only [calls_setSeg, and_true]
    exact ⟨fun _ => ⟨_, rfl⟩, fun _ => Or.inl ⟨_, rfl⟩⟩
  · rw [if_neg hc, if_neg hraw0]
    have hseg : (b.setSeg segment { b.seg segment with
        control := b.copiedControl segment, isSubmitted := true }).seg segment =
        { b.seg segment with control := b.copiedControl segment, isSubmitted := true } :=
      seg_setSeg_self _ _ _ hlt
    have hlt2 : segment < (b.setSeg segment { b.seg segment with
        control := b.copiedControl segment, isSubmitted := true }).getNumSegments := by
      simpa using hlt
    have hcalls2 : (b.setSeg segment { b.seg segment with
        control := b.copiedControl segment, isSubmitted := true }).calls = b.calls := rfl
    have hsize2 : (b.setSeg segment { b.seg segment with
        control := b.copiedControl segment, isSubmitted := true }).segmentSize =
        b.segmentSize := rfl
    generalize b.setSeg segment { b.seg segment with
        control := b.copiedControl segment, isSubmitted := true } = b' at hseg hlt2 hcalls2 hsize2 ⊢
    have hst' : (b'.seg segment).stream = some st := by rw [hseg]; exact hst
    have hraw' : (b'.seg segment).control.rawEntryCount =
        (b.sharedControl segment).rawEntryCount := by rw [hseg]; rfl
    have hent' : (b'.seg segment).control.entryCount =
        (b.sharedControl segment).entryCount := by rw [hseg]; rfl
    have hinv := entryCountInvalid_fix b' segment hlt2
    rw [hst', hraw', hent', hsize2] at hinv
    simp only [streamType] at hinv
    constructor
    · intro hbad
      have hT := submitTry_invalid_entry_count env b' segment now wr
        (by rw [hinv]; rcases hbad with h | h <;> simp [h])
      rw [hT]
      simp only [withSubmitCatch_error, calls_submitCatch, calls_submitFixEntryCount, hcalls2,
        and_true]
      exact ⟨_, rfl⟩
    · intro hfix
      rcases submitTry_cases env b' segment now wr hlt2
        with ⟨hcalls, w, hw2⟩ | ⟨b2, hb2, hcalls, hr, he, -⟩
      · left
        rcases hT : b'.submitTry env segment now wr with ⟨bT, e | r⟩
        · rw [hT] at hw2 hcalls
          have he : e = Error.Exception w := by simpa using hw2
          subst he
          have hcl : bT.calls = b.calls := by rw [← hcalls2]; exact hcalls
          exact ⟨⟨w, rfl⟩, hcl⟩
        · rw [hT] at hw2
          simp at hw2
      · right
        refine ⟨b2, ?_, ?_, ?_, ?_⟩
        · rw [he, hr, hst']
          simp only [streamType, hfix, Bool.false_eq_true, if_false]
        · rw [hr, hraw']
        · rw [hcalls, hcalls2]
        · rw [hb2]

theorem submitSegment_cookie_iff (env : Env) (b : ServerStreamBuffer)
    (segment now : Nat) (wr : WriteOutcome) (st : ServerStream)
    (hlt : segment < b.getNumSegments)
    (hst : (b.seg segment).stream = some st)
    (hu : (b.seg segment).flags.inUse = true)
    (hn : (b.seg segment).next = none)
    (hs : (b.seg segment).isSubmitted = false)
    (hw : (b.seg segment).flags.readOnly = false) :
    (submitSegment env b segment now wr).2 =
        .error (Error.Exception Corruption.invalidCookie) ↔
      (b.sharedControl segment).cookie ≠
        b._computeControlCookie env (b.copiedControl segment) (b.seg segment) := by
  rw [submitSegment_eq env b segment now wr st hlt hst hu hn hs,
    submitSegment_writable env b segment now wr st hlt hst hw]
  by_cases hc : (b.sharedControl segment).cookie =
      b._computeControlCookie env (b.copiedControl segment) (b.seg segment)
  · simp only [hc, ne_eq, not_true_eq_false, if_false, iff_false]
    split_ifs with hraw
    · simp
    · rcases hT : (b.setSeg segment { b.seg segment with
          control := b.copiedControl segment, isSubmitted := true }).submitTry env segment now wr
        with ⟨bT, e | r⟩
      · simp only [withSubmitCatch_error, Except.error.injEq]
        intro he
        have h2 : ((b.setSeg segment { b.seg segment with
            control := b.copiedControl segment, isSubmitted := true }).submitTry
              env segment now wr).2 = .error (Error.Exception Corruption.invalidCookie) := by
          rw [hT, he]
        exact (submitTry_corruption _ _ _ _ _ _ (by simpa using hlt) h2).1 rfl
      · simp
  · simp [hc]

/-- C1 (the code does the opposite): a writable, in-use, not yet submitted
segment whose shared control element is still what the server wrote (equal to
the private copy, link and cookie those of the recorded owner). After the
client changes only `link.sequenceNumber` to any value, `submitSegment` does
not throw the invalid-cookie `Exception`: the link is forced back to the
recorded owner before the cookie is tested. -/
theorem submitSegment_accepts_changed_sequenceNumber (env : Env) (b : ServerStreamBuffer)
    (segment now : Nat) (wr : WriteOutcome) (st : ServerStream) (changed : Nat)
    (hlt : segment < b.getNumSegments)
    (hsh : segment < b.shared.length)
    (hst : (b.seg segment).stream = some st)
    (hu : (b.seg segment).flags.inUse = true)
    (hn : (b.seg segment).next = none)
    (hs : (b.seg segment).isSubmitted = false)
    (hw : (b.seg segment).flags.readOnly = false)
    (hshared : b.sharedControl segment = (b.seg segment).control)
    (hlink : (b.seg segment).control.link =
      { stream := st.id, sequenceNumber := (b.seg segment).sequenceNumber })
    (hcookie : (b.seg segment).control.cookie =
      b._computeControlCookie env (b.seg segment).control (b.seg segment)) :
    (submitSegment env
      (b.clientWriteControl segment
        { b.sharedControl segment with
          link := { stream := (b.sharedControl segment).link.stream,
                    sequenceNumber := changed } })
      segment now wr).2 ≠ .error (Error.Exception Corruption.invalidCookie) := by
  intro h
  have hiff := submitSegment_cookie_iff env
    (b.clientWriteControl segment
      { b.sharedControl segment with
        link := { stream := (b.sharedControl segment).link.stream,
                  sequenceNumber := changed } })
    segment now wr st hlt hst hu hn hs hw
  apply hiff.mp h
  unfold clientWriteControl
  rw [sharedControl_setShared_self _ _ _ hsh, computeControlCookie_setShared]
  simp only [copiedControl, seg_setShared, sharedControl_setShared_self _ _ _ hsh, hst, streamId]
  rw [hshared]
  have hc2 : ({ (b.seg segment).control with
      link := { stream := st.id, sequenceNumber := (b.seg segment).sequenceNumber } } :
      SegmentControlElement) = (b.seg segment).control := by
    rw [← hlink]
  rw [hc2]
  exact hcookie

/-- C3 as the code has it: whenever `submitSegment` throws a corruption
`Exception` (invalid cookie, invalid entry counts, invalid cycles) the segment
has not been purged. It keeps its flags (`InUse`), its stream and sequence
number, is linked into no list, `isSubmitted` is false, and the free list
head, the standby list and index, the shared control elements, the recorded
calls (no `notifySegmentCacheClosed`) and every other segment are unchanged;
only its private control element may have been overwritten. -/
theorem submitSegment_corruption_keeps_segment (env : Env) (b : ServerStreamBuffer)
    (segment now : Nat) (wr : WriteOutcome) (w : Corruption)
    (h : (submitSegment env b segment now wr).2 = .error (Error.Exception w)) :
    ((submitSegment env b segment now wr).1.seg segment).flags = (b.seg segment).flags ∧
    ((submitSegment env b segment now wr).1.seg segment).flags.inUse = true ∧
    ((submitSegment env b segment now wr).1.seg segment).stream = (b.seg segment).stream ∧
    ((submitSegment env b segment now wr).1.seg segment).stream ≠ none ∧
    ((submitSegment env b segment now wr).1.seg segment).sequenceNumber =
      (b.seg segment).sequenceNumber ∧
    ((submitSegment env b segment now wr).1.seg segment).next = none ∧
    ((submitSegment env b segment now wr).1.seg segment).prev = (b.seg segment).prev ∧
    ((submitSegment env b segment now wr).1.seg segment).isSubmitted = false ∧
    (submitSegment env b segment now wr).1.freeHead = b.freeHead ∧
    (submitSegment env b segment now wr).1.standbyHead = b.standbyHead ∧
    (submitSegment env b segment now wr).1.standbyIndex = b.standbyIndex ∧
    (submitSegment env b segment now wr).1.shared = b.shared ∧
    (submitSegment env b segment now wr).1.calls = b.calls ∧
    ∀ j, j ≠ segment → (submitSegment env b segment now wr).1.seg j = b.seg j := by
  obtain ⟨hlt, ⟨st, hst⟩, hu, hn, hs⟩ := submitSegment_error_pre env b segment now wr w h
  obtain ⟨c, hc⟩ := submitSegment_corruption_state env b segment now wr w h
  rw [hc]
  refine ⟨?_, ?_, ?_, ?_, ?_, ?_, ?_, ?_, rfl, rfl, rfl, rfl, rfl, ?_⟩
  · rw [seg_setSeg_self _ _ _ hlt]
  · rw [seg_setSeg_self _ _ _ hlt]; exact hu
  · rw [seg_setSeg_self _ _ _ hlt]
  · rw [seg_setSeg_self _ _ _ hlt]; simp [hst]
  · rw [seg_setSeg_self _ _ _ hlt]
  · rw [seg_setSeg_self _ _ _ hlt]; exact hn
  · rw [seg_setSeg_self _ _ _ hlt]
  · rw [seg_setSeg_self _ _ _ hlt]
  · intro j hj
    exact seg_setSeg_ne _ _ _ _ hj

/-- C3 fails as stated: on `sampleBadCookie` (segment 0 held by a writer,
cookie overwritten by the client) `submitSegment(0)` throws the invalid-cookie
`Exception` and segment 0 is not purged: it is still `InUse`, still owned by
its stream, and the head of the free list is still segment 1. -/
theorem submitSegment_corruption_purge_counterexample :
    (submitSegment sampleEnv sampleBadCookie 0 200 (WriteOutcome.returns true none)).2 =
      .error (Error.Exception Corruption.invalidCookie) ∧
    ((submitSegment sampleEnv sampleBadCookie 0 200
        (WriteOutcome.returns true none)).1.seg 0).flags ≠ SgfFree ∧
    ((submitSegment sampleEnv sampleBadCookie 0 200
        (WriteOutcome.returns true none)).1.seg 0).stream = some sampleStream ∧
    (submitSegment sampleEnv sampleBadCookie 0 200
        (WriteOutcome.returns true none)).1.freeHead = some 1 := by
  decide

theorem submitSegment_corruption_keeps_segment_witness :
    (submitSegment sampleEnv sampleBadCookie 0 200 (WriteOutcome.returns true none)).2 =
      .error (Error.Exception Corruption.invalidCookie) ∧
    ((submitSegment sampleEnv sampleBadCookie 0 200
        (WriteOutcome.returns true none)).1.seg 0).flags.inUse = true ∧
    (submitSegment sampleEnv sampleBadCookie 0 200
        (WriteOutcome.returns true none)).1.freeHead = sampleBadCookie.freeHead :=
  ⟨by decide,
   (submitSegment_corruption_keeps_segment sampleEnv sampleBadCookie 0 200
      (WriteOutcome.returns true none) Corruption.invalidCookie (by decide)).2.1,
   (submitSegment_corruption_keeps_segment sampleEnv sampleBadCookie 0 200
      (WriteOutcome.returns true none) Corruption.invalidCookie (by decide)).2.2.2.2.2.2.2.2.1⟩

/-! ## Allocation from an exhausted pool -/

theorem callAll_nil (b : ServerStreamBuffer) : b.callAll [] = b := by
  cases b
  simp [callAll]

theorem callAll_call (b : ServerStreamBuffer) (k : Call) (l : List Call) :
    (b.call k).callAll l = b.callAll (k :: l) := by
  simp [call, callAll]

theorem dequeueFromFreeList_empty (b : ServerStreamBuffer) (h : b.freeHead = none) :
    b._dequeueFromFreeList = (b, none) := by
  unfold _dequeueFromFreeList
  rw [h]

theorem evictFromStandbyList_empty (b : ServerStreamBuffer) (h : b.standbyHead = none) :
    b._evictFromStandbyList = (b, none) := by
  unfold _evictFromStandbyList
  rw [h]

theorem allocateOnce_empty (b : ServerStreamBuffer) (hf : b.freeHead = none)
    (hs : b.standbyHead = none) : b.allocateOnce = (b, none) := by
  unfold allocateOnce
  rw [dequeueFromFreeList_empty b hf]
  exact evictFromStandbyList_empty b hs

/-- With both lists empty and no other thread running, the loop of
`_tryAllocateFreeSegment` entered with try number `tryCount` leaves with
`nullptr` after `retryCount - tryCount` sleeps, whatever bound at least that
large is given for its iterations. -/
theorem tryAllocateLoop_exhausted (env : Env) (stream : Option ServerStream)
    (sequenceNumber now : Nat) :
    ∀ (fuel tryCount : Nat) (b : ServerStreamBuffer),
      b.freeHead = none → b.standbyHead = none → env.retryCount ≤ fuel + tryCount →
      tryAllocateLoop env stream sequenceNumber false now fuel tryCount b =
        (b.callAll (List.replicate (env.retryCount - tryCount) (Call.sleep env.retrySleep)),
         none) := by
  intro fuel
  induction fuel with
  | zero =>
    intro tryCount b hf hs hle
    have hge : tryCount ≥ env.retryCount := by omega
    unfold tryAllocateLoop
    rw [allocateOnce_empty b hf hs]
    simp only [_handleContention, hge, if_true,
      Bool.false_eq_true, if_false, Nat.sub_eq_zero_of_le hge, List.replicate_zero, callAll_nil]
  | succ fuel ih =>
    intro tryCount b hf hs hle
    unfold tryAllocateLoop
    rw [allocateOnce_empty b hf hs]
    by_cases hge : tryCount ≥ env.retryCount
    · simp only [_handleContention, hge, if_true,
        Bool.false_eq_true, if_false, Nat.sub_eq_zero_of_le hge, List.replicate_zero,
        callAll_nil]
    · simp only [_handleContention, hge,
        Bool.false_eq_true, if_false]
      rw [ih (tryCount + 1) (b.call (Call.sleep env.retrySleep)) hf hs (by omega), callAll_call]
      have : env.retryCount - tryCount = (env.retryCount - (tryCount + 1)) + 1 := by omega
      rw [this, List.replicate_succ]

theorem indexFind_nil (link : StoreStreamSegmentLink) : indexFind [] link = none := rfl

/-- C5 as the code has it: with the free list and the standby list (and its
index) empty, and no other thread changing that during the call,
`requestSegment(stream, sqn)` with a valid `sqn` throws nothing. After
`max(1, retryCount)` allocation attempts, with `max(1, retryCount) - 1` sleeps
of `retrySleep` ms between them, it returns `INVALID_SEGMENT_ID` and leaves the
buffer as it found it. -/
theorem requestSegment_exhausted (env : Env) (b : ServerStreamBuffer) (stream : ServerStream)
    (sequenceNumber now : Nat)
    (hsqn : sequenceNumber ≠ INVALID_STREAM_SEGMENT_ID)
    (hfree : b.freeHead = none) (hstandby : b.standbyHead = none)
    (hindex : b.standbyIndex = []) :
    requestSegment env b stream sequenceNumber now =
      (b.callAll (List.replicate (max 1 env.retryCount - 1) (Call.sleep env.retrySleep)),
       .ok INVALID_SEGMENT_ID) := by
  unfold requestSegment _requestSegment _tryAllocateFreeSegment lookupStandby
    _removeStandbySegment _findStandbySegment
  rw [if_neg hsqn]
  simp only [hindex, indexFind_nil]
  rw [tryAllocateLoop_exhausted env (some stream) sequenceNumber now env.retryCount 1 b
    hfree hstandby (by omega)]
  have : max 1 env.retryCount - 1 = env.retryCount - 1 := by omega
  rw [this]

/-- C5 fails as stated: on `sampleExhausted` (one segment, held by a writer:
both lists empty) `requestSegment` for sequence number 1 does not throw
`OperationInProgressException`; it returns `INVALID_SEGMENT_ID`. -/
theorem requestSegment_exhausted_counterexample :
    sampleExhausted.freeHead = none ∧ sampleExhausted.standbyHead = none ∧
    (requestSegment sampleEnv sampleExhausted sampleStream 1 300).2 ≠
      .error Error.OperationInProgressException ∧
    (requestSegment sampleEnv sampleExhausted sampleStream 1 300).2 =
      .ok INVALID_SEGMENT_ID := by
  decide

theorem requestSegment_exhausted_witness :
    (1 ≠ INVALID_STREAM_SEGMENT_ID ∧ sampleExhausted.freeHead = none ∧
      sampleExhausted.standbyHead = none ∧ sampleExhausted.standbyIndex = []) ∧
    requestSegment sampleEnv sampleExhausted sampleStream 1 300 =
      (sampleExhausted.callAll
          (List.replicate (max 1 sampleEnv.retryCount - 1) (Call.sleep sampleEnv.retrySleep)),
       .ok INVALID_SEGMENT_ID) :=
  ⟨by decide,
   requestSegment_exhausted sampleEnv sampleExhausted sampleStream 1 300
     (by decide) (by decide) (by decide) (by decide)⟩

theorem submitSegment_wrong_state_witness :
    (0 < samplePool.getNumSegments ∧
      ((samplePool.seg 0).flags.inUse = false ∨ (samplePool.seg 0).isSubmitted = true ∨
        (samplePool.seg 0).next ≠ none)) ∧
    submitSegment sampleEnv samplePool 0 200 (WriteOutcome.returns true none) =
      (samplePool, .error Error.InvalidOperationException) :=
  ⟨by decide,
   submitSegment_wrong_state sampleEnv samplePool 0 200 (WriteOutcome.returns true none)
     (by decide) (by decide)⟩

theorem freeSegment_invalid_operation_witness :
    0 < sampleHeld.getNumSegments ∧
    (freeSegment sampleEnv sampleHeld 0 false).2 = .error Error.InvalidOperationException ∧
    (freeSegment sampleEnv sampleHeld 0 false).1 = sampleHeld :=
  ⟨by decide,
   (freeSegment_invalid_operation sampleEnv sampleHeld 0 false (by decide)).1.mpr (by decide),
   (freeSegment_invalid_operation sampleEnv sampleHeld 0 false (by decide)).2
     Error.InvalidOperationException (by decide)⟩

theorem purgeSegment_spec_witness :
    0 < sampleHeld.getNumSegments ∧
    (purgeSegment sampleHeld 0).2 = .ok () ∧
    ((purgeSegment sampleHeld 0).1.seg 0).flags = SgfFree ∧
    (purgeSegment sampleHeld 0).1.freeHead = some 0 ∧
    (purgeSegment sampleHeld 0).1.calls = [Call.notifySegmentCacheClosed 7 0] :=
  ⟨by decide,
   ((purgeSegment_spec sampleHeld 0 (by decide)).2.2 (by decide)).1,
   ((purgeSegment_spec sampleHeld 0 (by decide)).2.2 (by decide)).2.1,
   ((purgeSegment_spec sampleHeld 0 (by decide)).2.2 (by decide)).2.2.2.2.1,
   ((purgeSegment_spec sampleHeld 0 (by decide)).2.2 (by decide)).2.2.2.2.2.2⟩

theorem submitSegment_empty_witness :
    (0 < sampleHeld.getNumSegments ∧ (sampleHeld.seg 0).stream = some sampleStream ∧
      (sampleHeld.sharedControl 0).rawEntryCount = 0) ∧
    (submitSegment sampleEnv sampleHeld 0 200 (WriteOutcome.returns true none)).2 =
      .ok (true, none) ∧
    (submitSegment sampleEnv sampleHeld 0 200 (WriteOutcome.returns true none)).1.calls =
      sampleHeld.calls ++ [Call.drop 7 0, Call.notifySegmentCacheClosed 7 0] :=
  ⟨by decide,
   (submitSegment_empty sampleEnv sampleHeld 0 200 (WriteOutcome.returns true none)
      sampleStream (by decide) (by decide) (by decide) (by decide) (by decide) (by decide)
      (by decide) (by decide) (by decide)).1,
   (submitSegment_empty sampleEnv sampleHeld 0 200 (WriteOutcome.returns true none)
      sampleStream (by decide) (by decide) (by decide) (by decide) (by decide) (by decide)
      (by decide) (by decide) (by decide)).2.1⟩

theorem submitSegment_cookie_mismatch_iff_witness :
    (0 < sampleBadCookie.getNumSegments ∧
      (sampleBadCookie.seg 0).stream = some sampleStream ∧
      (sampleBadCookie.seg 0).flags.readOnly = false) ∧
    (submitSegment sampleEnv sampleBadCookie 0 200 (WriteOutcome.returns true none)).2 =
      .error (Error.Exception Corruption.invalidCookie) ∧
    (submitSegment sampleEnv sampleBadCookie 0 200 (WriteOutcome.returns true none)).1.calls =
      sampleBadCookie.calls :=
  ⟨by decide,
   (submitSegment_cookie_mismatch_iff sampleEnv sampleBadCookie 0 200
      (WriteOutcome.returns true none) sampleStream (by decide) (by decide) (by decide)
      (by decide) (by decide) (by decide)).1.mpr (by decide),
   ((submitSegment_cookie_mismatch_iff sampleEnv sampleBadCookie 0 200
      (WriteOutcome.returns true none) sampleStream (by decide) (by decide) (by decide)
      (by decide) (by decide) (by decide)).2 (by decide)).1⟩

theorem submitSegment_accepts_changed_sequenceNumber_witness :
    (0 < sampleHeld.getNumSegments ∧ (sampleHeld.seg 0).flags.readOnly = false ∧
      (sampleHeld.seg 0).flags.inUse = true ∧ (sampleHeld.seg 0).isSubmitted = false ∧
      sampleHeld.sharedControl 0 = (sampleHeld.seg 0).control ∧
      (sampleBadLink.sharedControl 0).link.sequenceNumber = 5 ∧
      (sampleBadLink.seg 0).sequenceNumber = 0) ∧
    (submitSegment sampleEnv sampleBadLink 0 200 (WriteOutcome.returns true none)).2 ≠
      .error (Error.Exception Corruption.invalidCookie) ∧
    (submitSegment sampleEnv sampleBadLink 0 200 (WriteOutcome.returns true none)).2 =
      .ok (true, none) :=
  ⟨by decide,
   submitSegment_accepts_changed_sequenceNumber sampleEnv sampleHeld 0 200
     (WriteOutcome.returns true none) sampleStream 5 (by decide) (by decide) (by decide)
     (by decide) (by decide) (by decide) (by decide) (by decide) (by decide) (by decide),
   by decide⟩

theorem submitSegment_entry_count_validation_witness :
    (0 < sampleWritten.getNumSegments ∧
      0 < (sampleWritten.sharedControl 0).rawEntryCount ∧
      sampleStream.type.variableEntrySize = false) ∧
    (((∃ w, (submitSegment sampleEnv sampleWritten 0 200
          (WriteOutcome.returns true (some sampleLocation))).2 = .error (Error.Exception w)) ∧
        (submitSegment sampleEnv sampleWritten 0 200
          (WriteOutcome.returns true (some sampleLocation))).1.calls = sampleWritten.calls) ∨
      ∃ b2 : ServerStreamBuffer,
        (b2.seg 0).control.entryCount = (b2.seg 0).control.rawEntryCount ∧
        (b2.seg 0).control.rawEntryCount = (sampleWritten.sharedControl 0).rawEntryCount ∧
        b2.calls = sampleWritten.calls ∧
        submitSegment sampleEnv sampleWritten 0 200
            (WriteOutcome.returns true (some sampleLocation)) =
          withSubmitCatch 0
            (b2.submitEncode sampleEnv 0 (WriteOutcome.returns true (some sampleLocation)))) :=
  ⟨by decide,
   (submitSegment_entry_count_validation sampleEnv sampleWritten 0 200
      (WriteOutcome.returns true (some sampleLocation)) sampleStream (by decide) (by decide)
      (by decide) (by decide) (by decide) (by decide) (by decide)).2 (by decide)⟩

/-! ## What `requestSegment` returns -/

theorem requestSegment_ok {env : Env} {b b' : ServerStreamBuffer} {stream : ServerStream}
    {sequenceNumber now id : Nat}
    (hres : requestSegment env b stream sequenceNumber now = (b', .ok id)) :
    ∃ c, b._requestSegment env (some stream) sequenceNumber SafNone none false now
      (ReadOutcome.returns true) = (b', .ok (id, c)) := by
  unfold requestSegment at hres
  split_ifs at hres
  · simp at hres
  · rcases hr : b._requestSegment env (some stream) sequenceNumber SafNone none false now
      (ReadOutcome.returns true) with ⟨b1, e | ⟨id1, c⟩⟩
    · rw [hr] at hres
      simp at hres
    · rw [hr] at hres
      simp only [Prod.mk.injEq, Except.ok.injEq] at hres
      exact ⟨c, by rw [hres.1, hres.2]⟩

/-- C4 as the code has it: in a reachable state, a `requestSegment(stream,
sqn)` that returns a valid segment id returns, when the standby index holds no
entry for (store, stream, sqn), a segment of the pool that is `InUse`, not
`ReadOnly`, not submitted, bound to (stream, sqn), whose private and shared
control elements agree, carry the link (stream id, sqn) and have
`entryCount = rawEntryCount = 0`. When the index holds an entry for the key,
the call returns the cached segment, taken out of the index and unlinked, with
the flags, owner and private control element it was cached with. -/
theorem requestSegment_returns (env : Env) (b b' : ServerStreamBuffer) (stream : ServerStream)
    (sequenceNumber now id : Nat)
    (hreach : Reachable env b)
    (hres : requestSegment env b stream sequenceNumber now = (b', .ok id))
    (hvalid : id ≠ INVALID_SEGMENT_ID) :
    (indexFind b.standbyIndex
        { store := stream.store, stream := stream.id, sequenceNumber := sequenceNumber } = none →
      id < b'.getNumSegments ∧ (b'.seg id).id = id ∧
      (b'.seg id).flags.inUse = true ∧ (b'.seg id).flags.readOnly = false ∧
      (b'.seg id).isSubmitted = false ∧
      (b'.seg id).stream = some stream ∧ (b'.seg id).sequenceNumber = sequenceNumber ∧
      (b'.seg id).control = b'.sharedControl id ∧
      (b'.sharedControl id).link = { stream := stream.id, sequenceNumber := sequenceNumber } ∧
      (b'.sharedControl id).entryCount = 0 ∧ (b'.sharedControl id).rawEntryCount = 0) ∧
    (∀ i, indexFind b.standbyIndex
        { store := stream.store, stream := stream.id, sequenceNumber := sequenceNumber } = some i →
      id = i ∧ (b'.seg i).flags = (b.seg i).flags ∧ (b'.seg i).control = (b.seg i).control ∧
      (b'.seg i).stream = (b.seg i).stream ∧
      (b'.seg i).sequenceNumber = (b.seg i).sequenceNumber ∧
      (b'.seg i).next = none ∧ (b'.seg i).prev = none ∧
      b'.standbyIndex = indexErase b.standbyIndex
        { store := stream.store, stream := stream.id, sequenceNumber := sequenceNumber }) := by
  obtain ⟨n, -, hv⟩ := hreach.validPool
  obtain ⟨c, hreq⟩ := requestSegment_ok hres
  unfold _requestSegment lookupStandby _removeStandbySegment _findStandbySegment at hreq
  simp only at hreq
  constructor
  · intro hmiss
    simp only [hmiss] at hreq
    unfold _tryAllocateFreeSegment at hreq
    rcases ha : tryAllocateLoop env (some stream) sequenceNumber false now env.retryCount 1 b
      with ⟨b2, _ | i⟩
    · rw [ha] at hreq
      simp only [Prod.mk.injEq, Except.ok.injEq] at hreq
      exact absurd hreq.2.1.symm hvalid
    · rw [ha] at hreq
      obtain ⟨hi, hv2, hid, hfl, hsub, -, hst, hsq, hctl, hshared, hec, -⟩ :=
        tryAllocateLoop_some env (some stream) sequenceNumber false now env.retryCount 1 b b2 i
          hv (by rw [hv.1.1, hv.2]) ha
      simp only [requestFresh, Prod.mk.injEq, Except.ok.injEq] at hreq
      obtain ⟨hb', hid', -⟩ := hreq
      have hi2 : i < b2.getNumSegments := by rw [hv2.2]; exact hi
      by_cases hcache : b2.enableCache = true
      · simp only [hcache, if_true] at hb' hid'
        rw [seg_setSeg_self _ _ _ hi2] at hid'
        simp only at hid'
        rw [hid] at hid'
        subst hid'
        rw [← hb', seg_setSeg_self _ _ _ hi2]
        simp only [getNumSegments_setSeg, sharedControl_setSeg, hfl, hshared]
        exact ⟨hi2, hid, rfl, rfl, hsub, hst, hsq, by rw [hctl, hshared], rfl, rfl, rfl⟩
      · simp only [hcache, if_false, Bool.false_eq_true] at hb' hid'
        rw [hid] at hid'
        subst hid'
        rw [← hb']
        simp only [hfl, hshared]
        exact ⟨hi2, hid, rfl, rfl, hsub, hst, hsq, by rw [hctl, hshared], rfl, rfl, rfl⟩
  · intro i hhit
    simp only [hhit, if_true, Prod.mk.injEq, Except.ok.injEq] at hreq
    obtain ⟨hb', hid', -⟩ := hreq
    obtain ⟨e, he, hei⟩ := indexFind_mem _ _ _ hhit
    have hi : i < b.getNumSegments := by rw [← hei]; exact hv.1.2.2.2.2.2.2 e he
    have hv1 : ValidPool n ((b.setStandbyIndex (indexErase b.standbyIndex
        { store := stream.store, stream := stream.id,
          sequenceNumber := sequenceNumber }))._dequeueFromStandbyList i) := by
      have h0 : ValidPool n (b.setStandbyIndex (indexErase b.standbyIndex
          { store := stream.store, stream := stream.id, sequenceNumber := sequenceNumber })) :=
        ⟨hv.1.setStandbyIndex _ (fun e he => hv.1.2.2.2.2.2.2 e (List.mem_of_mem_filter he)),
         hv.2⟩
      exact ⟨(dequeueFromStandbyList_valid h0.1 i).1,
        (dequeueFromStandbyList_valid h0.1 i).2.trans h0.2⟩
    have hf := dequeueFromStandbyList_fields (b.setStandbyIndex (indexErase b.standbyIndex
        { store := stream.store, stream := stream.id, sequenceNumber := sequenceNumber })) i i
    have hs := dequeueFromStandbyList_self (b.setStandbyIndex (indexErase b.standbyIndex
        { store := stream.store, stream := stream.id, sequenceNumber := sequenceNumber })) i hi
    have hfr := dequeueFromStandbyList_frame (b.setStandbyIndex (indexErase b.standbyIndex
        { store := stream.store, stream := stream.id, sequenceNumber := sequenceNumber })) i
    rw [hb'] at hv1 hf hs hfr hid'
    refine ⟨?_, hf.1, hf.2.1, hf.2.2.1, hf.2.2.2.1, hs.1, hs.2.1, hfr.2.2.2.1⟩
    rw [← hid']
    exact hv1.id_eq (by rw [← hv.2]; exact hi)

/-- C4 fails as stated: `sampleCached` is reachable (create, `requestSegment`
for sequence number 0, one entry written by the client, `submitSegment` with
an encoder that completes with a location) and its standby cache holds
(store 1, stream 7, sqn 0). `requestSegment` for sequence number 0 returns the
valid id 0 of the cached segment, which is `ReadOnly` and whose control
element has `entryCount = rawEntryCount = 1`. -/
theorem requestSegment_cached_counterexample :
    Reachable sampleEnv sampleCached ∧
    (requestSegment sampleEnv sampleCached sampleStream 0 300).2 = .ok 0 ∧
    0 ≠ INVALID_SEGMENT_ID ∧
    ((requestSegment sampleEnv sampleCached sampleStream 0 300).1.seg 0).flags.readOnly = true ∧
    ((requestSegment sampleEnv sampleCached sampleStream 0 300).1.seg 0).control.entryCount = 1 ∧
    ((requestSegment sampleEnv sampleCached sampleStream 0 300).1.seg 0).control.rawEntryCount
      = 1 :=
  ⟨Reachable.submitSegment sampleWritten 0 200 (WriteOutcome.returns true (some sampleLocation))
     (Reachable.clientWriteControl sampleHeld 0 _
       (Reachable.requestSegment samplePool sampleStream 0 100
         (Reachable.create 12345 1024 2 true (by decide)))),
   by decide, by decide, by decide, by decide, by decide⟩

theorem requestSegment_returns_witness :
    (Reachable sampleEnv samplePool ∧
      requestSegment sampleEnv samplePool sampleStream 0 100 = (sampleHeld, .ok 0) ∧
      0 ≠ INVALID_SEGMENT_ID ∧
      indexFind samplePool.standbyIndex
        { store := sampleStream.store, stream := sampleStream.id, sequenceNumber := 0 } = none) ∧
    (sampleHeld.seg 0).flags.readOnly = false ∧
    (sampleHeld.seg 0).stream = some sampleStream ∧
    (sampleHeld.seg 0).sequenceNumber = 0 ∧
    (sampleHeld.sharedControl 0).entryCount = 0 ∧
    (sampleHeld.sharedControl 0).rawEntryCount = 0 :=
  ⟨⟨Reachable.create 12345 1024 2 true (by decide), by decide, by decide, by decide⟩,
   ((requestSegment_returns sampleEnv samplePool sampleHeld sampleStream 0 100 0
      (Reachable.create 12345 1024 2 true (by decide)) (by decide) (by decide)).1
      (by decide)).2.2.2.1,
   ((requestSegment_returns sampleEnv samplePool sampleHeld sampleStream 0 100 0
      (Reachable.create 12345 1024 2 true (by decide)) (by decide) (by decide)).1
      (by decide)).2.2.2.2.2.1,
   ((requestSegment_returns sampleEnv samplePool sampleHeld sampleStream 0 100 0
      (Reachable.create 12345 1024 2 true (by decide)) (by decide) (by decide)).1
      (by decide)).2.2.2.2.2.2.1,
   ((requestSegment_returns sampleEnv samplePool sampleHeld sampleStream 0 100 0
      (Reachable.create 12345 1024 2 true (by decide)) (by decide) (by decide)).1
      (by decide)).2.2.2.2.2.2.2.2.2.1,
   ((requestSegment_returns sampleEnv samplePool sampleHeld sampleStream 0 100 0
      (Reachable.create 12345 1024 2 true (by decide)) (by decide) (by decide)).1
      (by decide)).2.2.2.2.2.2.2.2.2.2⟩

/-! ## Rings and chains of segments -/

theorem linkedPath_congr {b b1 : ServerStreamBuffer} :
    ∀ {l : List Nat} {x y : Nat}, b.LinkedPath x l y →
      (∀ j, j ∈ x :: l → (b1.seg j).next = (b.seg j).next) →
      (∀ j, j ∈ l ++ [y] → (b1.seg j).prev = (b.seg j).prev) → b1.LinkedPath x l y := by
  intro l
  induction l with
  | nil =>
    intro x y h hn hp
    exact ⟨(hn x (by simp)).trans h.1, (hp y (by simp)).trans h.2⟩
  | cons z l ih =>
    intro x y h hn hp
    refine ⟨⟨(hn x (by simp)).trans h.1.1, (hp z (by simp)).trans h.1.2⟩, ?_⟩
    exact ih h.2 (fun j hj => hn j (List.mem_cons_of_mem _ hj))
      (fun j hj => hp j (by simpa using Or.inr (by simpa using hj)))

theorem linkedPath_append_iff (b : ServerStreamBuffer) :
    ∀ (l1 : List Nat) (x z : Nat) (l2 : List Nat) (y : Nat),
      b.LinkedPath x (l1 ++ z :: l2) y ↔ b.LinkedPath x l1 z ∧ b.LinkedPath z l2 y := by
  intro l1
  induction l1 with
  | nil => intro x z l2 y; exact Iff.rfl
  | cons a l1 ih =>
    intro x z l2 y
    show b.Linked x a ∧ b.LinkedPath a (l1 ++ z :: l2) y ↔
      (b.Linked x a ∧ b.LinkedPath a l1 z) ∧ b.LinkedPath z l2 y
    rw [ih, and_assoc]

theorem linkedRing_rotate_iff (b : ServerStreamBuffer) (l1 l2 : List Nat) :
    b.LinkedRing (l1 ++ l2) ↔ b.LinkedRing (l2 ++ l1) := by
  cases l1 with
  | nil => simp
  | cons a l1 =>
    cases l2 with
    | nil => simp
    | cons c l2 =>
      simp only [List.cons_append, ServerStreamBuffer.LinkedRing, linkedPath_append_iff]
      exact and_comm

theorem linkedPath_next_eq {b : ServerStreamBuffer} {l : List Nat} {x y : Nat}
    (h : b.LinkedPath x l y) : (b.seg x).next = some (l.headD y) := by
  cases l with
  | nil => exact h.1
  | cons z l => exact h.1.1

theorem linkedPath_prev_eq {b : ServerStreamBuffer} :
    ∀ {l : List Nat} {x y : Nat}, b.LinkedPath x l y →
      (b.seg y).prev = some (l.getLastD x) := by
  intro l
  induction l with
  | nil => intro x y h; exact h.2
  | cons z l ih =>
    intro x y h
    rw [List.getLastD_cons]
    exact ih h.2

theorem getLastD_mem (l : List Nat) (z : Nat) : l.getLastD z ∈ z :: l := by
  induction l generalizing z with
  | nil => simp
  | cons a l ih =>
    rw [List.getLastD_cons]
    exact List.mem_cons_of_mem _ (ih a)

/-- The end of a path is moved from `y` to `y1` by the assignments
`last->next = y1` and `y1->prev = last`. -/
theorem linkedPath_retarget {b b1 : ServerStreamBuffer} {y1 : Nat} :
    ∀ {l : List Nat} {x y : Nat}, b.LinkedPath x l y → (x :: l).Nodup →
      (∀ j, j ∈ x :: l → j ≠ l.getLastD x → (b1.seg j).next = (b.seg j).next) →
      (∀ j, j ∈ l → (b1.seg j).prev = (b.seg j).prev) →
      (b1.seg (l.getLastD x)).next = some y1 →
      (b1.seg y1).prev = some (l.getLastD x) → b1.LinkedPath x l y1 := by
  intro l
  induction l with
  | nil =>
    intro x y _ _ _ _ hl hy
    exact ⟨hl, hy⟩
  | cons z l ih =>
    intro x y h hnd hn hp hl hy
    rw [List.getLastD_cons] at hl hy hn
    have hx : x ≠ l.getLastD z := by
      intro hx
      exact (List.nodup_cons.mp hnd).1 (hx ▸ getLastD_mem l z)
    refine ⟨⟨(hn x (by simp) hx).trans h.1.1, (hp z (by simp)).trans h.1.2⟩, ?_⟩
    exact ih h.2 (List.nodup_cons.mp hnd).2
      (fun j hj hne => hn j (List.mem_cons_of_mem _ hj) hne)
      (fun j hj => hp j (List.mem_cons_of_mem _ hj)) hl hy

/-! ### The lists read off the pointers -/

theorem walkNext_linkedPath {b : ServerStreamBuffer} :
    ∀ {l : List Nat} {x y : Nat} (fuel : Nat), b.LinkedPath x l y → y ∉ l →
      l.length < fuel → b.walkNext (some y) fuel (some x) = x :: l := by
  intro l
  induction l with
  | nil =>
    intro x y fuel h _ hf
    cases fuel with
    | zero => omega
    | succ fuel => simp [walkNext, h.1]
  | cons z l ih =>
    intro x y fuel h hy hf
    cases fuel with
    | zero => omega
    | succ fuel =>
      have hne : (b.seg x).next ≠ some y := by
        rw [h.1.1]
        intro hc
        simp only [Option.some.injEq] at hc
        exact hy (by simp [hc])
      have hw := ih fuel h.2 (fun hc => hy (List.mem_cons_of_mem _ hc)) (by simpa using hf)
      simp only [walkNext, hne, if_false]
      rw [h.1.1, hw]

theorem walkNext_freeChain {b : ServerStreamBuffer} :
    ∀ {l : List Nat} {p : Option Nat} (fuel : Nat), b.FreeChain p l →
      l.length ≤ fuel → b.walkNext none fuel p = l := by
  intro l
  induction l with
  | nil =>
    intro p fuel h _
    rw [show p = none from h]
    cases fuel <;> rfl
  | cons i l ih =>
    intro p fuel h hf
    cases fuel with
    | zero => simp at hf
    | succ fuel =>
      rw [h.1]
      simp only [walkNext]
      cases l with
      | nil =>
        have : (b.seg i).next = none := h.2
        simp [this]
      | cons k l =>
        have hk : (b.seg i).next = some k := h.2.1
        have hne : (b.seg i).next ≠ none := by rw [hk]; simp
        simp only [hne, if_false]
        rw [ih fuel h.2 (by simpa using hf)]

theorem length_le_of_nodup_lt {l : List Nat} {n : Nat} (hnd : l.Nodup)
    (hlt : ∀ i, i ∈ l → i < n) : l.length ≤ n := by
  have h := (List.subperm_of_subset hnd
    (fun i hi => List.mem_range.mpr (hlt i hi))).length_le
  simpa using h

theorem listL_standbyList {b : ServerStreamBuffer} {ls : List Nat} (h : b.ListL ls) :
    b.standbyList = ls := by
  unfold standbyList
  cases ls with
  | nil =>
    have : b.standbyHead = none := h.head
    rw [this]
    cases b.getNumSegments <;> rfl
  | cons x l =>
    have hh : b.standbyHead = some x := h.head
    rw [hh]
    have hlen := length_le_of_nodup_lt h.nodup h.lt
    exact walkNext_linkedPath _ h.cycle (List.nodup_cons.mp h.nodup).1
      (by simpa using hlen)

theorem freeL_freeList {b : ServerStreamBuffer} {lf : List Nat} (h : b.FreeL lf) :
    b.freeList = lf :=
  walkNext_freeChain _ h.chain (length_le_of_nodup_lt h.nodup h.lt)

/-! ### The pointers after `_dequeueFromStandbyList` and `_enqueueToStandbyList` -/

theorem seg_modifyAt (b : ServerStreamBuffer) (p : Option Nat) (f : Segment → Segment)
    (k : Nat) :
    (b.modifyAt p f).seg k =
      if p = some k ∧ k < b.getNumSegments then f (b.seg k) else b.seg k := by
  cases p with
  | none => simp [ServerStreamBuffer.modifyAt]
  | some i =>
    simp only [ServerStreamBuffer.modifyAt, seg_setSeg, Option.some.injEq]
    by_cases hk : k = i
    · subst hk; simp
    · have : ¬ i = k := fun h => hk h.symm
      simp [hk, this]

theorem next_modifyAt_next (b : ServerStreamBuffer) (p v : Option Nat) (k : Nat) :
    ((b.modifyAt p (fun s => { s with next := v })).seg k).next =
      if p = some k ∧ k < b.getNumSegments then v else (b.seg k).next := by
  rw [seg_modifyAt]; split_ifs <;> rfl

theorem prev_modifyAt_next (b : ServerStreamBuffer) (p v : Option Nat) (k : Nat) :
    ((b.modifyAt p (fun s => { s with next := v })).seg k).prev = (b.seg k).prev := by
  rw [seg_modifyAt]; split_ifs <;> rfl

theorem next_modifyAt_prev (b : ServerStreamBuffer) (p v : Option Nat) (k : Nat) :
    ((b.modifyAt p (fun s => { s with prev := v })).seg k).next = (b.seg k).next := by
  rw [seg_modifyAt]; split_ifs <;> rfl

theorem prev_modifyAt_prev (b : ServerStreamBuffer) (p v : Option Nat) (k : Nat) :
    ((b.modifyAt p (fun s => { s with prev := v })).seg k).prev =
      if p = some k ∧ k < b.getNumSegments then v else (b.seg k).prev := by
  rw [seg_modifyAt]; split_ifs <;> rfl

theorem standbyHead_modifyAt (b : ServerStreamBuffer) (p : Option Nat)
    (f : Segment → Segment) : (b.modifyAt p f).standbyHead = b.standbyHead := by
  cases p <;> rfl

theorem dequeueFromStandbyList_single (b : ServerStreamBuffer) (i : Nat)
    (hn : (b.seg i).next = some i) :
    b._dequeueFromStandbyList i =
      (b.setStandbyHead none).setSeg i
        { b.seg i with isSubmitted := false, next := none, prev := none } := by
  unfold _dequeueFromStandbyList
  simp [hn]

theorem dequeueFromStandbyList_links (b : ServerStreamBuffer) (i p q : Nat)
    (hi : i < b.getNumSegments) (hp : p < b.getNumSegments) (hq : q < b.getNumSegments)
    (hnext : (b.seg i).next = some q) (hprev : (b.seg i).prev = some p)
    (hqi : q ≠ i) (hpi : p ≠ i) :
    ((b._dequeueFromStandbyList i).standbyHead =
      if b.standbyHead = some i then some q else b.standbyHead) ∧
    (∀ j, ((b._dequeueFromStandbyList i).seg j).next =
      if j = i then none else if j = p then some q else (b.seg j).next) ∧
    (∀ j, ((b._dequeueFromStandbyList i).seg j).prev =
      if j = i then none else if j = q then some p else (b.seg j).prev) := by
  have hne : (b.seg i).next ≠ some i := by
    rw [hnext]; simpa using hqi
  unfold _dequeueFromStandbyList
  simp only [hne, if_false]
  -- the state after `segment.prev->next = segment.next`
  have n1 := next_modifyAt_next b (b.seg i).prev (b.seg i).next
  have p1 := prev_modifyAt_next b (b.seg i).prev (b.seg i).next
  have h1 := standbyHead_modifyAt b (b.seg i).prev (fun s => { s with next := (b.seg i).next })
  have g1 := getNumSegments_modifyAt b (b.seg i).prev
    (fun s => { s with next := (b.seg i).next })
  generalize b.modifyAt (b.seg i).prev (fun s => { s with next := (b.seg i).next }) = b1
    at n1 p1 h1 g1 ⊢
  have n1i : (b1.seg i).next = some q := by
    rw [n1, hprev, hnext]; simp [Ne.symm hpi]
  have p1i : (b1.seg i).prev = some p := by rw [p1, hprev]
  -- the state after `segment.next->prev = segment.prev`
  have n2 := next_modifyAt_prev b1 (b1.seg i).next (b1.seg i).prev
  have p2 := prev_modifyAt_prev b1 (b1.seg i).next (b1.seg i).prev
  have h2 := standbyHead_modifyAt b1 (b1.seg i).next (fun s => { s with prev := (b1.seg i).prev })
  have g2 := getNumSegments_modifyAt b1 (b1.seg i).next
    (fun s => { s with prev := (b1.seg i).prev })
  generalize b1.modifyAt (b1.seg i).next (fun s => { s with prev := (b1.seg i).prev }) = b2
    at n2 p2 h2 g2 ⊢
  have n2i : (b2.seg i).next = some q := by rw [n2, n1i]
  have hh : b2.standbyHead = b.standbyHead := h2.trans h1
  have hg : b2.getNumSegments = b.getNumSegments := g2.trans g1
  have hnx : ∀ j, (b2.seg j).next = if j = p then some q else (b.seg j).next := by
    intro j
    rw [n2, n1, hprev, hnext]
    by_cases hjp : j = p
    · subst hjp; simp [hp]
    · have : ¬ p = j := fun h => hjp h.symm
      simp [hjp, this]
  have hpv : ∀ j, (b2.seg j).prev = if j = q then some p else (b.seg j).prev := by
    intro j
    rw [p2]
    simp only [n1i, p1, hprev, g1, Option.some.injEq]
    by_cases hjq : j = q
    · subst hjq; simp [hq]
    · have : ¬ q = j := fun h => hjq h.symm
      simp [hjq, this]
  have s3 : ∀ j, (if some i = b2.standbyHead then b2.setStandbyHead (b2.seg i).next
      else b2).seg j = b2.seg j := by
    intro j; split_ifs <;> rfl
  have g3 : (if some i = b2.standbyHead then b2.setStandbyHead (b2.seg i).next
      else b2).getNumSegments = b.getNumSegments := by
    split_ifs <;> simpa using hg
  have h3 : (if some i = b2.standbyHead then b2.setStandbyHead (b2.seg i).next
      else b2).standbyHead = if b.standbyHead = some i then some q else b.standbyHead := by
    by_cases hc : b.standbyHead = some i
    · have hc2 : some i = b2.standbyHead := by rw [hh, hc]
      rw [if_pos hc2, if_pos hc]
      exact n2i
    · have hc2 : ¬ some i = b2.standbyHead := by rw [hh]; exact fun h => hc h.symm
      rw [if_neg hc2, if_neg hc]
      exact hh
  generalize (if some i = b2.standbyHead then b2.setStandbyHead (b2.seg i).next else b2) = b3
    at s3 g3 h3 ⊢
  refine ⟨h3, ?_, ?_⟩
  · intro j
    rw [seg_setSeg, g3]
    by_cases hji : j = i
    · simp [hji, hi]
    · simp only [hji, false_and, if_false, s3, hnx]
  · intro j
    rw [seg_setSeg, g3]
    by_cases hji : j = i
    · simp [hji, hi]
    · simp only [hji, false_and, if_false, s3, hpv]

theorem dequeueFromStandbyList_valid_size (b : ServerStreamBuffer) (i : Nat) :
    (b._dequeueFromStandbyList i).getNumSegments = b.getNumSegments := by
  unfold _dequeueFromStandbyList
  simp only
  split_ifs <;> simp [getNumSegments_modifyAt]

theorem enqueueToStandbyList_empty (b : ServerStreamBuffer) (i : Nat)
    (hh : b.standbyHead = none) :
    b._enqueueToStandbyList i =
      (b.setSeg i { b.seg i with next := some i, prev := some i }).setStandbyHead (some i) := by
  unfold _enqueueToStandbyList
  simp [hh]

theorem enqueueToStandbyList_links (b : ServerStreamBuffer) (i h l : Nat)
    (hi : i < b.getNumSegments) (hh : h < b.getNumSegments) (hl : l < b.getNumSegments)
    (hhead : b.standbyHead = some h) (hprev : (b.seg h).prev = some l)
    (hih : i ≠ h) (hil : i ≠ l) :
    ((b._enqueueToStandbyList i).standbyHead =
      if !(b.seg i).flags.lowPriority || (b.seg i).flags.prefetch then some i else some h) ∧
    (∀ j, ((b._enqueueToStandbyList i).seg j).next =
      if j = i then some h else if j = l then some i else (b.seg j).next) ∧
    (∀ j, ((b._enqueueToStandbyList i).seg j).prev =
      if j = i then some l else if j = h then some i else (b.seg j).prev) ∧
    (b._enqueueToStandbyList i).getNumSegments = b.getNumSegments := by
  unfold _enqueueToStandbyList
  simp only [hhead]
  -- `segment.next = _standbyHead; segment.prev = _standbyHead->prev`
  have s1 : ∀ j, (b.setSeg i { b.seg i with next := some h, prev := (b.seg h).prev }).seg j =
      if j = i then { b.seg i with next := some h, prev := some l } else b.seg j := by
    intro j
    rw [seg_setSeg, hprev]
    simp [hi]
  have g1 : (b.setSeg i { b.seg i with next := some h, prev := (b.seg h).prev }).getNumSegments
      = b.getNumSegments := getNumSegments_setSeg _ _ _
  have h1 : (b.setSeg i { b.seg i with next := some h, prev := (b.seg h).prev }).standbyHead
      = b.standbyHead := rfl
  generalize b.setSeg i { b.seg i with next := some h, prev := (b.seg h).prev } = b1
    at s1 g1 h1 ⊢
  have s1h : (b1.seg h).prev = some l := by
    rw [s1, if_neg (Ne.symm hih)]; exact hprev
  -- `_standbyHead->prev->next = &segment`
  have n2 := next_modifyAt_next b1 (b1.seg h).prev (some i)
  have p2 := prev_modifyAt_next b1 (b1.seg h).prev (some i)
  have f2 : ∀ j, ((b1.modifyAt (b1.seg h).prev (fun s => { s with next := some i })).seg j).flags
      = (b1.seg j).flags := by
    intro j; rw [seg_modifyAt]; split_ifs <;> rfl
  have g2 := getNumSegments_modifyAt b1 (b1.seg h).prev (fun s => { s with next := some i })
  have h2 := standbyHead_modifyAt b1 (b1.seg h).prev (fun s => { s with next := some i })
  generalize b1.modifyAt (b1.seg h).prev (fun s => { s with next := some i }) = b2
    at n2 p2 f2 g2 h2 ⊢
  -- `_standbyHead->prev = &segment`
  have n3 := next_modifyAt_prev b2 (some h) (some i)
  have p3 := prev_modifyAt_prev b2 (some h) (some i)
  have f3 : ∀ j, ((b2.modifyAt (some h) (fun s => { s with prev := some i })).seg j).flags
      = (b2.seg j).flags := by
    intro j; rw [seg_modifyAt]; split_ifs <;> rfl
  have g3 := getNumSegments_modifyAt b2 (some h) (fun s => { s with prev := some i })
  have e3 : b2.modifyAt (some h) (fun s => { s with prev := some i }) =
      b2.setSeg h { b2.seg h with prev := some i } := rfl
  rw [e3] at n3 p3 f3 g3
  have h3 : (b2.setSeg h { b2.seg h with prev := some i }).standbyHead = b2.standbyHead := rfl
  generalize b2.setSeg h { b2.seg h with prev := some i } = b3 at n3 p3 f3 g3 h3 ⊢
  have hg : b3.getNumSegments = b.getNumSegments := g3.trans (g2.trans g1)
  have hfl : (b3.seg i).flags = (b.seg i).flags := by
    rw [f3, f2, s1, if_pos rfl]
  have hnx : ∀ j, (b3.seg j).next =
      if j = i then some h else if j = l then some i else (b.seg j).next := by
    intro j
    rw [n3, n2, s1h, g1, s1]
    by_cases hji : j = i
    · subst hji
      have : ¬ l = j := fun hc => hil hc.symm
      simp [this]
    · by_cases hjl : j = l
      · subst hjl; simp [hji, hl]
      · have : ¬ l = j := fun hc => hjl hc.symm
        simp [hji, hjl, this]
  have hpv : ∀ j, (b3.seg j).prev =
      if j = i then some l else if j = h then some i else (b.seg j).prev := by
    intro j
    rw [p3, p2, g2, g1, s1]
    by_cases hji : j = i
    · subst hji
      have : ¬ h = j := fun hc => hih hc.symm
      simp [this]
    · by_cases hjh : j = h
      · subst hjh; simp [hji, hh]
      · have : ¬ h = j := fun hc => hjh hc.symm
        simp [hji, hjh, this]
  rw [hfl]
  by_cases hc : (!(b.seg i).flags.lowPriority || (b.seg i).flags.prefetch) = true
  · simp only [hc, if_true]
    refine ⟨rfl, ?_, ?_, by simpa using hg⟩
    · intro j
      rw [seg_setSeg, seg_setStandbyHead, ← hnx j]
      by_cases hji : j = i
      · subst hji; simp [hg, hi]
      · simp [hji]
    · intro j
      rw [seg_setSeg, seg_setStandbyHead, ← hpv j]
      by_cases hji : j = i
      · subst hji; simp [hg, hi]
      · simp [hji]
  · simp only [hc, if_false]
    exact ⟨h3.trans (h2.trans (h1.trans hhead)), hnx, hpv, hg⟩

/-! ### The standby list after a removal and after an insertion -/

theorem listL_frame {b b1 : ServerStreamBuffer} {ls : List Nat} (h : b.ListL ls)
    (hg : b1.getNumSegments = b.getNumSegments) (hh : b1.standbyHead = b.standbyHead)
    (hn : ∀ j, j ∈ ls → (b1.seg j).next = (b.seg j).next)
    (hp : ∀ j, j ∈ ls → (b1.seg j).prev = (b.seg j).prev) : b1.ListL ls := by
  refine ⟨fun i hi => hg ▸ h.lt i hi, h.nodup, hh.trans h.head, ?_⟩
  cases ls with
  | nil => trivial
  | cons x l =>
    exact linkedPath_congr h.cycle hn
      (fun j hj => hp j (by
        rcases List.mem_append.mp hj with hj | hj
        · exact List.mem_cons_of_mem _ hj
        · simp only [List.mem_singleton] at hj
          rw [hj]; exact List.mem_cons_self _ _))

theorem listL_nil {b : ServerStreamBuffer} (h : b.standbyHead = none) : b.ListL [] :=
  ⟨fun _ hi => absurd hi (List.not_mem_nil _), List.nodup_nil, h, trivial⟩

/-- The ring seen from one of its members. -/
theorem listL_split {b : ServerStreamBuffer} {ls : List Nat} (h : b.ListL ls) {i : Nat}
    (hi : i ∈ ls) :
    ∃ pre post, ls = pre ++ i :: post ∧ i ∉ pre ∧ i ∉ post ∧
      b.LinkedPath i (post ++ pre) i ∧ (i :: (post ++ pre)).Nodup := by
  obtain ⟨pre, post, hls⟩ := List.append_of_mem hi
  have hnd := h.nodup
  rw [hls] at hnd
  have hnd2 : (i :: (post ++ pre)).Nodup := by
    have := List.nodup_append_comm.mp hnd
    simpa [List.cons_append] using this
  have hipre : i ∉ pre := fun hc =>
    (List.nodup_cons.mp hnd2).1 (List.mem_append_right _ hc)
  have hipost : i ∉ post := fun hc =>
    (List.nodup_cons.mp hnd2).1 (List.mem_append_left _ hc)
  refine ⟨pre, post, hls, hipre, hipost, ?_, hnd2⟩
  have hc := h.cycle
  rw [hls, linkedRing_rotate_iff] at hc
  exact hc

theorem erase_split {pre post : List Nat} {i : Nat} (hi : i ∉ pre) :
    (pre ++ i :: post).erase i = pre ++ post := by
  rw [List.erase_append_right _ hi]
  simp

theorem listL_dequeue {b : ServerStreamBuffer} {ls : List Nat} (h : b.ListL ls) {i : Nat}
    (hi : i ∈ ls) : (b._dequeueFromStandbyList i).ListL (ls.erase i) := by
  obtain ⟨pre, post, hls, hipre, hipost, hpath, hnd⟩ := listL_split h hi
  have hlt := h.lt
  have herase : ls.erase i = pre ++ post := by rw [hls]; exact erase_split hipre
  rw [herase]
  have hiN : i < b.getNumSegments := hlt i hi
  have hsub : ∀ j, j ∈ pre ++ post → j ∈ ls := by
    intro j hj
    rw [hls]
    rcases List.mem_append.mp hj with hj | hj
    · exact List.mem_append_left _ hj
    · exact List.mem_append_right _ (List.mem_cons_of_mem _ hj)
  have hnd' : (pre ++ post).Nodup := by
    have := (List.nodup_cons.mp hnd).2
    exact List.nodup_append_comm.mp this
  cases hr : post ++ pre with
  | nil =>
    have hpost : post = [] := (List.append_eq_nil.mp hr).1
    have hpre : pre = [] := (List.append_eq_nil.mp hr).2
    rw [hr] at hpath
    rw [dequeueFromStandbyList_single b i hpath.1, hpost, hpre]
    exact listL_nil rfl
  | cons q r =>
    rw [hr] at hpath hnd
    have hq : q ∈ ls := hsub q (by
      have : q ∈ post ++ pre := by rw [hr]; exact List.mem_cons_self _ _
      rcases List.mem_append.mp this with hx | hx
      · exact List.mem_append_right _ hx
      · exact List.mem_append_left _ hx)
    have hnext : (b.seg i).next = some q := hpath.1.1
    have hprev : (b.seg i).prev = some (r.getLastD q) := by
      have := linkedPath_prev_eq hpath
      rwa [List.getLastD_cons] at this
    have hpmem : r.getLastD q ∈ q :: r := getLastD_mem r q
    have hqr_sub : ∀ j, j ∈ q :: r → j ∈ ls ∧ j ≠ i := by
      intro j hj
      have hj' : j ∈ post ++ pre := by rw [hr]; exact hj
      refine ⟨hsub j ?_, ?_⟩
      · rcases List.mem_append.mp hj' with hx | hx
        · exact List.mem_append_right _ hx
        · exact List.mem_append_left _ hx
      · intro hc
        exact (List.nodup_cons.mp hnd).1 (hc ▸ hj)
    have hqi : q ≠ i := (hqr_sub q (List.mem_cons_self _ _)).2
    have hpi : r.getLastD q ≠ i := (hqr_sub _ hpmem).2
    obtain ⟨hhead, hnx, hpv⟩ := dequeueFromStandbyList_links b i (r.getLastD q) q hiN
      (hlt _ (hqr_sub _ hpmem).1) (hlt _ hq) hnext hprev hqi hpi
    have hring : (b._dequeueFromStandbyList i).LinkedRing (post ++ pre) := by
      rw [hr]
      have hndqr : (q :: r).Nodup := (List.nodup_cons.mp hnd).2
      refine linkedPath_retarget hpath.2 hndqr ?_ ?_ ?_ ?_
      · intro j hj hne
        rw [hnx, if_neg (hqr_sub j hj).2, if_neg hne]
      · intro j hj
        have hjq : j ≠ q := fun hc => (List.nodup_cons.mp hndqr).1 (hc ▸ hj)
        rw [hpv, if_neg (hqr_sub j (List.mem_cons_of_mem _ hj)).2, if_neg hjq]
      · rw [hnx, if_neg hpi, if_pos rfl]
      · rw [hpv, if_neg hqi, if_pos rfl]
    refine ⟨fun j hj => ?_, hnd', ?_, (linkedRing_rotate_iff _ _ _).mp hring⟩
    · have := (dequeueFromStandbyList_valid_size b i)
      rw [this]; exact hlt j (hsub j hj)
    · rw [hhead]
      have hbh := h.head
      rw [hls] at hbh
      cases pre with
      | nil =>
        simp only [List.nil_append, List.head?_cons] at hbh
        simp only [List.append_nil] at hr
        rw [if_pos hbh, List.nil_append, hr]
        rfl
      | cons x pre =>
        simp only [List.cons_append, List.head?_cons] at hbh
        have hxi : x ≠ i := fun hc => hipre (hc ▸ List.mem_cons_self _ _)
        rw [if_neg (by rw [hbh]; simpa using hxi), hbh]
        rfl

theorem getNumSegments_enqueueToStandbyList (b : ServerStreamBuffer) (i : Nat) :
    (b._enqueueToStandbyList i).getNumSegments = b.getNumSegments := by
  unfold _enqueueToStandbyList
  cases b.standbyHead with
  | none => simp
  | some h =>
    simp only
    split_ifs <;> simp [getNumSegments_modifyAt]

/-- The standby list after `_enqueueToStandbyList(segment)`: the segment is
the new head, unless it is `LowPriority` and not `Prefetch`, when it is the new
tail. -/
theorem listL_enqueue {b : ServerStreamBuffer} {ls : List Nat} (h : b.ListL ls) {i : Nat}
    (hi : i < b.getNumSegments) (hni : i ∉ ls) :
    (b._enqueueToStandbyList i).ListL
      (if !(b.seg i).flags.lowPriority || (b.seg i).flags.prefetch then i :: ls
       else ls ++ [i]) := by
  cases ls with
  | nil =>
    have hh : b.standbyHead = none := h.head
    rw [enqueueToStandbyList_empty b i hh]
    have : (if (!(b.seg i).flags.lowPriority || (b.seg i).flags.prefetch) = true then [i]
        else [] ++ [i]) = [i] := by split_ifs <;> rfl
    rw [this]
    refine ⟨?_, List.nodup_singleton _, rfl, ?_⟩
    · intro j hj
      simp only [List.mem_singleton] at hj
      rw [hj]; simpa using hi
    · show ServerStreamBuffer.Linked _ i i
      unfold ServerStreamBuffer.Linked
      rw [seg_setStandbyHead, seg_setSeg_self _ _ _ hi]
      exact ⟨rfl, rfl⟩
  | cons x t =>
    have hhead : b.standbyHead = some x := h.head
    have hpath : b.LinkedPath x t x := h.cycle
    have hprev : (b.seg x).prev = some (t.getLastD x) := linkedPath_prev_eq hpath
    have hlmem : t.getLastD x ∈ x :: t := getLastD_mem t x
    have hix : i ≠ x := fun hc => hni (hc ▸ List.mem_cons_self _ _)
    have hil : i ≠ t.getLastD x := fun hc => hni (hc ▸ hlmem)
    obtain ⟨hh', hnx, hpv, hg⟩ := enqueueToStandbyList_links b i x (t.getLastD x) hi
      (h.lt x (List.mem_cons_self _ _)) (h.lt _ hlmem) hhead hprev hix hil
    have hne : ∀ j, j ∈ x :: t → j ≠ i := fun j hj hc => hni (hc ▸ hj)
    have hp1 : (b._enqueueToStandbyList i).LinkedPath x t i := by
      refine linkedPath_retarget hpath h.nodup ?_ ?_ ?_ ?_
      · intro j hj hjl
        rw [hnx, if_neg (hne j hj), if_neg hjl]
      · intro j hj
        have hjx : j ≠ x := fun hc => (List.nodup_cons.mp h.nodup).1 (hc ▸ hj)
        rw [hpv, if_neg (hne j (List.mem_cons_of_mem _ hj)), if_neg hjx]
      · rw [hnx, if_neg (Ne.symm hil), if_pos rfl]
      · rw [hpv, if_pos rfl]
    have hl1 : (b._enqueueToStandbyList i).Linked i x := by
      refine ⟨?_, ?_⟩
      · rw [hnx, if_pos rfl]
      · rw [hpv, if_neg (Ne.symm hix), if_pos rfl]
    by_cases hc : (!(b.seg i).flags.lowPriority || (b.seg i).flags.prefetch) = true
    · rw [if_pos hc] at hh' ⊢
      refine ⟨?_, List.nodup_cons.mpr ⟨hni, h.nodup⟩, hh', ⟨hl1, hp1⟩⟩
      intro j hj
      rw [hg]
      rcases List.mem_cons.mp hj with hj | hj
      · rw [hj]; exact hi
      · exact h.lt j hj
    · rw [if_neg hc] at hh' ⊢
      refine ⟨?_, ?_, hh', ?_⟩
      · intro j hj
        rw [hg]
        rcases List.mem_append.mp hj with hj | hj
        · exact h.lt j hj
        · simp only [List.mem_singleton] at hj
          rw [hj]; exact hi
      · rw [List.nodup_append_comm]
        simpa using List.nodup_cons.mpr ⟨hni, h.nodup⟩
      · show ServerStreamBuffer.LinkedPath _ x (t ++ [i]) x
        rw [linkedPath_append_iff]
        exact ⟨hp1, hl1⟩

/-! ### The standby index -/

theorem indexFind_some_iff (idx : List (StoreStreamSegmentLink × Nat))
    (hnd : (idx.map Prod.fst).Nodup) (k : StoreStreamSegmentLink) (i : Nat) :
    indexFind idx k = some i ↔ (k, i) ∈ idx := by
  unfold indexFind
  constructor
  · intro h
    cases hf : idx.find? (fun e => e.1 == k) with
    | none => simp [hf] at h
    | some e =>
      simp only [hf, Option.map_some', Option.some.injEq] at h
      have hp := List.find?_some hf
      have hm := List.mem_of_find?_eq_some hf
      simp only [beq_iff_eq] at hp
      have : e = (k, i) := Prod.ext hp h
      rw [← this]; exact hm
  · intro h
    cases hf : idx.find? (fun e => e.1 == k) with
    | none =>
      have := List.find?_eq_none.mp hf (k, i) h
      simp at this
    | some e =>
      have hp := List.find?_some hf
      have hm := List.mem_of_find?_eq_some hf
      simp only [beq_iff_eq] at hp
      have := List.inj_on_of_nodup_map hnd hm h hp
      simp [this]

theorem indexFind_none_iff (idx : List (StoreStreamSegmentLink × Nat))
    (k : StoreStreamSegmentLink) :
    indexFind idx k = none ↔ ∀ e, e ∈ idx → e.1 ≠ k := by
  unfold indexFind
  simp only [Option.map_eq_none', List.find?_eq_none, beq_iff_eq]

theorem indexL_find {b : ServerStreamBuffer} {ls : List Nat} (h : b.IndexL ls)
    {k : StoreStreamSegmentLink} {i : Nat} (hf : indexFind b.standbyIndex k = some i) :
    i ∈ ls ∧ k = b.standbyKey i :=
  h.mem (k, i) ((indexFind_some_iff _ h.nodup k i).mp hf)

theorem indexL_find_mem {b : ServerStreamBuffer} {ls : List Nat} (h : b.IndexL ls)
    {i : Nat} (hi : i ∈ ls) : indexFind b.standbyIndex (b.standbyKey i) = some i :=
  (indexFind_some_iff _ h.nodup _ i).mpr (h.all i hi)

theorem indexL_key_inj {b : ServerStreamBuffer} {ls : List Nat} (h : b.IndexL ls)
    {i j : Nat} (hi : i ∈ ls) (hj : j ∈ ls) (hk : b.standbyKey i = b.standbyKey j) :
    i = j := by
  have h1 := indexL_find_mem h hi
  have h2 := indexL_find_mem h hj
  rw [hk, h2] at h1
  exact (Option.some.inj h1).symm

theorem indexL_frame {b b1 : ServerStreamBuffer} {ls ls1 : List Nat} (h : b.IndexL ls)
    (hidx : b1.standbyIndex = b.standbyIndex)
    (hkey : ∀ j, j ∈ ls → b1.standbyKey j = b.standbyKey j)
    (hmem : ∀ j, j ∈ ls1 ↔ j ∈ ls) : b1.IndexL ls1 := by
  refine ⟨?_, ?_, hidx ▸ h.nodup⟩
  · intro e he
    rw [hidx] at he
    obtain ⟨h1, h2⟩ := h.mem e he
    exact ⟨(hmem _).mpr h1, by rw [hkey _ h1]; exact h2⟩
  · intro i hi
    have hi' := (hmem i).mp hi
    rw [hidx, hkey i hi']
    exact h.all i hi'

theorem standbyKey_setStandbyIndex (b : ServerStreamBuffer)
    (idx : List (StoreStreamSegmentLink × Nat)) (j : Nat) :
    (b.setStandbyIndex idx).standbyKey j = b.standbyKey j := rfl

theorem indexL_erase {b : ServerStreamBuffer} {ls : List Nat} (h : b.IndexL ls)
    (hnd : ls.Nodup) {i : Nat} (hi : i ∈ ls) :
    (b.setStandbyIndex (indexErase b.standbyIndex (b.standbyKey i))).IndexL (ls.erase i) := by
  refine ⟨?_, ?_, ?_⟩
  · intro e he
    simp only [ServerStreamBuffer.setStandbyIndex, indexErase, List.mem_filter,
      Bool.not_eq_true', beq_eq_false_iff_ne, ne_eq] at he
    obtain ⟨h1, h2⟩ := h.mem e he.1
    refine ⟨?_, h2⟩
    rw [hnd.mem_erase_iff]
    refine ⟨?_, h1⟩
    intro hc
    apply he.2
    rw [h2, hc]
  · intro j hj
    rw [hnd.mem_erase_iff] at hj
    simp only [ServerStreamBuffer.setStandbyIndex, indexErase, List.mem_filter,
      Bool.not_eq_true', beq_eq_false_iff_ne, ne_eq, standbyKey_setStandbyIndex]
    refine ⟨h.all j hj.2, ?_⟩
    intro hc
    exact hj.1 (indexL_key_inj h hj.2 hi hc)
  · simp only [ServerStreamBuffer.setStandbyIndex, indexErase]
    exact (List.Nodup.sublist (List.Sublist.map _ (List.filter_sublist _)) h.nodup)

theorem indexL_insert {b : ServerStreamBuffer} {ls ls1 : List Nat} (h : b.IndexL ls)
    {i : Nat} (hf : indexFind b.standbyIndex (b.standbyKey i) = none)
    (hmem : ∀ j, j ∈ ls1 ↔ j = i ∨ j ∈ ls) :
    (b.setStandbyIndex (indexSet b.standbyIndex (b.standbyKey i) i)).IndexL ls1 := by
  have hfree := (indexFind_none_iff _ _).mp hf
  have herase : indexErase b.standbyIndex (b.standbyKey i) = b.standbyIndex := by
    unfold indexErase
    rw [List.filter_eq_self]
    intro e he
    simpa using hfree e he
  refine ⟨?_, ?_, ?_⟩
  · intro e he
    simp only [ServerStreamBuffer.setStandbyIndex, indexSet, herase, List.mem_cons] at he
    rcases he with he | he
    · rw [he]
      exact ⟨(hmem i).mpr (Or.inl rfl), rfl⟩
    · obtain ⟨h1, h2⟩ := h.mem e he
      exact ⟨(hmem _).mpr (Or.inr h1), h2⟩
  · intro j hj
    simp only [ServerStreamBuffer.setStandbyIndex, indexSet, herase, List.mem_cons,
      standbyKey_setStandbyIndex]
    rcases (hmem j).mp hj with hj | hj
    · left; rw [hj]; rfl
    · right; exact h.all j hj
  · simp only [ServerStreamBuffer.setStandbyIndex, indexSet, herase, List.map_cons,
      List.nodup_cons]
    refine ⟨?_, h.nodup⟩
    intro hc
    obtain ⟨e, he, hek⟩ := List.mem_map.mp hc
    exact hfree e he hek

/-! ### What the list operations leave alone -/

theorem unlinked_setSeg (b : ServerStreamBuffer) (i : Nat) (s : Segment)
    (hs : s.unlinked = (b.seg i).unlinked) (j : Nat) :
    ((b.setSeg i s).seg j).unlinked = (b.seg j).unlinked := by
  rw [seg_setSeg]
  split_ifs with hc
  · rw [hc.1]; exact hs
  · rfl

theorem unlinked_modifyAt (b : ServerStreamBuffer) (p : Option Nat) (f : Segment → Segment)
    (hf : ∀ s, (f s).unlinked = s.unlinked) (j : Nat) :
    ((b.modifyAt p f).seg j).unlinked = (b.seg j).unlinked := by
  rw [seg_modifyAt]
  split_ifs
  · exact hf _
  · rfl

theorem unlinked_modifyAt_next (b : ServerStreamBuffer) (p v : Option Nat) (j : Nat) :
    ((b.modifyAt p (fun s => { s with next := v })).seg j).unlinked = (b.seg j).unlinked :=
  unlinked_modifyAt b p (fun s => { s with next := v }) (fun _ => rfl) j

theorem unlinked_setSeg_links (b : ServerStreamBuffer) (i : Nat) (nx pv : Option Nat)
    (j : Nat) :
    ((b.setSeg i { b.seg i with next := nx, prev := pv }).seg j).unlinked =
      (b.seg j).unlinked :=
  unlinked_setSeg b i { b.seg i with next := nx, prev := pv } rfl j

theorem unlinked_modifyAt_prev (b : ServerStreamBuffer) (p v : Option Nat) (j : Nat) :
    ((b.modifyAt p (fun s => { s with prev := v })).seg j).unlinked = (b.seg j).unlinked :=
  unlinked_modifyAt b p (fun s => { s with prev := v }) (fun _ => rfl) j

theorem unlinked_dequeueFromStandbyList (b : ServerStreamBuffer) (i j : Nat) (hj : j ≠ i) :
    ((b._dequeueFromStandbyList i).seg j).unlinked = (b.seg j).unlinked := by
  unfold _dequeueFromStandbyList
  simp only
  split_ifs
  · rw [seg_setSeg_ne _ _ _ _ hj]; rfl
  · rw [seg_setSeg_ne _ _ _ _ hj, seg_setStandbyHead, unlinked_modifyAt_prev,
      unlinked_modifyAt_next]
  · rw [seg_setSeg_ne _ _ _ _ hj, unlinked_modifyAt_prev,
      unlinked_modifyAt_next]

theorem unlinked_dequeueFromStandbyList_self (b : ServerStreamBuffer) (i : Nat)
    (hi : i < b.getNumSegments) :
    ((b._dequeueFromStandbyList i).seg i).unlinked =
      { (b.seg i).unlinked with isSubmitted := false } := by
  unfold _dequeueFromStandbyList
  simp only
  have e : ∀ s t : Segment, s.unlinked = t.unlinked →
      ({ s with isSubmitted := false, next := none, prev := none } : Segment).unlinked =
        { t.unlinked with isSubmitted := false } := by
    intro s t h
    have := congrArg (fun u : Segment => ({ u with isSubmitted := false } : Segment)) h
    exact this
  split_ifs
  · rw [seg_setSeg_self _ _ _ (by simpa using hi)]
    exact e _ _ rfl
  · rw [seg_setSeg_self _ _ _ (by simpa [getNumSegments_modifyAt] using hi)]
    apply e
    rw [seg_setStandbyHead, unlinked_modifyAt_prev,
      unlinked_modifyAt_next]
  · rw [seg_setSeg_self _ _ _ (by simpa [getNumSegments_modifyAt] using hi)]
    apply e
    rw [unlinked_modifyAt_prev, unlinked_modifyAt_next]

theorem dequeueFromStandbyList_rest (b : ServerStreamBuffer) (i : Nat) :
    (b._dequeueFromStandbyList i).freeHead = b.freeHead ∧
    (b._dequeueFromStandbyList i).segmentSize = b.segmentSize ∧
    (b._dequeueFromStandbyList i).payload = b.payload := by
  have hm : ∀ (b : ServerStreamBuffer) (p : Option Nat) (f : Segment → Segment),
      (b.modifyAt p f).freeHead = b.freeHead ∧ (b.modifyAt p f).segmentSize = b.segmentSize ∧
      (b.modifyAt p f).payload = b.payload := by
    intro b p f
    cases p <;> exact ⟨rfl, rfl, rfl⟩
  unfold _dequeueFromStandbyList
  simp only
  have h1 := hm b (b.seg i).prev (fun p => { p with next := (b.seg i).next })
  have h2 := hm (b.modifyAt (b.seg i).prev (fun p => { p with next := (b.seg i).next }))
    ((b.modifyAt (b.seg i).prev (fun p => { p with next := (b.seg i).next })).seg i).next
    (fun n => { n with prev :=
      ((b.modifyAt (b.seg i).prev (fun p => { p with next := (b.seg i).next })).seg i).prev })
  split_ifs
  · exact ⟨rfl, rfl, rfl⟩
  · exact ⟨h2.1.trans h1.1, h2.2.1.trans h1.2.1, h2.2.2.trans h1.2.2⟩
  · exact ⟨h2.1.trans h1.1, h2.2.1.trans h1.2.1, h2.2.2.trans h1.2.2⟩

theorem unlinked_enqueueToStandbyList (b : ServerStreamBuffer) (i j : Nat) (hj : j ≠ i) :
    ((b._enqueueToStandbyList i).seg j).unlinked = (b.seg j).unlinked := by
  unfold _enqueueToStandbyList
  cases b.standbyHead with
  | none =>
    simp only
    rw [seg_setStandbyHead, seg_setSeg_ne _ _ _ _ hj]
  | some h =>
    simp only
    split_ifs
    · rw [seg_setSeg_ne _ _ _ _ hj, seg_setStandbyHead, unlinked_setSeg_links,
        unlinked_modifyAt_next, unlinked_setSeg_links]
    · rw [unlinked_setSeg_links,
        unlinked_modifyAt_next, unlinked_setSeg_links]

/-- `_enqueueToStandbyList(segment)` changes the links of the segment and, in
its flags, at most the `Prefetch` bit: it clears the bit, except that the
flags stay as they are when the list was empty. -/
theorem unlinked_enqueueToStandbyList_self (b : ServerStreamBuffer) (i : Nat)
    (hi : i < b.getNumSegments) :
    ((b._enqueueToStandbyList i).seg i).unlinked =
      { (b.seg i).unlinked with
        flags := if b.standbyHead = none then (b.seg i).flags
                 else { (b.seg i).flags with prefetch := false } } := by
  unfold _enqueueToStandbyList
  cases hh : b.standbyHead with
  | none =>
    simp only [if_true]
    rw [seg_setStandbyHead, seg_setSeg_self _ _ _ hi]
    rfl
  | some h =>
    rw [if_neg (Option.some_ne_none h)]
    simp only
    have u3 : ∀ j, ((((b.setSeg i { b.seg i with next := some h, prev := (b.seg h).prev }).modifyAt
        ((b.setSeg i { b.seg i with next := some h, prev := (b.seg h).prev }).seg h).prev
        (fun p => { p with next := some i })).setSeg h
        { (((b.setSeg i { b.seg i with next := some h, prev := (b.seg h).prev }).modifyAt
        ((b.setSeg i { b.seg i with next := some h, prev := (b.seg h).prev }).seg h).prev
        (fun p => { p with next := some i })).seg h) with prev := some i }).seg j).unlinked =
        (b.seg j).unlinked := by
      intro j
      rw [unlinked_setSeg_links, unlinked_modifyAt_next,
        unlinked_setSeg_links]
    have g3 : (((b.setSeg i { b.seg i with next := some h, prev := (b.seg h).prev }).modifyAt
        ((b.setSeg i { b.seg i with next := some h, prev := (b.seg h).prev }).seg h).prev
        (fun p => { p with next := some i })).setSeg h
        { (((b.setSeg i { b.seg i with next := some h, prev := (b.seg h).prev }).modifyAt
        ((b.setSeg i { b.seg i with next := some h, prev := (b.seg h).prev }).seg h).prev
        (fun p => { p with next := some i })).seg h) with prev := some i }).getNumSegments =
        b.getNumSegments := by
      simp [getNumSegments_modifyAt]
    generalize (((b.setSeg i { b.seg i with next := some h, prev := (b.seg h).prev }).modifyAt
        ((b.setSeg i { b.seg i with next := some h, prev := (b.seg h).prev }).seg h).prev
        (fun p => { p with next := some i })).setSeg h
        { (((b.setSeg i { b.seg i with next := some h, prev := (b.seg h).prev }).modifyAt
        ((b.setSeg i { b.seg i with next := some h, prev := (b.seg h).prev }).seg h).prev
        (fun p => { p with next := some i })).seg h) with prev := some i }) = b3 at u3 g3 ⊢
    have hfl : (b3.seg i).flags = (b.seg i).flags := by
      have := congrArg Segment.flags (u3 i)
      exact this
    split_ifs with hc
    · rw [seg_setSeg_self _ _ _ (by simpa using g3 ▸ hi), seg_setStandbyHead]
      calc _ = ({ (b3.seg i).unlinked with
                  flags := { (b3.seg i).flags with prefetch := false } } : Segment) := rfl
        _ = _ := by rw [u3 i, hfl]
    · rw [hfl] at hc
      have hp : (b.seg i).flags.prefetch = false := by
        cases hpf : (b.seg i).flags.prefetch
        · rfl
        · simp [hpf] at hc
      have hflags : ({ (b.seg i).flags with prefetch := false } : SegmentFlags) =
          (b.seg i).flags := by
        cases hf : (b.seg i).flags
        simp [hf] at hp
        simp [hp]
      show (b3.seg i).unlinked =
        ({ (b.seg i).unlinked with
            flags := { (b.seg i).flags with prefetch := false } } : Segment)
      rw [hflags, u3 i]
      rfl

theorem enqueueToStandbyList_rest (b : ServerStreamBuffer) (i : Nat) :
    (b._enqueueToStandbyList i).freeHead = b.freeHead ∧
    (b._enqueueToStandbyList i).standbyIndex = b.standbyIndex ∧
    (b._enqueueToStandbyList i).shared = b.shared ∧
    (b._enqueueToStandbyList i).calls = b.calls ∧
    (b._enqueueToStandbyList i).cookie = b.cookie ∧
    (b._enqueueToStandbyList i).enableCache = b.enableCache ∧
    (b._enqueueToStandbyList i).segmentSize = b.segmentSize ∧
    (b._enqueueToStandbyList i).payload = b.payload := by
  unfold _enqueueToStandbyList
  cases b.standbyHead with
  | none => exact ⟨rfl, rfl, rfl, rfl, rfl, rfl, rfl, rfl⟩
  | some h =>
    simp only
    have hm : ∀ (b : ServerStreamBuffer) (p : Option Nat) (f : Segment → Segment),
        (b.modifyAt p f).freeHead = b.freeHead ∧
        (b.modifyAt p f).standbyIndex = b.standbyIndex ∧
        (b.modifyAt p f).shared = b.shared ∧ (b.modifyAt p f).calls = b.calls ∧
        (b.modifyAt p f).cookie = b.cookie ∧ (b.modifyAt p f).enableCache = b.enableCache ∧
        (b.modifyAt p f).segmentSize = b.segmentSize ∧
        (b.modifyAt p f).payload = b.payload := by
      intro b p f
      cases p <;> exact ⟨rfl, rfl, rfl, rfl, rfl, rfl, rfl, rfl⟩
    have h1 := hm (b.setSeg i { b.seg i with next := some h, prev := (b.seg h).prev })
      ((b.setSeg i { b.seg i with next := some h, prev := (b.seg h).prev }).seg h).prev
      (fun p => { p with next := some i })
    split_ifs
    · exact ⟨h1.1, h1.2.1, h1.2.2.1, h1.2.2.2.1, h1.2.2.2.2.1, h1.2.2.2.2.2.1,
        h1.2.2.2.2.2.2.1, h1.2.2.2.2.2.2.2⟩
    · exact ⟨h1.1, h1.2.1, h1.2.2.1, h1.2.2.2.1, h1.2.2.2.2.1, h1.2.2.2.2.2.1,
        h1.2.2.2.2.2.2.1, h1.2.2.2.2.2.2.2⟩

/-! ### The standby cache after its operations -/

theorem standbyKey_of_unlinked {b b1 : ServerStreamBuffer} {j : Nat}
    (h : (b1.seg j).unlinked = (b.seg j).unlinked) : b1.standbyKey j = b.standbyKey j := by
  have h1 : (b1.seg j).stream = (b.seg j).stream := by
    have := congrArg Segment.stream h
    exact this
  have h2 : (b1.seg j).control = (b.seg j).control := by
    have := congrArg Segment.control h
    exact this
  unfold standbyKey
  rw [h1, h2]

theorem id_of_unlinked {s t : Segment} (h : s.unlinked = t.unlinked) : s.id = t.id := by
  have := congrArg Segment.id h
  exact this

theorem flags_of_unlinked {s t : Segment} (h : s.unlinked = t.unlinked) :
    s.flags = t.flags := by
  have := congrArg Segment.flags h
  exact this

theorem standbyL_frame {b b1 : ServerStreamBuffer} {ls : List Nat} (h : b.StandbyL ls)
    (hg : b1.getNumSegments = b.getNumSegments) (hh : b1.standbyHead = b.standbyHead)
    (hidx : b1.standbyIndex = b.standbyIndex)
    (hseg : ∀ j, j ∈ ls → b1.seg j = b.seg j)
    (hid : ∀ j, j < b.getNumSegments → (b1.seg j).id = j) : b1.StandbyL ls := by
  refine ⟨listL_frame h.list hg hh (fun j hj => by rw [hseg j hj])
    (fun j hj => by rw [hseg j hj]), ?_, fun j hj => hid j (hg ▸ hj)⟩
  exact indexL_frame h.index hidx
    (fun j hj => standbyKey_of_unlinked (by rw [hseg j hj])) (fun _ => Iff.rfl)

theorem standbyL_call {b : ServerStreamBuffer} {ls : List Nat} (h : b.StandbyL ls)
    (c : Call) : (b.call c).StandbyL ls :=
  standbyL_frame h rfl rfl rfl (fun _ _ => rfl) h.ids

theorem findStandbySegment_member {b : ServerStreamBuffer} {ls : List Nat} (h : b.IndexL ls)
    {i : Nat} (hi : i ∈ ls) :
    b._findStandbySegment (b.standbyKey i) true =
      (b.setStandbyIndex (indexErase b.standbyIndex (b.standbyKey i)), some i) := by
  unfold _findStandbySegment
  rw [indexL_find_mem h hi]
  rfl

/-- A member of the standby cache is taken out of the index and of the list:
the others keep their order. -/
theorem standbyL_takeOut {b : ServerStreamBuffer} {ls : List Nat} (h : b.StandbyL ls)
    {i : Nat} (hi : i ∈ ls) :
    ((b.setStandbyIndex (indexErase b.standbyIndex (b.standbyKey i)))._dequeueFromStandbyList
      i).StandbyL (ls.erase i) := by
  have hl : (b.setStandbyIndex (indexErase b.standbyIndex (b.standbyKey i))).ListL ls :=
    listL_frame h.list rfl rfl (fun _ _ => rfl) (fun _ _ => rfl)
  have hx := indexL_erase h.index h.list.nodup hi
  refine ⟨listL_dequeue hl hi, ?_, ?_⟩
  · refine indexL_frame hx (dequeueFromStandbyList_frame _ i).2.2.2.1 ?_ (fun _ => Iff.rfl)
    intro j hj
    have hji : j ≠ i := ((h.list.nodup.mem_erase_iff).mp hj).1
    exact standbyKey_of_unlinked (unlinked_dequeueFromStandbyList _ i j hji)
  · intro j hj
    rw [dequeueFromStandbyList_valid_size] at hj
    rw [(dequeueFromStandbyList_fields _ i j).2.2.2.2]
    exact h.ids j hj

theorem standbyL_remove {b : ServerStreamBuffer} {ls : List Nat} (h : b.StandbyL ls)
    {k : StoreStreamSegmentLink} {i : Nat} (hf : indexFind b.standbyIndex k = some i) :
    i ∈ ls ∧ k = b.standbyKey i ∧
    b._removeStandbySegment k =
      ((b.setStandbyIndex (indexErase b.standbyIndex k))._dequeueFromStandbyList i, some i) ∧
    (b._removeStandbySegment k).1.StandbyL (ls.erase i) := by
  obtain ⟨hi, hk⟩ := indexL_find h.index hf
  have e : b._removeStandbySegment k =
      ((b.setStandbyIndex (indexErase b.standbyIndex k))._dequeueFromStandbyList i, some i) := by
    unfold _removeStandbySegment _findStandbySegment
    rw [hf]
    rfl
  refine ⟨hi, hk, e, ?_⟩
  rw [e, hk]
  exact standbyL_takeOut h hi

theorem removeStandbySegment_none {b : ServerStreamBuffer} {k : StoreStreamSegmentLink}
    (hf : indexFind b.standbyIndex k = none) : b._removeStandbySegment k = (b, none) := by
  unfold _removeStandbySegment _findStandbySegment
  rw [hf]

theorem erase_getLast {ls : List Nat} (hnd : ls.Nodup) (hne : ls ≠ []) :
    ls.erase (ls.getLast hne) = ls.dropLast := by
  have hsplit := List.dropLast_append_getLast hne
  have hnot : ls.getLast hne ∉ ls.dropLast := by
    intro hc
    rw [← hsplit] at hnd
    have := List.disjoint_of_nodup_append hnd hc
    exact this (List.mem_singleton_self _)
  have e : ls.erase (ls.getLast hne) =
      (ls.dropLast ++ [ls.getLast hne]).erase (ls.getLast hne) := by rw [hsplit]
  rw [e, erase_split hnot]
  simp

theorem standbyL_tail {b : ServerStreamBuffer} {ls : List Nat} (h : b.StandbyL ls)
    (hne : ls ≠ []) :
    ∃ hd, b.standbyHead = some hd ∧ (b.seg hd).prev = some (ls.getLast hne) := by
  cases ls with
  | nil => exact absurd rfl hne
  | cons x t =>
    refine ⟨x, h.list.head, ?_⟩
    have := linkedPath_prev_eq (h.list.cycle : b.LinkedPath x t x)
    rw [this, List.getLast_eq_getLastD]

/-- `_evictFromStandbyList()` on a cache that is not empty takes out the last
segment of the list. -/
theorem standbyL_evict {b : ServerStreamBuffer} {ls : List Nat} (h : b.StandbyL ls)
    (hne : ls ≠ []) :
    b._evictFromStandbyList.2 = some (ls.getLast hne) ∧
    b._evictFromStandbyList.1.StandbyL ls.dropLast := by
  obtain ⟨hd, hhd, hpv⟩ := standbyL_tail h hne
  have hi : ls.getLast hne ∈ ls := List.getLast_mem hne
  unfold _evictFromStandbyList
  simp only [hhd, hpv]
  refine ⟨trivial, ?_⟩
  have h1 := standbyL_call h (Call.notifySegmentCacheClosed
    (streamId (b.seg (ls.getLast hne)).stream) (b.seg (ls.getLast hne)).sequenceNumber)
  have e1 : b._notifyEncoderCacheClosed (ls.getLast hne) = b.call
      (Call.notifySegmentCacheClosed (streamId (b.seg (ls.getLast hne)).stream)
        (b.seg (ls.getLast hne)).sequenceNumber) := rfl
  rw [e1]
  generalize b.call (Call.notifySegmentCacheClosed (streamId (b.seg (ls.getLast hne)).stream)
    (b.seg (ls.getLast hne)).sequenceNumber) = b1 at h1 ⊢
  rw [findStandbySegment_member h1.index hi]
  have h2 := standbyL_takeOut h1 hi
  rw [erase_getLast h.list.nodup hne] at h2
  generalize (b1.setStandbyIndex (indexErase b1.standbyIndex
    (b1.standbyKey (ls.getLast hne))))._dequeueFromStandbyList (ls.getLast hne) = b2 at h2 ⊢
  have hnot : ls.getLast hne ∉ ls.dropLast := by
    rw [← erase_getLast h.list.nodup hne]
    exact fun hc => ((h.list.nodup.mem_erase_iff).mp hc).1 rfl
  refine standbyL_frame h2 (by simp) rfl rfl ?_ ?_
  · intro j hj
    exact seg_setSeg_ne _ _ _ _ (fun hc => hnot (hc ▸ hj))
  · intro j hj
    rw [seg_setSeg]
    split_ifs with hc
    · rw [← hc.1]; exact h2.ids j hj
    · exact h2.ids j hj

theorem addStandbySegment_new {b : ServerStreamBuffer} {i : Nat}
    (hf : indexFind b.standbyIndex (b.standbyKey i) = none) :
    b._addStandbySegment i =
      (b.setStandbyIndex (indexSet b.standbyIndex (b.standbyKey i) i))._enqueueToStandbyList
        i := by
  unfold _addStandbySegment _findStandbySegment
  simp only [hf]

theorem addStandbySegment_duplicate {b : ServerStreamBuffer} {i k : Nat}
    (hf : indexFind b.standbyIndex (b.standbyKey i) = some k) :
    b._addStandbySegment i = b._purgeSegment (b.seg i).id := by
  unfold _addStandbySegment _findStandbySegment
  simp only [hf]
  rfl

theorem enqueueToStandbyList_self_fields (b : ServerStreamBuffer) (i : Nat)
    (hi : i < b.getNumSegments) :
    ((b._enqueueToStandbyList i).seg i).id = (b.seg i).id ∧
    ((b._enqueueToStandbyList i).seg i).stream = (b.seg i).stream ∧
    ((b._enqueueToStandbyList i).seg i).control = (b.seg i).control ∧
    ((b._enqueueToStandbyList i).seg i).sequenceNumber = (b.seg i).sequenceNumber ∧
    ((b._enqueueToStandbyList i).seg i).isSubmitted = (b.seg i).isSubmitted := by
  have h := unlinked_enqueueToStandbyList_self b i hi
  refine ⟨?_, ?_, ?_, ?_, ?_⟩
  · have := congrArg Segment.id h; exact this
  · have := congrArg Segment.stream h; exact this
  · have := congrArg Segment.control h; exact this
  · have := congrArg Segment.sequenceNumber h; exact this
  · have := congrArg Segment.isSubmitted h; exact this

theorem standbyKey_of_fields {b b1 : ServerStreamBuffer} {j : Nat}
    (h1 : (b1.seg j).stream = (b.seg j).stream)
    (h2 : (b1.seg j).control = (b.seg j).control) : b1.standbyKey j = b.standbyKey j := by
  unfold standbyKey
  rw [h1, h2]

/-- `_addStandbySegment(segment)` for a segment whose key is not cached: the
segment is the new head of the list, unless it is `LowPriority` and not
`Prefetch`, when it is the new tail. -/
theorem standbyL_add {b : ServerStreamBuffer} {ls : List Nat} (h : b.StandbyL ls) {i : Nat}
    (hi : i < b.getNumSegments) (hni : i ∉ ls)
    (hf : indexFind b.standbyIndex (b.standbyKey i) = none) :
    (b._addStandbySegment i).StandbyL
      (if !(b.seg i).flags.lowPriority || (b.seg i).flags.prefetch then i :: ls
       else ls ++ [i]) := by
  rw [addStandbySegment_new hf]
  have hl : (b.setStandbyIndex (indexSet b.standbyIndex (b.standbyKey i) i)).ListL ls :=
    listL_frame h.list rfl rfl (fun _ _ => rfl) (fun _ _ => rfl)
  have hx := @indexL_insert b ls (if !(b.seg i).flags.lowPriority || (b.seg i).flags.prefetch
    then i :: ls else ls ++ [i]) h.index i hf (by
      intro j
      split_ifs
      · simp
      · simp [or_comm])
  have hq := listL_enqueue hl (i := i) hi hni
  refine ⟨hq, ?_, ?_⟩
  · refine indexL_frame hx (enqueueToStandbyList_rest _ i).2.1 ?_ (fun _ => Iff.rfl)
    intro j _
    by_cases hji : j = i
    · rw [hji]
      have hs := enqueueToStandbyList_self_fields
        (b.setStandbyIndex (indexSet b.standbyIndex (b.standbyKey i) i)) i hi
      exact standbyKey_of_fields hs.2.1 hs.2.2.1
    · exact standbyKey_of_unlinked (unlinked_enqueueToStandbyList _ i j hji)
  · intro j hj
    rw [getNumSegments_enqueueToStandbyList] at hj
    by_cases hji : j = i
    · rw [hji]
      have hs := enqueueToStandbyList_self_fields
        (b.setStandbyIndex (indexSet b.standbyIndex (b.standbyKey i) i)) i hi
      rw [hs.1]
      exact h.ids i hi
    · rw [id_of_unlinked (unlinked_enqueueToStandbyList _ i j hji)]
      exact h.ids j hj

/-! ### The free list after its operations -/

theorem freeChain_congr {b b1 : ServerStreamBuffer} :
    ∀ {l : List Nat} {p : Option Nat}, b.FreeChain p l →
      (∀ j, j ∈ l → (b1.seg j).next = (b.seg j).next) → b1.FreeChain p l := by
  intro l
  induction l with
  | nil => intro p h _; exact h
  | cons i l ih =>
    intro p h hn
    refine ⟨h.1, ?_⟩
    rw [hn i (List.mem_cons_self _ _)]
    exact ih h.2 (fun j hj => hn j (List.mem_cons_of_mem _ hj))

theorem freeL_frame {b b1 : ServerStreamBuffer} {lf : List Nat} (h : b.FreeL lf)
    (hg : b1.getNumSegments = b.getNumSegments) (hh : b1.freeHead = b.freeHead)
    (hn : ∀ j, j ∈ lf → (b1.seg j).next = (b.seg j).next) : b1.FreeL lf :=
  ⟨fun i hi => hg ▸ h.lt i hi, h.nodup, hh ▸ freeChain_congr h.chain hn⟩

theorem dequeueFromFreeList_cons {b : ServerStreamBuffer} {i : Nat} {l : List Nat}
    (h : b.FreeL (i :: l)) :
    b._dequeueFromFreeList =
      ((b.setFreeHead (b.seg i).next).setSeg i
        { b.seg i with isSubmitted := false, flags := SgfInUse, next := none }, some i) ∧
    b._dequeueFromFreeList.1.FreeL l := by
  have hh : b.freeHead = some i := h.chain.1
  have e : b._dequeueFromFreeList =
      ((b.setFreeHead (b.seg i).next).setSeg i
        { b.seg i with isSubmitted := false, flags := SgfInUse, next := none }, some i) := by
    unfold _dequeueFromFreeList
    simp only [hh]
    rfl
  refine ⟨e, ?_⟩
  rw [e]
  have hnot : i ∉ l := (List.nodup_cons.mp h.nodup).1
  refine ⟨fun j hj => by simpa using h.lt j (List.mem_cons_of_mem _ hj),
    (List.nodup_cons.mp h.nodup).2, ?_⟩
  refine freeChain_congr (b := b) h.chain.2 ?_
  intro j hj
  rw [seg_setSeg_ne _ _ _ _ (fun hc : j = i => hnot (hc ▸ hj))]
  rfl

theorem dequeueFromFreeList_nil {b : ServerStreamBuffer} (h : b.FreeL []) :
    b._dequeueFromFreeList = (b, none) := by
  have hh : b.freeHead = none := h.chain
  unfold _dequeueFromFreeList
  simp only [hh]

theorem freeL_enqueue {b : ServerStreamBuffer} {lf : List Nat} (h : b.FreeL lf) {i : Nat}
    (hi : i < b.getNumSegments) (hni : i ∉ lf) : (b._enqueueToFreeList i).FreeL (i :: lf) := by
  unfold _enqueueToFreeList
  refine ⟨?_, List.nodup_cons.mpr ⟨hni, h.nodup⟩, ?_⟩
  · intro j hj
    rcases List.mem_cons.mp hj with hj | hj
    · rw [hj]; simpa using hi
    · simpa using h.lt j hj
  · refine ⟨rfl, ?_⟩
    rw [seg_setFreeHead, seg_setSeg_self _ _ _ hi]
    refine freeChain_congr (b := b) h.chain ?_
    intro j hj
    rw [seg_setFreeHead, seg_setSeg_ne _ _ _ _ (fun hc : j = i => hni (hc ▸ hj))]

theorem purgeSegment_eq (b : ServerStreamBuffer) (i : Nat) :
    b._purgeSegment i = (b.callAll (b.purgeCalls i))._enqueueToFreeList i := by
  unfold _purgeSegment _notifyEncoderCacheClosed purgeCalls
  by_cases hst : (b.seg i).stream.isSome = true
  · rw [if_pos hst, if_pos hst]
    rfl
  · rw [if_neg hst, if_neg hst, callAll_nil]

theorem enqueueToFreeList_rest (b : ServerStreamBuffer) (i : Nat) :
    (b._enqueueToFreeList i).getNumSegments = b.getNumSegments ∧
    (b._enqueueToFreeList i).shared = b.shared ∧
    (b._enqueueToFreeList i).standbyHead = b.standbyHead ∧
    (b._enqueueToFreeList i).standbyIndex = b.standbyIndex ∧
    (b._enqueueToFreeList i).calls = b.calls := by
  unfold _enqueueToFreeList
  exact ⟨by simp, rfl, rfl, rfl, rfl⟩

/-! ### Segments outside the standby list -/

theorem segment_ext_links {s t : Segment} (hu : s.unlinked = t.unlinked)
    (hn : s.next = t.next) (hp : s.prev = t.prev) : s = t := by
  cases s; cases t
  simp only [Segment.unlinked, Segment.mk.injEq, true_and] at hu
  simp only at hn hp
  simp only [Segment.mk.injEq]
  exact ⟨hn, hp, hu⟩

/-- The neighbours of a member of the standby list are members; they are the
segment itself only when it is alone on the list. -/
theorem listL_neighbours {b : ServerStreamBuffer} {ls : List Nat} (h : b.ListL ls) {i : Nat}
    (hi : i ∈ ls) :
    ∃ p q, p ∈ ls ∧ q ∈ ls ∧ (b.seg i).next = some q ∧ (b.seg i).prev = some p ∧
      ((q = i ∧ p = i) ∨ (q ≠ i ∧ p ≠ i)) := by
  obtain ⟨pre, post, hls, hipre, hipost, hpath, hnd⟩ := listL_split h hi
  have hsub : ∀ j, j ∈ post ++ pre → j ∈ ls := by
    intro j hj
    rw [hls]
    rcases List.mem_append.mp hj with hj | hj
    · exact List.mem_append_right _ (List.mem_cons_of_mem _ hj)
    · exact List.mem_append_left _ hj
  cases hr : post ++ pre with
  | nil =>
    rw [hr] at hpath
    exact ⟨i, i, hi, hi, hpath.1, hpath.2, Or.inl ⟨rfl, rfl⟩⟩
  | cons q r =>
    rw [hr] at hpath hnd hsub
    have hprev : (b.seg i).prev = some (r.getLastD q) := by
      have := linkedPath_prev_eq hpath
      rwa [List.getLastD_cons] at this
    have hpm : r.getLastD q ∈ q :: r := getLastD_mem r q
    refine ⟨r.getLastD q, q, hsub _ hpm, hsub _ (List.mem_cons_self _ _), hpath.1.1, hprev,
      Or.inr ⟨?_, ?_⟩⟩
    · exact fun hc => (List.nodup_cons.mp hnd).1 (hc ▸ List.mem_cons_self _ _)
    · exact fun hc => (List.nodup_cons.mp hnd).1 (hc ▸ hpm)

theorem listL_next_ne_none {b : ServerStreamBuffer} {ls : List Nat} (h : b.ListL ls) {i : Nat}
    (hi : i ∈ ls) : (b.seg i).next ≠ none := by
  obtain ⟨p, q, _, _, hn, _, _⟩ := listL_neighbours h hi
  rw [hn]; simp

theorem dequeueFromStandbyList_outside {b : ServerStreamBuffer} {ls : List Nat}
    (h : b.ListL ls) {i : Nat} (hi : i ∈ ls) {j : Nat} (hj : j ∉ ls) :
    (b._dequeueFromStandbyList i).seg j = b.seg j := by
  have hji : j ≠ i := fun hc => hj (hc ▸ hi)
  obtain ⟨p, q, hp, hq, hn, hpv, hc⟩ := listL_neighbours h hi
  rcases hc with ⟨hqi, _⟩ | ⟨hqi, hpi⟩
  · rw [dequeueFromStandbyList_single b i (hqi ▸ hn), seg_setSeg_ne _ _ _ _ hji]
    rfl
  · obtain ⟨_, hnx, hpx⟩ := dequeueFromStandbyList_links b i p q (h.lt i hi) (h.lt p hp)
      (h.lt q hq) hn hpv hqi hpi
    refine segment_ext_links (unlinked_dequeueFromStandbyList b i j hji) ?_ ?_
    · rw [hnx, if_neg hji, if_neg (fun hc : j = p => hj (hc ▸ hp))]
    · rw [hpx, if_neg hji, if_neg (fun hc : j = q => hj (hc ▸ hq))]

theorem dequeueFromStandbyList_self_eq (b : ServerStreamBuffer) (i : Nat)
    (hi : i < b.getNumSegments) :
    (b._dequeueFromStandbyList i).seg i =
      { b.seg i with isSubmitted := false, next := none, prev := none } := by
  have h1 := dequeueFromStandbyList_self b i hi
  have h2 := unlinked_dequeueFromStandbyList_self b i hi
  refine segment_ext_links ?_ h1.1 h1.2.1
  rw [h2]
  rfl

theorem enqueueToStandbyList_outside {b : ServerStreamBuffer} {ls : List Nat}
    (h : b.ListL ls) {i : Nat} (hi : i < b.getNumSegments) (hni : i ∉ ls) {j : Nat}
    (hj : j ∉ ls) (hji : j ≠ i) : (b._enqueueToStandbyList i).seg j = b.seg j := by
  cases ls with
  | nil =>
    rw [enqueueToStandbyList_empty b i h.head, seg_setStandbyHead, seg_setSeg_ne _ _ _ _ hji]
  | cons x t =>
    have hpath : b.LinkedPath x t x := h.cycle
    have hlmem : t.getLastD x ∈ x :: t := getLastD_mem t x
    obtain ⟨_, hnx, hpv, _⟩ := enqueueToStandbyList_links b i x (t.getLastD x) hi
      (h.lt x (List.mem_cons_self _ _)) (h.lt _ hlmem) h.head (linkedPath_prev_eq hpath)
      (fun hc => hni (hc ▸ List.mem_cons_self _ _)) (fun hc => hni (hc ▸ hlmem))
    refine segment_ext_links (unlinked_enqueueToStandbyList b i j hji) ?_ ?_
    · rw [hnx, if_neg hji, if_neg (fun hc : j = t.getLastD x => hj (hc ▸ hlmem))]
    · rw [hpv, if_neg hji, if_neg (fun hc : j = x => hj (hc ▸ List.mem_cons_self _ _))]

/-! ### The well-formed pool after the operations on the lists -/

theorem invL_disjoint {b : ServerStreamBuffer} {lf ls : List Nat} (h : b.InvL lf ls)
    {i : Nat} (hf : i ∈ lf) : i ∉ ls := by
  intro hs
  have h1 := (h.freeFlags i hf).1
  have h2 := (h.standbyFlags i hs).1
  rw [h1] at h2
  exact absurd h2 (by decide)

/-- A segment that is `InUse` and not linked is on neither list. -/
theorem invL_held {b : ServerStreamBuffer} {lf ls : List Nat} (h : b.InvL lf ls) {i : Nat}
    (hu : (b.seg i).flags.inUse = true) (hn : (b.seg i).next = none) :
    i ∉ lf ∧ i ∉ ls := by
  refine ⟨fun hf => ?_, fun hs => listL_next_ne_none h.standby.list hs hn⟩
  have h1 := (h.freeFlags i hf).1
  rw [h1] at hu
  exact absurd hu (by decide)

/-- A state that differs from a well-formed one in a held segment only, which
stays `InUse` and unlinked, and outside the descriptors and the lists. -/
theorem invL_update {b b1 : ServerStreamBuffer} {lf ls : List Nat} (h : b.InvL lf ls)
    {i : Nat} (hg : b1.getNumSegments = b.getNumSegments)
    (hsh : b1.shared.length = b.shared.length) (hfh : b1.freeHead = b.freeHead)
    (hsb : b1.standbyHead = b.standbyHead) (hidx : b1.standbyIndex = b.standbyIndex)
    (hseg : ∀ j, j ≠ i → b1.seg j = b.seg j) (hilf : i ∉ lf) (hils : i ∉ ls)
    (hid : (b1.seg i).id = (b.seg i).id)
    (hu : i < b.getNumSegments → (b1.seg i).flags.inUse = true)
    (hn : i < b.getNumSegments → (b1.seg i).next = none)
    (hp : i < b.getNumSegments → (b1.seg i).prev = none) : b1.InvL lf ls := by
  have hne_f : ∀ j, j ∈ lf → j ≠ i := fun j hj hc => hilf (hc ▸ hj)
  have hne_s : ∀ j, j ∈ ls → j ≠ i := fun j hj hc => hils (hc ▸ hj)
  refine ⟨by rw [hsh, hg]; exact h.shared, ?_, ?_, ?_, ?_, ?_⟩
  · exact freeL_frame h.free hg hfh (fun j hj => by rw [hseg j (hne_f j hj)])
  · refine standbyL_frame h.standby hg hsb hidx (fun j hj => hseg j (hne_s j hj)) ?_
    intro j hj
    by_cases hji : j = i
    · rw [hji, hid]; exact h.standby.ids i (hji ▸ hj)
    · rw [hseg j hji]; exact h.standby.ids j hj
  · intro j hj
    rw [hseg j (hne_f j hj)]; exact h.freeFlags j hj
  · intro j hj
    rw [hseg j (hne_s j hj)]; exact h.standbyFlags j hj
  · intro j hj hjf hjs
    rw [hg] at hj
    by_cases hji : j = i
    · rw [hji] at hj ⊢
      exact ⟨hu hj, hn hj, hp hj⟩
    · rw [hseg j hji]; exact h.held j hj hjf hjs

theorem invL_setSeg {b : ServerStreamBuffer} {lf ls : List Nat} (h : b.InvL lf ls)
    {i : Nat} (s : Segment) (hilf : i ∉ lf) (hils : i ∉ ls) (hid : s.id = (b.seg i).id)
    (hu : s.flags.inUse = true) (hn : s.next = none) (hp : s.prev = none) :
    (b.setSeg i s).InvL lf ls := by
  refine invL_update h (getNumSegments_setSeg _ _ _) rfl rfl rfl rfl
    (fun j hj => seg_setSeg_ne _ _ _ _ hj) hilf hils ?_ ?_ ?_ ?_
  · rw [seg_setSeg]; split_ifs
    · exact hid
    · rfl
  · intro hi; rw [seg_setSeg_self _ _ _ hi]; exact hu
  · intro hi; rw [seg_setSeg_self _ _ _ hi]; exact hn
  · intro hi; rw [seg_setSeg_self _ _ _ hi]; exact hp

theorem invL_same {b b1 : ServerStreamBuffer} {lf ls : List Nat} (h : b.InvL lf ls)
    (hg : b1.getNumSegments = b.getNumSegments)
    (hsh : b1.shared.length = b.shared.length) (hfh : b1.freeHead = b.freeHead)
    (hsb : b1.standbyHead = b.standbyHead) (hidx : b1.standbyIndex = b.standbyIndex)
    (hseg : ∀ j, b1.seg j = b.seg j) : b1.InvL lf ls := by
  have hout : b.getNumSegments ∉ lf := fun hc => Nat.lt_irrefl _ (h.free.lt _ hc)
  have hout2 : b.getNumSegments ∉ ls := fun hc => Nat.lt_irrefl _ (h.standby.list.lt _ hc)
  exact invL_update (i := b.getNumSegments) h hg hsh hfh hsb hidx (fun j _ => hseg j) hout
    hout2 (by rw [hseg]) (fun hc => absurd hc (Nat.lt_irrefl _))
    (fun hc => absurd hc (Nat.lt_irrefl _)) (fun hc => absurd hc (Nat.lt_irrefl _))

theorem invL_call {b : ServerStreamBuffer} {lf ls : List Nat} (h : b.InvL lf ls) (c : Call) :
    (b.call c).InvL lf ls :=
  invL_same h rfl rfl rfl rfl rfl (fun _ => rfl)

theorem invL_callAll {b : ServerStreamBuffer} {lf ls : List Nat} (h : b.InvL lf ls)
    (cs : List Call) : (b.callAll cs).InvL lf ls :=
  invL_same h rfl rfl rfl rfl rfl (fun _ => rfl)

theorem invL_setShared {b : ServerStreamBuffer} {lf ls : List Nat} (h : b.InvL lf ls)
    (i : Nat) (c : SegmentControlElement) : (b.setShared i c).InvL lf ls :=
  invL_same h rfl (by simp [ServerStreamBuffer.setShared]) rfl rfl rfl (fun _ => rfl)

/-- `_enqueueToFreeList(segment)` for a held segment: it is the new head of
the free list. -/
theorem invL_enqueueFree {b1 : ServerStreamBuffer} {lf ls : List Nat} (h1 : b1.InvL lf ls)
    {i : Nat} (hi1 : i < b1.getNumSegments) (hilf : i ∉ lf) (hils : i ∉ ls) :
    (b1._enqueueToFreeList i).InvL (i :: lf) ls := by
  have hheld := h1.held i hi1 hilf hils
  have hfl := freeL_enqueue h1.free hi1 hilf
  have hseg : ∀ j, j ≠ i → (b1._enqueueToFreeList i).seg j = b1.seg j := by
    intro j hj
    unfold _enqueueToFreeList
    rw [seg_setFreeHead, seg_setSeg_ne _ _ _ _ hj]
  have hself : (b1._enqueueToFreeList i).seg i = { b1.seg i with
      stream := none, sequenceNumber := INVALID_STREAM_SEGMENT_ID, flags := SgfFree,
      next := b1.freeHead } := by
    unfold _enqueueToFreeList
    rw [seg_setFreeHead, seg_setSeg_self _ _ _ hi1]
  have hne_s : ∀ j, j ∈ ls → j ≠ i := fun j hj hc => hils (hc ▸ hj)
  obtain ⟨r1, r2, r3, r4, -⟩ := enqueueToFreeList_rest b1 i
  refine ⟨by rw [r1, r2]; exact h1.shared, hfl, ?_, ?_, ?_, ?_⟩
  · refine standbyL_frame h1.standby r1 r3 r4 (fun j hj => hseg j (hne_s j hj)) ?_
    intro j hj
    by_cases hji : j = i
    · rw [hji, hself]; exact h1.standby.ids i hi1
    · rw [hseg j hji]; exact h1.standby.ids j hj
  · intro j hj
    rcases List.mem_cons.mp hj with hj | hj
    · rw [hj, hself]; exact ⟨rfl, hheld.2.2, rfl⟩
    · rw [hseg j (fun hc => hilf (hc ▸ hj))]; exact h1.freeFlags j hj
  · intro j hj
    rw [hseg j (hne_s j hj)]; exact h1.standbyFlags j hj
  · intro j hj hjf hjs
    have hji : j ≠ i := fun hc => hjf (hc ▸ List.mem_cons_self _ _)
    rw [hseg j hji]
    exact h1.held j (r1 ▸ hj) (fun hc => hjf (List.mem_cons_of_mem _ hc)) hjs

/-- `_purgeSegment(segment)` for a held segment: it is the new head of the
free list. -/
theorem invL_purge {b : ServerStreamBuffer} {lf ls : List Nat} (h : b.InvL lf ls) {i : Nat}
    (hi : i < b.getNumSegments) (hilf : i ∉ lf) (hils : i ∉ ls) :
    (b._purgeSegment i).InvL (i :: lf) ls := by
  rw [purgeSegment_eq]
  exact invL_enqueueFree (invL_callAll h _) hi hilf hils

/-- `_dequeueFromFreeList()` takes the head of the free list, which becomes a
held segment with flags `InUse`. -/
theorem invL_dequeueFree {b : ServerStreamBuffer} {i : Nat} {l ls : List Nat}
    (h : b.InvL (i :: l) ls) : b._dequeueFromFreeList.1.InvL l ls := by
  obtain ⟨e, hfl⟩ := dequeueFromFreeList_cons h.free
  rw [e] at hfl ⊢
  have hi : i < b.getNumSegments := h.free.lt i (List.mem_cons_self _ _)
  have hil : i ∉ l := (List.nodup_cons.mp h.free.nodup).1
  have hils : i ∉ ls := invL_disjoint h (List.mem_cons_self _ _)
  have hseg : ∀ j, j ≠ i → ((b.setFreeHead (b.seg i).next).setSeg i
      { b.seg i with isSubmitted := false, flags := SgfInUse, next := none }).seg j =
      b.seg j := fun j hj => by rw [seg_setSeg_ne _ _ _ _ hj]; rfl
  have hself : ((b.setFreeHead (b.seg i).next).setSeg i
      { b.seg i with isSubmitted := false, flags := SgfInUse, next := none }).seg i =
      { b.seg i with isSubmitted := false, flags := SgfInUse, next := none } :=
    seg_setSeg_self _ _ _ hi
  have hne_s : ∀ j, j ∈ ls → j ≠ i := fun j hj hc => hils (hc ▸ hj)
  refine ⟨by simpa using h.shared, hfl, ?_, ?_, ?_, ?_⟩
  · refine standbyL_frame h.standby (by simp) rfl rfl (fun j hj => hseg j (hne_s j hj)) ?_
    intro j hj
    by_cases hji : j = i
    · rw [hji, hself]; exact h.standby.ids i hi
    · rw [hseg j hji]; exact h.standby.ids j hj
  · intro j hj
    rw [hseg j (fun hc => hil (hc ▸ hj))]
    exact h.freeFlags j (List.mem_cons_of_mem _ hj)
  · intro j hj
    rw [hseg j (hne_s j hj)]; exact h.standbyFlags j hj
  · intro j hj hjf hjs
    by_cases hji : j = i
    · rw [hji, hself]
      exact ⟨rfl, rfl, (h.freeFlags i (List.mem_cons_self _ _)).2.1⟩
    · rw [hseg j hji]
      refine h.held j (by simpa using hj) ?_ hjs
      intro hc
      rcases List.mem_cons.mp hc with hc | hc
      · exact hji hc
      · exact hjf hc

theorem invL_takeOut {b : ServerStreamBuffer} {lf ls : List Nat} (h : b.InvL lf ls)
    {i : Nat} (hi : i ∈ ls) :
    ((b.setStandbyIndex (indexErase b.standbyIndex (b.standbyKey i)))._dequeueFromStandbyList
      i).InvL lf (ls.erase i) := by
  have hst := standbyL_takeOut h.standby hi
  have hl : (b.setStandbyIndex (indexErase b.standbyIndex (b.standbyKey i))).ListL ls :=
    listL_frame h.standby.list rfl rfl (fun _ _ => rfl) (fun _ _ => rfl)
  have hiN : i < b.getNumSegments := h.standby.list.lt i hi
  have hout : ∀ j, j ∉ ls → ((b.setStandbyIndex (indexErase b.standbyIndex
      (b.standbyKey i)))._dequeueFromStandbyList i).seg j = b.seg j :=
    fun j hj => dequeueFromStandbyList_outside hl hi hj
  have hself := dequeueFromStandbyList_self_eq
    (b.setStandbyIndex (indexErase b.standbyIndex (b.standbyKey i))) i hiN
  have hun := unlinked_dequeueFromStandbyList
    (b.setStandbyIndex (indexErase b.standbyIndex (b.standbyKey i))) i
  have hg := dequeueFromStandbyList_valid_size
    (b.setStandbyIndex (indexErase b.standbyIndex (b.standbyKey i))) i
  have hfr := dequeueFromStandbyList_frame
    (b.setStandbyIndex (indexErase b.standbyIndex (b.standbyKey i))) i
  have hrest := dequeueFromStandbyList_rest
    (b.setStandbyIndex (indexErase b.standbyIndex (b.standbyKey i))) i
  generalize (b.setStandbyIndex (indexErase b.standbyIndex
      (b.standbyKey i)))._dequeueFromStandbyList i = b1 at hst hout hself hun hg hfr hrest ⊢
  have hg' : b1.getNumSegments = b.getNumSegments := hg
  refine ⟨?_, ?_, hst, ?_, ?_, ?_⟩
  · rw [hfr.2.2.1, hg']; exact h.shared
  · refine freeL_frame h.free hg' hrest.1 ?_
    intro j hj
    rw [hout j (invL_disjoint h hj)]
  · intro j hj
    rw [hout j (invL_disjoint h hj)]
    exact h.freeFlags j hj
  · intro j hj
    obtain ⟨hji, hjl⟩ := (h.standby.list.nodup.mem_erase_iff).mp hj
    rw [flags_of_unlinked (hun j hji)]
    exact h.standbyFlags j hjl
  · intro j hj hjf hjs
    by_cases hji : j = i
    · rw [hji, hself]
      exact ⟨(h.standbyFlags i hi).1, rfl, rfl⟩
    · have hjl : j ∉ ls := fun hc =>
        hjs ((h.standby.list.nodup.mem_erase_iff).mpr ⟨hji, hc⟩)
      rw [hout j hjl]
      exact h.held j (hg' ▸ hj) hjf hjl

/-- `_removeStandbySegment(link)` for a key of the index: the segment found is
held afterwards. -/
theorem invL_remove {b : ServerStreamBuffer} {lf ls : List Nat} (h : b.InvL lf ls)
    {k : StoreStreamSegmentLink} {i : Nat} (hf : indexFind b.standbyIndex k = some i) :
    (b._removeStandbySegment k).1.InvL lf (ls.erase i) := by
  obtain ⟨hi, hk, e, -⟩ := standbyL_remove h.standby hf
  rw [e, hk]
  exact invL_takeOut h hi

theorem evictFromStandbyList_eq {b : ServerStreamBuffer} {ls : List Nat} (h : b.StandbyL ls)
    (hne : ls ≠ []) :
    b._evictFromStandbyList =
      ((((b.call (Call.notifySegmentCacheClosed (streamId (b.seg (ls.getLast hne)).stream)
          (b.seg (ls.getLast hne)).sequenceNumber)).setStandbyIndex
          (indexErase b.standbyIndex (b.standbyKey (ls.getLast hne))))._dequeueFromStandbyList
          (ls.getLast hne)).setSeg (ls.getLast hne)
        { (((b.call (Call.notifySegmentCacheClosed (streamId (b.seg (ls.getLast hne)).stream)
          (b.seg (ls.getLast hne)).sequenceNumber)).setStandbyIndex
          (indexErase b.standbyIndex (b.standbyKey (ls.getLast hne))))._dequeueFromStandbyList
          (ls.getLast hne)).seg (ls.getLast hne) with flags := SgfInUse },
        some (ls.getLast hne)) := by
  obtain ⟨hd, hhd, hpv⟩ := standbyL_tail h hne
  have hi : ls.getLast hne ∈ ls := List.getLast_mem hne
  unfold _evictFromStandbyList
  simp only [hhd, hpv]
  have e1 : b._notifyEncoderCacheClosed (ls.getLast hne) = b.call
      (Call.notifySegmentCacheClosed (streamId (b.seg (ls.getLast hne)).stream)
        (b.seg (ls.getLast hne)).sequenceNumber) := rfl
  rw [e1, findStandbySegment_member (standbyL_call h _).index hi]
  rfl

/-- `_evictFromStandbyList()` on a cache that is not empty: the last segment
of the list is held afterwards, with flags `InUse`. -/
theorem invL_evict {b : ServerStreamBuffer} {lf ls : List Nat} (h : b.InvL lf ls)
    (hne : ls ≠ []) : b._evictFromStandbyList.1.InvL lf ls.dropLast := by
  rw [evictFromStandbyList_eq h.standby hne]
  have hi : ls.getLast hne ∈ ls := List.getLast_mem hne
  have h1 := invL_call h (Call.notifySegmentCacheClosed
    (streamId (b.seg (ls.getLast hne)).stream) (b.seg (ls.getLast hne)).sequenceNumber)
  have h2 := invL_takeOut h1 hi
  rw [erase_getLast h.standby.list.nodup hne] at h2
  have hnot : ls.getLast hne ∉ ls.dropLast := by
    rw [← erase_getLast h.standby.list.nodup hne]
    exact fun hc => ((h.standby.list.nodup.mem_erase_iff).mp hc).1 rfl
  have hs := dequeueFromStandbyList_self
    ((b.call (Call.notifySegmentCacheClosed (streamId (b.seg (ls.getLast hne)).stream)
      (b.seg (ls.getLast hne)).sequenceNumber)).setStandbyIndex
      (indexErase b.standbyIndex (b.standbyKey (ls.getLast hne)))) (ls.getLast hne)
    (h.standby.list.lt _ hi)
  exact invL_setSeg h2 _ (fun hc => invL_disjoint h1 hc hi) hnot rfl rfl hs.1 hs.2.1

/-- `_addStandbySegment(segment)` for a held read-only cacheable segment whose
key is not cached: the segment joins the standby list. -/
theorem invL_add {b : ServerStreamBuffer} {lf ls : List Nat} (h : b.InvL lf ls) {i : Nat}
    (hi : i < b.getNumSegments) (hilf : i ∉ lf) (hils : i ∉ ls)
    (hro : (b.seg i).flags.readOnly = true) (hca : (b.seg i).flags.cacheable = true)
    (hf : indexFind b.standbyIndex (b.standbyKey i) = none) :
    (b._addStandbySegment i).InvL lf
      (if !(b.seg i).flags.lowPriority || (b.seg i).flags.prefetch then i :: ls
       else ls ++ [i]) := by
  have hst := standbyL_add h.standby hi hils hf
  rw [addStandbySegment_new hf] at hst ⊢
  have hl : (b.setStandbyIndex (indexSet b.standbyIndex (b.standbyKey i) i)).ListL ls :=
    listL_frame h.standby.list rfl rfl (fun _ _ => rfl) (fun _ _ => rfl)
  have hout : ∀ j, j ∉ ls → j ≠ i → ((b.setStandbyIndex (indexSet b.standbyIndex
      (b.standbyKey i) i))._enqueueToStandbyList i).seg j = b.seg j :=
    fun j hj hji => enqueueToStandbyList_outside hl hi hils hj hji
  have hself := unlinked_enqueueToStandbyList_self
    (b.setStandbyIndex (indexSet b.standbyIndex (b.standbyKey i) i)) i hi
  have hun := unlinked_enqueueToStandbyList
    (b.setStandbyIndex (indexSet b.standbyIndex (b.standbyKey i) i)) i
  have hg := getNumSegments_enqueueToStandbyList
    (b.setStandbyIndex (indexSet b.standbyIndex (b.standbyKey i) i)) i
  have hrest := enqueueToStandbyList_rest
    (b.setStandbyIndex (indexSet b.standbyIndex (b.standbyKey i) i)) i
  generalize (b.setStandbyIndex (indexSet b.standbyIndex
      (b.standbyKey i) i))._enqueueToStandbyList i = b1 at hst hout hself hun hg hrest ⊢
  have hg' : b1.getNumSegments = b.getNumSegments := hg
  have hmem : ∀ j, j ∈ (if !(b.seg i).flags.lowPriority || (b.seg i).flags.prefetch
      then i :: ls else ls ++ [i]) ↔ j = i ∨ j ∈ ls := by
    intro j
    split_ifs
    · simp
    · simp [or_comm]
  have hinuse := (h.held i hi hilf hils).1
  have hflags : (b1.seg i).flags.inUse = true ∧ (b1.seg i).flags.readOnly = true ∧
      (b1.seg i).flags.cacheable = true := by
    have hfl : (b1.seg i).flags = if b.standbyHead = none then (b.seg i).flags
        else { (b.seg i).flags with prefetch := false } := by
      have := congrArg Segment.flags hself
      exact this
    rw [hfl]
    split_ifs
    · exact ⟨hinuse, hro, hca⟩
    · exact ⟨hinuse, hro, hca⟩
  refine ⟨?_, ?_, hst, ?_, ?_, ?_⟩
  · rw [hrest.2.2.1, hg']; exact h.shared
  · refine freeL_frame h.free hg' hrest.1 ?_
    intro j hj
    rw [hout j (invL_disjoint h hj) (fun hc => hilf (hc ▸ hj))]
  · intro j hj
    rw [hout j (invL_disjoint h hj) (fun hc => hilf (hc ▸ hj))]
    exact h.freeFlags j hj
  · intro j hj
    rcases (hmem j).mp hj with hji | hjl
    · rw [hji]; exact hflags
    · have hji : j ≠ i := fun hc => hils (hc ▸ hjl)
      rw [flags_of_unlinked (hun j hji)]
      exact h.standbyFlags j hjl
  · intro j hj hjf hjs
    have hji : j ≠ i := fun hc => hjs ((hmem j).mpr (Or.inl hc))
    have hjl : j ∉ ls := fun hc => hjs ((hmem j).mpr (Or.inr hc))
    rw [hout j hjl hji]
    exact h.held j (hg' ▸ hj) hjf hjl

/-- `_addStandbySegment(segment)` on a well-formed pool, whichever way it
goes. -/
theorem invL_addStandby {b : ServerStreamBuffer} {lf ls : List Nat} (h : b.InvL lf ls)
    {i : Nat} (hi : i < b.getNumSegments) (hilf : i ∉ lf) (hils : i ∉ ls)
    (hro : (b.seg i).flags.readOnly = true) (hca : (b.seg i).flags.cacheable = true) :
    ∃ lf1 ls1, (b._addStandbySegment i).InvL lf1 ls1 := by
  cases hf : indexFind b.standbyIndex (b.standbyKey i) with
  | none => exact ⟨_, _, invL_add h hi hilf hils hro hca hf⟩
  | some k =>
    rw [addStandbySegment_duplicate hf, h.standby.ids i hi]
    exact ⟨_, _, invL_purge h hi hilf hils⟩

/-- `_freeSegment(segment, prefetch)` for a held segment. -/
theorem invL_free {b : ServerStreamBuffer} {lf ls : List Nat} (h : b.InvL lf ls) (env : Env)
    {i : Nat} (prefetch : Bool) (hi : i < b.getNumSegments) (hilf : i ∉ lf) (hils : i ∉ ls) :
    ∃ lf1 ls1, (b._freeSegment env i prefetch).InvL lf1 ls1 := by
  have hheld := h.held i hi hilf hils
  unfold _freeSegment
  simp only
  have h1 : (b.setSeg i { b.seg i with isSubmitted := true }).InvL lf ls :=
    invL_setSeg h _ hilf hils rfl hheld.1 hheld.2.1 hheld.2.2
  have s1 : (b.setSeg i { b.seg i with isSubmitted := true }).seg i =
      { b.seg i with isSubmitted := true } := seg_setSeg_self _ _ _ hi
  have g1 : (b.setSeg i { b.seg i with isSubmitted := true }).getNumSegments =
      b.getNumSegments := getNumSegments_setSeg _ _ _
  generalize b.setSeg i { b.seg i with isSubmitted := true } = b1 at h1 s1 g1 ⊢
  have hi1 : i < b1.getNumSegments := g1 ▸ hi
  have hheld1 := h1.held i hi1 hilf hils
  by_cases hc : ((b1.seg i).flags.cacheable && b1.enableCache &&
      decide ((b1.seg i).control.rawEntryCount > 0)) = true
  · -- the segment goes to the standby list
    rw [if_pos hc]
    have hca : (b1.seg i).flags.cacheable = true := by
      cases hx : (b1.seg i).flags.cacheable
      · simp [hx] at hc
      · rfl
    have h2 : (if prefetch = true then b1.setSeg i { b1.seg i with
        flags := { (b1.seg i).flags with prefetch := true } } else b1).InvL lf ls := by
      split_ifs
      · exact invL_setSeg h1 _ hilf hils rfl hheld1.1 hheld1.2.1 hheld1.2.2
      · exact h1
    have f2 : ((if prefetch = true then b1.setSeg i { b1.seg i with
        flags := { (b1.seg i).flags with prefetch := true } } else b1).seg i).flags.cacheable
        = true := by
      split_ifs
      · rw [seg_setSeg_self _ _ _ hi1]; exact hca
      · exact hca
    have g2 : (if prefetch = true then b1.setSeg i { b1.seg i with
        flags := { (b1.seg i).flags with prefetch := true } } else b1).getNumSegments
        = b1.getNumSegments := by
      split_ifs
      · exact getNumSegments_setSeg _ _ _
      · rfl
    generalize (if prefetch = true then b1.setSeg i { b1.seg i with
        flags := { (b1.seg i).flags with prefetch := true } } else b1) = b2 at h2 f2 g2 ⊢
    have hi2 : i < b2.getNumSegments := g2 ▸ hi1
    have hheld2 := h2.held i hi2 hilf hils
    by_cases hro : (b2.seg i).flags.readOnly = true
    · rw [if_neg (by simp [hro])]
      exact invL_addStandby h2 hi2 hilf hils hro f2
    · rw [if_pos (by simpa using hro)]
      have h3 : (b2.setSeg i { b2.seg i with
          flags := { (b2.seg i).flags with readOnly := true } }).InvL lf ls :=
        invL_setSeg h2 _ hilf hils rfl hheld2.1 hheld2.2.1 hheld2.2.2
      have s3 : (b2.setSeg i { b2.seg i with
          flags := { (b2.seg i).flags with readOnly := true } }).seg i = { b2.seg i with
          flags := { (b2.seg i).flags with readOnly := true } } := seg_setSeg_self _ _ _ hi2
      have g3 : (b2.setSeg i { b2.seg i with
          flags := { (b2.seg i).flags with readOnly := true } }).getNumSegments
          = b2.getNumSegments := getNumSegments_setSeg _ _ _
      generalize b2.setSeg i { b2.seg i with
          flags := { (b2.seg i).flags with readOnly := true } } = b3 at h3 s3 g3 ⊢
      have hi3 : i < b3.getNumSegments := g3 ▸ hi2
      have hheld3 := h3.held i hi3 hilf hils
      have h4 : (b3.setSeg i { b3.seg i with
          control := { (b3.seg i).control with
            cookie := b3._computeControlCookie env (b3.seg i).control (b3.seg i) } }).InvL
          lf ls :=
        invL_setSeg h3 _ hilf hils rfl hheld3.1 hheld3.2.1 hheld3.2.2
      have s4 : (b3.setSeg i { b3.seg i with
          control := { (b3.seg i).control with
            cookie := b3._computeControlCookie env (b3.seg i).control (b3.seg i) } }).seg i =
          { b3.seg i with
          control := { (b3.seg i).control with
            cookie := b3._computeControlCookie env (b3.seg i).control (b3.seg i) } } :=
        seg_setSeg_self _ _ _ hi3
      have g4 : (b3.setSeg i { b3.seg i with
          control := { (b3.seg i).control with
            cookie := b3._computeControlCookie env (b3.seg i).control (b3.seg i) } }).getNumSegments
          = b3.getNumSegments := getNumSegments_setSeg _ _ _
      generalize b3.setSeg i { b3.seg i with
          control := { (b3.seg i).control with
            cookie := b3._computeControlCookie env (b3.seg i).control (b3.seg i) } } = b4
        at h4 s4 g4 ⊢
      have h5 := invL_setShared h4 (b4.seg i).id (b4.seg i).control
      refine invL_addStandby h5 (by simpa using g4 ▸ hi3) hilf hils ?_ ?_
      · rw [seg_setShared, s4, s3]
      · rw [seg_setShared, s4, s3]; exact f2
  · rw [if_neg hc]
    exact ⟨_, _, invL_purge h1 hi1 hilf hils⟩

/-! ### Assignments to a held segment -/

theorem heldL_flags {b : ServerStreamBuffer} {lf ls : List Nat} {i : Nat}
    (h : b.HeldL lf ls i) :
    (b.seg i).flags.inUse = true ∧ (b.seg i).next = none ∧ (b.seg i).prev = none ∧
    (b.seg i).id = i :=
  ⟨(h.1.held i h.2.1 h.2.2.1 h.2.2.2).1, (h.1.held i h.2.1 h.2.2.1 h.2.2.2).2.1,
   (h.1.held i h.2.1 h.2.2.1 h.2.2.2).2.2, h.1.standby.ids i h.2.1⟩

theorem heldL_of_flags {b : ServerStreamBuffer} {lf ls : List Nat} {i : Nat}
    (h : b.InvL lf ls) (hi : i < b.getNumSegments) (hu : (b.seg i).flags.inUse = true)
    (hn : (b.seg i).next = none) : b.HeldL lf ls i :=
  ⟨h, hi, (invL_held h hu hn).1, (invL_held h hu hn).2⟩

/-- An assignment to fields of a held segment other than `id`, `next`, `prev`
and the `InUse` bit. -/
theorem heldL_setSeg {b : ServerStreamBuffer} {lf ls : List Nat} {i : Nat}
    (h : b.HeldL lf ls i) (s : Segment) (hid : s.id = (b.seg i).id)
    (hu : s.flags.inUse = (b.seg i).flags.inUse) (hn : s.next = (b.seg i).next)
    (hp : s.prev = (b.seg i).prev) : (b.setSeg i s).HeldL lf ls i := by
  obtain ⟨f1, f2, f3, _⟩ := heldL_flags h
  exact ⟨invL_setSeg h.1 s h.2.2.1 h.2.2.2 hid (hu.trans f1) (hn.trans f2) (hp.trans f3),
    by simpa using h.2.1, h.2.2.1, h.2.2.2⟩

theorem heldL_setShared {b : ServerStreamBuffer} {lf ls : List Nat} {i : Nat}
    (h : b.HeldL lf ls i) (k : Nat) (c : SegmentControlElement) :
    (b.setShared k c).HeldL lf ls i :=
  ⟨invL_setShared h.1 k c, h.2.1, h.2.2.1, h.2.2.2⟩

theorem heldL_call {b : ServerStreamBuffer} {lf ls : List Nat} {i : Nat}
    (h : b.HeldL lf ls i) (c : Call) : (b.call c).HeldL lf ls i :=
  ⟨invL_call h.1 c, h.2.1, h.2.2.1, h.2.2.2⟩

theorem heldL_prepare {b : ServerStreamBuffer} {lf ls : List Nat} {i : Nat}
    (h : b.HeldL lf ls i) (env : Env) (stream : Option ServerStream)
    (sequenceNumber now : Nat) :
    (b._prepareSegment env i stream sequenceNumber now).HeldL lf ls i := by
  unfold _prepareSegment
  simp only
  apply heldL_setSeg _ _ (by rfl) (by rfl) (by rfl) (by rfl)
  exact heldL_setShared h _ _

theorem heldL_markLoaded {b : ServerStreamBuffer} {lf ls : List Nat} {i : Nat}
    (h : b.HeldL lf ls i) (flags : StreamAccessFlags) : (b.markLoaded i flags).HeldL lf ls i := by
  unfold markLoaded
  simp only
  repeat (first
    | apply heldL_setSeg _ _ (by rfl) (by rfl) (by rfl) (by rfl)
    | split_ifs
    | exact h)

theorem heldL_loadControl {b : ServerStreamBuffer} {lf ls : List Nat} {i : Nat}
    (h : b.HeldL lf ls i) (env : Env) (loc : StorageLocation) :
    (b.loadControl env i loc).HeldL lf ls i := by
  unfold loadControl
  simp only
  apply heldL_setSeg _ _ (by rfl) (by rfl) (by rfl) (by rfl)
  exact heldL_setShared h _ _

theorem heldL_requestFresh {b : ServerStreamBuffer} {lf ls : List Nat} {i : Nat}
    (h : b.HeldL lf ls i) (stream : Option ServerStream) :
    (b.requestFresh i stream).1.HeldL lf ls i := by
  unfold requestFresh
  cases stream with
  | none => exact heldL_setSeg h _ rfl rfl rfl rfl
  | some s =>
    simp only
    split_ifs
    · exact heldL_setSeg h _ rfl rfl rfl rfl
    · exact h

theorem heldL_submitCopyControl {b : ServerStreamBuffer} {lf ls : List Nat} {i : Nat}
    (h : b.HeldL lf ls i) : (b.submitCopyControl i).HeldL lf ls i := by
  unfold submitCopyControl
  simp only
  repeat (first
    | apply heldL_setSeg _ _ (by rfl) (by rfl) (by rfl) (by rfl)
    | split_ifs
    | exact h)

theorem heldL_submitFixEntryCount {b : ServerStreamBuffer} {lf ls : List Nat} {i : Nat}
    (h : b.HeldL lf ls i) : (b.submitFixEntryCount i).HeldL lf ls i := by
  unfold submitFixEntryCount
  repeat (first
    | apply heldL_setSeg _ _ (by rfl) (by rfl) (by rfl) (by rfl)
    | split_ifs
    | exact h)

theorem heldL_submitStampRanges {b : ServerStreamBuffer} {lf ls : List Nat} {i : Nat}
    (h : b.HeldL lf ls i) (now : Nat) : (b.submitStampRanges i now).HeldL lf ls i := by
  unfold submitStampRanges
  simp only
  repeat (first
    | apply heldL_setSeg _ _ (by rfl) (by rfl) (by rfl) (by rfl)
    | split_ifs
    | exact h)

theorem heldL_submitCatch {b : ServerStreamBuffer} {lf ls : List Nat} {i : Nat}
    (h : b.HeldL lf ls i) : (b.submitCatch i).HeldL lf ls i :=
  heldL_setSeg h _ rfl rfl rfl rfl

/-! ### Allocation on a well-formed pool -/

/-- One try of the allocation: the head of the free list if there is one,
else the last segment of the standby list if there is one. -/
theorem invL_allocateOnce {b : ServerStreamBuffer} {lf ls : List Nat} (h : b.InvL lf ls) :
    b.allocateOnce.1.InvL lf.tail (if lf = [] then ls.dropLast else ls) ∧
    b.allocateOnce.2 = (lf.head?).or ls.getLast? ∧
    ∀ i, b.allocateOnce.2 = some i →
      b.allocateOnce.1.HeldL lf.tail (if lf = [] then ls.dropLast else ls) i := by
  cases lf with
  | cons i l =>
    obtain ⟨e, -⟩ := dequeueFromFreeList_cons h.free
    have h1 := invL_dequeueFree h
    have ea : b.allocateOnce = (b._dequeueFromFreeList.1, some i) := by
      unfold allocateOnce
      rw [e]
    rw [ea]
    simp only [List.tail_cons, List.head?_cons, Option.or_some, if_false,
      reduceCtorEq, Option.some.injEq]
    refine ⟨h1, trivial, ?_⟩
    intro k hk
    rw [← hk]
    refine ⟨h1, ?_, (List.nodup_cons.mp h.free.nodup).1,
      invL_disjoint h (List.mem_cons_self _ _)⟩
    rw [e]
    simpa using h.free.lt i (List.mem_cons_self _ _)
  | nil =>
    have e := dequeueFromFreeList_nil h.free
    by_cases hne : ls = []
    · subst hne
      have hh : b.standbyHead = none := h.standby.list.head
      have ea : b.allocateOnce = (b, none) := by
        unfold allocateOnce
        rw [e]
        simp only [_evictFromStandbyList, hh]
      rw [ea]
      simp only [List.tail_nil, if_true, List.dropLast_nil, List.head?_nil, List.getLast?_nil,
        Option.or_none]
      exact ⟨h, trivial, fun i hi => by simp at hi⟩
    · have h1 := invL_evict h hne
      have e2 := evictFromStandbyList_eq h.standby hne
      have ea : b.allocateOnce = b._evictFromStandbyList := by
        unfold allocateOnce
        rw [e]
      rw [ea]
      have hr : b._evictFromStandbyList.2 = some (ls.getLast hne) := by rw [e2]
      simp only [List.tail_nil, if_true, List.head?_nil, Option.none_or, hr,
        List.getLast?_eq_getLast _ hne, true_and, Option.some.injEq]
      refine ⟨h1, ?_⟩
      intro k hk
      rw [← hk]
      have hi : ls.getLast hne ∈ ls := List.getLast_mem hne
      refine ⟨h1, ?_, List.not_mem_nil _, ?_⟩
      · rw [e2]
        simp only [getNumSegments_setSeg, dequeueFromStandbyList_valid_size]
        exact h.standby.list.lt _ hi
      · rw [← erase_getLast h.standby.list.nodup hne]
        exact fun hc => ((h.standby.list.nodup.mem_erase_iff).mp hc).1 rfl

theorem allocateOnce_none_lists {b b1 : ServerStreamBuffer} {lf ls : List Nat}
    (h : b.InvL lf ls) (hd : b.allocateOnce = (b1, none)) : b1 = b ∧ lf = [] ∧ ls = [] := by
  obtain ⟨-, h2, -⟩ := invL_allocateOnce h
  rw [hd] at h2
  simp only at h2
  have hlf : lf = [] := by
    cases lf with
    | nil => rfl
    | cons a l => simp at h2
  subst hlf
  refine ⟨allocateOnce_none hd, rfl, ?_⟩
  cases hq : ls.getLast? with
  | none => exact List.getLast?_eq_none_iff.mp hq
  | some a => simp [hq] at h2

theorem invL_tryAllocateLoop (env : Env) (stream : Option ServerStream)
    (sequenceNumber : Nat) (prefetch : Bool) (now : Nat) :
    ∀ (fuel tryCount : Nat) (b : ServerStreamBuffer) (lf ls : List Nat), b.InvL lf ls →
      (tryAllocateLoop env stream sequenceNumber prefetch now fuel tryCount b).1.InvL lf.tail
        (if lf = [] then ls.dropLast else ls) ∧
      (tryAllocateLoop env stream sequenceNumber prefetch now fuel tryCount b).2 =
        (lf.head?).or ls.getLast? ∧
      ∀ i, (tryAllocateLoop env stream sequenceNumber prefetch now fuel tryCount b).2 = some i →
        (tryAllocateLoop env stream sequenceNumber prefetch now fuel tryCount b).1.HeldL
          lf.tail (if lf = [] then ls.dropLast else ls) i := by
  intro fuel
  induction fuel with
  | zero =>
    intro tryCount b lf ls h
    unfold tryAllocateLoop
    obtain ⟨h1, h2, h3⟩ := invL_allocateOnce h
    rcases hd : b.allocateOnce with ⟨b1, _ | i⟩
    · obtain ⟨hb1, hlf, hls⟩ := allocateOnce_none_lists h hd
      subst hb1; subst hlf; subst hls
      simp only [List.tail_nil, if_true, List.dropLast_nil, List.head?_nil, List.getLast?_nil,
        Option.or_none]
      by_cases hp : prefetch = true
      · rw [if_pos hp]
        exact ⟨h, rfl, fun i hi => by simp at hi⟩
      · rw [if_neg hp]
        unfold _handleContention
        by_cases hge : tryCount ≥ env.retryCount
        · rw [if_pos hge]
          exact ⟨h, rfl, fun i hi => by simp at hi⟩
        · rw [if_neg hge]
          exact ⟨invL_call h _, rfl, fun i hi => by simp at hi⟩
    · rw [hd] at h1 h2 h3
      simp only at h1 h2 h3 ⊢
      have hh := h3 i rfl
      rw [(heldL_flags hh).2.2.2]
      have hp := heldL_prepare hh env stream sequenceNumber now
      exact ⟨hp.1, h2, fun k hk => by
        simp only [Option.some.injEq] at hk; rw [← hk]; exact hp⟩
  | succ fuel ih =>
    intro tryCount b lf ls h
    unfold tryAllocateLoop
    obtain ⟨h1, h2, h3⟩ := invL_allocateOnce h
    rcases hd : b.allocateOnce with ⟨b1, _ | i⟩
    · obtain ⟨hb1, hlf, hls⟩ := allocateOnce_none_lists h hd
      subst hb1; subst hlf; subst hls
      have ih0 := ih (tryCount + 1) (b1.call (Call.sleep env.retrySleep)) [] []
        (invL_call h _)
      simp only [List.tail_nil, if_true, List.dropLast_nil, List.head?_nil, List.getLast?_nil,
        Option.or_none] at ih0 ⊢
      by_cases hp : prefetch = true
      · rw [if_pos hp]
        exact ⟨h, rfl, fun i hi => by simp at hi⟩
      · rw [if_neg hp]
        unfold _handleContention
        by_cases hge : tryCount ≥ env.retryCount
        · rw [if_pos hge]
          exact ⟨h, rfl, fun i hi => by simp at hi⟩
        · rw [if_neg hge]
          exact ih0
    · rw [hd] at h1 h2 h3
      simp only at h1 h2 h3 ⊢
      have hh := h3 i rfl
      rw [(heldL_flags hh).2.2.2]
      have hp := heldL_prepare hh env stream sequenceNumber now
      exact ⟨hp.1, h2, fun k hk => by
        simp only [Option.some.injEq] at hk; rw [← hk]; exact hp⟩

/-! ### The engine operations keep the pool well formed -/

theorem inv_of_invL {b : ServerStreamBuffer} {lf ls : List Nat} (h : b.InvL lf ls) :
    b.WellFormed := by
  unfold WellFormed
  rw [freeL_freeList h.free, listL_standbyList h.standby.list]
  exact h

theorem invL_lists {b : ServerStreamBuffer} {lf ls : List Nat} (h : b.InvL lf ls) :
    b.freeList = lf ∧ b.standbyList = ls :=
  ⟨freeL_freeList h.free, listL_standbyList h.standby.list⟩

theorem inv_purge {b : ServerStreamBuffer} {lf ls : List Nat} {i : Nat}
    (h : b.HeldL lf ls i) : (b._purgeSegment i).WellFormed :=
  inv_of_invL (invL_purge h.1 h.2.1 h.2.2.1 h.2.2.2)

theorem inv_free {b : ServerStreamBuffer} {lf ls : List Nat} {i : Nat}
    (h : b.HeldL lf ls i) (env : Env) (prefetch : Bool) :
    (b._freeSegment env i prefetch).WellFormed := by
  obtain ⟨lf1, ls1, h1⟩ := invL_free h.1 env prefetch h.2.1 h.2.2.1 h.2.2.2
  exact inv_of_invL h1

theorem inv_requestLoad {b : ServerStreamBuffer} {lf ls : List Nat} {i : Nat}
    (h : b.HeldL lf ls i) (env : Env) (stream : Option ServerStream)
    (flags : StreamAccessFlags) (loc : StorageLocation) (prefetch : Bool) (rd : ReadOutcome) :
    (b.requestLoad env i stream flags loc prefetch rd).1.WellFormed := by
  unfold requestLoad
  have h1 := heldL_call (heldL_loadControl (heldL_markLoaded h flags) env loc)
    (Call.read (streamId stream) (((b.markLoaded i flags).loadControl env i loc).seg i).id
      prefetch)
  cases rd with
  | returns completed => exact inv_of_invL h1.1
  | throws code =>
    simp only
    have hid : (((b.markLoaded i flags).loadControl env i loc).call
        (Call.read (streamId stream) (((b.markLoaded i flags).loadControl env i loc).seg i).id
          prefetch)).seg i = ((b.markLoaded i flags).loadControl env i loc).seg i := rfl
    have := (heldL_flags h1).2.2.2
    rw [this]
    exact inv_purge h1

theorem inv_requestSegment {b : ServerStreamBuffer} (h : b.WellFormed) (env : Env)
    (stream : Option ServerStream) (sequenceNumber : Nat) (flags : StreamAccessFlags)
    (location : Option StorageLocation) (prefetch : Bool) (now : Nat) (rd : ReadOutcome) :
    (b._requestSegment env stream sequenceNumber flags location prefetch now rd).1.WellFormed := by
  unfold _requestSegment
  have hmiss : ∀ b1 : ServerStreamBuffer, b1.WellFormed →
      (match b1._tryAllocateFreeSegment env stream sequenceNumber prefetch now with
        | (b, none) => ((b, .ok (INVALID_SEGMENT_ID, true)) : Result (Nat × Bool))
        | (b, some i) =>
          match location with
          | some loc => b.requestLoad env i stream flags loc prefetch rd
          | none => b.requestFresh i stream).1.WellFormed := by
    intro b1 h1
    obtain ⟨h2, -, h3⟩ := invL_tryAllocateLoop env stream sequenceNumber prefetch now
      env.retryCount 1 b1 _ _ h1
    unfold _tryAllocateFreeSegment
    rcases ha : tryAllocateLoop env stream sequenceNumber prefetch now env.retryCount 1 b1
      with ⟨b2, _ | i⟩
    · rw [ha] at h2
      exact inv_of_invL h2
    · rw [ha] at h3
      have hh := h3 i rfl
      cases location with
      | none => exact inv_of_invL (heldL_requestFresh hh stream).1
      | some loc => exact inv_requestLoad hh env stream flags loc prefetch rd
  cases stream with
  | none =>
    simp only [lookupStandby]
    exact hmiss b h
  | some s =>
    simp only [lookupStandby]
    cases hf : indexFind b.standbyIndex
        { store := s.store, stream := s.id, sequenceNumber := sequenceNumber } with
    | none =>
      rw [removeStandbySegment_none hf]
      exact hmiss b h
    | some i =>
      have h1 := invL_remove h hf
      obtain ⟨-, -, e, -⟩ := standbyL_remove h.standby hf
      rw [e] at h1 ⊢
      exact inv_of_invL h1

theorem inv_submitEncode {b : ServerStreamBuffer} {lf ls : List Nat} {i : Nat}
    (h : b.HeldL lf ls i) (env : Env) (wr : WriteOutcome) :
    (b.submitEncode env i wr).1.WellFormed := by
  unfold submitEncode
  have h1 : ((b.setSeg i { b.seg i with
      control := { (b.seg i).control with
        cookie := b._computeControlCookie env (b.seg i).control (b.seg i) } }).call
      (Call.write (streamId ((b.setSeg i { b.seg i with
      control := { (b.seg i).control with
        cookie := b._computeControlCookie env (b.seg i).control (b.seg i) } }).seg i).stream)
          i)).HeldL lf ls i := by
    apply heldL_call
    apply heldL_setSeg _ _ (by rfl) (by rfl) (by rfl) (by rfl)
    exact h
  cases wr with
  | throws code => exact inv_of_invL h1.1
  | returns completed location =>
    simp only
    split_ifs
    · exact inv_free h1 env false
    · exact inv_purge h1
    · exact inv_of_invL h1.1

theorem inv_submitTry {b : ServerStreamBuffer} {lf ls : List Nat} {i : Nat}
    (h : b.HeldL lf ls i) (env : Env) (now : Nat) (wr : WriteOutcome) :
    (b.submitTry env i now wr).1.WellFormed := by
  unfold submitTry
  simp only
  split_ifs
  · exact inv_of_invL (heldL_submitFixEntryCount h).1
  · exact inv_of_invL (heldL_submitStampRanges (heldL_submitFixEntryCount h) now).1
  · exact inv_submitEncode (heldL_submitStampRanges (heldL_submitFixEntryCount h) now) env wr

/-! ### `flushStandbyList` on a well-formed pool -/

theorem flushLoop_succ (store last fuel seg : Nat) (b : ServerStreamBuffer) :
    flushLoop store last (fuel + 1) seg b =
      if seg = last then (if flushes store (storeId (b.seg seg).stream) then b.flushOne seg else b)
      else
        match (b.seg seg).next with
        | none => (if flushes store (storeId (b.seg seg).stream) then b.flushOne seg else b)
        | some n => flushLoop store last fuel n
            (if flushes store (storeId (b.seg seg).stream) then b.flushOne seg else b) := by
  have e : (if store = INVALID_STORE_ID ∨ storeId (b.seg seg).stream = store then
      b.flushOne seg else b) =
      (if flushes store (storeId (b.seg seg).stream) then b.flushOne seg else b) := by
    unfold flushes
    by_cases hc : store = INVALID_STORE_ID ∨ storeId (b.seg seg).stream = store
    · rw [if_pos hc, if_pos (by simpa using hc)]
    · rw [if_neg hc, if_neg (by simpa using hc)]
  rw [← e]
  rfl

/-- One segment of the standby list is flushed: it is the new head of the
free list, and the other segments keep their places. -/
theorem invL_flushOne {b : ServerStreamBuffer} {lf ls : List Nat} (h : b.InvL lf ls)
    {x : Nat} (hx : x ∈ ls) :
    (b.flushOne x).InvL (x :: lf) (ls.erase x) ∧
    ∀ j, j ≠ x → ((b.flushOne x).seg j).unlinked = (b.seg j).unlinked := by
  unfold flushOne
  simp only
  have e1 : b._notifyEncoderCacheClosed x = b.call
      (Call.notifySegmentCacheClosed (streamId (b.seg x).stream) (b.seg x).sequenceNumber) := rfl
  have h1 := invL_call h (Call.notifySegmentCacheClosed (streamId (b.seg x).stream)
    (b.seg x).sequenceNumber)
  have s1 : ∀ j, (b.call (Call.notifySegmentCacheClosed (streamId (b.seg x).stream)
    (b.seg x).sequenceNumber)).seg j = b.seg j := fun _ => rfl
  have g1 : (b.call (Call.notifySegmentCacheClosed (streamId (b.seg x).stream)
    (b.seg x).sequenceNumber)).getNumSegments = b.getNumSegments := rfl
  rw [e1]
  generalize b.call (Call.notifySegmentCacheClosed (streamId (b.seg x).stream)
    (b.seg x).sequenceNumber) = b1 at h1 s1 g1 ⊢
  rw [findStandbySegment_member h1.standby.index hx]
  simp only
  have h2 := invL_takeOut h1 hx
  have u2 := unlinked_dequeueFromStandbyList
    (b1.setStandbyIndex (indexErase b1.standbyIndex (b1.standbyKey x))) x
  have g2 := dequeueFromStandbyList_valid_size
    (b1.setStandbyIndex (indexErase b1.standbyIndex (b1.standbyKey x))) x
  generalize (b1.setStandbyIndex (indexErase b1.standbyIndex
    (b1.standbyKey x)))._dequeueFromStandbyList x = b2 at h2 u2 g2 ⊢
  have hxN : x < b2.getNumSegments := by
    rw [g2]
    exact h1.standby.list.lt x hx
  have hnot : x ∉ ls.erase x :=
    fun hc => ((h.standby.list.nodup.mem_erase_iff).mp hc).1 rfl
  rw [h2.standby.ids x hxN]
  refine ⟨invL_purge h2 hxN (fun hc => invL_disjoint h1 hc hx) hnot, ?_⟩
  intro j hj
  rw [purgeSegment_eq]
  unfold _enqueueToFreeList
  rw [seg_setFreeHead, seg_setSeg_ne _ _ _ _ hj]
  show (b2.seg j).unlinked = (b.seg j).unlinked
  rw [u2 j hj]
  show (b1.seg j).unlinked = (b.seg j).unlinked
  rw [s1]

theorem listL_next_of_split {b : ServerStreamBuffer} {pre post : List Nat} {x y : Nat}
    (h : b.ListL (pre ++ x :: y :: post)) : (b.seg x).next = some y := by
  have hc := h.cycle
  rw [linkedRing_rotate_iff] at hc
  exact hc.1.1

theorem filter_cons_true (p : Nat → Bool) (x : Nat) (l : List Nat) (h : p x = true) :
    (x :: l).filter p = x :: l.filter p := by
  simp [List.filter_cons, h]

theorem filter_cons_false (p : Nat → Bool) (x : Nat) (l : List Nat) (h : ¬ p x = true) :
    (x :: l).filter p = l.filter p := by
  simp [List.filter_cons, h]

/-- The loop of `flushStandbyList(store)` from the segment `x` of the standby
list `kept ++ x :: rem` to its last segment: the segments of `x :: rem` whose
stream is of the store go to the free list, the last one flushed on top, and
the others stay on the standby list in their order. `st j` is the store of the
stream of segment `j`. -/
theorem invL_flushLoop (store : Nat) (st : Nat → Nat) :
    ∀ (rem : List Nat) (x : Nat) (b : ServerStreamBuffer) (lf kept : List Nat) (fuel : Nat),
      b.InvL lf (kept ++ x :: rem) → rem.length < fuel →
      (∀ j, j ∈ x :: rem → storeId (b.seg j).stream = st j) →
      (flushLoop store (rem.getLastD x) fuel x b).InvL
        (((x :: rem).filter (fun j => flushes store (st j))).reverse ++ lf)
        (kept ++ (x :: rem).filter (fun j => !flushes store (st j))) ∧
      (∀ j, j ∉ (x :: rem).filter (fun j => flushes store (st j)) →
        ((flushLoop store (rem.getLastD x) fuel x b).seg j).unlinked = (b.seg j).unlinked) := by
  intro rem
  induction rem with
  | nil =>
    intro x b lf kept fuel h hfuel hst
    obtain ⟨f, rfl⟩ : ∃ f, fuel = f + 1 := ⟨fuel - 1, by omega⟩
    rw [flushLoop_succ]
    simp only [List.getLastD_nil, if_true]
    have hxl : x ∈ kept ++ [x] := by simp
    have hxk : x ∉ kept := by
      have := h.standby.list.nodup
      rw [List.nodup_append] at this
      exact fun hc => this.2.2 hc (List.mem_singleton_self x)
    rw [hst x (List.mem_singleton_self x)]
    by_cases hp : flushes store (st x) = true
    · simp only [hp, if_true, List.filter_cons_of_pos, List.filter_nil, List.reverse_cons,
        List.reverse_nil, List.nil_append, List.singleton_append, Bool.not_true,
        Bool.false_eq_true, not_false_eq_true, List.filter_cons_of_neg, List.append_nil,
        List.mem_singleton]
      obtain ⟨h1, h2⟩ := invL_flushOne h hxl
      rw [erase_split hxk, List.append_nil] at h1
      exact ⟨h1, h2⟩
    · simp only [hp, if_false, Bool.false_eq_true, not_false_eq_true, List.filter_cons_of_neg,
        List.filter_nil, List.reverse_nil, List.nil_append, Bool.not_false,
        List.filter_cons_of_pos, List.not_mem_nil, forall_const]
      exact ⟨h, trivial⟩
  | cons y rem ih =>
    intro x b lf kept fuel h hfuel hst
    obtain ⟨f, rfl⟩ : ∃ f, fuel = f + 1 := ⟨fuel - 1, by omega⟩
    rw [flushLoop_succ]
    have hnd := h.standby.list.nodup
    have hxrest : x ∉ y :: rem := by
      rw [List.nodup_append] at hnd
      exact (List.nodup_cons.mp hnd.2.1).1
    have hxk : x ∉ kept := by
      rw [List.nodup_append] at hnd
      exact fun hc => hnd.2.2 hc (List.mem_cons_self _ _)
    have hlast : x ≠ (y :: rem).getLastD x := by
      rw [List.getLastD_cons]
      exact fun hc => hxrest (hc ▸ getLastD_mem rem y)
    rw [if_neg hlast, listL_next_of_split h.standby.list]
    simp only
    rw [List.getLastD_cons, hst x (List.mem_cons_self _ _)]
    have hxl : x ∈ kept ++ x :: y :: rem := by simp
    by_cases hp : flushes store (st x) = true
    · rw [if_pos hp]
      obtain ⟨h1, h2⟩ := invL_flushOne h hxl
      rw [erase_split hxk] at h1
      have hst1 : ∀ j, j ∈ y :: rem → storeId ((b.flushOne x).seg j).stream = st j := by
        intro j hj
        have hjx : j ≠ x := fun hc => hxrest (hc ▸ hj)
        have : ((b.flushOne x).seg j).stream = (b.seg j).stream := by
          have := congrArg Segment.stream (h2 j hjx)
          exact this
        rw [this]
        exact hst j (List.mem_cons_of_mem _ hj)
      obtain ⟨r1, r2⟩ := ih y (b.flushOne x) (x :: lf) kept f h1 (by simpa using hfuel) hst1
      refine ⟨?_, ?_⟩
      · have e1 : (List.filter (fun j => flushes store (st j)) (x :: y :: rem)).reverse ++ lf =
            (List.filter (fun j => flushes store (st j)) (y :: rem)).reverse ++ x :: lf := by
          rw [filter_cons_true (fun j => flushes store (st j)) x _ hp, List.reverse_cons,
            List.append_assoc]
          rfl
        have e2 : List.filter (fun j => !flushes store (st j)) (x :: y :: rem) =
            List.filter (fun j => !flushes store (st j)) (y :: rem) := by
          rw [filter_cons_false (fun j => !flushes store (st j)) x _ (by simp [hp])]
        rw [e1, e2]
        exact r1
      · intro j hj
        rw [filter_cons_true (fun j => flushes store (st j)) x _ hp] at hj
        have hjx : j ≠ x := fun hc => hj (hc ▸ List.mem_cons_self _ _)
        rw [r2 j (fun hc => hj (List.mem_cons_of_mem _ hc))]
        exact h2 j hjx
    · rw [if_neg hp]
      have h1 : b.InvL lf ((kept ++ [x]) ++ y :: rem) := by
        rw [List.append_assoc]; exact h
      obtain ⟨r1, r2⟩ := ih y b lf (kept ++ [x]) f h1 (by simpa using hfuel)
        (fun j hj => hst j (List.mem_cons_of_mem _ hj))
      refine ⟨?_, ?_⟩
      · have e1 : List.filter (fun j => flushes store (st j)) (x :: y :: rem) =
            List.filter (fun j => flushes store (st j)) (y :: rem) := by
          rw [filter_cons_false (fun j => flushes store (st j)) x _ hp]
        have e2 : kept ++ List.filter (fun j => !flushes store (st j)) (x :: y :: rem) =
            (kept ++ [x]) ++ List.filter (fun j => !flushes store (st j)) (y :: rem) := by
          rw [filter_cons_true (fun j => !flushes store (st j)) x _ (by simpa using hp),
            List.append_assoc]
          rfl
        rw [e1, e2]
        exact r1
      · intro j hj
        rw [filter_cons_false (fun j => flushes store (st j)) x _ hp] at hj
        exact r2 j hj

/-- `flushStandbyList(store)`: the segments of the standby list whose stream is
of the store (all of them for the invalid store id) go to the free list, the
last one flushed on top; the others stay on the standby list in their order,
and nothing but links changes in the descriptors that are not flushed. -/
theorem invL_flushStandbyList {b : ServerStreamBuffer} {lf ls : List Nat}
    (h : b.InvL lf ls) (store : Nat) :
    (b.flushStandbyList store).InvL
      ((ls.filter (fun j => flushes store (storeId (b.seg j).stream))).reverse ++ lf)
      (ls.filter (fun j => !flushes store (storeId (b.seg j).stream))) ∧
    (∀ j, j ∉ ls.filter (fun j => flushes store (storeId (b.seg j).stream)) →
      ((b.flushStandbyList store).seg j).unlinked = (b.seg j).unlinked) := by
  unfold flushStandbyList
  cases ls with
  | nil =>
    have hh : b.standbyHead = none := h.standby.list.head
    simp only [hh, List.filter_nil, List.reverse_nil, List.nil_append]
    exact ⟨h, by simp⟩
  | cons x rem =>
    have hh : b.standbyHead = some x := h.standby.list.head
    have hp : (b.seg x).prev = some (rem.getLastD x) :=
      linkedPath_prev_eq (h.standby.list.cycle : b.LinkedPath x rem x)
    simp only [hh, hp]
    have hlen := length_le_of_nodup_lt h.standby.list.nodup h.standby.list.lt
    have := invL_flushLoop store (fun j => storeId (b.seg j).stream) rem x b lf []
      b.getNumSegments (by simpa using h) (by simpa using hlen) (fun _ _ => rfl)
    simpa using this

/-! ### Every reachable state is well formed -/

theorem create_freeChain (cookie segmentSize n : Nat) (enableCache : Bool) :
    ∀ (m k : Nat), k + m = n →
      (create cookie segmentSize n enableCache).FreeChain
        (if m = 0 then none else some k) (List.range' k m) := by
  intro m
  induction m with
  | zero => intro k _; rfl
  | succ m ih =>
    intro k hk
    simp only [Nat.succ_ne_zero, if_false, List.range'_succ]
    refine ⟨rfl, ?_⟩
    have hkn : k < n := by omega
    rw [seg_create _ _ _ _ _ hkn]
    have := ih (k + 1) (by omega)
    simp only [initialSegment]
    by_cases hm : m = 0
    · subst hm
      have hk1 : k = n - 1 := by omega
      rw [if_pos hk1]
      rfl
    · have hne : ¬ k = n - 1 := by omega
      rw [if_neg hm] at this
      rw [if_neg hne]
      exact this

theorem create_invL (cookie segmentSize n : Nat) (enableCache : Bool) (hn : 0 < n) :
    (create cookie segmentSize n enableCache).InvL (List.range n) [] := by
  have hg := getNumSegments_create cookie segmentSize n enableCache
  refine ⟨?_, ⟨?_, List.nodup_range n, ?_⟩, ⟨⟨?_, List.nodup_nil, rfl, trivial⟩, ⟨?_, ?_, ?_⟩, ?_⟩,
    ?_, ?_, ?_⟩
  · rw [hg]; simp [create]
  · intro i hi
    rw [hg]; exact List.mem_range.mp hi
  · have := create_freeChain cookie segmentSize n enableCache n 0 (by omega)
    rw [if_neg (by omega)] at this
    rw [List.range_eq_range']
    exact this
  · intro i hi; exact absurd hi (List.not_mem_nil _)
  · intro e he; simp [create] at he
  · intro i hi; exact absurd hi (List.not_mem_nil _)
  · simp [create]
  · intro j hj
    rw [hg] at hj
    rw [seg_create _ _ _ _ _ hj]; rfl
  · intro i hi
    rw [seg_create _ _ _ _ _ (List.mem_range.mp hi)]
    exact ⟨rfl, rfl, rfl⟩
  · intro i hi; exact absurd hi (List.not_mem_nil _)
  · intro i hi hf
    rw [hg] at hi
    exact absurd (List.mem_range.mpr hi) hf

theorem heldL_submitEncode_error {b : ServerStreamBuffer} {lf ls : List Nat} {i : Nat}
    (h : b.HeldL lf ls i) (env : Env) (wr : WriteOutcome) (e : Error)
    (he : (b.submitEncode env i wr).2 = .error e) :
    (b.submitEncode env i wr).1.HeldL lf ls i := by
  unfold submitEncode at he ⊢
  cases wr with
  | throws code =>
    simp only
    apply heldL_call
    apply heldL_setSeg _ _ (by rfl) (by rfl) (by rfl) (by rfl)
    exact h
  | returns completed location => simp at he

theorem heldL_submitTry_error {b : ServerStreamBuffer} {lf ls : List Nat} {i : Nat}
    (h : b.HeldL lf ls i) (env : Env) (now : Nat) (wr : WriteOutcome) (e : Error)
    (he : (b.submitTry env i now wr).2 = .error e) :
    (b.submitTry env i now wr).1.HeldL lf ls i := by
  unfold submitTry at he ⊢
  simp only at he ⊢
  split_ifs at he ⊢
  · exact heldL_submitFixEntryCount h
  · exact heldL_submitStampRanges (heldL_submitFixEntryCount h) now
  · exact heldL_submitEncode_error
      (heldL_submitStampRanges (heldL_submitFixEntryCount h) now) env wr e he

theorem wellFormed_submitTry_catch {b : ServerStreamBuffer} {lf ls : List Nat} {i : Nat}
    (h : b.HeldL lf ls i) (env : Env) (now : Nat) (wr : WriteOutcome) :
    (withSubmitCatch i (b.submitTry env i now wr)).1.WellFormed := by
  have h1 := inv_submitTry h env now wr
  have h2 := heldL_submitTry_error h env now wr
  rcases hT : b.submitTry env i now wr with ⟨bT, e | r⟩
  · rw [hT] at h2
    exact inv_of_invL (heldL_submitCatch (h2 e rfl)).1
  · rw [hT] at h1
    exact h1

theorem wellFormed_submitSegment {b : ServerStreamBuffer} {lf ls : List Nat} {i : Nat}
    (h : b.HeldL lf ls i) (env : Env) (now : Nat) (wr : WriteOutcome) :
    (b._submitSegment env i now wr).1.WellFormed := by
  unfold _submitSegment
  simp only
  have h1 := heldL_submitCopyControl h
  generalize b.submitCopyControl i = b1 at h1 ⊢
  have h2 : (b1.setSeg i { b1.seg i with isSubmitted := true }).HeldL lf ls i :=
    heldL_setSeg h1 _ rfl rfl rfl rfl
  generalize b1.setSeg i { b1.seg i with isSubmitted := true } = b2 at h2 ⊢
  split_ifs
  all_goals first
    | exact inv_of_invL h1.1
    | exact inv_free h2 env false
    | exact inv_purge (heldL_call h2 _)
    | exact wellFormed_submitTry_catch h2 env now wr

/-- In every reachable state the pool is well formed: the free list and the
standby list are what the pointers say, every segment is on exactly one of
them or held, and the standby index has one entry for each segment of the
standby list. -/
theorem reachable_wellFormed {env : Env} {b : ServerStreamBuffer} (h : Reachable env b) :
    b.WellFormed := by
  induction h with
  | create cookie segmentSize numSegments enableCache hpos =>
    exact inv_of_invL (create_invL _ _ _ _ hpos)
  | requestSegment b stream sequenceNumber now _ ih =>
    unfold requestSegment
    split_ifs
    · exact ih
    · have h1 := inv_requestSegment ih env (some stream) sequenceNumber SafNone none false now
        (ReadOutcome.returns true)
      rcases hr : b._requestSegment env (some stream) sequenceNumber SafNone none false now
        (ReadOutcome.returns true) with ⟨b1, e | ⟨id, c⟩⟩
      · rw [hr] at h1; exact h1
      · rw [hr] at h1; exact h1
  | requestScratchSegment b now _ ih =>
    unfold requestScratchSegment
    have h1 := inv_requestSegment ih env none INVALID_STREAM_SEGMENT_ID SafNone none false now
      (ReadOutcome.returns true)
    rcases hr : b._requestSegment env none INVALID_STREAM_SEGMENT_ID SafNone none false now
      (ReadOutcome.returns true) with ⟨b1, e | ⟨id, c⟩⟩
    · rw [hr] at h1; exact h1
    · rw [hr] at h1; exact h1
  | openSegment b stream flags location prefetch now rd _ ih =>
    exact inv_requestSegment ih env _ _ _ _ _ _ _
  | submitSegment b segment now wr _ ih =>
    unfold submitSegment
    by_cases hlt : segment ≥ b.getNumSegments
    · rw [if_pos hlt]; exact ih
    · rw [if_neg hlt]
      by_cases hst : (b.seg segment).stream.isNone = true
      · rw [if_pos hst]; exact ih
      · rw [if_neg hst]
        by_cases hc : (!(b.seg segment).flags.inUse || (b.seg segment).next.isSome ||
            (b.seg segment).isSubmitted) = true
        · rw [if_pos hc]; exact ih
        · rw [if_neg hc]
          simp only [Bool.or_eq_true, Bool.not_eq_true', not_or, Bool.not_eq_false,
            Option.isSome_iff_ne_none, ne_eq, not_not, Bool.not_eq_true] at hc
          exact wellFormed_submitSegment
            (heldL_of_flags ih (by omega) hc.1.1 hc.1.2) env now wr
  | freeSegment b segment prefetch _ ih =>
    unfold freeSegment
    by_cases hlt : segment ≥ b.getNumSegments
    · rw [if_pos hlt]; exact ih
    · rw [if_neg hlt]
      by_cases hc : (!(b.seg segment).flags.inUse || (b.seg segment).next.isSome ||
          (!(b.seg segment).flags.readOnly && !(b.seg segment).isSubmitted)) = true
      · rw [if_pos hc]; exact ih
      · rw [if_neg hc]
        have hu : (b.seg segment).flags.inUse = true := by
          cases hx : (b.seg segment).flags.inUse
          · simp [hx] at hc
          · rfl
        have hn : (b.seg segment).next = none := by
          cases hx : (b.seg segment).next
          · rfl
          · simp [hx] at hc
        exact inv_free (heldL_of_flags ih (by omega) hu hn) env prefetch
  | purgeSegment b segment _ ih =>
    unfold purgeSegment
    by_cases hlt : segment ≥ b.getNumSegments
    · rw [if_pos hlt]; exact ih
    · rw [if_neg hlt]
      by_cases hc : (!(b.seg segment).flags.inUse || (b.seg segment).next.isSome) = true
      · rw [if_pos hc]; exact ih
      · rw [if_neg hc]
        have hu : (b.seg segment).flags.inUse = true := by
          cases hx : (b.seg segment).flags.inUse
          · simp [hx] at hc
          · rfl
        have hn : (b.seg segment).next = none := by
          cases hx : (b.seg segment).next
          · rfl
          · simp [hx] at hc
        exact inv_purge (heldL_of_flags ih (by omega) hu hn)
  | flushStandbyList b store _ ih =>
    exact inv_of_invL (invL_flushStandbyList ih store).1
  | clientWriteControl b i c _ ih =>
    exact inv_of_invL (invL_setShared ih i c)
  | clientWritePayload b i bytes _ ih =>
    exact inv_of_invL (invL_same ih rfl rfl rfl rfl rfl (fun _ => rfl))

/-! ## A writable segment on its way to the encoder -/

/-! ## How `submitSegment` ends for a valid writable segment -/

theorem and_mask_lt (x : Nat) : x &&& TEMPORAL_ORDER_CYCLE_COUNT_MASK < 281474976710656 := by
  have h : x &&& TEMPORAL_ORDER_CYCLE_COUNT_MASK ≤ TEMPORAL_ORDER_CYCLE_COUNT_MASK :=
    Nat.and_le_right
  unfold TEMPORAL_ORDER_CYCLE_COUNT_MASK at h ⊢
  omega

theorem and_mask_ne_invalid (x : Nat) :
    x &&& TEMPORAL_ORDER_CYCLE_COUNT_MASK ≠ INVALID_CYCLE_COUNT := by
  have h := and_mask_lt x
  unfold INVALID_CYCLE_COUNT INVALID_LARGE_OBJECT_ID
  omega

/-- `_submitSegment` for a writable segment with entries whose cookie and
entry count are in order: the `Exception` for the cycle counts of a
temporally ordered stream, or the call of the encoder (`submitEncode`) under
the `catch` block, in a state that differs from the one found in the private
control element of the segment and `isSubmitted`. -/
theorem submitSegment_stamped (env : Env) (b : ServerStreamBuffer) (i now : Nat)
    (wr : WriteOutcome) (st : ServerStream)
    (hlt : i < b.getNumSegments) (hst : (b.seg i).stream = some st)
    (hu : (b.seg i).flags.inUse = true) (hn : (b.seg i).next = none)
    (hs : (b.seg i).isSubmitted = false) (hw : (b.seg i).flags.readOnly = false)
    (hc : (b.sharedControl i).cookie =
      b._computeControlCookie env (b.copiedControl i) (b.seg i))
    (hraw : 0 < (b.sharedControl i).rawEntryCount)
    (hcount : ¬ (st.type.effectiveEntrySize * (b.sharedControl i).rawEntryCount > b.segmentSize ∨
      (if st.type.variableEntrySize then (b.sharedControl i).entryCount
       else (b.sharedControl i).rawEntryCount) > (b.sharedControl i).rawEntryCount)) :
    submitSegment env b i now wr =
      if st.type.temporalOrder = true ∧
          (b.stampedControl i now).startCycle > (b.stampedControl i now).endCycle then
        (b.setSeg i { b.seg i with control := b.stampedControl i now, isSubmitted := false },
          .error (Error.Exception Corruption.invalidCycles))
      else
        withSubmitCatch i
          ((b.setSeg i { b.seg i with control := b.stampedControl i now, isSubmitted := true }).submitEncode env i wr) := by
  rw [submitSegment_eq env b i now wr st hlt hst hu hn hs,
    submitSegment_writable env b i now wr st hlt hst hw, if_neg (not_not.mpr hc),
    if_neg (Nat.pos_iff_ne_zero.mp hraw)]
  have hseg : (b.setSeg i { b.seg i with
      control := b.copiedControl i, isSubmitted := true }).seg i =
      { b.seg i with control := b.copiedControl i, isSubmitted := true } :=
    seg_setSeg_self _ _ _ hlt
  have hlt2 : i < (b.setSeg i { b.seg i with
      control := b.copiedControl i, isSubmitted := true }).getNumSegments := by
    simpa using hlt
  have hsize2 : (b.setSeg i { b.seg i with
      control := b.copiedControl i, isSubmitted := true }).segmentSize = b.segmentSize := rfl
  have hrd : (b.setSeg i { b.seg i with
      control := b.copiedControl i, isSubmitted := true }).readCycleCount = b.readCycleCount :=
    rfl
  have hset : ∀ s : Segment, (b.setSeg i { b.seg i with
      control := b.copiedControl i, isSubmitted := true }).setSeg i s = b.setSeg i s :=
    fun s => setSeg_setSeg _ _ _ _
  generalize b.setSeg i { b.seg i with
      control := b.copiedControl i, isSubmitted := true } = b1 at hseg hlt2 hsize2 hrd hset ⊢
  have hst1 : (b1.seg i).stream = some st := by rw [hseg]; exact hst
  have hraw1 : (b1.seg i).control.rawEntryCount = (b.sharedControl i).rawEntryCount := by
    rw [hseg]; rfl
  have hent1 : (b1.seg i).control.entryCount = (b.sharedControl i).entryCount := by
    rw [hseg]; rfl
  have hinv := entryCountInvalid_fix b1 i hlt2
  rw [hst1, hraw1, hent1, hsize2] at hinv
  simp only [streamType] at hinv
  have hinv2 : (b1.submitFixEntryCount i).entryCountInvalid i = false := by
    rw [hinv]
    simpa using hcount
  unfold submitTry
  simp only [hinv2, Bool.false_eq_true, if_false]
  have hfix := submitFixEntryCount_eq b1 i hlt2
  have hstamp := submitStampRanges_eq (b1.submitFixEntryCount i) i now
    (by rw [hfix]; simpa using hlt2)
  have hstamped : (b1.submitFixEntryCount i).submitStampRanges i now =
      b.setSeg i { b.seg i with control := b.stampedControl i now, isSubmitted := true } := by
    rw [hstamp, hfix]
    simp only [seg_setSeg_self _ _ _ hlt2, setSeg_setSeg, readCycleCount_setSeg,
      validBufferLength, hrd]
    rw [hset, hseg]
    simp only [stampedControl, hst, streamType]
    rfl
  rw [hstamped]
  have hlt3 : i < (b.setSeg i { b.seg i with control := b.stampedControl i now, isSubmitted := true }).getNumSegments := by simpa using hlt
  have hcyc : (b.setSeg i { b.seg i with control := b.stampedControl i now, isSubmitted := true }).cyclesInvalid i =
      decide (st.type.temporalOrder = true ∧
        (b.stampedControl i now).startCycle > (b.stampedControl i now).endCycle) := by
    unfold cyclesInvalid
    rw [seg_setSeg_self _ _ _ hlt]
    simp only [hst, streamType]
    cases ht : st.type.temporalOrder
    · simp
    · have h1 : (b.stampedControl i now).startCycle ≠ INVALID_CYCLE_COUNT := by
        simp only [stampedControl, hst, streamType, ht, if_true]
        exact and_mask_ne_invalid _
      have h2 : (b.stampedControl i now).endCycle ≠ INVALID_CYCLE_COUNT := by
        simp only [stampedControl, hst, streamType, ht, if_true]
        exact and_mask_ne_invalid _
      simp [h1, h2]
  rw [hcyc]
  by_cases hbad : st.type.temporalOrder = true ∧
      (b.stampedControl i now).startCycle > (b.stampedControl i now).endCycle
  · rw [if_pos hbad]
    simp only [hbad, decide_True, if_true, and_self, withSubmitCatch_error]
    rw [submitCatch_setSeg _ _ _ hlt]
  · rw [if_neg hbad]
    simp only [hbad, decide_False, Bool.false_eq_true, if_false]

theorem submitEncode_writeState (env : Env) (b : ServerStreamBuffer) (i now : Nat)
    (wr : WriteOutcome) (hlt : i < b.getNumSegments) :
    (b.setSeg i { b.seg i with control := b.stampedControl i now, isSubmitted := true }).submitEncode env i wr =
      match wr with
      | .throws code => (b.writeState env i now, .error (Error.encoder code))
      | .returns completed location =>
        (if completed then
          if location.isSome then (b.writeState env i now)._freeSegment env i false
          else (b.writeState env i now)._purgeSegment i
         else b.writeState env i now, .ok (completed, location)) := by
  have e : ((b.setSeg i { b.seg i with control := b.stampedControl i now, isSubmitted := true }).setSeg i
      { (b.setSeg i { b.seg i with control := b.stampedControl i now, isSubmitted := true }).seg i with
        control := { ((b.setSeg i { b.seg i with control := b.stampedControl i now, isSubmitted := true }).seg i).control with
          cookie := (b.setSeg i { b.seg i with control := b.stampedControl i now, isSubmitted := true })._computeControlCookie env
            ((b.setSeg i { b.seg i with control := b.stampedControl i now, isSubmitted := true }).seg i).control
            ((b.setSeg i { b.seg i with control := b.stampedControl i now, isSubmitted := true }).seg i) } }).call
      (Call.write (streamId (((b.setSeg i { b.seg i with control := b.stampedControl i now, isSubmitted := true }).setSeg i
      { (b.setSeg i { b.seg i with control := b.stampedControl i now, isSubmitted := true }).seg i with
        control := { ((b.setSeg i { b.seg i with control := b.stampedControl i now, isSubmitted := true }).seg i).control with
          cookie := (b.setSeg i { b.seg i with control := b.stampedControl i now, isSubmitted := true })._computeControlCookie env
            ((b.setSeg i { b.seg i with control := b.stampedControl i now, isSubmitted := true }).seg i).control
            ((b.setSeg i { b.seg i with control := b.stampedControl i now, isSubmitted := true }).seg i) } }).seg i).stream) i)
      = b.writeState env i now := by
    simp only [seg_setSeg_self _ _ _ hlt, setSeg_setSeg, getNumSegments_setSeg,
      computeControlCookie_setSeg, computeControlCookie_eq]
    try rfl
  unfold submitEncode
  simp only
  rw [e]

/-- How `submitSegment` ends for a writable segment with entries whose cookie
and entry count are in order. -/
theorem submitSegment_outcome (env : Env) (b : ServerStreamBuffer) (i now : Nat)
    (wr : WriteOutcome) (st : ServerStream)
    (hlt : i < b.getNumSegments) (hst : (b.seg i).stream = some st)
    (hu : (b.seg i).flags.inUse = true) (hn : (b.seg i).next = none)
    (hs : (b.seg i).isSubmitted = false) (hw : (b.seg i).flags.readOnly = false)
    (hc : (b.sharedControl i).cookie =
      b._computeControlCookie env (b.copiedControl i) (b.seg i))
    (hraw : 0 < (b.sharedControl i).rawEntryCount)
    (hcount : ¬ (st.type.effectiveEntrySize * (b.sharedControl i).rawEntryCount > b.segmentSize ∨
      (if st.type.variableEntrySize then (b.sharedControl i).entryCount
       else (b.sharedControl i).rawEntryCount) > (b.sharedControl i).rawEntryCount)) :
    submitSegment env b i now wr =
      if st.type.temporalOrder = true ∧
          (b.stampedControl i now).startCycle > (b.stampedControl i now).endCycle then
        (b.setSeg i { b.seg i with control := b.stampedControl i now, isSubmitted := false },
          .error (Error.Exception Corruption.invalidCycles))
      else
        match wr with
        | .throws code => ((b.writeState env i now).submitCatch i, .error (Error.encoder code))
        | .returns completed location =>
          (if completed then
            if location.isSome then (b.writeState env i now)._freeSegment env i false
            else (b.writeState env i now)._purgeSegment i
           else b.writeState env i now, .ok (completed, location)) := by
  rw [submitSegment_stamped env b i now wr st hlt hst hu hn hs hw hc hraw hcount,
    submitEncode_writeState env b i now wr hlt]
  cases wr <;> rfl

theorem seg_writeState (env : Env) (b : ServerStreamBuffer) (i now : Nat)
    (hlt : i < b.getNumSegments) :
    (b.writeState env i now).seg i =
      { b.seg i with
        isSubmitted := true,
        control := { b.stampedControl i now with
          cookie := b._computeControlCookie env (b.stampedControl i now) (b.seg i) } } := by
  unfold writeState
  rw [seg_call, seg_setSeg_self _ _ _ hlt]

theorem seg_writeState_ne (env : Env) (b : ServerStreamBuffer) (i now j : Nat) (hj : j ≠ i) :
    (b.writeState env i now).seg j = b.seg j := by
  unfold writeState
  rw [seg_call, seg_setSeg_ne _ _ _ _ hj]

theorem writeState_rest (env : Env) (b : ServerStreamBuffer) (i now : Nat) :
    (b.writeState env i now).getNumSegments = b.getNumSegments ∧
    (b.writeState env i now).calls = b.calls ++ [Call.write (streamId (b.seg i).stream) i] ∧
    (b.writeState env i now).freeHead = b.freeHead ∧
    (b.writeState env i now).standbyHead = b.standbyHead ∧
    (b.writeState env i now).standbyIndex = b.standbyIndex ∧
    (b.writeState env i now).shared = b.shared ∧
    (b.writeState env i now).enableCache = b.enableCache := by
  unfold writeState
  exact ⟨by simp, rfl, rfl, rfl, rfl, rfl, rfl⟩

theorem heldL_writeState {b : ServerStreamBuffer} {lf ls : List Nat} {i : Nat}
    (h : b.HeldL lf ls i) (env : Env) (now : Nat) : (b.writeState env i now).HeldL lf ls i := by
  unfold writeState
  apply heldL_call
  apply heldL_setSeg _ _ (by rfl) (by rfl) (by rfl) (by rfl)
  exact h

/-! ## What `_freeSegment` does -/

theorem freeSegment_eq (env : Env) (b : ServerStreamBuffer) (i : Nat) (prefetch : Bool)
    (hlt : i < b.getNumSegments) :
    b._freeSegment env i prefetch =
      if b.cacheWanted i then (b.cacheState env i prefetch)._addStandbySegment i
      else (b.setSeg i { b.seg i with isSubmitted := true })._purgeSegment i := by
  unfold _freeSegment cacheWanted cacheState
  simp only [seg_setSeg_self _ _ _ hlt, enableCache_setSeg]

theorem heldL_cacheState {b : ServerStreamBuffer} {lf ls : List Nat} {i : Nat}
    (h : b.HeldL lf ls i) (env : Env) (prefetch : Bool) :
    (b.cacheState env i prefetch).HeldL lf ls i := by
  unfold cacheState
  simp only
  repeat (first
    | apply heldL_setShared
    | apply heldL_setSeg _ _ (by rfl) (by rfl) (by rfl) (by rfl)
    | split_ifs
    | exact h)

/-- The descriptor of the segment in `cacheState`. -/
theorem seg_cacheState (env : Env) (b : ServerStreamBuffer) (i : Nat) (prefetch : Bool)
    (hlt : i < b.getNumSegments) :
    (b.cacheState env i prefetch).seg i =
      { b.seg i with
        isSubmitted := true,
        flags := { (b.seg i).flags with
          prefetch := prefetch || (b.seg i).flags.prefetch, readOnly := true },
        control :=
          if (b.seg i).flags.readOnly then (b.seg i).control
          else { (b.seg i).control with
            cookie := cookieValue env b.cookie (b.seg i).id true (b.seg i).control } } := by
  unfold cacheState
  cases prefetch <;> cases hro : (b.seg i).flags.readOnly <;>
    simp [seg_setSeg_self, hlt, hro, setSeg_setSeg, computeControlCookie_eq]
  cases hf : (b.seg i).flags
  simp only [hf] at hro
  simp [hro]

theorem seg_cacheState_ne (env : Env) (b : ServerStreamBuffer) (i : Nat) (prefetch : Bool)
    (j : Nat) (hj : j ≠ i) : (b.cacheState env i prefetch).seg j = b.seg j := by
  unfold cacheState
  simp only
  split_ifs <;> simp [seg_setSeg_ne, hj]

theorem cacheState_rest (env : Env) (b : ServerStreamBuffer) (i : Nat) (prefetch : Bool) :
    (b.cacheState env i prefetch).getNumSegments = b.getNumSegments ∧
    (b.cacheState env i prefetch).calls = b.calls ∧
    (b.cacheState env i prefetch).freeHead = b.freeHead ∧
    (b.cacheState env i prefetch).standbyHead = b.standbyHead ∧
    (b.cacheState env i prefetch).standbyIndex = b.standbyIndex ∧
    (b.cacheState env i prefetch).enableCache = b.enableCache := by
  unfold cacheState
  simp only
  split_ifs <;> exact ⟨by simp, rfl, rfl, rfl, rfl, rfl⟩

theorem standbyKey_cacheState (env : Env) (b : ServerStreamBuffer) (i : Nat) (prefetch : Bool)
    (hlt : i < b.getNumSegments) (j : Nat) :
    (b.cacheState env i prefetch).standbyKey j = b.standbyKey j := by
  by_cases hj : j = i
  · rw [hj]
    unfold standbyKey
    rw [seg_cacheState env b i prefetch hlt]
    cases (b.seg i).flags.readOnly <;> rfl
  · unfold standbyKey
    rw [seg_cacheState_ne env b i prefetch j hj]

/-- Where `_freeSegment(segment, prefetch)` puts a held segment: on the
standby list if the cache wants it and has no entry for its key (at the head,
or at the tail if it is `LowPriority` and neither freed for a prefetch nor
`Prefetch` already), else on top of the free list. -/
theorem invL_freeSegment {b : ServerStreamBuffer} {lf ls : List Nat} {i : Nat}
    (h : b.HeldL lf ls i) (env : Env) (prefetch : Bool) :
    (b.cacheWanted i = true ∧ indexFind b.standbyIndex (b.standbyKey i) = none →
      (b._freeSegment env i prefetch).InvL lf
        (if !(b.seg i).flags.lowPriority || (prefetch || (b.seg i).flags.prefetch)
         then i :: ls else ls ++ [i])) ∧
    (¬ (b.cacheWanted i = true ∧ indexFind b.standbyIndex (b.standbyKey i) = none) →
      (b._freeSegment env i prefetch).InvL (i :: lf) ls) := by
  have hlt := h.2.1
  rw [freeSegment_eq env b i prefetch hlt]
  have h3 := heldL_cacheState h env prefetch
  have hseg := seg_cacheState env b i prefetch hlt
  have hkey := standbyKey_cacheState env b i prefetch hlt i
  have hidx := (cacheState_rest env b i prefetch).2.2.2.2.1
  by_cases hw : b.cacheWanted i = true
  · rw [if_pos hw]
    have hca : (b.seg i).flags.cacheable = true := by
      unfold cacheWanted at hw
      cases hx : (b.seg i).flags.cacheable
      · simp [hx] at hw
      · rfl
    cases hf : indexFind b.standbyIndex (b.standbyKey i) with
    | none =>
      refine ⟨fun _ => ?_, fun hc => absurd ⟨hw, rfl⟩ hc⟩
      have hf3 : indexFind (b.cacheState env i prefetch).standbyIndex
          ((b.cacheState env i prefetch).standbyKey i) = none := by rw [hidx, hkey, hf]
      have := invL_add h3.1 h3.2.1 h3.2.2.1 h3.2.2.2 (by rw [hseg]) (by rw [hseg]; exact hca) hf3
      rw [hseg] at this
      exact this
    | some k =>
      refine ⟨fun hc => by simp at hc, fun _ => ?_⟩
      have hf3 : indexFind (b.cacheState env i prefetch).standbyIndex
          ((b.cacheState env i prefetch).standbyKey i) = some k := by rw [hidx, hkey, hf]
      rw [addStandbySegment_duplicate hf3, (heldL_flags h3).2.2.2]
      exact invL_purge h3.1 h3.2.1 h3.2.2.1 h3.2.2.2
  · rw [if_neg hw]
    refine ⟨fun hc => absurd hc.1 hw, fun _ => ?_⟩
    have h1 : (b.setSeg i { b.seg i with isSubmitted := true }).HeldL lf ls i :=
      heldL_setSeg h _ rfl rfl rfl rfl
    exact invL_purge h1.1 h1.2.1 h1.2.2.1 h1.2.2.2

theorem control_purgeSegment (b : ServerStreamBuffer) (k j : Nat) :
    ((b._purgeSegment k).seg j).control = (b.seg j).control := by
  rw [purgeSegment_eq]
  unfold _enqueueToFreeList
  rw [seg_setFreeHead, seg_setSeg]
  split_ifs with hc
  · rw [hc.1]; rfl
  · rfl

theorem seg_purgeSegment_self (b : ServerStreamBuffer) (i : Nat) (hlt : i < b.getNumSegments) :
    (b._purgeSegment i).seg i =
      { b.seg i with
        stream := none, sequenceNumber := INVALID_STREAM_SEGMENT_ID, flags := SgfFree,
        next := b.freeHead } := by
  rw [purgeSegment_eq]
  unfold _enqueueToFreeList
  rw [seg_setFreeHead, seg_setSeg_self _ _ _ (by simpa using hlt)]
  rfl

theorem seg_purgeSegment_ne (b : ServerStreamBuffer) (i j : Nat) (hj : j ≠ i) :
    (b._purgeSegment i).seg j = b.seg j := by
  rw [purgeSegment_eq]
  unfold _enqueueToFreeList
  rw [seg_setFreeHead, seg_setSeg_ne _ _ _ _ hj]
  rfl

theorem purgeSegment_rest (b : ServerStreamBuffer) (i : Nat) :
    (b._purgeSegment i).getNumSegments = b.getNumSegments ∧
    (b._purgeSegment i).calls = b.calls ++ b.purgeCalls i ∧
    (b._purgeSegment i).freeHead = some i ∧
    (b._purgeSegment i).standbyHead = b.standbyHead ∧
    (b._purgeSegment i).standbyIndex = b.standbyIndex ∧
    (b._purgeSegment i).shared = b.shared := by
  rw [purgeSegment_eq]
  unfold _enqueueToFreeList
  exact ⟨by simp [callAll, getNumSegments, ServerStreamBuffer.setSeg, ServerStreamBuffer.setFreeHead], rfl, rfl, rfl, rfl, rfl⟩

theorem control_addStandbySegment (b : ServerStreamBuffer) (i j : Nat)
    (hlt : i < b.getNumSegments) :
    ((b._addStandbySegment i).seg j).control = (b.seg j).control := by
  cases hf : indexFind b.standbyIndex (b.standbyKey i) with
  | some k =>
    rw [addStandbySegment_duplicate hf]
    exact control_purgeSegment _ _ _
  | none =>
    rw [addStandbySegment_new hf]
    by_cases hj : j = i
    · rw [hj]
      exact (enqueueToStandbyList_self_fields
        (b.setStandbyIndex (indexSet b.standbyIndex (b.standbyKey i) i)) i hlt).2.2.1
    · have := congrArg Segment.control (unlinked_enqueueToStandbyList
        (b.setStandbyIndex (indexSet b.standbyIndex (b.standbyKey i) i)) i j hj)
      exact this

theorem calls_addStandbySegment (b : ServerStreamBuffer) (i : Nat) :
    ∃ rest, (b._addStandbySegment i).calls = b.calls ++ rest := by
  cases hf : indexFind b.standbyIndex (b.standbyKey i) with
  | some k =>
    rw [addStandbySegment_duplicate hf]
    exact ⟨_, (purgeSegment_rest b _).2.1⟩
  | none =>
    rw [addStandbySegment_new hf]
    refine ⟨[], ?_⟩
    rw [(enqueueToStandbyList_rest _ i).2.2.2.1]
    simp [ServerStreamBuffer.setStandbyIndex]

theorem calls_freeSegment (env : Env) (b : ServerStreamBuffer) (i : Nat) (prefetch : Bool)
    (hlt : i < b.getNumSegments) :
    ∃ rest, (b._freeSegment env i prefetch).calls = b.calls ++ rest := by
  rw [freeSegment_eq env b i prefetch hlt]
  split_ifs
  · obtain ⟨rest, hr⟩ := calls_addStandbySegment (b.cacheState env i prefetch) i
    exact ⟨rest, by rw [hr, (cacheState_rest env b i prefetch).2.1]⟩
  · exact ⟨_, (purgeSegment_rest _ i).2.1⟩

/-- `_freeSegment` leaves the private control element of the segment as it is
but for the cookie. -/
theorem control_freeSegment (env : Env) (b : ServerStreamBuffer) (i : Nat) (prefetch : Bool)
    (hlt : i < b.getNumSegments) :
    ({ ((b._freeSegment env i prefetch).seg i).control with cookie := 0 } :
      SegmentControlElement) = { (b.seg i).control with cookie := 0 } := by
  rw [freeSegment_eq env b i prefetch hlt]
  split_ifs
  · rw [control_addStandbySegment _ i i (by rw [(cacheState_rest env b i prefetch).1]; exact hlt),
      seg_cacheState env b i prefetch hlt]
    cases (b.seg i).flags.readOnly <;> rfl
  · rw [control_purgeSegment, seg_setSeg_self _ _ _ hlt]

/-- The private control element `submitSegment` leaves in a writable segment
with entries whose cookie and entry count are in order is the stamped one, but
for the cookie; and the encoder is called unless the cycle counts of a
temporally ordered stream are out of order. -/
theorem submitSegment_control (env : Env) (b : ServerStreamBuffer) (i now : Nat)
    (wr : WriteOutcome) (st : ServerStream)
    (hlt : i < b.getNumSegments) (hst : (b.seg i).stream = some st)
    (hu : (b.seg i).flags.inUse = true) (hn : (b.seg i).next = none)
    (hs : (b.seg i).isSubmitted = false) (hw : (b.seg i).flags.readOnly = false)
    (hc : (b.sharedControl i).cookie =
      b._computeControlCookie env (b.copiedControl i) (b.seg i))
    (hraw : 0 < (b.sharedControl i).rawEntryCount)
    (hcount : ¬ (st.type.effectiveEntrySize * (b.sharedControl i).rawEntryCount > b.segmentSize ∨
      (if st.type.variableEntrySize then (b.sharedControl i).entryCount
       else (b.sharedControl i).rawEntryCount) > (b.sharedControl i).rawEntryCount)) :
    ({ ((submitSegment env b i now wr).1.seg i).control with cookie := 0 } :
      SegmentControlElement) = { b.stampedControl i now with cookie := 0 } ∧
    ((st.type.temporalOrder = true ∧
        (b.stampedControl i now).startCycle > (b.stampedControl i now).endCycle) →
      (submitSegment env b i now wr).2 = .error (Error.Exception Corruption.invalidCycles) ∧
      (submitSegment env b i now wr).1.calls = b.calls) ∧
    (¬ (st.type.temporalOrder = true ∧
        (b.stampedControl i now).startCycle > (b.stampedControl i now).endCycle) →
      ∃ rest, (submitSegment env b i now wr).1.calls = b.calls ++ Call.write st.id i :: rest) := by
  rw [submitSegment_outcome env b i now wr st hlt hst hu hn hs hw hc hraw hcount]
  have hws := seg_writeState env b i now hlt
  have hwc : (b.writeState env i now).calls = b.calls ++ [Call.write st.id i] := by
    rw [(writeState_rest env b i now).2.1, hst]; rfl
  have hwn : i < (b.writeState env i now).getNumSegments := by
    rw [(writeState_rest env b i now).1]; exact hlt
  by_cases hbad : st.type.temporalOrder = true ∧
      (b.stampedControl i now).startCycle > (b.stampedControl i now).endCycle
  · rw [if_pos hbad]
    refine ⟨?_, fun _ => ⟨rfl, rfl⟩, fun h => absurd hbad h⟩
    rw [seg_setSeg_self _ _ _ hlt]
  · rw [if_neg hbad]
    refine ⟨?_, fun h => absurd h hbad, fun _ => ?_⟩
    · cases wr with
      | throws code =>
        simp only [submitCatch]
        rw [seg_setSeg_self _ _ _ hwn, hws]
      | returns completed location =>
        simp only
        cases completed with
        | false =>
          simp only [Bool.false_eq_true, if_false]
          rw [hws]
        | true =>
          simp only [if_true]
          cases location with
          | none =>
            simp only [Option.isSome, Bool.false_eq_true, if_false]
            rw [control_purgeSegment, hws]
          | some l =>
            simp only [Option.isSome, if_true]
            rw [control_freeSegment env _ i false hwn, hws]
    · cases wr with
      | throws code =>
        exact ⟨[], by simp only [submitCatch, calls_setSeg]; exact hwc⟩
      | returns completed location =>
        simp only
        cases completed with
        | false =>
          simp only [Bool.false_eq_true, if_false]
          exact ⟨[], hwc⟩
        | true =>
          simp only [if_true]
          cases location with
          | none =>
            simp only [Option.isSome, Bool.false_eq_true, if_false]
            refine ⟨(b.writeState env i now).purgeCalls i, ?_⟩
            rw [(purgeSegment_rest _ i).2.1, hwc]
            simp
          | some l =>
            simp only [Option.isSome, if_true]
            obtain ⟨rest, hr⟩ := calls_freeSegment env (b.writeState env i now) i false hwn
            refine ⟨rest, ?_⟩
            rw [hr, hwc]
            simp

/-- The 64-bit word `readCycleCount` reads at byte offset `off` of the payload
of segment `i`, by its bytes: byte `off + k` has the weight `256 ^ k`. -/
theorem readCycleCount_bytes (b : ServerStreamBuffer) (i off : Nat) :
    b.readCycleCount i off =
      ((List.range 8).map (fun k =>
        ((b.payload.getD i []).getD (off + k) 0 % 256) * 256 ^ k)).sum := by
  unfold readCycleCount
  simp only [List.range, List.range.loop, List.foldr, List.map, List.sum_cons, List.sum_nil]
  omega

/-- C11: a writable segment that passes the state checks of `submitSegment`,
whose shared control element carries the cookie of its recorded owner, has
`rawEntryCount > 0` and a valid entry count. For a temporally ordered stream
(of fixed-size entries, for which `getEntrySize` is the entry size of the
descriptor), `submitSegment` leaves in the private control element
`startCycle`, the 64-bit word at the start of entry 0 masked to 48 bits, and
`endCycle`, the one at the start of entry `rawEntryCount - 1` masked to 48 bits;
both are below `2^48`; if `startCycle > endCycle` it throws the `Exception` for
the cycle counts and no call has left the buffer; otherwise `encoder.write` is
called for the segment, so whenever the encoder is reached
`startCycle <= endCycle`. The two words are those of the payload of the
segment: `startCycle` is made of the bytes 0 to 7 of the payload and `endCycle`
of the bytes 0 to 7 of entry `rawEntryCount - 1`, which starts at byte
`(rawEntryCount - 1) * entrySize`, byte `k` with the weight `256 ^ k` (the
byte order of the x86). For a stream that is not temporally ordered both are
`INVALID_CYCLE_COUNT` and `encoder.write` is called. -/
theorem submitSegment_cycle_counts (env : Env) (b : ServerStreamBuffer) (segment now : Nat)
    (wr : WriteOutcome) (st : ServerStream)
    (hlt : segment < b.getNumSegments)
    (hst : (b.seg segment).stream = some st)
    (hu : (b.seg segment).flags.inUse = true)
    (hn : (b.seg segment).next = none)
    (hs : (b.seg segment).isSubmitted = false)
    (hw : (b.seg segment).flags.readOnly = false)
    (hc : (b.sharedControl segment).cookie =
      b._computeControlCookie env
        { b.sharedControl segment with
          link := { stream := st.id, sequenceNumber := (b.seg segment).sequenceNumber } }
        (b.seg segment))
    (hraw : 0 < (b.sharedControl segment).rawEntryCount)
    (hsize : st.type.effectiveEntrySize * (b.sharedControl segment).rawEntryCount ≤
      b.segmentSize)
    (hcount : (if st.type.variableEntrySize then (b.sharedControl segment).entryCount
       else (b.sharedControl segment).rawEntryCount) ≤ (b.sharedControl segment).rawEntryCount)
    (heff : st.type.temporalOrder = true → st.type.effectiveEntrySize = st.type.entrySize) :
    (st.type.temporalOrder = true →
      ((submitSegment env b segment now wr).1.seg segment).control.startCycle =
        b.readCycleCount segment 0 &&& TEMPORAL_ORDER_CYCLE_COUNT_MASK ∧
      ((submitSegment env b segment now wr).1.seg segment).control.endCycle =
        b.readCycleCount segment
          (((b.sharedControl segment).rawEntryCount - 1) * st.type.entrySize) &&&
          TEMPORAL_ORDER_CYCLE_COUNT_MASK ∧
      ((submitSegment env b segment now wr).1.seg segment).control.startCycle <
        281474976710656 ∧
      ((submitSegment env b segment now wr).1.seg segment).control.endCycle <
        281474976710656 ∧
      (((submitSegment env b segment now wr).1.seg segment).control.startCycle >
          ((submitSegment env b segment now wr).1.seg segment).control.endCycle →
        (submitSegment env b segment now wr).2 =
          .error (Error.Exception Corruption.invalidCycles) ∧
        (submitSegment env b segment now wr).1.calls = b.calls) ∧
      (((submitSegment env b segment now wr).1.seg segment).control.startCycle ≤
          ((submitSegment env b segment now wr).1.seg segment).control.endCycle →
        ∃ rest, (submitSegment env b segment now wr).1.calls =
          b.calls ++ Call.write st.id segment :: rest) ∧
      ((submitSegment env b segment now wr).1.seg segment).control.startCycle =
        ((List.range 8).map (fun k =>
          ((b.payload.getD segment []).getD k 0 % 256) * 256 ^ k)).sum % 281474976710656 ∧
      ((submitSegment env b segment now wr).1.seg segment).control.endCycle =
        ((List.range 8).map (fun k =>
          ((b.payload.getD segment []).getD
            (((b.sharedControl segment).rawEntryCount - 1) * st.type.entrySize + k) 0 % 256) *
            256 ^ k)).sum % 281474976710656) ∧
    (st.type.temporalOrder = false →
      ((submitSegment env b segment now wr).1.seg segment).control.startCycle =
        INVALID_CYCLE_COUNT ∧
      ((submitSegment env b segment now wr).1.seg segment).control.endCycle =
        INVALID_CYCLE_COUNT ∧
      ∃ rest, (submitSegment env b segment now wr).1.calls =
        b.calls ++ Call.write st.id segment :: rest) := by
  have hcopy : b.copiedControl segment =
      { b.sharedControl segment with
        link := { stream := st.id, sequenceNumber := (b.seg segment).sequenceNumber } } := by
    simp [copiedControl, hst, streamId]
  obtain ⟨h1, h2, h3⟩ := submitSegment_control env b segment now wr st hlt hst hu hn hs hw
    (by rw [hcopy]; exact hc) hraw (by
      intro hx
      rcases hx with hx | hx
      · omega
      · omega)
  have hS : ((submitSegment env b segment now wr).1.seg segment).control.startCycle =
      (b.stampedControl segment now).startCycle := by
    have := congrArg SegmentControlElement.startCycle h1
    exact this
  have hE : ((submitSegment env b segment now wr).1.seg segment).control.endCycle =
      (b.stampedControl segment now).endCycle := by
    have := congrArg SegmentControlElement.endCycle h1
    exact this
  rw [hS, hE]
  have hmask : ∀ x : Nat, x &&& TEMPORAL_ORDER_CYCLE_COUNT_MASK = x % 281474976710656 := by
    intro x
    have : TEMPORAL_ORDER_CYCLE_COUNT_MASK = 2 ^ 48 - 1 := by
      unfold TEMPORAL_ORDER_CYCLE_COUNT_MASK; norm_num
    rw [this, Nat.and_pow_two_sub_one_eq_mod]
  constructor
  · intro ht
    have e := heff ht
    have hS2 : (b.stampedControl segment now).startCycle =
        b.readCycleCount segment 0 &&& TEMPORAL_ORDER_CYCLE_COUNT_MASK := by
      simp only [stampedControl, hst, streamType, ht, if_true]
    have hoff : st.type.effectiveEntrySize * (b.sharedControl segment).rawEntryCount -
        st.type.entrySize = ((b.sharedControl segment).rawEntryCount - 1) * st.type.entrySize := by
      rw [e, Nat.sub_mul, Nat.one_mul, Nat.mul_comm]
    have hE2 : (b.stampedControl segment now).endCycle =
        b.readCycleCount segment
          (((b.sharedControl segment).rawEntryCount - 1) * st.type.entrySize) &&&
          TEMPORAL_ORDER_CYCLE_COUNT_MASK := by
      simp only [stampedControl, hst, streamType, ht, if_true, hoff]
    refine ⟨hS2, hE2, ?_, ?_, ?_, ?_, ?_, ?_⟩
    · rw [hS2]; exact and_mask_lt _
    · rw [hE2]; exact and_mask_lt _
    · intro hgt
      exact h2 ⟨ht, hgt⟩
    · intro hle
      exact h3 (fun hx => absurd hx.2 (Nat.not_lt.mpr hle))
    · rw [hS2, hmask, readCycleCount_bytes]
      simp only [Nat.zero_add]
    · rw [hE2, hmask, readCycleCount_bytes]
  · intro ht
    refine ⟨?_, ?_, h3 (fun hx => by rw [ht] at hx; exact absurd hx.1 (by simp))⟩
    · simp only [stampedControl, hst, streamType, ht, Bool.false_eq_true, if_false]
    · simp only [stampedControl, hst, streamType, ht, Bool.false_eq_true, if_false]

/-! ## The outcomes of the encoder in `submitSegment` -/

theorem heldL_reachable {env : Env} {b : ServerStreamBuffer} (hr : Reachable env b) {i : Nat}
    (hlt : i < b.getNumSegments) (hu : (b.seg i).flags.inUse = true)
    (hn : (b.seg i).next = none) : b.HeldL b.freeList b.standbyList i :=
  heldL_of_flags (reachable_wellFormed hr) hlt hu hn

theorem stamped_cycles_ok (b : ServerStreamBuffer) (i now : Nat) (st : ServerStream)
    (hst : (b.seg i).stream = some st)
    (heff : st.type.temporalOrder = true → st.type.effectiveEntrySize = st.type.entrySize)
    (hcyc : st.type.temporalOrder = true →
      b.readCycleCount i 0 &&& TEMPORAL_ORDER_CYCLE_COUNT_MASK ≤
        b.readCycleCount i (((b.sharedControl i).rawEntryCount - 1) * st.type.entrySize)
          &&& TEMPORAL_ORDER_CYCLE_COUNT_MASK) :
    ¬ (st.type.temporalOrder = true ∧
      (b.stampedControl i now).startCycle > (b.stampedControl i now).endCycle) := by
  intro hx
  have h := hcyc hx.1
  have h2 := hx.2
  have hoff : st.type.effectiveEntrySize * (b.sharedControl i).rawEntryCount -
      st.type.entrySize = ((b.sharedControl i).rawEntryCount - 1) * st.type.entrySize := by
    rw [heff hx.1, Nat.sub_mul, Nat.one_mul, Nat.mul_comm]
  simp only [stampedControl, hst, streamType, hx.1, if_true, hoff] at h2
  omega

/-- C12: a writable segment of a reachable state that passes the state checks
of `submitSegment`, whose shared control element carries the cookie of its
recorded owner, has `rawEntryCount > 0`, a valid entry count and, for a
temporally ordered stream (of fixed-size entries, for which `getEntrySize` is
the entry size of the descriptor), the cycle counts of its first and last
entry in order, and an encoder whose `write` returns `completed` and
`location`. `submitSegment` returns exactly these. If
`completed` with a location, the segment ends on the standby list or else on
the free list with flags `Free`; if `completed` without a location, it ends
with flags `Free` as the head of the free list; if not `completed`, it keeps
its flags (`InUse`), is linked nowhere and on neither list, and `isSubmitted`
is true. -/
theorem submitSegment_encoder_returns (env : Env) (b : ServerStreamBuffer)
    (segment now : Nat) (st : ServerStream) (completed : Bool)
    (location : Option StorageLocation)
    (hr : Reachable env b)
    (hlt : segment < b.getNumSegments)
    (hst : (b.seg segment).stream = some st)
    (hu : (b.seg segment).flags.inUse = true)
    (hn : (b.seg segment).next = none)
    (hs : (b.seg segment).isSubmitted = false)
    (hw : (b.seg segment).flags.readOnly = false)
    (hc : (b.sharedControl segment).cookie =
      b._computeControlCookie env
        { b.sharedControl segment with
          link := { stream := st.id, sequenceNumber := (b.seg segment).sequenceNumber } }
        (b.seg segment))
    (hraw : 0 < (b.sharedControl segment).rawEntryCount)
    (hsize : st.type.effectiveEntrySize * (b.sharedControl segment).rawEntryCount ≤
      b.segmentSize)
    (hcount : (if st.type.variableEntrySize then (b.sharedControl segment).entryCount
       else (b.sharedControl segment).rawEntryCount) ≤ (b.sharedControl segment).rawEntryCount)
    (heff : st.type.temporalOrder = true → st.type.effectiveEntrySize = st.type.entrySize)
    (hcyc : st.type.temporalOrder = true →
      b.readCycleCount segment 0 &&& TEMPORAL_ORDER_CYCLE_COUNT_MASK ≤
        b.readCycleCount segment
          (((b.sharedControl segment).rawEntryCount - 1) * st.type.entrySize) &&&
          TEMPORAL_ORDER_CYCLE_COUNT_MASK) :
    (submitSegment env b segment now (WriteOutcome.returns completed location)).2 =
      .ok (completed, location) ∧
    (completed = true → location.isSome = true →
      (segment ∈ (submitSegment env b segment now
          (WriteOutcome.returns completed location)).1.standbyList ∧
        segment ∉ (submitSegment env b segment now
          (WriteOutcome.returns completed location)).1.freeList) ∨
      (segment ∈ (submitSegment env b segment now
          (WriteOutcome.returns completed location)).1.freeList ∧
        segment ∉ (submitSegment env b segment now
          (WriteOutcome.returns completed location)).1.standbyList ∧
        ((submitSegment env b segment now
          (WriteOutcome.returns completed location)).1.seg segment).flags = SgfFree)) ∧
    (completed = true → location = none →
      ((submitSegment env b segment now
        (WriteOutcome.returns completed location)).1.seg segment).flags = SgfFree ∧
      (submitSegment env b segment now
        (WriteOutcome.returns completed location)).1.freeHead = some segment ∧
      segment ∈ (submitSegment env b segment now
        (WriteOutcome.returns completed location)).1.freeList ∧
      segment ∉ (submitSegment env b segment now
        (WriteOutcome.returns completed location)).1.standbyList) ∧
    (completed = false →
      ((submitSegment env b segment now
        (WriteOutcome.returns completed location)).1.seg segment).flags =
          (b.seg segment).flags ∧
      ((submitSegment env b segment now
        (WriteOutcome.returns completed location)).1.seg segment).next = none ∧
      ((submitSegment env b segment now
        (WriteOutcome.returns completed location)).1.seg segment).prev = none ∧
      ((submitSegment env b segment now
        (WriteOutcome.returns completed location)).1.seg segment).isSubmitted = true ∧
      segment ∉ (submitSegment env b segment now
        (WriteOutcome.returns completed location)).1.freeList ∧
      segment ∉ (submitSegment env b segment now
        (WriteOutcome.returns completed location)).1.standbyList) := by
  have hcopy : b.copiedControl segment =
      { b.sharedControl segment with
        link := { stream := st.id, sequenceNumber := (b.seg segment).sequenceNumber } } := by
    simp [copiedControl, hst, streamId]
  rw [submitSegment_outcome env b segment now _ st hlt hst hu hn hs hw
    (by rw [hcopy]; exact hc) hraw (by
      intro hx
      rcases hx with hx | hx
      · omega
      · omega),
    if_neg (stamped_cycles_ok b segment now st hst heff hcyc)]
  have hheld := heldL_reachable hr hlt hu hn
  have hW := heldL_writeState hheld env now
  have hws := seg_writeState env b segment now hlt
  have hnd : segment ∉ b.freeList ∧ segment ∉ b.standbyList := ⟨hheld.2.2.1, hheld.2.2.2⟩
  refine ⟨rfl, ?_, ?_, ?_⟩
  · intro hcomp hloc
    simp only [hcomp, hloc, if_true]
    obtain ⟨f1, f2⟩ := invL_freeSegment hW env false
    by_cases hx : (b.writeState env segment now).cacheWanted segment = true ∧
        indexFind (b.writeState env segment now).standbyIndex
          ((b.writeState env segment now).standbyKey segment) = none
    · left
      have h1 := f1 hx
      obtain ⟨e1, e2⟩ := invL_lists h1
      rw [e1, e2]
      refine ⟨?_, hnd.1⟩
      split_ifs
      · exact List.mem_cons_self _ _
      · simp
    · right
      have h1 := f2 hx
      obtain ⟨e1, e2⟩ := invL_lists h1
      rw [e1, e2]
      exact ⟨List.mem_cons_self _ _, hnd.2, (h1.freeFlags segment (List.mem_cons_self _ _)).1⟩
  · intro hcomp hloc
    simp only [hcomp, hloc, if_true, Option.isSome, Bool.false_eq_true, if_false]
    have h1 := invL_purge hW.1 hW.2.1 hW.2.2.1 hW.2.2.2
    obtain ⟨e1, e2⟩ := invL_lists h1
    rw [e1, e2]
    exact ⟨(h1.freeFlags segment (List.mem_cons_self _ _)).1, (purgeSegment_rest _ _).2.2.1,
      List.mem_cons_self _ _, hnd.2⟩
  · intro hcomp
    simp only [hcomp, Bool.false_eq_true, if_false]
    obtain ⟨e1, e2⟩ := invL_lists hW.1
    rw [e1, e2, hws]
    exact ⟨rfl, hn, (heldL_flags hheld).2.2.1, rfl, hnd.1, hnd.2⟩

/-- C13: a writable segment of a reachable state that passes the state checks
of `submitSegment`, whose shared control element carries the cookie of its
recorded owner, has `rawEntryCount > 0`, a valid entry count and, for a
temporally ordered stream (of fixed-size entries, for which `getEntrySize` is
the entry size of the descriptor), the cycle counts of its first and last
entry in order, and an encoder whose `write` throws. `submitSegment` throws
what the encoder threw; the segment keeps its flags (`InUse`) and its stream,
is linked nowhere, and the two lists are as before, so it is on neither;
`isSubmitted` is false, and a following `submitSegment` of the segment gets
past the checks of the state to
`_submitSegment`. -/
theorem submitSegment_encoder_throws (env : Env) (b : ServerStreamBuffer)
    (segment now : Nat) (st : ServerStream) (code : Nat)
    (hr : Reachable env b)
    (hlt : segment < b.getNumSegments)
    (hst : (b.seg segment).stream = some st)
    (hu : (b.seg segment).flags.inUse = true)
    (hn : (b.seg segment).next = none)
    (hs : (b.seg segment).isSubmitted = false)
    (hw : (b.seg segment).flags.readOnly = false)
    (hc : (b.sharedControl segment).cookie =
      b._computeControlCookie env
        { b.sharedControl segment with
          link := { stream := st.id, sequenceNumber := (b.seg segment).sequenceNumber } }
        (b.seg segment))
    (hraw : 0 < (b.sharedControl segment).rawEntryCount)
    (hsize : st.type.effectiveEntrySize * (b.sharedControl segment).rawEntryCount ≤
      b.segmentSize)
    (hcount : (if st.type.variableEntrySize then (b.sharedControl segment).entryCount
       else (b.sharedControl segment).rawEntryCount) ≤ (b.sharedControl segment).rawEntryCount)
    (heff : st.type.temporalOrder = true → st.type.effectiveEntrySize = st.type.entrySize)
    (hcyc : st.type.temporalOrder = true →
      b.readCycleCount segment 0 &&& TEMPORAL_ORDER_CYCLE_COUNT_MASK ≤
        b.readCycleCount segment
          (((b.sharedControl segment).rawEntryCount - 1) * st.type.entrySize) &&&
          TEMPORAL_ORDER_CYCLE_COUNT_MASK) :
    (submitSegment env b segment now (WriteOutcome.throws code)).2 =
      .error (Error.encoder code) ∧
    ((submitSegment env b segment now (WriteOutcome.throws code)).1.seg segment).flags =
      (b.seg segment).flags ∧
    ((submitSegment env b segment now (WriteOutcome.throws code)).1.seg segment).stream =
      some st ∧
    ((submitSegment env b segment now (WriteOutcome.throws code)).1.seg segment).next = none ∧
    ((submitSegment env b segment now (WriteOutcome.throws code)).1.seg segment).prev = none ∧
    ((submitSegment env b segment now (WriteOutcome.throws code)).1.seg segment).isSubmitted =
      false ∧
    (submitSegment env b segment now (WriteOutcome.throws code)).1.freeList = b.freeList ∧
    (submitSegment env b segment now (WriteOutcome.throws code)).1.standbyList =
      b.standbyList ∧
    segment ∉ b.freeList ∧ segment ∉ b.standbyList ∧
    ∀ (now2 : Nat) (wr2 : WriteOutcome),
      submitSegment env (submitSegment env b segment now (WriteOutcome.throws code)).1
          segment now2 wr2 =
        (submitSegment env b segment now (WriteOutcome.throws code)).1._submitSegment env
          segment now2 wr2 := by
  have hcopy : b.copiedControl segment =
      { b.sharedControl segment with
        link := { stream := st.id, sequenceNumber := (b.seg segment).sequenceNumber } } := by
    simp [copiedControl, hst, streamId]
  rw [submitSegment_outcome env b segment now _ st hlt hst hu hn hs hw
    (by rw [hcopy]; exact hc) hraw (by
      intro hx
      rcases hx with hx | hx
      · omega
      · omega),
    if_neg (stamped_cycles_ok b segment now st hst heff hcyc)]
  have hheld := heldL_reachable hr hlt hu hn
  have hW := heldL_submitCatch (heldL_writeState hheld env now)
  have hws := seg_writeState env b segment now hlt
  have hwn : segment < (b.writeState env segment now).getNumSegments := by
    rw [(writeState_rest env b segment now).1]; exact hlt
  have hseg : ((b.writeState env segment now).submitCatch segment).seg segment =
      { (b.writeState env segment now).seg segment with isSubmitted := false } := by
    unfold submitCatch
    rw [seg_setSeg_self _ _ _ hwn]
  obtain ⟨e1, e2⟩ := invL_lists hW.1
  have hfin : (((b.writeState env segment now).submitCatch segment).seg segment).flags =
        (b.seg segment).flags ∧
      (((b.writeState env segment now).submitCatch segment).seg segment).stream = some st ∧
      (((b.writeState env segment now).submitCatch segment).seg segment).next = none ∧
      (((b.writeState env segment now).submitCatch segment).seg segment).prev = none ∧
      (((b.writeState env segment now).submitCatch segment).seg segment).isSubmitted =
        false := by
    rw [hseg, hws]
    exact ⟨rfl, hst, hn, (heldL_flags hheld).2.2.1, rfl⟩
  refine ⟨rfl, hfin.1, hfin.2.1, hfin.2.2.1, hfin.2.2.2.1, hfin.2.2.2.2, e1, e2, hheld.2.2.1,
    hheld.2.2.2, ?_⟩
  intro now2 wr2
  refine submitSegment_eq env _ segment now2 wr2 st (by simpa [submitCatch] using hwn) ?_ ?_ ?_ ?_
  · rw [hseg, hws]; exact hst
  · rw [hseg, hws]; exact hu
  · rw [hseg, hws]; exact hn
  · rw [hseg, hws]

theorem sampleWritten_reachable : Reachable sampleEnv sampleWritten :=
  Reachable.clientWriteControl _ _ _
    (Reachable.requestSegment _ _ _ _ (Reachable.create _ _ _ _ (by decide)))

theorem sampleTemporalWritten_reachable : Reachable sampleEnv sampleTemporalWritten :=
  Reachable.clientWritePayload _ _ _ (Reachable.clientWriteControl _ _ _
    (Reachable.requestSegment _ _ _ _ (Reachable.create _ _ _ _ (by decide))))

theorem submitSegment_cycle_counts_witness :
    (0 < sampleTemporalWritten.getNumSegments ∧
      0 < (sampleTemporalWritten.sharedControl 0).rawEntryCount ∧
      sampleTemporalStream.type.temporalOrder = true) ∧
    ((submitSegment sampleEnv sampleTemporalWritten 0 200
        (WriteOutcome.returns false none)).1.seg 0).control.startCycle =
      sampleTemporalWritten.readCycleCount 0 0 &&& TEMPORAL_ORDER_CYCLE_COUNT_MASK ∧
    ((submitSegment sampleEnv sampleTemporalWritten 0 200
        (WriteOutcome.returns false none)).1.seg 0).control.endCycle =
      sampleTemporalWritten.readCycleCount 0
        (((sampleTemporalWritten.sharedControl 0).rawEntryCount - 1) *
          sampleTemporalStream.type.entrySize) &&& TEMPORAL_ORDER_CYCLE_COUNT_MASK ∧
    ((submitSegment sampleEnv sampleTemporalWritten 0 200
        (WriteOutcome.returns false none)).1.seg 0).control.startCycle = 5 ∧
    ((submitSegment sampleEnv sampleTemporalWritten 0 200
        (WriteOutcome.returns false none)).1.seg 0).control.endCycle = 9 ∧
    ((submitSegment sampleEnv sampleTemporalMasked 0 200
        (WriteOutcome.returns false none)).1.seg 0).control.startCycle = 513 ∧
    ((submitSegment sampleEnv sampleTemporalMasked 0 200
        (WriteOutcome.returns false none)).1.seg 0).control.endCycle = 1027 :=
  (fun h1 h2 =>
    ⟨by decide, h1.1, h1.2.1, h1.2.2.2.2.2.2.1.trans (by decide),
      h1.2.2.2.2.2.2.2.trans (by decide), h2.2.2.2.2.2.2.1.trans (by decide),
      h2.2.2.2.2.2.2.2.trans (by decide)⟩)
    ((submitSegment_cycle_counts sampleEnv sampleTemporalWritten 0 200
      (WriteOutcome.returns false none) sampleTemporalStream (by decide) (by decide)
      (by decide) (by decide) (by decide) (by decide) (by decide) (by decide) (by decide)
      (by decide) (by decide)).1 (by decide))
    ((submitSegment_cycle_counts sampleEnv sampleTemporalMasked 0 200
      (WriteOutcome.returns false none) sampleTemporalStream (by decide) (by decide)
      (by decide) (by decide) (by decide) (by decide) (by decide) (by decide) (by decide)
      (by decide) (by decide)).1 (by decide))

theorem submitSegment_encoder_returns_witness :
    (0 < sampleTemporalWritten.getNumSegments ∧
      0 < (sampleTemporalWritten.sharedControl 0).rawEntryCount ∧
      (sampleTemporalWritten.seg 0).isSubmitted = false ∧
      sampleTemporalStream.type.temporalOrder = true ∧
      sampleTemporalWritten.readCycleCount 0 0 &&& TEMPORAL_ORDER_CYCLE_COUNT_MASK ≤
        sampleTemporalWritten.readCycleCount 0 16 &&& TEMPORAL_ORDER_CYCLE_COUNT_MASK) ∧
    (submitSegment sampleEnv sampleTemporalWritten 0 200
        (WriteOutcome.returns false none)).2 = .ok (false, none) ∧
    ((submitSegment sampleEnv sampleTemporalWritten 0 200
        (WriteOutcome.returns false none)).1.seg 0).isSubmitted = true :=
  ⟨by decide,
   (fun h => ⟨h.1, (h.2.2.2 rfl).2.2.2.1⟩)
    (submitSegment_encoder_returns sampleEnv sampleTemporalWritten 0 200 sampleTemporalStream
      false none sampleTemporalWritten_reachable (by decide) (by decide)
      (by decide) (by decide) (by decide) (by decide) (by decide) (by decide) (by decide)
      (by decide) (by decide) (by decide))⟩

theorem submitSegment_encoder_throws_witness :
    (0 < sampleTemporalWritten.getNumSegments ∧
      0 < (sampleTemporalWritten.sharedControl 0).rawEntryCount ∧
      (sampleTemporalWritten.seg 0).isSubmitted = false ∧
      sampleTemporalStream.type.temporalOrder = true ∧
      sampleTemporalWritten.readCycleCount 0 0 &&& TEMPORAL_ORDER_CYCLE_COUNT_MASK ≤
        sampleTemporalWritten.readCycleCount 0 16 &&& TEMPORAL_ORDER_CYCLE_COUNT_MASK) ∧
    (submitSegment sampleEnv sampleTemporalWritten 0 200 (WriteOutcome.throws 3)).2 =
      .error (Error.encoder 3) ∧
    ((submitSegment sampleEnv sampleTemporalWritten 0 200
      (WriteOutcome.throws 3)).1.seg 0).isSubmitted = false :=
  ⟨by decide,
   (fun h => ⟨h.1, h.2.2.2.2.2.1⟩)
    (submitSegment_encoder_throws sampleEnv sampleTemporalWritten 0 200 sampleTemporalStream 3
      sampleTemporalWritten_reachable (by decide) (by decide)
      (by decide) (by decide) (by decide) (by decide) (by decide) (by decide) (by decide)
      (by decide) (by decide) (by decide))⟩

/-! ## The standby hit of `openSegment` -/

theorem indexFind_indexErase (idx : List (StoreStreamSegmentLink × Nat))
    (k : StoreStreamSegmentLink) : indexFind (indexErase idx k) k = none := by
  rw [indexFind_none_iff]
  intro e he hk
  unfold indexErase at he
  rw [List.mem_filter] at he
  simp [hk] at he

theorem requestSegment_hit {b : ServerStreamBuffer} {lf ls : List Nat} (h : b.InvL lf ls)
    (env : Env) (s : ServerStream) (sqn : Nat) (flags : StreamAccessFlags)
    (location : Option StorageLocation) (prefetch : Bool) (now : Nat) (rd : ReadOutcome)
    {i : Nat}
    (hf : indexFind b.standbyIndex
      { store := s.store, stream := s.id, sequenceNumber := sqn } = some i) :
    i ∈ ls ∧
    b.standbyKey i = { store := s.store, stream := s.id, sequenceNumber := sqn } ∧
    b._requestSegment env (some s) sqn flags location prefetch now rd =
      ((b.setStandbyIndex (indexErase b.standbyIndex
          { store := s.store, stream := s.id, sequenceNumber := sqn }))._dequeueFromStandbyList i,
        .ok (i, true)) ∧
    ((b.setStandbyIndex (indexErase b.standbyIndex
      { store := s.store, stream := s.id, sequenceNumber := sqn }))._dequeueFromStandbyList
        i).InvL lf (ls.erase i) := by
  obtain ⟨hi, hk, heq, -⟩ := standbyL_remove h.standby hf
  have hinv := invL_remove h hf
  rw [heq] at hinv
  have hlt : i < b.getNumSegments := h.standby.list.lt i hi
  have hid := hinv.standby.ids i (by rw [dequeueFromStandbyList_valid_size]; exact hlt)
  refine ⟨hi, hk.symm, ?_, hinv⟩
  unfold _requestSegment lookupStandby
  simp only [heq]
  rw [hid]

theorem markLoaded_fields (b : ServerStreamBuffer) (i : Nat) (flags : StreamAccessFlags)
    (hlt : i < b.getNumSegments) :
    ((b.markLoaded i flags).seg i).id = (b.seg i).id ∧
    ((b.markLoaded i flags).seg i).stream = (b.seg i).stream ∧
    (∀ j, (b.markLoaded i flags).sharedControl j = b.sharedControl j) ∧
    (b.markLoaded i flags).getNumSegments = b.getNumSegments := by
  unfold markLoaded
  simp only
  split_ifs <;> simp [seg_setSeg_self, hlt]

theorem requestLoad_key (env : Env) (b : ServerStreamBuffer) (i : Nat) (s : ServerStream)
    (flags : StreamAccessFlags) (loc : StorageLocation) (prefetch : Bool) (rd : ReadOutcome)
    {b2 : ServerStreamBuffer} {j : Nat} {c : Bool}
    (hlt : i < b.getNumSegments) (hid : (b.seg i).id = i) (hst : (b.seg i).stream = some s)
    (hres : b.requestLoad env i (some s) flags loc prefetch rd = (b2, .ok (j, c))) :
    j = i ∧
    b2.standbyKey i =
      { store := s.store, stream := (b.sharedControl i).link.stream,
        sequenceNumber := (b.sharedControl i).link.sequenceNumber } := by
  obtain ⟨m1, m2, m3, m4⟩ := markLoaded_fields b i flags hlt
  unfold requestLoad at hres
  cases rd with
  | throws code => simp at hres
  | returns completed =>
    simp only [Prod.mk.injEq, Except.ok.injEq] at hres
    obtain ⟨hb, hj, -⟩ := hres
    have hseg : (((b.markLoaded i flags).loadControl env i loc).seg i) =
        { (b.markLoaded i flags).seg i with
          control :=
            { locationControl ((b.markLoaded i flags).sharedControl
                ((b.markLoaded i flags).seg i).id) loc with
              cookie := (b.markLoaded i flags)._computeControlCookie env
                (locationControl ((b.markLoaded i flags).sharedControl
                  ((b.markLoaded i flags).seg i).id) loc) ((b.markLoaded i flags).seg i) } } := by
      unfold loadControl
      simp only
      rw [seg_setSeg_self _ _ _ (by simpa [m4] using hlt)]
      rfl
    have hseg2 : b2.seg i = ((b.markLoaded i flags).loadControl env i loc).seg i := by
      rw [← hb]; rfl
    constructor
    · rw [← hj]
      show (((b.markLoaded i flags).loadControl env i loc).seg i).id = i
      rw [hseg]
      show ((b.markLoaded i flags).seg i).id = i
      rw [m1, hid]
    · unfold standbyKey
      rw [hseg2, hseg]
      simp only [m2, hst, storeId, locationControl, m1, hid, m3]

theorem openSegment_key {env : Env} {b : ServerStreamBuffer} (hr : Reachable env b)
    (s : ServerStream) (flags : StreamAccessFlags) (loc : StorageLocation) (prefetch : Bool)
    (now : Nat) (rd : ReadOutcome) {b1 : ServerStreamBuffer} {i : Nat} {c : Bool}
    (hres : openSegment env b s flags loc prefetch now rd = (b1, .ok (i, c)))
    (hv : i ≠ INVALID_SEGMENT_ID) :
    b1.standbyKey i =
      { store := s.store, stream := s.id, sequenceNumber := loc.link.sequenceNumber } := by
  have hW := reachable_wellFormed hr
  unfold ServerStreamBuffer.openSegment at hres
  cases hfind : indexFind b.standbyIndex
      { store := s.store, stream := s.id, sequenceNumber := loc.link.sequenceNumber } with
  | some j =>
    obtain ⟨hi, hk, heq, -⟩ := requestSegment_hit hW env s loc.link.sequenceNumber flags
      (some loc) prefetch now rd hfind
    rw [heq] at hres
    simp only [Prod.mk.injEq, Except.ok.injEq] at hres
    obtain ⟨hb, hj, -⟩ := hres
    rw [← hb, ← hj]
    have hfl := dequeueFromStandbyList_fields (b.setStandbyIndex (indexErase b.standbyIndex
      { store := s.store, stream := s.id, sequenceNumber := loc.link.sequenceNumber })) j j
    exact (standbyKey_of_fields hfl.2.2.1 hfl.2.1).trans hk
  | none =>
    unfold _requestSegment lookupStandby at hres
    simp only [removeStandbySegment_none hfind] at hres
    rcases ha : b._tryAllocateFreeSegment env (some s) loc.link.sequenceNumber prefetch now with
      ⟨ba, _ | k⟩
    · rw [ha] at hres
      simp only [Prod.mk.injEq, Except.ok.injEq] at hres
      exact absurd hres.2.1.symm hv
    · rw [ha] at hres
      simp only at hres
      obtain ⟨n, -, hvp⟩ := hr.validPool
      have hsh : b.shared.length = n := by rw [hW.shared, hvp.2]
      obtain ⟨hk, hvp1, hid, -, -, -, hst, -, -, hfresh, -, -⟩ :=
        tryAllocateLoop_some env (some s) loc.link.sequenceNumber prefetch now env.retryCount 1
          b ba k hvp hsh ha
      obtain ⟨e1, e2⟩ := requestLoad_key env ba k s flags loc prefetch rd
        (by rw [hvp1.2]; exact hk) hid hst hres
      rw [e1, e2, hfresh]
      simp [freshControl, streamId]

theorem indexFind_indexSet (idx : List (StoreStreamSegmentLink × Nat))
    (k : StoreStreamSegmentLink) (i : Nat) : indexFind (indexSet idx k i) k = some i := by
  simp [indexFind, indexSet]

theorem freeSegment_cached_key {b : ServerStreamBuffer} {lf ls : List Nat} {i : Nat}
    (h : b.HeldL lf ls i) (env : Env) (prefetch : Bool)
    (hi : i ∈ (b._freeSegment env i prefetch).standbyList) :
    indexFind (b._freeSegment env i prefetch).standbyIndex (b.standbyKey i) = some i := by
  obtain ⟨f1, f2⟩ := invL_freeSegment h env prefetch
  by_cases hx : b.cacheWanted i = true ∧ indexFind b.standbyIndex (b.standbyKey i) = none
  · have hf : indexFind (b.cacheState env i prefetch).standbyIndex
        ((b.cacheState env i prefetch).standbyKey i) = none := by
      rw [standbyKey_cacheState env b i prefetch h.2.1, (cacheState_rest env b i prefetch).2.2.2.2.1]
      exact hx.2
    rw [freeSegment_eq env b i prefetch h.2.1, if_pos hx.1, addStandbySegment_new hf,
      (enqueueToStandbyList_rest _ _).2.1, standbyKey_cacheState env b i prefetch h.2.1]
    exact indexFind_indexSet _ _ _
  · have h1 := f2 hx
    rw [(invL_lists h1).2] at hi
    exact absurd hi h.2.2.2

theorem openSegment_hit {b : ServerStreamBuffer} (hW : b.WellFormed) (env : Env)
    (stream : ServerStream) (flags : StreamAccessFlags) (location : StorageLocation)
    (prefetch : Bool) (now : Nat) (rd : ReadOutcome) {i : Nat}
    (hf : indexFind b.standbyIndex
      { store := stream.store, stream := stream.id,
        sequenceNumber := location.link.sequenceNumber } = some i) :
    (openSegment env b stream flags location prefetch now rd).2 = .ok (i, true) ∧
    (openSegment env b stream flags location prefetch now rd).1.calls = b.calls ∧
    (openSegment env b stream flags location prefetch now rd).1.freeList = b.freeList ∧
    i ∈ b.standbyList ∧
    (openSegment env b stream flags location prefetch now rd).1.standbyList =
      b.standbyList.erase i ∧
    i ∉ (openSegment env b stream flags location prefetch now rd).1.standbyList ∧
    (openSegment env b stream flags location prefetch now rd).1.standbyIndex =
      indexErase b.standbyIndex
        { store := stream.store, stream := stream.id,
          sequenceNumber := location.link.sequenceNumber } ∧
    indexFind (openSegment env b stream flags location prefetch now rd).1.standbyIndex
      { store := stream.store, stream := stream.id,
        sequenceNumber := location.link.sequenceNumber } = none ∧
    ((openSegment env b stream flags location prefetch now rd).1.seg i).control =
      (b.seg i).control ∧
    ((openSegment env b stream flags location prefetch now rd).1.seg i).flags =
      (b.seg i).flags ∧
    ((openSegment env b stream flags location prefetch now rd).1.seg i).next = none ∧
    ((openSegment env b stream flags location prefetch now rd).1.seg i).prev = none := by
  obtain ⟨hi, hk, heq, hinv⟩ := requestSegment_hit hW env stream location.link.sequenceNumber
    flags (some location) prefetch now rd hf
  unfold ServerStreamBuffer.openSegment
  rw [heq]
  obtain ⟨e1, e2⟩ := invL_lists hinv
  have hlt : i < b.getNumSegments := hW.standby.list.lt i hi
  have hfl := dequeueFromStandbyList_fields (b.setStandbyIndex (indexErase b.standbyIndex
    { store := stream.store, stream := stream.id,
      sequenceNumber := location.link.sequenceNumber })) i i
  have hself := dequeueFromStandbyList_self (b.setStandbyIndex (indexErase b.standbyIndex
    { store := stream.store, stream := stream.id,
      sequenceNumber := location.link.sequenceNumber })) i hlt
  have hfr := dequeueFromStandbyList_frame (b.setStandbyIndex (indexErase b.standbyIndex
    { store := stream.store, stream := stream.id,
      sequenceNumber := location.link.sequenceNumber })) i
  refine ⟨rfl, hfr.2.2.2.2, e1, hi, e2, ?_, hfr.2.2.2.1, ?_, hfl.2.1, hfl.1, hself.1, hself.2.1⟩
  · show i ∉ (_ : ServerStreamBuffer).standbyList
    rw [e2]
    exact fun hm => (List.Nodup.mem_erase_iff hW.standby.list.nodup).1 hm |>.1 rfl
  · show indexFind (_ : ServerStreamBuffer).standbyIndex _ = none
    rw [hfr.2.2.2.1]
    exact indexFind_indexErase _ _

/-- C14: in a reachable state whose standby index holds an entry for the key
(store of `stream`, id of `stream`, `location.link.sequenceNumber`), with
segment `i`, `openSegment` returns `i` with `completed = true`; no call leaves
the buffer (no `encoder.read`), the free list is as before (no allocation),
`i` was on the standby list and is removed from it, the entry of the key is
removed from the standby index, and the private control element and the flags
of `i` are unchanged, its links cleared. In particular, if an `openSegment`
returned a valid segment `i`, `freeSegment(i)` succeeded and left `i` on the
standby list, then `openSegment` for the same stream and location returns `i`
with `completed = true` and no call leaves the buffer. -/
theorem openSegment_standby_hit (env : Env) (b : ServerStreamBuffer) (stream : ServerStream)
    (flags : StreamAccessFlags) (location : StorageLocation) (prefetch : Bool) (now : Nat)
    (rd : ReadOutcome) (hr : Reachable env b) :
    (∀ i : Nat,
      indexFind b.standbyIndex
        { store := stream.store, stream := stream.id,
          sequenceNumber := location.link.sequenceNumber } = some i →
      (openSegment env b stream flags location prefetch now rd).2 = .ok (i, true) ∧
      (openSegment env b stream flags location prefetch now rd).1.calls = b.calls ∧
      (openSegment env b stream flags location prefetch now rd).1.freeList = b.freeList ∧
      i ∈ b.standbyList ∧
      (openSegment env b stream flags location prefetch now rd).1.standbyList =
        b.standbyList.erase i ∧
      i ∉ (openSegment env b stream flags location prefetch now rd).1.standbyList ∧
      (openSegment env b stream flags location prefetch now rd).1.standbyIndex =
        indexErase b.standbyIndex
          { store := stream.store, stream := stream.id,
            sequenceNumber := location.link.sequenceNumber } ∧
      indexFind (openSegment env b stream flags location prefetch now rd).1.standbyIndex
        { store := stream.store, stream := stream.id,
          sequenceNumber := location.link.sequenceNumber } = none ∧
      ((openSegment env b stream flags location prefetch now rd).1.seg i).control =
        (b.seg i).control ∧
      ((openSegment env b stream flags location prefetch now rd).1.seg i).flags =
        (b.seg i).flags ∧
      ((openSegment env b stream flags location prefetch now rd).1.seg i).next = none ∧
      ((openSegment env b stream flags location prefetch now rd).1.seg i).prev = none) ∧
    (∀ (i : Nat) (c p : Bool) (flags2 : StreamAccessFlags) (prefetch2 : Bool) (now2 : Nat)
        (rd2 : ReadOutcome),
      (openSegment env b stream flags location prefetch now rd).2 = .ok (i, c) →
      i ≠ INVALID_SEGMENT_ID →
      (freeSegment env (openSegment env b stream flags location prefetch now rd).1 i p).2 =
        .ok () →
      i ∈ (freeSegment env (openSegment env b stream flags location prefetch now rd).1
        i p).1.standbyList →
      (openSegment env
        (freeSegment env (openSegment env b stream flags location prefetch now rd).1 i p).1
        stream flags2 location prefetch2 now2 rd2).2 = .ok (i, true) ∧
      (openSegment env
        (freeSegment env (openSegment env b stream flags location prefetch now rd).1 i p).1
        stream flags2 location prefetch2 now2 rd2).1.calls =
        (freeSegment env (openSegment env b stream flags location prefetch now rd).1
          i p).1.calls) := by
  constructor
  · intro i hf
    exact openSegment_hit (reachable_wellFormed hr) env stream flags location prefetch now rd hf
  · intro i c p flags2 prefetch2 now2 rd2 hres hv hfree hmem
    have hr1 : Reachable env (openSegment env b stream flags location prefetch now rd).1 :=
      Reachable.openSegment _ _ _ _ _ _ _ hr
    have hr2 : Reachable env
        (freeSegment env (openSegment env b stream flags location prefetch now rd).1 i p).1 :=
      Reachable.freeSegment _ _ _ hr1
    have hkey := openSegment_key hr stream flags location prefetch now rd
      (Prod.ext rfl hres : openSegment env b stream flags location prefetch now rd =
        ((openSegment env b stream flags location prefetch now rd).1, .ok (i, c))) hv
    generalize (openSegment env b stream flags location prefetch now rd).1 = b1 at *
    have hpre : i < b1.getNumSegments ∧ (b1.seg i).flags.inUse = true ∧
        (b1.seg i).next = none ∧ freeSegment env b1 i p = (b1._freeSegment env i p, .ok ()) := by
      by_cases h1 : i ≥ b1.getNumSegments
      · rw [freeSegment, if_pos h1] at hfree
        simp at hfree
      by_cases h2 : (!(b1.seg i).flags.inUse || (b1.seg i).next.isSome ||
          (!(b1.seg i).flags.readOnly && !(b1.seg i).isSubmitted)) = true
      · rw [freeSegment, if_neg h1, if_pos h2] at hfree
        simp at hfree
      rw [freeSegment, if_neg h1, if_neg h2]
      simp only [Bool.or_eq_true, Bool.not_eq_true', Bool.and_eq_true, not_or] at h2
      refine ⟨by omega, ?_, ?_, rfl⟩
      · cases hu : (b1.seg i).flags.inUse
        · exact absurd hu h2.1.1
        · rfl
      · cases hn : (b1.seg i).next
        · rfl
        · rw [hn] at h2; simp at h2
    obtain ⟨hlt, hu, hn, heq⟩ := hpre
    rw [heq] at hmem hr2 ⊢
    have hheld := heldL_reachable hr1 hlt hu hn
    have hfind := freeSegment_cached_key hheld env p hmem
    rw [hkey] at hfind
    have hhit := openSegment_hit (reachable_wellFormed hr2) env stream flags2 location prefetch2
      now2 rd2 hfind
    exact ⟨hhit.1, hhit.2.1⟩

theorem sampleCached_reachable : Reachable sampleEnv sampleCached :=
  Reachable.submitSegment _ _ _ _ (Reachable.clientWriteControl _ _ _
    (Reachable.requestSegment _ _ _ _ (Reachable.create _ _ _ _ (by decide))))

theorem openSegment_standby_hit_witness :
    indexFind sampleCached.standbyIndex
      { store := sampleStream.store, stream := sampleStream.id,
        sequenceNumber := sampleLocation.link.sequenceNumber } = some 0 ∧
    (openSegment sampleEnv sampleCached sampleStream SafNone sampleLocation false 300
      (ReadOutcome.returns true)).2 = .ok (0, true) ∧
    (openSegment sampleEnv sampleCached sampleStream SafNone sampleLocation false 300
      (ReadOutcome.returns true)).1.calls = sampleCached.calls :=
  ⟨by decide,
   (fun h => ⟨h.1, h.2.1⟩)
    ((openSegment_standby_hit sampleEnv sampleCached sampleStream SafNone sampleLocation false
      300 (ReadOutcome.returns true) sampleCached_reachable).1 0 (by decide))⟩

/-! ## A prefetch with nothing to allocate -/

theorem standbyIndex_empty {b : ServerStreamBuffer} (hW : b.WellFormed)
    (hs : b.standbyHead = none) (k : StoreStreamSegmentLink) :
    indexFind b.standbyIndex k = none := by
  have hl : b.standbyList = [] := by
    unfold standbyList
    rw [hs]
    cases b.getNumSegments <;> rfl
  rw [indexFind_none_iff]
  intro e he
  have := (hW.standby.index.mem e he).1
  rw [hl] at this
  exact absurd this (List.not_mem_nil _)

/-- C15: in a reachable state whose free list and standby list are both empty,
`openSegment` with `prefetch = true` returns the invalid segment id (with
`completed = true`) and leaves the whole state as it was, so that no call has
left the buffer (no `ThreadBase::sleep`, no encoder call); the loop of
`_tryAllocateFreeSegment` ends with its first attempt whatever the number of
tries allowed. -/
theorem openSegment_prefetch_exhausted (env : Env) (b : ServerStreamBuffer)
    (stream : ServerStream) (flags : StreamAccessFlags) (location : StorageLocation)
    (now : Nat) (rd : ReadOutcome) (hr : Reachable env b)
    (hf : b.freeHead = none) (hs : b.standbyHead = none) :
    openSegment env b stream flags location true now rd =
      (b, .ok (INVALID_SEGMENT_ID, true)) ∧
    b.allocateOnce = (b, none) ∧
    ∀ fuel tryCount : Nat,
      tryAllocateLoop env (some stream) location.link.sequenceNumber true now fuel tryCount b =
        (b, none) := by
  have hloop : ∀ fuel tryCount : Nat,
      tryAllocateLoop env (some stream) location.link.sequenceNumber true now fuel tryCount b =
        (b, none) := by
    intro fuel tryCount
    unfold tryAllocateLoop
    rw [allocateOnce_empty b hf hs]
    rfl
  refine ⟨?_, allocateOnce_empty b hf hs, hloop⟩
  unfold ServerStreamBuffer.openSegment _requestSegment lookupStandby
  simp only [removeStandbySegment_none (standbyIndex_empty (reachable_wellFormed hr) hs _),
    _tryAllocateFreeSegment, hloop]

theorem sampleExhausted_reachable : Reachable sampleEnv sampleExhausted :=
  Reachable.requestSegment _ _ _ _ (Reachable.create _ _ _ _ (by decide))

theorem openSegment_prefetch_exhausted_witness :
    (sampleExhausted.freeHead = none ∧ sampleExhausted.standbyHead = none) ∧
    openSegment sampleEnv sampleExhausted sampleStream SafNone sampleLocation true 300
        (ReadOutcome.returns true) =
      (sampleExhausted, .ok (INVALID_SEGMENT_ID, true)) :=
  ⟨by decide,
   (openSegment_prefetch_exhausted sampleEnv sampleExhausted sampleStream SafNone sampleLocation
      300 (ReadOutcome.returns true) sampleExhausted_reachable (by decide) (by decide)).1⟩

/-! ## Where `freeSegment` puts a segment -/

theorem freeSegment_ok (env : Env) (b : ServerStreamBuffer) (segment : Nat) (prefetch : Bool)
    (hlt : segment < b.getNumSegments)
    (hu : (b.seg segment).flags.inUse = true)
    (hn : (b.seg segment).next = none)
    (hsub : (b.seg segment).flags.readOnly = true ∨ (b.seg segment).isSubmitted = true) :
    freeSegment env b segment prefetch = (b._freeSegment env segment prefetch, .ok ()) := by
  unfold freeSegment
  rw [if_neg (by omega), if_neg]
  rw [hu, hn]
  rcases hsub with h | h <;> simp [h]

/-- C16: a segment of a reachable state for which the preconditions of
`freeSegment` hold (a valid id, `InUse`, on no list, read-only or submitted).
`freeSegment` succeeds, and the segment ends on the standby list if and only if
it is `Cacheable`, caching is enabled, its private control element has
`rawEntryCount > 0` and the standby index has no entry for its key (store of
its stream, `control.link`). When it ends on the standby list, the index maps
its key to it and it is not on the free list; in every other case it ends on
the free list, with flags `Free` and no stream. -/
theorem freeSegment_destination (env : Env) (b : ServerStreamBuffer) (segment : Nat)
    (prefetch : Bool) (hr : Reachable env b)
    (hlt : segment < b.getNumSegments)
    (hu : (b.seg segment).flags.inUse = true)
    (hn : (b.seg segment).next = none)
    (hsub : (b.seg segment).flags.readOnly = true ∨ (b.seg segment).isSubmitted = true) :
    (freeSegment env b segment prefetch).2 = .ok () ∧
    (segment ∈ (freeSegment env b segment prefetch).1.standbyList ↔
      ((b.seg segment).flags.cacheable = true ∧ b.enableCache = true ∧
        0 < (b.seg segment).control.rawEntryCount ∧
        indexFind b.standbyIndex (b.standbyKey segment) = none)) ∧
    (segment ∈ (freeSegment env b segment prefetch).1.standbyList →
      indexFind (freeSegment env b segment prefetch).1.standbyIndex (b.standbyKey segment) =
        some segment ∧
      segment ∉ (freeSegment env b segment prefetch).1.freeList) ∧
    (segment ∉ (freeSegment env b segment prefetch).1.standbyList →
      segment ∈ (freeSegment env b segment prefetch).1.freeList ∧
      ((freeSegment env b segment prefetch).1.seg segment).flags = SgfFree ∧
      ((freeSegment env b segment prefetch).1.seg segment).stream = none) := by
  rw [freeSegment_ok env b segment prefetch hlt hu hn hsub]
  have hheld := heldL_reachable hr hlt hu hn
  obtain ⟨f1, f2⟩ := invL_freeSegment hheld env prefetch
  have hcw : (b.cacheWanted segment = true ∧
        indexFind b.standbyIndex (b.standbyKey segment) = none) ↔
      ((b.seg segment).flags.cacheable = true ∧ b.enableCache = true ∧
        0 < (b.seg segment).control.rawEntryCount ∧
        indexFind b.standbyIndex (b.standbyKey segment) = none) := by
    unfold cacheWanted
    simp only [Bool.and_eq_true, decide_eq_true_eq, gt_iff_lt, and_assoc]
  by_cases hx : b.cacheWanted segment = true ∧
      indexFind b.standbyIndex (b.standbyKey segment) = none
  · have h1 := f1 hx
    obtain ⟨e1, e2⟩ := invL_lists h1
    have hmem : segment ∈ (b._freeSegment env segment prefetch).standbyList := by
      rw [e2]
      split_ifs
      · exact List.mem_cons_self _ _
      · simp
    refine ⟨rfl, ⟨fun _ => hcw.1 hx, fun _ => hmem⟩, fun _ => ⟨?_, ?_⟩,
      fun hnot => absurd hmem hnot⟩
    · exact freeSegment_cached_key hheld env prefetch hmem
    · show segment ∉ (b._freeSegment env segment prefetch).freeList
      rw [e1]
      exact hheld.2.2.1
  · have h1 := f2 hx
    obtain ⟨e1, e2⟩ := invL_lists h1
    have hnot : segment ∉ (b._freeSegment env segment prefetch).standbyList := by
      rw [e2]
      exact hheld.2.2.2
    have hfl := h1.freeFlags segment (List.mem_cons_self _ _)
    refine ⟨rfl, ⟨fun hm => absurd hm hnot, fun h => absurd (hcw.2 h) hx⟩,
      fun hm => absurd hm hnot, fun _ => ⟨?_, hfl.1, hfl.2.2⟩⟩
    show segment ∈ (b._freeSegment env segment prefetch).freeList
    rw [e1]
    exact List.mem_cons_self _ _

theorem sampleSubmitted_reachable : Reachable sampleEnv sampleSubmitted :=
  Reachable.submitSegment _ _ _ _ (Reachable.clientWriteControl _ _ _
    (Reachable.requestSegment _ _ _ _ (Reachable.create _ _ _ _ (by decide))))

theorem freeSegment_destination_witness :
    (0 < sampleSubmitted.getNumSegments ∧
      (sampleSubmitted.seg 0).flags.inUse = true ∧
      (sampleSubmitted.seg 0).next = none ∧
      (sampleSubmitted.seg 0).isSubmitted = true) ∧
    (freeSegment sampleEnv sampleSubmitted 0 false).2 = .ok () ∧
    (0 ∈ (freeSegment sampleEnv sampleSubmitted 0 false).1.standbyList ↔
      ((sampleSubmitted.seg 0).flags.cacheable = true ∧ sampleSubmitted.enableCache = true ∧
        0 < (sampleSubmitted.seg 0).control.rawEntryCount ∧
        indexFind sampleSubmitted.standbyIndex (sampleSubmitted.standbyKey 0) = none)) :=
  ⟨by decide,
   (fun h => ⟨h.1, h.2.1⟩)
    (freeSegment_destination sampleEnv sampleSubmitted 0 false sampleSubmitted_reachable
      (by decide) (by decide) (by decide) (Or.inr (by decide)))⟩

/-! ## The insertion under a key that is cached -/

/-- C17: a state with well-formed lists in which segment `i` is held (a valid
id, `InUse`, on no list) and the standby index already has an entry, for
segment `k`, under the key of `i`. `_addStandbySegment(i)` is the purge of `i`:
the standby head, the standby list (its elements and their order), the standby
index and every segment other than `i` (so the flags and links of the
incumbent `k`, which is on the list) are as before, and `i` is the new head of
the free list with flags `Free`. -/
theorem addStandbySegment_duplicate_key (b : ServerStreamBuffer) (i k : Nat)
    (hW : b.WellFormed)
    (hlt : i < b.getNumSegments)
    (hu : (b.seg i).flags.inUse = true)
    (hn : (b.seg i).next = none)
    (hf : indexFind b.standbyIndex (b.standbyKey i) = some k) :
    b._addStandbySegment i = b._purgeSegment i ∧
    (b._addStandbySegment i).standbyHead = b.standbyHead ∧
    (b._addStandbySegment i).standbyList = b.standbyList ∧
    (b._addStandbySegment i).standbyIndex = b.standbyIndex ∧
    k ∈ b.standbyList ∧ k ≠ i ∧
    (∀ j, j ≠ i → (b._addStandbySegment i).seg j = b.seg j) ∧
    ((b._addStandbySegment i).seg i).flags = SgfFree ∧
    (b._addStandbySegment i).freeHead = some i ∧
    (b._addStandbySegment i).freeList = i :: b.freeList := by
  have hheld : b.HeldL b.freeList b.standbyList i := heldL_of_flags hW hlt hu hn
  have hid := (heldL_flags hheld).2.2.2
  have heq : b._addStandbySegment i = b._purgeSegment i := by
    rw [addStandbySegment_duplicate hf, hid]
  have hk := (indexL_find hW.standby.index hf).1
  have hinv := invL_purge hheld.1 hlt hheld.2.2.1 hheld.2.2.2
  obtain ⟨e1, e2⟩ := invL_lists hinv
  have hrest := purgeSegment_rest b i
  rw [heq]
  refine ⟨rfl, hrest.2.2.2.1, e2, hrest.2.2.2.2.1, hk, ?_, ?_,
    (hinv.freeFlags i (List.mem_cons_self _ _)).1, hrest.2.2.1, e1⟩
  · intro hki
    rw [hki] at hk
    exact hheld.2.2.2 hk
  · intro j hj
    exact seg_purgeSegment_ne b i j hj

theorem sampleDuplicate_reachable : Reachable sampleEnv sampleDuplicate :=
  Reachable.submitSegment _ _ _ _ (Reachable.clientWriteControl _ _ _
    (Reachable.requestSegment _ _ _ _
      (Reachable.requestSegment _ _ _ _ (Reachable.create _ _ _ _ (by decide)))))

theorem addStandbySegment_duplicate_key_witness :
    (1 < sampleDuplicate.getNumSegments ∧
      (sampleDuplicate.seg 1).flags.inUse = true ∧
      (sampleDuplicate.seg 1).next = none ∧
      indexFind sampleDuplicate.standbyIndex (sampleDuplicate.standbyKey 1) = some 0) ∧
    (sampleDuplicate._addStandbySegment 1).standbyList = sampleDuplicate.standbyList ∧
    (sampleDuplicate._addStandbySegment 1).standbyIndex = sampleDuplicate.standbyIndex :=
  ⟨by decide,
   (fun h => ⟨h.2.2.1, h.2.2.2.1⟩)
    (addStandbySegment_duplicate_key sampleDuplicate 1 0
      (reachable_wellFormed sampleDuplicate_reachable) (by decide) (by decide) (by decide)
      (by decide))⟩

/-! ## The order of eviction -/

theorem indexFind_indexErase_none (idx : List (StoreStreamSegmentLink × Nat))
    (k k1 : StoreStreamSegmentLink) (h : indexFind idx k = none) :
    indexFind (indexErase idx k1) k = none := by
  rw [indexFind_none_iff] at h ⊢
  intro e he
  unfold indexErase at he
  exact h e (List.mem_filter.1 he).1

theorem indexFind_indexSet_ne (idx : List (StoreStreamSegmentLink × Nat))
    (k k1 : StoreStreamSegmentLink) (i : Nat) (hk : k ≠ k1)
    (h : indexFind idx k = none) : indexFind (indexSet idx k1 i) k = none := by
  rw [indexFind_none_iff] at h ⊢
  intro e he
  unfold indexSet at he
  rcases List.mem_cons.1 he with he | he
  · rw [he]; exact fun hx => hk hx.symm
  · unfold indexErase at he
    exact h e (List.mem_filter.1 he).1

/-- One eviction from a non-empty standby list. -/
theorem evict_step {b : ServerStreamBuffer} {lf ls : List Nat} (h : b.InvL lf ls)
    (hne : ls ≠ []) :
    b._evictFromStandbyList.2 = some (ls.getLast hne) ∧
    b._evictFromStandbyList.1.InvL lf ls.dropLast ∧
    (b._evictFromStandbyList.1.seg (ls.getLast hne)).flags = SgfInUse ∧
    (b._evictFromStandbyList.1.seg (ls.getLast hne)).isSubmitted = false ∧
    (b._evictFromStandbyList.1.seg (ls.getLast hne)).next = none ∧
    (b._evictFromStandbyList.1.seg (ls.getLast hne)).prev = none ∧
    b._evictFromStandbyList.1.standbyIndex =
      indexErase b.standbyIndex (b.standbyKey (ls.getLast hne)) ∧
    (∀ j, j ∉ ls → b._evictFromStandbyList.1.seg j = b.seg j) ∧
    (∀ j, b._evictFromStandbyList.1.standbyKey j = b.standbyKey j) := by
  have hinv := invL_evict h hne
  have hx : ls.getLast hne ∈ ls := List.getLast_mem hne
  have hlt : ls.getLast hne < b.getNumSegments := h.standby.list.lt _ hx
  rw [evictFromStandbyList_eq h.standby hne] at hinv ⊢
  generalize hc : Call.notifySegmentCacheClosed (streamId (b.seg (ls.getLast hne)).stream)
    (b.seg (ls.getLast hne)).sequenceNumber = c at hinv ⊢
  generalize hx0 : ls.getLast hne = x at *
  have hl : ((b.call c).setStandbyIndex (indexErase b.standbyIndex (b.standbyKey x))).ListL ls :=
    listL_frame h.standby.list rfl rfl (fun _ _ => rfl) (fun _ _ => rfl)
  have hself := dequeueFromStandbyList_self
    ((b.call c).setStandbyIndex (indexErase b.standbyIndex (b.standbyKey x))) x hlt
  have hfl := dequeueFromStandbyList_fields
    ((b.call c).setStandbyIndex (indexErase b.standbyIndex (b.standbyKey x))) x
  have hfr := dequeueFromStandbyList_frame
    ((b.call c).setStandbyIndex (indexErase b.standbyIndex (b.standbyKey x))) x
  have hn1 : x < (((b.call c).setStandbyIndex (indexErase b.standbyIndex
      (b.standbyKey x)))._dequeueFromStandbyList x).getNumSegments := by
    rw [dequeueFromStandbyList_valid_size]; exact hlt
  refine ⟨rfl, hinv, ?_, ?_, ?_, ?_, ?_, ?_, ?_⟩
  · show ((_ : ServerStreamBuffer).seg x).flags = SgfInUse
    rw [seg_setSeg_self _ _ _ hn1]
  · show ((_ : ServerStreamBuffer).seg x).isSubmitted = false
    rw [seg_setSeg_self _ _ _ hn1]
    exact hself.2.2
  · show ((_ : ServerStreamBuffer).seg x).next = none
    rw [seg_setSeg_self _ _ _ hn1]
    exact hself.1
  · show ((_ : ServerStreamBuffer).seg x).prev = none
    rw [seg_setSeg_self _ _ _ hn1]
    exact hself.2.1
  · show (_ : ServerStreamBuffer).standbyIndex = _
    rw [standbyIndex_setSeg, hfr.2.2.2.1]
    rfl
  · intro j hj
    have hjx : j ≠ x := fun e => hj (e ▸ hx)
    show (_ : ServerStreamBuffer).seg j = _
    rw [seg_setSeg_ne _ _ _ _ hjx, dequeueFromStandbyList_outside hl hx hj]
    rfl
  · intro j
    apply standbyKey_of_fields
    · show ((_ : ServerStreamBuffer).seg j).stream = _
      by_cases hjx : j = x
      · rw [hjx, seg_setSeg_self _ _ _ hn1]
        exact (hfl x).2.2.1
      · rw [seg_setSeg_ne _ _ _ _ hjx]
        exact (hfl j).2.2.1
    · show ((_ : ServerStreamBuffer).seg j).control = _
      by_cases hjx : j = x
      · rw [hjx, seg_setSeg_self _ _ _ hn1]
        exact (hfl x).2.1
      · rw [seg_setSeg_ne _ _ _ _ hjx]
        exact (hfl j).2.1

/-- One insertion of a held segment under a key the standby index does not
have. -/
theorem add_step {b : ServerStreamBuffer} {lf ls : List Nat} (h : b.InvL lf ls) {i : Nat}
    (hi : i < b.getNumSegments) (hilf : i ∉ lf) (hils : i ∉ ls)
    (hro : (b.seg i).flags.readOnly = true) (hca : (b.seg i).flags.cacheable = true)
    (hf : indexFind b.standbyIndex (b.standbyKey i) = none) :
    (b._addStandbySegment i).InvL lf
      (if !(b.seg i).flags.lowPriority || (b.seg i).flags.prefetch then i :: ls
       else ls ++ [i]) ∧
    (∀ j, j ∉ ls → j ≠ i → (b._addStandbySegment i).seg j = b.seg j) ∧
    (∀ j, (b._addStandbySegment i).standbyKey j = b.standbyKey j) ∧
    (b._addStandbySegment i).standbyIndex = indexSet b.standbyIndex (b.standbyKey i) i ∧
    (b._addStandbySegment i).getNumSegments = b.getNumSegments := by
  refine ⟨invL_add h hi hilf hils hro hca hf, ?_, ?_, ?_, ?_⟩
  · intro j hj hji
    rw [addStandbySegment_new hf]
    have hl : (b.setStandbyIndex (indexSet b.standbyIndex (b.standbyKey i) i)).ListL ls :=
      listL_frame h.standby.list rfl rfl (fun _ _ => rfl) (fun _ _ => rfl)
    rw [enqueueToStandbyList_outside hl hi hils hj hji]
    rfl
  · intro j
    rw [addStandbySegment_new hf]
    by_cases hji : j = i
    · rw [hji]
      have hfl := enqueueToStandbyList_self_fields
        (b.setStandbyIndex (indexSet b.standbyIndex (b.standbyKey i) i)) i hi
      exact standbyKey_of_fields hfl.2.1 hfl.2.2.1
    · exact standbyKey_of_unlinked (unlinked_enqueueToStandbyList
        (b.setStandbyIndex (indexSet b.standbyIndex (b.standbyKey i) i)) i j hji)
  · rw [addStandbySegment_new hf, (enqueueToStandbyList_rest _ _).2.1]
    rfl
  · rw [addStandbySegment_new hf, getNumSegments_enqueueToStandbyList]
    rfl

theorem runStandbyOps_append_inserts (ss : List Nat) (ops : List StandbyOp) :
    ∀ b : ServerStreamBuffer,
      runStandbyOps b (ss.map StandbyOp.insert ++ ops) =
        runStandbyOps (ss.foldl (fun b s => b._addStandbySegment s) b) ops := by
  induction ss with
  | nil => intro b; rfl
  | cons s ss ih =>
    intro b
    simp only [List.map_cons, List.cons_append, List.foldl_cons]
    rw [runStandbyOps, ih]

/-- Insertions of held segments that are not `LowPriority`, under keys that
differ from one another and from those of the standby index, put them in front
of the standby list, the last one first. -/
theorem inserts_front (ss : List Nat) :
    ∀ (b : ServerStreamBuffer) (lf ls : List Nat), b.InvL lf ls →
      ss.Nodup → (ss.map b.standbyKey).Nodup →
      (∀ s, s ∈ ss → s < b.getNumSegments ∧ s ∉ lf ∧ s ∉ ls ∧
        (b.seg s).flags.readOnly = true ∧ (b.seg s).flags.cacheable = true ∧
        (b.seg s).flags.lowPriority = false ∧
        indexFind b.standbyIndex (b.standbyKey s) = none) →
      (ss.foldl (fun b s => b._addStandbySegment s) b).InvL lf (ss.reverse ++ ls) ∧
      (∀ j, (ss.foldl (fun b s => b._addStandbySegment s) b).standbyKey j = b.standbyKey j) := by
  induction ss with
  | nil =>
    intro b lf ls h _ _ _
    exact ⟨h, fun _ => rfl⟩
  | cons s ss ih =>
    intro b lf ls h hnd hkd hall
    obtain ⟨hs1, hs2, hs3, hs4, hs5, hs6, hs7⟩ := hall s (List.mem_cons_self _ _)
    obtain ⟨a1, a2, a3, a4, a5⟩ := add_step h hs1 hs2 hs3 hs4 hs5 hs7
    rw [hs6] at a1
    simp only [Bool.not_false, Bool.true_or, if_true] at a1
    rw [List.nodup_cons] at hnd
    rw [List.map_cons, List.nodup_cons] at hkd
    have hkeys : ss.map (b._addStandbySegment s).standbyKey = ss.map b.standbyKey :=
      List.map_congr_left (fun j _ => a3 j)
    obtain ⟨i1, i2⟩ := ih (b._addStandbySegment s) lf (s :: ls) a1 hnd.2
      (by rw [hkeys]; exact hkd.2) (by
        intro t ht
        obtain ⟨t1, t2, t3, t4, t5, t6, t7⟩ := hall t (List.mem_cons_of_mem _ ht)
        have hts : t ≠ s := fun e => hnd.1 (e ▸ ht)
        have hseg := a2 t t3 hts
        refine ⟨by rw [a5]; exact t1, t2, ?_, by rw [hseg]; exact t4, by rw [hseg]; exact t5,
          by rw [hseg]; exact t6, ?_⟩
        · intro hm
          rcases List.mem_cons.1 hm with e | e
          · exact hts e
          · exact t3 e
        · rw [a3, a4]
          refine indexFind_indexSet_ne _ _ _ _ ?_ t7
          intro e
          exact hkd.1 (List.mem_map.2 ⟨t, ht, e⟩))
    refine ⟨?_, fun j => (i2 j).trans (a3 j)⟩
    simp only [List.foldl_cons, List.reverse_cons, List.append_assoc, List.singleton_append]
    exact i1

theorem runStandbyOps_evict {b : ServerStreamBuffer} {i : Nat} (ops : List StandbyOp)
    (h : b._evictFromStandbyList.2 = some i) :
    runStandbyOps b (StandbyOp.evict :: ops) =
      ((runStandbyOps b._evictFromStandbyList.1 ops).1,
        i :: (runStandbyOps b._evictFromStandbyList.1 ops).2) := by
  rw [runStandbyOps]
  simp only [h]

/-- Successive evictions return the segments of the standby list from its
tail, each as a held segment whose key the standby index has no more. -/
theorem evicts_back : ∀ (k : Nat) (b : ServerStreamBuffer) (lf ls : List Nat),
    b.InvL lf ls → k ≤ ls.length →
    (runStandbyOps b (List.replicate k StandbyOp.evict)).2 = ls.reverse.take k ∧
    (runStandbyOps b (List.replicate k StandbyOp.evict)).1.InvL lf
      (ls.reverse.drop k).reverse ∧
    (∀ j, j ∉ ls →
      (runStandbyOps b (List.replicate k StandbyOp.evict)).1.seg j = b.seg j) ∧
    (∀ j, (runStandbyOps b (List.replicate k StandbyOp.evict)).1.standbyKey j =
      b.standbyKey j) ∧
    (∀ key, indexFind b.standbyIndex key = none →
      indexFind (runStandbyOps b (List.replicate k StandbyOp.evict)).1.standbyIndex key =
        none) ∧
    (∀ s, s ∈ ls.reverse.take k →
      ((runStandbyOps b (List.replicate k StandbyOp.evict)).1.seg s).flags = SgfInUse ∧
      ((runStandbyOps b (List.replicate k StandbyOp.evict)).1.seg s).isSubmitted = false ∧
      ((runStandbyOps b (List.replicate k StandbyOp.evict)).1.seg s).next = none ∧
      ((runStandbyOps b (List.replicate k StandbyOp.evict)).1.seg s).prev = none ∧
      indexFind (runStandbyOps b (List.replicate k StandbyOp.evict)).1.standbyIndex
        (b.standbyKey s) = none) := by
  intro k
  induction k with
  | zero =>
    intro b lf ls h _
    refine ⟨rfl, ?_, fun _ _ => rfl, fun _ => rfl, fun _ hk => hk, ?_⟩
    · simpa [runStandbyOps] using h
    · intro s hs
      simp at hs
  | succ k ih =>
    intro b lf ls h hk
    have hne : ls ≠ [] := by
      intro e
      rw [e] at hk
      simp at hk
    obtain ⟨st1, st2, st3, st4, st5, st6, st7, st8, st9⟩ := evict_step h hne
    obtain ⟨l1, x, rfl⟩ : ∃ l1 x, ls = l1 ++ [x] :=
      ⟨ls.dropLast, ls.getLast hne, (List.dropLast_append_getLast hne).symm⟩
    have hlast : (l1 ++ [x]).getLast hne = x := by simp
    have hdrop : (l1 ++ [x]).dropLast = l1 := by simp
    rw [hlast] at st1 st3 st4 st5 st6 st7
    rw [hdrop] at st2
    have hxl : x ∉ l1 := by
      have := h.standby.list.nodup
      rw [List.nodup_append] at this
      intro hx
      exact this.2.2 hx (List.mem_singleton_self x)
    have hk1 : k ≤ l1.length := by
      simp at hk
      exact hk
    obtain ⟨i1, i2, i3, i4, i5, i6⟩ := ih b._evictFromStandbyList.1 lf l1 st2 hk1
    rw [List.replicate_succ, runStandbyOps_evict _ st1]
    have hmono : ∀ key, indexFind b.standbyIndex key = none →
        indexFind (runStandbyOps b._evictFromStandbyList.1
          (List.replicate k StandbyOp.evict)).1.standbyIndex key = none := by
      intro key hkey
      apply i5
      rw [st7]
      exact indexFind_indexErase_none _ _ _ hkey
    refine ⟨?_, ?_, ?_, ?_, hmono, ?_⟩
    · show x :: _ = _
      rw [i1]
      simp
    · show (_ : ServerStreamBuffer).InvL lf _
      have e : ((l1 ++ [x]).reverse.drop (k + 1)).reverse = (l1.reverse.drop k).reverse := by
        simp
      rw [e]
      exact i2
    · intro j hj
      show (_ : ServerStreamBuffer).seg j = _
      rw [i3 j (fun hm => hj (List.mem_append_left _ hm)), st8 j hj]
    · intro j
      show (_ : ServerStreamBuffer).standbyKey j = _
      rw [i4 j, st9 j]
    · intro s hs
      have hs1 : s = x ∨ s ∈ l1.reverse.take k := by
        simpa using hs
      show ((_ : ServerStreamBuffer).seg s).flags = SgfInUse ∧
        ((_ : ServerStreamBuffer).seg s).isSubmitted = false ∧
        ((_ : ServerStreamBuffer).seg s).next = none ∧
        ((_ : ServerStreamBuffer).seg s).prev = none ∧
        indexFind (_ : ServerStreamBuffer).standbyIndex (b.standbyKey s) = none
      rcases hs1 with hs1 | hs1
      · rw [hs1, i3 x hxl]
        refine ⟨st3, st4, st5, st6, ?_⟩
        apply i5
        rw [st7]
        exact indexFind_indexErase _ _
      · have := i6 s hs1
        rw [st9 s] at this
        exact this

/-- C18: a state with well-formed lists and an empty standby cache, and held
segments `ss` (valid ids, `InUse`, on no list, read-only and cacheable as
`_freeSegment` inserts them), none `LowPriority`, with pairwise distinct keys.
After their insertion in that order the standby list is `ss` reversed, the
last one at the head; `k` evictions after that return the first `k` of `ss` in
that order and leave the others on the list, the last one inserted at the
head; each evicted segment has flags exactly `InUse`, `isSubmitted` false and
no links, and the standby index has no entry for its key. -/
theorem standby_lru_order (b : ServerStreamBuffer) (ss : List Nat) (k : Nat)
    (hW : b.WellFormed) (hempty : b.standbyHead = none)
    (hkeys : (ss.map b.standbyKey).Nodup)
    (hall : ∀ s, s ∈ ss → s < b.getNumSegments ∧ (b.seg s).flags.inUse = true ∧
      (b.seg s).next = none ∧ (b.seg s).flags.readOnly = true ∧
      (b.seg s).flags.cacheable = true ∧ (b.seg s).flags.lowPriority = false)
    (hk : k ≤ ss.length) :
    (runStandbyOps b (ss.map StandbyOp.insert)).1.standbyList = ss.reverse ∧
    (runStandbyOps b (ss.map StandbyOp.insert ++ List.replicate k StandbyOp.evict)).2 =
      ss.take k ∧
    (runStandbyOps b (ss.map StandbyOp.insert ++
      List.replicate k StandbyOp.evict)).1.standbyList = (ss.drop k).reverse ∧
    (runStandbyOps b (ss.map StandbyOp.insert ++
      List.replicate k StandbyOp.evict)).1.standbyHead = ((ss.drop k).reverse).head? ∧
    (∀ s, s ∈ ss.take k →
      ((runStandbyOps b (ss.map StandbyOp.insert ++
        List.replicate k StandbyOp.evict)).1.seg s).flags = SgfInUse ∧
      ((runStandbyOps b (ss.map StandbyOp.insert ++
        List.replicate k StandbyOp.evict)).1.seg s).isSubmitted = false ∧
      ((runStandbyOps b (ss.map StandbyOp.insert ++
        List.replicate k StandbyOp.evict)).1.seg s).next = none ∧
      ((runStandbyOps b (ss.map StandbyOp.insert ++
        List.replicate k StandbyOp.evict)).1.seg s).prev = none ∧
      indexFind (runStandbyOps b (ss.map StandbyOp.insert ++
        List.replicate k StandbyOp.evict)).1.standbyIndex (b.standbyKey s) = none) := by
  have hls : b.standbyList = [] := by
    unfold standbyList
    rw [hempty]
    cases b.getNumSegments <;> rfl
  have hW1 : b.InvL b.freeList [] := by
    have := hW
    unfold WellFormed at this
    rw [hls] at this
    exact this
  obtain ⟨a1, a2⟩ := inserts_front ss b b.freeList [] hW1 (List.Nodup.of_map _ hkeys) hkeys
    (by
      intro s hs
      obtain ⟨s1, s2, s3, s4, s5, s6⟩ := hall s hs
      exact ⟨s1, (invL_held hW1 s2 s3).1, List.not_mem_nil _, s4, s5, s6,
        standbyIndex_empty hW hempty _⟩)
  rw [List.append_nil] at a1
  have e0 : runStandbyOps b (ss.map StandbyOp.insert) =
      runStandbyOps (ss.foldl (fun b s => b._addStandbySegment s) b) [] := by
    have := runStandbyOps_append_inserts ss [] b
    rwa [List.append_nil] at this
  obtain ⟨i1, i2, -, i4, -, i6⟩ := evicts_back k _ _ _ a1 (by simpa using hk)
  rw [e0, runStandbyOps_append_inserts]
  rw [List.reverse_reverse] at i1 i2 i6
  refine ⟨(invL_lists a1).2, i1, (invL_lists i2).2, i2.standby.list.head, ?_⟩
  intro s hs
  have := i6 s hs
  rw [a2 s] at this
  exact this

theorem sampleOpened_reachable : Reachable sampleEnv sampleOpened :=
  Reachable.openSegment _ _ _ _ _ _ _
    (Reachable.openSegment _ _ _ _ _ _ _ (Reachable.create _ _ _ _ (by decide)))

theorem standby_lru_order_witness :
    (sampleOpened.standbyHead = none ∧
      ([0, 1].map sampleOpened.standbyKey).Nodup ∧
      (sampleOpened.seg 0).flags.lowPriority = false ∧
      (sampleOpened.seg 1).flags.lowPriority = false) ∧
    (runStandbyOps sampleOpened
      ([0, 1].map StandbyOp.insert ++ List.replicate 1 StandbyOp.evict)).2 = [0] ∧
    (runStandbyOps sampleOpened
      ([0, 1].map StandbyOp.insert ++ List.replicate 1 StandbyOp.evict)).1.standbyHead =
        some 1 :=
  ⟨by decide,
   (fun h => ⟨h.2.1, h.2.2.2.1⟩)
    (standby_lru_order sampleOpened [0, 1] 1 (reachable_wellFormed sampleOpened_reachable)
      (by decide) (by decide) (by decide) (by decide))⟩

theorem sublist_pair_of_append_singleton {A L x : Nat} {l : List Nat}
    (h : List.Sublist [A, L] (l ++ [x])) (hx : x ≠ L) : List.Sublist [A, L] l := by
  have h1 := List.reverse_sublist.2 h
  simp only [List.reverse_append, List.reverse_cons, List.reverse_nil, List.nil_append,
    List.singleton_append] at h1
  cases h1 with
  | cons _ h2 =>
    have := List.reverse_sublist.2 h2
    simpa using this
  | cons₂ _ h2 => exact absurd rfl hx

/-- While `A` stands before `L` on the standby list, operations on other
segments do not let an eviction return `A` before one has returned `L`. -/
theorem evicted_after (A L : Nat) : ∀ (ops : List StandbyOp) (b : ServerStreamBuffer)
    (lf ls : List Nat), b.InvL lf ls → OpsOnOthers A L b ops → List.Sublist [A, L] ls →
    ∀ t1 t2, (runStandbyOps b ops).2 = t1 ++ A :: t2 → L ∈ t1 := by
  intro ops
  induction ops with
  | nil =>
    intro b lf ls _ _ _ t1 t2 ht
    simp [runStandbyOps] at ht
  | cons op ops ih =>
    intro b lf ls h hops hsub t1 t2 ht
    cases op with
    | insert j =>
      obtain ⟨-, -, j3, j4, j5, j6, j7, hrest⟩ := hops
      rw [runStandbyOps] at ht
      obtain ⟨hjf, hjs⟩ := invL_held h j4 j5
      cases hfind : indexFind b.standbyIndex (b.standbyKey j) with
      | none =>
        have hinv := (add_step h j3 hjf hjs j6 j7 hfind).1
        refine ih _ _ _ hinv hrest ?_ t1 t2 ht
        split_ifs
        · exact List.Sublist.cons _ hsub
        · exact hsub.trans (List.sublist_append_left _ _)
      | some k =>
        have hid := (h.standby.ids j j3)
        have heq : b._addStandbySegment j = b._purgeSegment j := by
          rw [addStandbySegment_duplicate hfind, hid]
        rw [heq] at ht hrest
        exact ih _ _ _ (invL_purge h j3 hjf hjs) hrest hsub t1 t2 ht
    | evict =>
      have hne : ls ≠ [] := by
        intro e
        rw [e] at hsub
        simp at hsub
      obtain ⟨st1, st2, -⟩ := evict_step h hne
      obtain ⟨l1, x, rfl⟩ : ∃ l1 x, ls = l1 ++ [x] :=
        ⟨ls.dropLast, ls.getLast hne, (List.dropLast_append_getLast hne).symm⟩
      have hlast : (l1 ++ [x]).getLast hne = x := by simp
      have hdrop : (l1 ++ [x]).dropLast = l1 := by simp
      rw [hlast] at st1
      rw [hdrop] at st2
      rw [runStandbyOps_evict _ st1] at ht
      have hnd := h.standby.list.nodup
      have hAL : A ≠ L := by
        have := List.Nodup.sublist hsub hnd
        simp at this
        exact this
      by_cases hxL : x = L
      · cases t1 with
        | nil =>
          simp only [List.nil_append, List.cons.injEq] at ht
          exact absurd (ht.1.symm.trans hxL) hAL
        | cons y t1 =>
          simp only [List.cons_append, List.cons.injEq] at ht
          rw [← ht.1, hxL]
          exact List.mem_cons_self _ _
      · have hsub1 := sublist_pair_of_append_singleton hsub hxL
        have hA : A ∈ l1 := hsub1.subset (List.mem_cons_self _ _)
        have hxl : x ∉ l1 := by
          rw [List.nodup_append] at hnd
          intro hx
          exact hnd.2.2 hx (List.mem_singleton_self x)
        have hxA : x ≠ A := fun e => hxl (e ▸ hA)
        cases t1 with
        | nil =>
          simp only [List.nil_append, List.cons.injEq] at ht
          exact absurd ht.1 hxA
        | cons y t1 =>
          simp only [List.cons_append, List.cons.injEq] at ht
          exact List.mem_cons_of_mem _ (ih _ _ _ st2 hops hsub1 t1 t2 ht.2)
    | lookup key =>
      obtain ⟨k1, k2, hrest⟩ := hops
      rw [runStandbyOps] at ht
      cases hfind : indexFind b.standbyIndex key with
      | none =>
        rw [removeStandbySegment_none hfind] at ht hrest
        exact ih _ _ _ h hrest hsub t1 t2 ht
      | some i =>
        obtain ⟨-, -, heq, -⟩ := standbyL_remove h.standby hfind
        have hinv := invL_remove h hfind
        have hi2 : (b._removeStandbySegment key).2 = some i := by rw [heq]
        rw [hi2] at k1 k2
        have hiA : i ≠ A := fun e => k1 (by rw [e])
        have hiL : i ≠ L := fun e => k2 (by rw [e])
        refine ih _ _ _ hinv hrest ?_ t1 t2 ht
        have := List.Sublist.erase i hsub
        rwa [List.erase_of_not_mem (by simp [hiA, hiL])] at this

/-- C19, with the flag the code tests: a state with well-formed lists in which
`A` is on the standby list, whatever its flags, and `L` is a held segment
(read-only and cacheable, as `_freeSegment` inserts it) that is `LowPriority`
and not `Prefetch`, under a key the standby index does not have. The insertion
of `L` puts it at the tail of the standby list, and whatever insertions of
other segments, evictions and lookups that return other segments follow, no
eviction returns `A` unless an earlier one has returned `L`. -/
theorem lowPriority_evicted_first (b : ServerStreamBuffer) (A L : Nat) (ops : List StandbyOp)
    (hW : b.WellFormed) (hA : A ∈ b.standbyList)
    (hlt : L < b.getNumSegments)
    (hu : (b.seg L).flags.inUse = true)
    (hn : (b.seg L).next = none)
    (hro : (b.seg L).flags.readOnly = true)
    (hca : (b.seg L).flags.cacheable = true)
    (hlp : (b.seg L).flags.lowPriority = true)
    (hpf : (b.seg L).flags.prefetch = false)
    (hnew : indexFind b.standbyIndex (b.standbyKey L) = none)
    (hops : OpsOnOthers A L (b._addStandbySegment L) ops) :
    (b._addStandbySegment L).standbyList = b.standbyList ++ [L] ∧
    ∀ t1 t2 : List Nat,
      (runStandbyOps (b._addStandbySegment L) ops).2 = t1 ++ A :: t2 → L ∈ t1 := by
  obtain ⟨hLf, hLs⟩ := invL_held hW hu hn
  have hinv := (add_step hW hlt hLf hLs hro hca hnew).1
  rw [hlp, hpf] at hinv
  simp only [Bool.not_true, Bool.or_self, Bool.false_eq_true, if_false] at hinv
  refine ⟨(invL_lists hinv).2, ?_⟩
  refine evicted_after A L ops _ _ _ hinv hops ?_
  exact List.Sublist.append (List.singleton_sublist.2 hA) (List.Sublist.refl [L])

theorem sampleLruHeld_reachable : Reachable sampleEnv sampleLruHeld :=
  Reachable.openSegment _ _ _ _ _ _ _ (Reachable.freeSegment _ _ _
    (Reachable.openSegment _ _ _ _ _ _ _ (Reachable.create _ _ _ _ (by decide))))

theorem lowPriority_evicted_first_witness :
    (0 ∈ sampleLruHeld.standbyList ∧
      (sampleLruHeld.seg 1).flags.lowPriority = true ∧
      (sampleLruHeld.seg 1).flags.prefetch = false ∧
      indexFind sampleLruHeld.standbyIndex (sampleLruHeld.standbyKey 1) = none) ∧
    (sampleLruHeld._addStandbySegment 1).standbyList = sampleLruHeld.standbyList ++ [1] ∧
    ∀ t1 t2 : List Nat,
      (runStandbyOps (sampleLruHeld._addStandbySegment 1)
        [StandbyOp.evict, StandbyOp.evict]).2 = t1 ++ 0 :: t2 → 1 ∈ t1 :=
  ⟨by decide,
   lowPriority_evicted_first sampleLruHeld 0 1 [StandbyOp.evict, StandbyOp.evict]
     (reachable_wellFormed sampleLruHeld_reachable) (by decide) (by decide) (by decide)
     (by decide) (by decide) (by decide) (by decide) (by decide) (by decide) trivial⟩

/-- C19 as stated fails for a `LowPriority` segment that carries `Prefetch`:
segment 0 (`A`, not `LowPriority`) is cached, segment 1 (`L`, opened with
`RandomAccess`, hence `LowPriority`) is freed with `prefetch = true` and goes to
the head of the standby list; the next eviction, and the `openSegment` that
needs it, return `A`, and `L` is still cached. -/
theorem lowPriority_prefetch_counterexample :
    ((sampleLruHeld.seg 0).flags.lowPriority = false ∧
      sampleLruHeld.standbyList = [0] ∧
      (sampleLruHeld.seg 1).flags.lowPriority = true) ∧
    (freeSegment sampleEnv sampleLruHeld 1 true).1.standbyList = [1, 0] ∧
    (freeSegment sampleEnv sampleLruHeld 1 true).1._evictFromStandbyList.2 = some 0 ∧
    (runStandbyOps ((sampleLruHeld.cacheState sampleEnv 1 true)._addStandbySegment 1)
      [StandbyOp.evict]).2 = [0] ∧
    (openSegment sampleEnv (freeSegment sampleEnv sampleLruHeld 1 true).1 sampleStream SafNone
      sampleLocation2 false 300 (ReadOutcome.returns true)).2 = .ok (0, true) ∧
    (openSegment sampleEnv (freeSegment sampleEnv sampleLruHeld 1 true).1 sampleStream SafNone
      sampleLocation2 false 300 (ReadOutcome.returns true)).1.standbyList = [1] := by
  decide

/-! ## The effect of `flushStandbyList` -/

/-- The loop of `flushStandbyList` from segment `x` of the standby list to its
last element is the pass over these elements in their order, once each, with
any bound above their number. -/
theorem flushLoop_fold (store : Nat) :
    ∀ (rem : List Nat) (x : Nat) (b : ServerStreamBuffer) (lf kept : List Nat) (fuel : Nat),
      b.InvL lf (kept ++ x :: rem) → rem.length < fuel →
      flushLoop store (rem.getLastD x) fuel x b = (x :: rem).foldl (flushVisit store) b := by
  intro rem
  induction rem with
  | nil =>
    intro x b lf kept fuel h hfuel
    obtain ⟨f, rfl⟩ : ∃ f, fuel = f + 1 := ⟨fuel - 1, by omega⟩
    rw [flushLoop_succ]
    simp only [List.getLastD_nil, if_true, List.foldl_cons, List.foldl_nil, flushVisit]
  | cons y rem ih =>
    intro x b lf kept fuel h hfuel
    obtain ⟨f, rfl⟩ : ∃ f, fuel = f + 1 := ⟨fuel - 1, by omega⟩
    rw [flushLoop_succ]
    have hnd := h.standby.list.nodup
    have hxrest : x ∉ y :: rem := by
      rw [List.nodup_append] at hnd
      exact (List.nodup_cons.mp hnd.2.1).1
    have hxk : x ∉ kept := by
      rw [List.nodup_append] at hnd
      exact fun hc => hnd.2.2 hc (List.mem_cons_self _ _)
    have hlast : x ≠ (y :: rem).getLastD x := by
      rw [List.getLastD_cons]
      exact fun hc => hxrest (hc ▸ getLastD_mem rem y)
    rw [if_neg hlast, listL_next_of_split h.standby.list]
    simp only
    rw [List.getLastD_cons, List.foldl_cons]
    have hxl : x ∈ kept ++ x :: y :: rem := by simp
    have hv : (if flushes store (storeId (b.seg x).stream) = true then b.flushOne x else b) =
        flushVisit store b x := rfl
    rw [hv]
    by_cases hp : flushes store (storeId (b.seg x).stream) = true
    · have hv2 : flushVisit store b x = b.flushOne x := by
        unfold flushVisit
        rw [if_pos hp]
      obtain ⟨h1, -⟩ := invL_flushOne h hxl
      rw [erase_split hxk] at h1
      rw [hv2]
      exact ih y (b.flushOne x) (x :: lf) kept f h1 (by simpa using hfuel)
    · have hv2 : flushVisit store b x = b := by
        unfold flushVisit
        rw [if_neg hp]
      have h1 : b.InvL lf ((kept ++ [x]) ++ y :: rem) := by
        rw [List.append_assoc]; exact h
      rw [hv2]
      exact ih y b lf (kept ++ [x]) f h1 (by simpa using hfuel)

theorem flushStandbyList_fold {b : ServerStreamBuffer} {lf ls : List Nat} (h : b.InvL lf ls)
    (store : Nat) :
    b.flushStandbyList store = ls.foldl (flushVisit store) b ∧
    ∀ hd last fuel : Nat, b.standbyHead = some hd → (b.seg hd).prev = some last →
      ls.length ≤ fuel → flushLoop store last fuel hd b = ls.foldl (flushVisit store) b := by
  cases ls with
  | nil =>
    have hh : b.standbyHead = none := h.standby.list.head
    refine ⟨?_, ?_⟩
    · unfold flushStandbyList
      simp only [hh, List.foldl_nil]
    · intro hd last fuel h1
      rw [hh] at h1
      simp at h1
  | cons x rem =>
    have hh : b.standbyHead = some x := h.standby.list.head
    have hp : (b.seg x).prev = some (rem.getLastD x) :=
      linkedPath_prev_eq (h.standby.list.cycle : b.LinkedPath x rem x)
    have hlen := length_le_of_nodup_lt h.standby.list.nodup h.standby.list.lt
    refine ⟨?_, ?_⟩
    · unfold flushStandbyList
      simp only [hh, hp]
      exact flushLoop_fold store rem x b lf [] b.getNumSegments (by simpa using h)
        (by simpa using hlen)
    · intro hd last fuel h1 h2 h3
      rw [hh] at h1
      have e1 : hd = x := (Option.some.inj h1).symm
      rw [e1, hp] at h2
      have e2 : last = rem.getLastD x := (Option.some.inj h2).symm
      rw [e1, e2]
      exact flushLoop_fold store rem x b lf [] fuel (by simpa using h)
        (by simpa using h3)

/-- C20: in a reachable state, after `flushStandbyList(store)` the standby list
is the list of before without the segments whose stream is of the store (for
the invalid store id: without all of them), in the same order. No segment on
the list and no entry of the standby index is of a stream of the store; every
flushed segment is on the free list with flags `Free`; every other segment of
the list is still on it with the same flags and key, and the index maps its
key to it. With the invalid store id the list and the index end empty. The
traversal is the pass of the loop body over the elements of the list in their
order, once each, and the loop ends with this result for every bound that is at
least the length of the list. -/
theorem flushStandbyList_effect (env : Env) (b : ServerStreamBuffer) (store : Nat)
    (hr : Reachable env b) :
    (b.flushStandbyList store).standbyList =
      b.standbyList.filter (fun j => !flushes store (storeId (b.seg j).stream)) ∧
    (∀ j, j ∈ (b.flushStandbyList store).standbyList →
      storeId ((b.flushStandbyList store).seg j).stream ≠ store ∧
      store ≠ INVALID_STORE_ID) ∧
    (∀ e, e ∈ (b.flushStandbyList store).standbyIndex →
      e.1.store ≠ store ∧ e.2 ∈ (b.flushStandbyList store).standbyList) ∧
    (∀ j, j ∈ b.standbyList → (store = INVALID_STORE_ID ∨ storeId (b.seg j).stream = store) →
      j ∉ (b.flushStandbyList store).standbyList ∧
      j ∈ (b.flushStandbyList store).freeList ∧
      ((b.flushStandbyList store).seg j).flags = SgfFree) ∧
    (∀ j, j ∈ b.standbyList →
      ¬ (store = INVALID_STORE_ID ∨ storeId (b.seg j).stream = store) →
      j ∈ (b.flushStandbyList store).standbyList ∧
      ((b.flushStandbyList store).seg j).flags = (b.seg j).flags ∧
      (b.flushStandbyList store).standbyKey j = b.standbyKey j ∧
      indexFind (b.flushStandbyList store).standbyIndex (b.standbyKey j) = some j) ∧
    (store = INVALID_STORE_ID →
      (b.flushStandbyList store).standbyList = [] ∧
      (b.flushStandbyList store).standbyIndex = []) ∧
    b.flushStandbyList store = b.standbyList.foldl (flushVisit store) b ∧
    (∀ hd last fuel : Nat, b.standbyHead = some hd → (b.seg hd).prev = some last →
      b.standbyList.length ≤ fuel →
      flushLoop store last fuel hd b = b.flushStandbyList store) := by
  have hW := reachable_wellFormed hr
  obtain ⟨hinv, hun⟩ := invL_flushStandbyList hW store
  obtain ⟨e1, e2⟩ := invL_lists hinv
  obtain ⟨f1, f2⟩ := flushStandbyList_fold hW store
  have hfl : ∀ j, flushes store (storeId (b.seg j).stream) = true ↔
      (store = INVALID_STORE_ID ∨ storeId (b.seg j).stream = store) := by
    intro j
    unfold flushes
    simp
  have hkept : ∀ j, j ∈ (b.flushStandbyList store).standbyList →
      j ∈ b.standbyList ∧ ¬ (store = INVALID_STORE_ID ∨ storeId (b.seg j).stream = store) ∧
      ((b.flushStandbyList store).seg j).unlinked = (b.seg j).unlinked := by
    intro j hj
    rw [e2, List.mem_filter] at hj
    have hnf : ¬ flushes store (storeId (b.seg j).stream) = true := by simpa using hj.2
    refine ⟨hj.1, fun hc => hnf ((hfl j).2 hc), hun j ?_⟩
    intro hm
    exact hnf (List.mem_filter.1 hm).2
  have hstream : ∀ j, ((b.flushStandbyList store).seg j).unlinked = (b.seg j).unlinked →
      ((b.flushStandbyList store).seg j).stream = (b.seg j).stream := by
    intro j hu
    have := congrArg Segment.stream hu
    exact this
  refine ⟨e2, ?_, ?_, ?_, ?_, ?_, f1, ?_⟩
  · intro j hj
    obtain ⟨-, h2, h3⟩ := hkept j hj
    rw [hstream j h3]
    exact ⟨fun hc => h2 (Or.inr hc), fun hc => h2 (Or.inl hc)⟩
  · intro e he
    have hm := hinv.standby.index.mem e he
    rw [← e2] at hm
    obtain ⟨-, h2, h3⟩ := hkept e.2 hm.1
    refine ⟨?_, hm.1⟩
    rw [hm.2]
    show storeId ((b.flushStandbyList store).seg e.2).stream ≠ store
    rw [hstream e.2 h3]
    exact fun hc => h2 (Or.inr hc)
  · intro j hj hc
    have hf := (hfl j).2 hc
    have hmem : j ∈ b.standbyList.filter (fun j => flushes store (storeId (b.seg j).stream)) :=
      List.mem_filter.2 ⟨hj, hf⟩
    have hfree : j ∈ (b.flushStandbyList store).freeList := by
      rw [e1]
      exact List.mem_append_left _ (List.mem_reverse.2 hmem)
    refine ⟨?_, hfree, ?_⟩
    · intro hm
      exact (hkept j hm).2.1 hc
    · rw [e1] at hfree
      exact (hinv.freeFlags j hfree).1
  · intro j hj hc
    have hnf : ¬ flushes store (storeId (b.seg j).stream) = true := fun hf => hc ((hfl j).1 hf)
    have hmem : j ∈ (b.flushStandbyList store).standbyList := by
      rw [e2]
      exact List.mem_filter.2 ⟨hj, by simpa using hnf⟩
    obtain ⟨-, -, h3⟩ := hkept j hmem
    have hk := standbyKey_of_unlinked h3
    refine ⟨hmem, ?_, hk, ?_⟩
    · have := congrArg Segment.flags h3
      exact this
    · rw [← hk]
      rw [e2] at hmem
      exact indexL_find_mem hinv.standby.index hmem
  · intro hs
    have hnil : (b.flushStandbyList store).standbyList = [] := by
      rw [e2, List.filter_eq_nil_iff]
      intro j _
      have := (hfl j).2 (Or.inl hs)
      simp [this]
    refine ⟨hnil, ?_⟩
    rw [List.eq_nil_iff_forall_not_mem]
    intro e he
    have hm := (hinv.standby.index.mem e he).1
    rw [← e2, hnil] at hm
    exact absurd hm (List.not_mem_nil _)
  · intro hd last fuel h1 h2 h3
    rw [f1]
    exact f2 hd last fuel h1 h2 h3

theorem flushStandbyList_effect_witness :
    (sampleCached.standbyList = [0] ∧ storeId (sampleCached.seg 0).stream = 1) ∧
    (sampleCached.flushStandbyList 1).standbyList =
      sampleCached.standbyList.filter
        (fun j => !flushes 1 (storeId (sampleCached.seg j).stream)) ∧
    sampleCached.flushStandbyList 1 = sampleCached.standbyList.foldl (flushVisit 1) sampleCached :=
  ⟨by decide,
   (fun h => ⟨h.1, h.2.2.2.2.2.2.1⟩)
    (flushStandbyList_effect sampleEnv sampleCached 1 sampleCached_reachable)⟩

/-! ## The location built from a control element -/

/-- C23, as the code has it: for a control element with `rawEntryCount > 0`
(a 32-bit value) and a valid `startIndex` (a 64-bit value), the location built
by `StorageLocation(SegmentControlElement&)` has the `rawEntryCount` of the
control element, and `endIndex - startIndex + 1` and `getEntryCount()` are the
`rawEntryCount` of the control element, not its `entryCount`: they are its
`entryCount` only when the two counts are equal. -/
theorem ofControl_entry_count (init : StreamRangeInformation) (ctrl : SegmentControlElement)
    (hraw : 0 < ctrl.rawEntryCount) (hraw32 : ctrl.rawEntryCount < 4294967296)
    (hidx : ctrl.startIndex ≠ INVALID_ENTRY_INDEX)
    (hidx64 : ctrl.startIndex < 18446744073709551616) :
    (StorageLocation.ofControl init ctrl).rawEntryCount = ctrl.rawEntryCount ∧
    (StorageLocation.ofControl init ctrl).ranges.startIndex = ctrl.startIndex ∧
    ((StorageLocation.ofControl init ctrl).ranges.endIndex + 18446744073709551616 -
        (StorageLocation.ofControl init ctrl).ranges.startIndex) % 18446744073709551616 + 1 =
      ctrl.rawEntryCount ∧
    (StorageLocation.ofControl init ctrl).getEntryCount = ctrl.rawEntryCount ∧
    ((StorageLocation.ofControl init ctrl).getEntryCount = ctrl.entryCount ↔
      ctrl.entryCount = ctrl.rawEntryCount) := by
  have hs : (StorageLocation.ofControl init ctrl).ranges.startIndex = ctrl.startIndex := by
    simp [StorageLocation.ofControl, hidx]
  have he : (StorageLocation.ofControl init ctrl).ranges.endIndex =
      (ctrl.startIndex + ctrl.rawEntryCount + 18446744073709551616 - 1)
        % 18446744073709551616 := by
    simp [StorageLocation.ofControl, hidx]
  have hg : (StorageLocation.ofControl init ctrl).getEntryCount = ctrl.rawEntryCount := by
    unfold StorageLocation.getEntryCount
    rw [hs, he, if_neg hidx]
    omega
  refine ⟨rfl, hs, ?_, hg, ?_⟩
  · rw [hs, he]
    omega
  · rw [hg]
    exact eq_comm

theorem ofControl_entry_count_witness :
    (0 < sampleVariableControl.rawEntryCount ∧
      sampleVariableControl.startIndex ≠ INVALID_ENTRY_INDEX ∧
      sampleVariableControl.entryCount = 1) ∧
    (StorageLocation.ofControl default sampleVariableControl).getEntryCount = 2 :=
  ⟨by decide,
   (ofControl_entry_count default sampleVariableControl (by decide) (by decide) (by decide)
      (by decide)).2.2.2.1⟩

/-! ## The value of the control cookie -/

theorem shiftLeft_32_lt {x : Nat} (h : x < 4294967296) : x <<< 32 < 2 ^ 64 := by
  rw [Nat.shiftLeft_eq]
  have : (2 : Nat) ^ 32 = 4294967296 := by norm_num
  have h64 : (2 : Nat) ^ 64 = 4294967296 * 4294967296 := by norm_num
  rw [this, h64]
  exact Nat.mul_lt_mul_of_pos_right h (by norm_num)

/-- C24: for a segment whose flags do not contain `ReadOnly`,
`_computeControlCookie` returns the pool cookie XOR `(id << 32) | id` XOR
`link.stream << 32` XOR `link.sequenceNumber` XOR `startTime`; this is a 64-bit
value when the pool cookie, the sequence number and the start time are 64-bit
values and the ids 32-bit values, and it is the same for every control element
with the same link and start time. -/
theorem computeControlCookie_writable (env : Env) (b : ServerStreamBuffer)
    (c : SegmentControlElement) (s : Segment) (hw : s.flags.readOnly = false) :
    b._computeControlCookie env c s =
      b.cookie ^^^ ((s.id <<< 32) ||| s.id) ^^^ (c.link.stream <<< 32) ^^^
        c.link.sequenceNumber ^^^ c.startTime ∧
    (b.cookie < 2 ^ 64 → s.id < 4294967296 → c.link.stream < 4294967296 →
      c.link.sequenceNumber < 2 ^ 64 → c.startTime < 2 ^ 64 →
      b._computeControlCookie env c s < 2 ^ 64) ∧
    (∀ c2 : SegmentControlElement, c2.link = c.link → c2.startTime = c.startTime →
      b._computeControlCookie env c2 s = b._computeControlCookie env c s) := by
  have e : ∀ c1 : SegmentControlElement, b._computeControlCookie env c1 s =
      b.cookie ^^^ ((s.id <<< 32) ||| s.id) ^^^ (c1.link.stream <<< 32) ^^^
        c1.link.sequenceNumber ^^^ c1.startTime := by
    intro c1
    unfold _computeControlCookie
    simp only [hw, Bool.false_eq_true, if_false]
  refine ⟨e c, ?_, ?_⟩
  · intro h1 h2 h3 h4 h5
    rw [e c]
    have hid : s.id < 2 ^ 64 := lt_trans h2 (by norm_num)
    exact Nat.xor_lt_two_pow (Nat.xor_lt_two_pow (Nat.xor_lt_two_pow (Nat.xor_lt_two_pow h1
      (Nat.or_lt_two_pow (shiftLeft_32_lt h2) hid)) (shiftLeft_32_lt h3)) h4) h5
  · intro c2 hl ht
    rw [e c, e c2, hl, ht]

theorem computeControlCookie_writable_witness :
    (sampleHeld.seg 0).flags.readOnly = false ∧
    sampleHeld._computeControlCookie sampleEnv (sampleHeld.sharedControl 0) (sampleHeld.seg 0) =
      sampleHeld.cookie ^^^ (((sampleHeld.seg 0).id <<< 32) ||| (sampleHeld.seg 0).id) ^^^
        ((sampleHeld.sharedControl 0).link.stream <<< 32) ^^^
        (sampleHeld.sharedControl 0).link.sequenceNumber ^^^
        (sampleHeld.sharedControl 0).startTime :=
  ⟨by decide,
   (computeControlCookie_writable sampleEnv sampleHeld (sampleHeld.sharedControl 0)
      (sampleHeld.seg 0) (by decide)).1⟩

theorem cookieValue_cookie (env : Env) (poolCookie id : Nat) (readOnly : Bool)
    (c : SegmentControlElement) (k : Nat) :
    cookieValue env poolCookie id readOnly { c with cookie := k } =
      cookieValue env poolCookie id readOnly c := rfl

theorem linkedPath_last {b : ServerStreamBuffer} :
    ∀ {l : List Nat} {x y : Nat}, b.LinkedPath x l y → b.Linked (l.getLastD x) y := by
  intro l
  induction l with
  | nil => intro x y h; exact h
  | cons a l ih =>
    intro x y h
    rw [List.getLastD_cons]
    exact ih h.2

/-- Every member of the standby list is linked to a next and from a previous
member. -/
theorem listL_ring_links {b : ServerStreamBuffer} {ls : List Nat} (h : b.ListL ls) {i : Nat}
    (hi : i ∈ ls) :
    ∃ p q, p ∈ ls ∧ q ∈ ls ∧ b.Linked i q ∧ b.Linked p i := by
  obtain ⟨pre, post, hls, -, -, hpath, -⟩ := listL_split h hi
  have hsub : ∀ j, j ∈ post ++ pre → j ∈ ls := by
    intro j hj
    rw [hls]
    rcases List.mem_append.mp hj with hj | hj
    · exact List.mem_append_right _ (List.mem_cons_of_mem _ hj)
    · exact List.mem_append_left _ hj
  cases hr : post ++ pre with
  | nil =>
    rw [hr] at hpath
    exact ⟨i, i, hi, hi, hpath, hpath⟩
  | cons q r =>
    rw [hr] at hpath hsub
    have hlast := linkedPath_last hpath
    rw [List.getLastD_cons] at hlast
    exact ⟨r.getLastD q, q, hsub _ (getLastD_mem r q), hsub _ (List.mem_cons_self _ _),
      hpath.1, hlast⟩

/-- C25: in every reachable state each segment of the pool is in exactly one
of three places: on the free list with flags `Free`; on the standby list, with
its key in the standby index, and with `InUse`, `ReadOnly` and `Cacheable`
among its flags; or held, `InUse` with `next` and `prev` null and on neither
list. No segment is on both lists, a segment that is not free (`InUse`) is on
the standby list exactly when its `next` link is not null, and a segment with
flags `Free` is on the free list. -/
theorem segment_in_one_place (env : Env) (b : ServerStreamBuffer) (i : Nat)
    (hr : Reachable env b) (hi : i < b.getNumSegments) :
    ((i ∈ b.freeList ∧ (b.seg i).flags = SgfFree) ∨
      (i ∈ b.standbyList ∧ indexFind b.standbyIndex (b.standbyKey i) = some i ∧
        (b.seg i).flags.inUse = true ∧ (b.seg i).flags.readOnly = true ∧
        (b.seg i).flags.cacheable = true) ∨
      (i ∉ b.freeList ∧ i ∉ b.standbyList ∧ (b.seg i).flags.inUse = true ∧
        (b.seg i).next = none ∧ (b.seg i).prev = none)) ∧
    ¬ ((i ∈ b.freeList ∧ (b.seg i).flags = SgfFree) ∧
      (i ∈ b.standbyList ∧ indexFind b.standbyIndex (b.standbyKey i) = some i ∧
        (b.seg i).flags.inUse = true ∧ (b.seg i).flags.readOnly = true ∧
        (b.seg i).flags.cacheable = true)) ∧
    ¬ ((i ∈ b.freeList ∧ (b.seg i).flags = SgfFree) ∧
      (i ∉ b.freeList ∧ i ∉ b.standbyList ∧ (b.seg i).flags.inUse = true ∧
        (b.seg i).next = none ∧ (b.seg i).prev = none)) ∧
    ¬ ((i ∈ b.standbyList ∧ indexFind b.standbyIndex (b.standbyKey i) = some i ∧
        (b.seg i).flags.inUse = true ∧ (b.seg i).flags.readOnly = true ∧
        (b.seg i).flags.cacheable = true) ∧
      (i ∉ b.freeList ∧ i ∉ b.standbyList ∧ (b.seg i).flags.inUse = true ∧
        (b.seg i).next = none ∧ (b.seg i).prev = none)) ∧
    ¬ (i ∈ b.freeList ∧ i ∈ b.standbyList) ∧
    ((b.seg i).flags.inUse = true → (i ∈ b.standbyList ↔ (b.seg i).next ≠ none)) ∧
    ((b.seg i).flags = SgfFree → i ∈ b.freeList) := by
  have hW := reachable_wellFormed hr
  have hdis : ¬ (i ∈ b.freeList ∧ i ∈ b.standbyList) := fun hc => invL_disjoint hW hc.1 hc.2
  have hfreeflag : i ∈ b.freeList → (b.seg i).flags.inUse = false := by
    intro hf
    rw [(hW.freeFlags i hf).1]
    rfl
  refine ⟨?_, ?_, ?_, ?_, hdis, ?_, ?_⟩
  · by_cases hf : i ∈ b.freeList
    · exact Or.inl ⟨hf, (hW.freeFlags i hf).1⟩
    · by_cases hs : i ∈ b.standbyList
      · exact Or.inr (Or.inl ⟨hs, indexL_find_mem hW.standby.index hs,
          hW.standbyFlags i hs⟩)
      · exact Or.inr (Or.inr ⟨hf, hs, hW.held i hi hf hs⟩)
  · exact fun hc => hdis ⟨hc.1.1, hc.2.1⟩
  · exact fun hc => hc.2.1 hc.1.1
  · exact fun hc => hc.2.2.1 hc.1.1
  · intro hu
    constructor
    · exact fun hs => listL_next_ne_none hW.standby.list hs
    · intro hn
      by_contra hs
      have hf : i ∉ b.freeList := by
        intro hf
        rw [hfreeflag hf] at hu
        exact absurd hu (by simp)
      exact hn (hW.held i hi hf hs).2.1
  · intro hfl
    by_contra hf
    by_cases hs : i ∈ b.standbyList
    · have := (hW.standbyFlags i hs).1
      rw [hfl] at this
      exact absurd this (by decide)
    · have := (hW.held i hi hf hs).1
      rw [hfl] at this
      exact absurd this (by decide)

theorem segment_in_one_place_witness :
    0 < sampleCached.getNumSegments ∧
    0 ∈ sampleCached.standbyList ∧ 1 ∈ sampleCached.freeList ∧
    ¬ (0 ∈ sampleCached.freeList ∧ 0 ∈ sampleCached.standbyList) :=
  ⟨by decide, by decide, by decide,
   (segment_in_one_place sampleEnv sampleCached 0 sampleCached_reachable
      (by decide)).2.2.2.2.1⟩

/-- C26: in every reachable state the standby list (the segments reached from
`standbyHead` through `next` links) and the standby index agree: a segment is
on the list exactly when the index has an entry for it; the key of every entry
is the key of its segment (store of its stream, `control.link`) and the lookup
of that key returns the segment; no two segments of the list have the same key
and the index has one entry per key; every member `s` of the list has a next
member `n` with `n.prev = s` and a previous member `p` with `p.next = s`; and
`standbyHead` is null exactly when the index is empty. -/
theorem standby_index_list_agree (env : Env) (b : ServerStreamBuffer)
    (hr : Reachable env b) :
    (∀ i, i ∈ b.standbyList ↔ ∃ key, (key, i) ∈ b.standbyIndex) ∧
    (∀ key i, (key, i) ∈ b.standbyIndex →
      key = b.standbyKey i ∧ indexFind b.standbyIndex key = some i) ∧
    (∀ i j, i ∈ b.standbyList → j ∈ b.standbyList → b.standbyKey i = b.standbyKey j →
      i = j) ∧
    (b.standbyIndex.map Prod.fst).Nodup ∧
    (∀ s, s ∈ b.standbyList → ∃ n p, n ∈ b.standbyList ∧ p ∈ b.standbyList ∧
      (b.seg s).next = some n ∧ (b.seg n).prev = some s ∧
      (b.seg s).prev = some p ∧ (b.seg p).next = some s) ∧
    (∀ h, b.standbyHead = some h → h ∈ b.standbyList) ∧
    (b.standbyHead = none ↔ b.standbyIndex = []) := by
  have hW := reachable_wellFormed hr
  have hidx := hW.standby.index
  have hl := hW.standby.list
  refine ⟨?_, ?_, ?_, hidx.nodup, ?_, ?_, ?_⟩
  · intro i
    constructor
    · exact fun hi => ⟨b.standbyKey i, hidx.all i hi⟩
    · rintro ⟨key, hk⟩
      exact (hidx.mem _ hk).1
  · intro key i hk
    exact ⟨(hidx.mem _ hk).2, (indexFind_some_iff _ hidx.nodup key i).2 hk⟩
  · intro i j hi hj hk
    exact indexL_key_inj hidx hi hj hk
  · intro s hs
    obtain ⟨p, q, hp, hq, h1, h2⟩ := listL_ring_links hl hs
    exact ⟨q, p, hq, hp, h1.1, h1.2, h2.2, h2.1⟩
  · intro h hh
    have := hl.head
    rw [hh] at this
    exact List.mem_of_mem_head? this.symm
  · have hhead := hl.head
    constructor
    · intro hn
      rw [hn] at hhead
      have hnil : b.standbyList = [] := by
        cases hls : b.standbyList with
        | nil => rfl
        | cons x l => rw [hls] at hhead; simp at hhead
      rw [List.eq_nil_iff_forall_not_mem]
      intro e he
      have := (hidx.mem e he).1
      rw [hnil] at this
      exact absurd this (List.not_mem_nil _)
    · intro hn
      cases hls : b.standbyList with
      | nil => rw [hls] at hhead; exact hhead
      | cons x l =>
        have := hidx.all x (by rw [hls]; exact List.mem_cons_self _ _)
        rw [hn] at this
        exact absurd this (List.not_mem_nil _)

theorem standby_index_list_agree_witness :
    sampleCached.standbyList = [0] ∧
    (∀ i, i ∈ sampleCached.standbyList ↔ ∃ key, (key, i) ∈ sampleCached.standbyIndex) :=
  ⟨by decide, (standby_index_list_agree sampleEnv sampleCached sampleCached_reachable).1⟩

/-! ## The place of an insertion into the standby list -/

/-- C29: a state with well-formed lists and a non-empty standby list, and a
held segment `i` (read-only and cacheable, as `_freeSegment` inserts it) under
a key the standby index does not have. If `i` is `LowPriority` and not
`Prefetch`, `_addStandbySegment(i)` leaves `standbyHead` as it is and makes `i`
the tail (`standbyHead.prev`), after the segments of the list in their order;
otherwise `i` becomes `standbyHead`, in front of the segments of the list in
their order, and the tail of before is still the tail. -/
theorem addStandbySegment_position (b : ServerStreamBuffer) (i h : Nat)
    (hW : b.WellFormed)
    (hlt : i < b.getNumSegments)
    (hu : (b.seg i).flags.inUse = true)
    (hn : (b.seg i).next = none)
    (hro : (b.seg i).flags.readOnly = true)
    (hca : (b.seg i).flags.cacheable = true)
    (hnew : indexFind b.standbyIndex (b.standbyKey i) = none)
    (hh : b.standbyHead = some h) :
    (((b.seg i).flags.lowPriority = true ∧ (b.seg i).flags.prefetch = false) →
      (b._addStandbySegment i).standbyHead = some h ∧
      ((b._addStandbySegment i).seg h).prev = some i ∧
      (b._addStandbySegment i).standbyList = b.standbyList ++ [i]) ∧
    (¬ ((b.seg i).flags.lowPriority = true ∧ (b.seg i).flags.prefetch = false) →
      (b._addStandbySegment i).standbyHead = some i ∧
      ((b._addStandbySegment i).seg i).prev = (b.seg h).prev ∧
      (b._addStandbySegment i).standbyList = i :: b.standbyList) := by
  obtain ⟨hif, his⟩ := invL_held hW hu hn
  have hinv := (add_step hW hlt hif his hro hca hnew).1
  have hne : b.standbyList ≠ [] := by
    intro e
    have := hW.standby.list.head
    rw [e, hh] at this
    simp at this
  obtain ⟨x, l, hls⟩ := List.exists_cons_of_ne_nil hne
  have hxh : x = h := by
    have := hW.standby.list.head
    rw [hls, hh] at this
    simpa using this.symm
  obtain ⟨hd0, hh0, ht0⟩ := standbyL_tail hW.standby hne
  have hd0h : hd0 = h := by
    rw [hh] at hh0
    exact (Option.some.inj hh0).symm
  rw [hd0h] at ht0
  constructor
  · intro hc
    rw [hc.1, hc.2] at hinv
    simp only [Bool.not_true, Bool.or_self, Bool.false_eq_true, if_false] at hinv
    have hne1 : b.standbyList ++ [i] ≠ [] := by simp
    obtain ⟨hd, h1, h2⟩ := standbyL_tail hinv.standby hne1
    have hhead := hinv.standby.list.head
    rw [hls] at hhead
    simp only [List.cons_append, List.head?_cons] at hhead
    rw [hxh] at hhead
    rw [hhead] at h1
    have hdh : hd = h := (Option.some.inj h1).symm
    rw [hdh] at h2
    refine ⟨hhead, ?_, (invL_lists hinv).2⟩
    rw [h2]
    simp
  · intro hc
    have hcond : (!(b.seg i).flags.lowPriority || (b.seg i).flags.prefetch) = true := by
      cases h1 : (b.seg i).flags.lowPriority <;> cases h2 : (b.seg i).flags.prefetch <;>
        simp_all
    rw [if_pos hcond] at hinv
    have hne1 : i :: b.standbyList ≠ [] := by simp
    obtain ⟨hd, h1, h2⟩ := standbyL_tail hinv.standby hne1
    have hhead := hinv.standby.list.head
    simp only [List.head?_cons] at hhead
    rw [hhead] at h1
    have hdi : hd = i := (Option.some.inj h1).symm
    rw [hdi] at h2
    refine ⟨hhead, ?_, (invL_lists hinv).2⟩
    rw [h2, ht0, List.getLast_cons hne]

theorem addStandbySegment_position_witness :
    (sampleLruHeld.standbyHead = some 0 ∧
      (sampleLruHeld.seg 1).flags.lowPriority = true ∧
      (sampleLruHeld.seg 1).flags.prefetch = false ∧
      indexFind sampleLruHeld.standbyIndex (sampleLruHeld.standbyKey 1) = none) ∧
    (sampleLruHeld._addStandbySegment 1).standbyHead = some 0 ∧
    ((sampleLruHeld._addStandbySegment 1).seg 0).prev = some 1 ∧
    (sampleLruHeld._addStandbySegment 1).standbyList = sampleLruHeld.standbyList ++ [1] :=
  ⟨by decide,
   (addStandbySegment_position sampleLruHeld 1 0
      (reachable_wellFormed sampleLruHeld_reachable) (by decide) (by decide) (by decide)
      (by decide) (by decide) (by decide) (by decide)).1 (by decide)⟩

/-! ## The `Prefetch` flag of a cached segment -/

/-- C28, as the code has it: `_enqueueToStandbyList` clears `Prefetch` only in
the branch of a non-empty list. In a reachable state with an empty standby
list, `freeSegment(i, prefetch = true)` of a held read-only cacheable segment
with entries, with caching enabled, caches the segment with the `Prefetch`
flag set: its flags are those of before with `Prefetch`, and it is the only
element of the standby list. The insertion into a non-empty list leaves
`Prefetch` clear. -/
theorem freeSegment_prefetch_kept (env : Env) (b : ServerStreamBuffer) (i : Nat)
    (hr : Reachable env b)
    (hlt : i < b.getNumSegments)
    (hu : (b.seg i).flags.inUse = true)
    (hn : (b.seg i).next = none)
    (hro : (b.seg i).flags.readOnly = true)
    (hca : (b.seg i).flags.cacheable = true)
    (hen : b.enableCache = true)
    (hraw : 0 < (b.seg i).control.rawEntryCount) :
    (b.standbyHead = none →
      (freeSegment env b i true).2 = .ok () ∧
      (freeSegment env b i true).1.standbyList = [i] ∧
      ((freeSegment env b i true).1.seg i).flags = { (b.seg i).flags with prefetch := true }) ∧
    (b.standbyHead ≠ none → indexFind b.standbyIndex (b.standbyKey i) = none →
      i ∈ (freeSegment env b i true).1.standbyList ∧
      ((freeSegment env b i true).1.seg i).flags =
        { (b.seg i).flags with prefetch := false }) := by
  have hheld := heldL_reachable hr hlt hu hn
  have hW := reachable_wellFormed hr
  have hcw : b.cacheWanted i = true := by
    unfold cacheWanted
    simp [hca, hen, hraw]
  have hok := freeSegment_ok env b i true hlt hu hn (Or.inl hro)
  have hcs := seg_cacheState env b i true hlt
  have hcn : i < (b.cacheState env i true).getNumSegments := by
    rw [(cacheState_rest env b i true).1]; exact hlt
  have hflags : ((b.cacheState env i true).seg i).flags =
      { (b.seg i).flags with prefetch := true } := by
    rw [hcs]
    cases hf : (b.seg i).flags
    rw [hf] at hro
    simp only at hro
    simp [hro]
  have hfree : ∀ hnew : indexFind b.standbyIndex (b.standbyKey i) = none,
      b._freeSegment env i true =
        ((b.cacheState env i true).setStandbyIndex (indexSet (b.cacheState env i true).standbyIndex
          ((b.cacheState env i true).standbyKey i) i))._enqueueToStandbyList i := by
    intro hnew
    have hf : indexFind (b.cacheState env i true).standbyIndex
        ((b.cacheState env i true).standbyKey i) = none := by
      rw [standbyKey_cacheState env b i true hlt, (cacheState_rest env b i true).2.2.2.2.1]
      exact hnew
    rw [freeSegment_eq env b i true hlt, if_pos hcw, addStandbySegment_new hf]
  constructor
  · intro hempty
    have hnew := standbyIndex_empty hW hempty (b.standbyKey i)
    have hinv := (invL_freeSegment hheld env true).1 ⟨hcw, hnew⟩
    have hls : b.standbyList = [] := by
      unfold standbyList
      rw [hempty]
      cases b.getNumSegments <;> rfl
    rw [hls] at hinv
    have hlist : (b._freeSegment env i true).standbyList = [i] := by
      rw [(invL_lists hinv).2]
      split_ifs <;> rfl
    rw [hok]
    refine ⟨rfl, hlist, ?_⟩
    show ((b._freeSegment env i true).seg i).flags = _
    rw [hfree hnew]
    have hun := unlinked_enqueueToStandbyList_self
      ((b.cacheState env i true).setStandbyIndex (indexSet (b.cacheState env i true).standbyIndex
        ((b.cacheState env i true).standbyKey i) i)) i hcn
    have hfl := congrArg Segment.flags hun
    have hsh : ((b.cacheState env i true).setStandbyIndex
        (indexSet (b.cacheState env i true).standbyIndex
          ((b.cacheState env i true).standbyKey i) i)).standbyHead = none := by
      show (b.cacheState env i true).standbyHead = none
      rw [(cacheState_rest env b i true).2.2.2.1]
      exact hempty
    simp only [Segment.unlinked] at hfl
    rw [if_pos hsh] at hfl
    rw [hfl]
    exact hflags
  · intro hne hnew
    have hinv := (invL_freeSegment hheld env true).1 ⟨hcw, hnew⟩
    rw [hok]
    constructor
    · show i ∈ (b._freeSegment env i true).standbyList
      rw [(invL_lists hinv).2]
      split_ifs
      · exact List.mem_cons_self _ _
      · simp
    · show ((b._freeSegment env i true).seg i).flags = _
      rw [hfree hnew]
      have hun := unlinked_enqueueToStandbyList_self
        ((b.cacheState env i true).setStandbyIndex (indexSet (b.cacheState env i true).standbyIndex
          ((b.cacheState env i true).standbyKey i) i)) i hcn
      have hfl := congrArg Segment.flags hun
      have hsh : ¬ ((b.cacheState env i true).setStandbyIndex
          (indexSet (b.cacheState env i true).standbyIndex
            ((b.cacheState env i true).standbyKey i) i)).standbyHead = none := by
        show ¬ (b.cacheState env i true).standbyHead = none
        rw [(cacheState_rest env b i true).2.2.2.1]
        exact hne
      simp only [Segment.unlinked] at hfl
      rw [if_neg hsh] at hfl
      rw [hfl]
      show ({ ((b.cacheState env i true).seg i).flags with prefetch := false } : SegmentFlags) = _
      rw [hflags]

theorem sampleRandomHeld_reachable : Reachable sampleEnv sampleRandomHeld :=
  Reachable.openSegment _ _ _ _ _ _ _ (Reachable.create _ _ _ _ (by decide))

theorem freeSegment_prefetch_kept_witness :
    (sampleRandomHeld.standbyHead = none ∧
      (sampleRandomHeld.seg 0).flags.lowPriority = true ∧
      (sampleRandomHeld.seg 0).flags.readOnly = true ∧
      (sampleRandomHeld.seg 0).flags.cacheable = true) ∧
    ((freeSegment sampleEnv sampleRandomHeld 0 true).1.seg 0).flags.prefetch = true ∧
    ((samplePrefetchHit.seg 0).flags.prefetch = true ∧
      (samplePrefetchHit.seg 0).flags.lowPriority = true ∧
      samplePrefetchHit.standbyList = [1] ∧
      (freeSegment sampleEnv samplePrefetchHit 0 false).1.standbyList = [0, 1]) :=
  ⟨by decide,
   (fun h => congrArg SegmentFlags.prefetch h.2.2)
    ((freeSegment_prefetch_kept sampleEnv sampleRandomHeld 0 sampleRandomHeld_reachable
      (by decide) (by decide) (by decide) (by decide) (by decide) (by decide) (by decide)).1
      (by decide)),
   by decide⟩

/-! ## Held segments are left alone -/

/-- An eviction leaves the descriptors of the other segments alone, but for
their links. -/
theorem evict_unlinked {b : ServerStreamBuffer} {lf ls : List Nat} (h : b.InvL lf ls)
    (hne : ls ≠ []) (j : Nat) (hj : j ≠ ls.getLast hne) :
    (b._evictFromStandbyList.1.seg j).unlinked = (b.seg j).unlinked := by
  rw [evictFromStandbyList_eq h.standby hne]
  show ((_ : ServerStreamBuffer).seg j).unlinked = _
  rw [seg_setSeg_ne _ _ _ _ hj, unlinked_dequeueFromStandbyList _ _ _ hj]
  rfl

theorem evict_frame {b : ServerStreamBuffer} {lf ls : List Nat} (h : b.InvL lf ls) :
    b._evictFromStandbyList.1.cookie = b.cookie ∧
    b._evictFromStandbyList.1.getNumSegments = b.getNumSegments ∧
    b._evictFromStandbyList.1.enableCache = b.enableCache ∧
    b._evictFromStandbyList.1.shared = b.shared := by
  by_cases hne : ls = []
  · have hh : b.standbyHead = none := by
      have := h.standby.list.head
      rw [hne] at this
      exact this
    have e : b._evictFromStandbyList = (b, none) := by
      simp only [_evictFromStandbyList, hh]
    rw [e]
    exact ⟨rfl, rfl, rfl, rfl⟩
  · rw [evictFromStandbyList_eq h.standby hne]
    have hfr := dequeueFromStandbyList_frame
      ((b.call (Call.notifySegmentCacheClosed (streamId (b.seg (ls.getLast hne)).stream)
        (b.seg (ls.getLast hne)).sequenceNumber)).setStandbyIndex
        (indexErase b.standbyIndex (b.standbyKey (ls.getLast hne)))) (ls.getLast hne)
    refine ⟨?_, ?_, ?_, ?_⟩
    · show (_ : ServerStreamBuffer).cookie = _
      rw [cookie_setSeg, hfr.1]; rfl
    · show (_ : ServerStreamBuffer).getNumSegments = _
      rw [getNumSegments_setSeg, dequeueFromStandbyList_valid_size]; rfl
    · show (_ : ServerStreamBuffer).enableCache = _
      rw [enableCache_setSeg, hfr.2.1]; rfl
    · show (_ : ServerStreamBuffer).shared = _
      have : ∀ (b0 : ServerStreamBuffer) (i : Nat) (s : Segment),
          (b0.setSeg i s).shared = b0.shared := fun _ _ _ => rfl
      rw [this, hfr.2.2.1]; rfl

/-- What one try of the allocation does: with a free segment, the head of the
free list is taken; without one, the tail of the standby list is evicted;
with neither, nothing happens. The segment taken has flags `InUse` and is not
submitted; the other descriptors are as before, but for links, and the held
segments are as before. -/
theorem allocateOnce_effect {b : ServerStreamBuffer} {lf ls : List Nat} (h : b.InvL lf ls) :
    b.allocateOnce.1.cookie = b.cookie ∧
    b.allocateOnce.1.getNumSegments = b.getNumSegments ∧
    (b.allocateOnce.2 = none → b.allocateOnce.1 = b) ∧
    (∀ k, b.allocateOnce.2 = some k →
      (k ∈ lf ∨ k ∈ ls) ∧
      (b.allocateOnce.1.seg k).flags = SgfInUse ∧
      (b.allocateOnce.1.seg k).isSubmitted = false ∧
      (∀ j, j ≠ k → (b.allocateOnce.1.seg j).unlinked = (b.seg j).unlinked) ∧
      (∀ j, j ∉ lf → j ∉ ls → b.allocateOnce.1.seg j = b.seg j)) := by
  cases lf with
  | cons i l =>
    obtain ⟨e, -⟩ := dequeueFromFreeList_cons h.free
    have ea : b.allocateOnce = ((b.setFreeHead (b.seg i).next).setSeg i
        { b.seg i with isSubmitted := false, flags := SgfInUse, next := none }, some i) := by
      unfold allocateOnce
      rw [e]
    have hi : i < b.getNumSegments := h.free.lt i (List.mem_cons_self _ _)
    rw [ea]
    refine ⟨rfl, by simp, fun hc => by simp at hc, ?_⟩
    intro k hk
    simp only [Option.some.injEq] at hk
    rw [← hk]
    have hself : ((b.setFreeHead (b.seg i).next).setSeg i
        { b.seg i with isSubmitted := false, flags := SgfInUse, next := none }).seg i =
        { b.seg i with isSubmitted := false, flags := SgfInUse, next := none } :=
      seg_setSeg_self _ _ _ (by simpa using hi)
    refine ⟨Or.inl (List.mem_cons_self _ _), ?_, ?_, ?_, ?_⟩
    · show ((_ : ServerStreamBuffer).seg i).flags = _
      rw [hself]
    · show ((_ : ServerStreamBuffer).seg i).isSubmitted = _
      rw [hself]
    · intro j hj
      show ((_ : ServerStreamBuffer).seg j).unlinked = _
      rw [seg_setSeg_ne _ _ _ _ hj]
      rfl
    · intro j hjf _
      have hji : j ≠ i := fun e => hjf (e ▸ List.mem_cons_self _ _)
      show (_ : ServerStreamBuffer).seg j = _
      rw [seg_setSeg_ne _ _ _ _ hji]
      rfl
  | nil =>
    have e := dequeueFromFreeList_nil h.free
    have ea : b.allocateOnce = b._evictFromStandbyList := by
      unfold allocateOnce
      rw [e]
    obtain ⟨f1, f2, -, -⟩ := evict_frame h
    rw [ea]
    refine ⟨f1, f2, ?_, ?_⟩
    · intro hnone
      by_cases hne : ls = []
      · have hh : b.standbyHead = none := by
          have := h.standby.list.head
          rw [hne] at this
          exact this
        simp only [_evictFromStandbyList, hh]
      · rw [(evict_step h hne).1] at hnone
        simp at hnone
    · intro k hk
      have hne : ls ≠ [] := by
        intro hnil
        have hh : b.standbyHead = none := by
          have := h.standby.list.head
          rw [hnil] at this
          exact this
        simp only [_evictFromStandbyList, hh] at hk
        simp at hk
      obtain ⟨s1, -, s3, s4, -, -, -, s8, -⟩ := evict_step h hne
      rw [s1] at hk
      simp only [Option.some.injEq] at hk
      rw [← hk]
      refine ⟨Or.inr (List.getLast_mem hne), s3, s4, ?_, ?_⟩
      · intro j hj
        exact evict_unlinked h hne j hj
      · intro j _ hjs
        exact s8 j hjs

theorem prepareSegment_frame (env : Env) (b : ServerStreamBuffer) (i : Nat)
    (stream : Option ServerStream) (sequenceNumber now : Nat) :
    (b._prepareSegment env i stream sequenceNumber now).cookie = b.cookie ∧
    (b._prepareSegment env i stream sequenceNumber now).getNumSegments = b.getNumSegments ∧
    ∀ j, j ≠ i → (b._prepareSegment env i stream sequenceNumber now).seg j = b.seg j := by
  unfold _prepareSegment
  refine ⟨rfl, by simp, ?_⟩
  intro j hj
  simp only
  rw [seg_setSeg_ne _ _ _ _ hj]
  rfl

/-- What `_tryAllocateFreeSegment` does to the descriptors: without a result,
none has changed; with the segment `k`, which was on one of the lists, `k` has
flags `InUse`, is not submitted and is bound to the stream and the sequence
number, the other descriptors are as before, but for links, and the held
segments are as before. -/
theorem tryAllocateLoop_effect (env : Env) (stream : Option ServerStream)
    (sequenceNumber : Nat) (prefetch : Bool) (now : Nat) :
    ∀ (fuel tryCount : Nat) (b : ServerStreamBuffer) (lf ls : List Nat), b.InvL lf ls →
      (tryAllocateLoop env stream sequenceNumber prefetch now fuel tryCount b).1.cookie =
        b.cookie ∧
      (tryAllocateLoop env stream sequenceNumber prefetch now fuel tryCount b).1.getNumSegments =
        b.getNumSegments ∧
      ((tryAllocateLoop env stream sequenceNumber prefetch now fuel tryCount b).2 = none →
        ∀ j, (tryAllocateLoop env stream sequenceNumber prefetch now fuel tryCount b).1.seg j =
          b.seg j) ∧
      (∀ k, (tryAllocateLoop env stream sequenceNumber prefetch now fuel tryCount b).2 = some k →
        (k ∈ lf ∨ k ∈ ls) ∧
        ((tryAllocateLoop env stream sequenceNumber prefetch now fuel tryCount b).1.seg k).flags =
          SgfInUse ∧
        ((tryAllocateLoop env stream sequenceNumber prefetch now fuel tryCount b).1.seg
          k).isSubmitted = false ∧
        ((tryAllocateLoop env stream sequenceNumber prefetch now fuel tryCount b).1.seg
          k).stream = stream ∧
        ((tryAllocateLoop env stream sequenceNumber prefetch now fuel tryCount b).1.seg
          k).sequenceNumber = sequenceNumber ∧
        (∀ j, j ≠ k →
          ((tryAllocateLoop env stream sequenceNumber prefetch now fuel tryCount b).1.seg
            j).unlinked = (b.seg j).unlinked) ∧
        (∀ j, j ∉ lf → j ∉ ls →
          (tryAllocateLoop env stream sequenceNumber prefetch now fuel tryCount b).1.seg j =
            b.seg j)) := by
  intro fuel
  have hsome : ∀ (fuel tryCount : Nat) (b b1 : ServerStreamBuffer) (lf ls : List Nat) (i : Nat),
      b.InvL lf ls → b.allocateOnce = (b1, some i) →
      tryAllocateLoop env stream sequenceNumber prefetch now fuel tryCount b =
        (b1._prepareSegment env i stream sequenceNumber now, some i) ∧
      i < b1.getNumSegments ∧ b1.shared.length = b1.getNumSegments := by
    intro fuel tryCount b b1 lf ls i h hd
    obtain ⟨h1, -, h3⟩ := invL_allocateOnce h
    rw [hd] at h1 h3
    have hh := h3 i rfl
    have hid := (heldL_flags hh).2.2.2
    refine ⟨?_, hh.2.1, hh.1.shared⟩
    cases fuel <;>
    · unfold tryAllocateLoop
      rw [hd]
      simp only [hid]
  have hcase : ∀ (fuel tryCount : Nat) (b b1 : ServerStreamBuffer) (lf ls : List Nat) (i : Nat),
      b.InvL lf ls → b.allocateOnce = (b1, some i) →
      (tryAllocateLoop env stream sequenceNumber prefetch now fuel tryCount b).1.cookie =
        b.cookie ∧
      (tryAllocateLoop env stream sequenceNumber prefetch now fuel tryCount b).1.getNumSegments =
        b.getNumSegments ∧
      ((tryAllocateLoop env stream sequenceNumber prefetch now fuel tryCount b).2 = none →
        ∀ j, (tryAllocateLoop env stream sequenceNumber prefetch now fuel tryCount b).1.seg j =
          b.seg j) ∧
      (∀ k, (tryAllocateLoop env stream sequenceNumber prefetch now fuel tryCount b).2 = some k →
        (k ∈ lf ∨ k ∈ ls) ∧
        ((tryAllocateLoop env stream sequenceNumber prefetch now fuel tryCount b).1.seg k).flags =
          SgfInUse ∧
        ((tryAllocateLoop env stream sequenceNumber prefetch now fuel tryCount b).1.seg
          k).isSubmitted = false ∧
        ((tryAllocateLoop env stream sequenceNumber prefetch now fuel tryCount b).1.seg
          k).stream = stream ∧
        ((tryAllocateLoop env stream sequenceNumber prefetch now fuel tryCount b).1.seg
          k).sequenceNumber = sequenceNumber ∧
        (∀ j, j ≠ k →
          ((tryAllocateLoop env stream sequenceNumber prefetch now fuel tryCount b).1.seg
            j).unlinked = (b.seg j).unlinked) ∧
        (∀ j, j ∉ lf → j ∉ ls →
          (tryAllocateLoop env stream sequenceNumber prefetch now fuel tryCount b).1.seg j =
            b.seg j)) := by
    intro fuel tryCount b b1 lf ls i h hd
    obtain ⟨e, hi1, hsh1⟩ := hsome fuel tryCount b b1 lf ls i h hd
    obtain ⟨a1, a2, -, a4⟩ := allocateOnce_effect h
    rw [hd] at a1 a2 a4
    obtain ⟨k1, k2, k3, k4, k5⟩ := a4 i rfl
    obtain ⟨p1, p2, p3⟩ := prepareSegment_frame env b1 i stream sequenceNumber now
    obtain ⟨q1, q2, -, -, q5, q6, -⟩ :=
      prepareSegment_spec env b1 i stream sequenceNumber now hi1 hsh1
    rw [e]
    refine ⟨p1.trans a1, p2.trans a2, fun hc => by simp at hc, ?_⟩
    intro k hk
    simp only [Option.some.injEq] at hk
    rw [← hk]
    refine ⟨k1, q1.trans k2, q2.trans k3, q5, q6, ?_, ?_⟩
    · intro j hj
      show ((_ : ServerStreamBuffer).seg j).unlinked = _
      rw [p3 j hj]
      exact k4 j hj
    · intro j hjf hjs
      have hji : j ≠ i := by
        intro e1
        rcases k1 with hm | hm
        · exact hjf (e1 ▸ hm)
        · exact hjs (e1 ▸ hm)
      show (_ : ServerStreamBuffer).seg j = _
      rw [p3 j hji]
      exact k5 j hjf hjs
  induction fuel with
  | zero =>
    intro tryCount b lf ls h
    rcases hd : b.allocateOnce with ⟨b1, _ | i⟩
    · have hb1 := allocateOnce_none hd
      subst hb1
      unfold tryAllocateLoop
      rw [hd]
      simp only
      by_cases hp : prefetch = true
      · rw [if_pos hp]
        exact ⟨rfl, rfl, fun _ _ => rfl, fun k hk => by simp at hk⟩
      · rw [if_neg hp]
        unfold _handleContention
        by_cases hge : tryCount ≥ env.retryCount
        · rw [if_pos hge]
          exact ⟨rfl, rfl, fun _ _ => rfl, fun k hk => by simp at hk⟩
        · rw [if_neg hge]
          exact ⟨rfl, rfl, fun _ _ => rfl, fun k hk => by simp at hk⟩
    · exact hcase 0 tryCount b b1 lf ls i h hd
  | succ fuel ih =>
    intro tryCount b lf ls h
    rcases hd : b.allocateOnce with ⟨b1, _ | i⟩
    · obtain ⟨hb1, hlf, hls⟩ := allocateOnce_none_lists h hd
      subst hb1; subst hlf; subst hls
      unfold tryAllocateLoop
      rw [hd]
      simp only
      by_cases hp : prefetch = true
      · rw [if_pos hp]
        exact ⟨rfl, rfl, fun _ _ => rfl, fun k hk => by simp at hk⟩
      · rw [if_neg hp]
        unfold _handleContention
        by_cases hge : tryCount ≥ env.retryCount
        · rw [if_pos hge]
          exact ⟨rfl, rfl, fun _ _ => rfl, fun k hk => by simp at hk⟩
        · rw [if_neg hge]
          simp only
          exact ih (tryCount + 1) (b1.call (Call.sleep env.retrySleep)) [] []
            (invL_call h _)
    · exact hcase (fuel + 1) tryCount b b1 lf ls i h hd

theorem markLoaded_ne (b : ServerStreamBuffer) (i : Nat) (flags : StreamAccessFlags) (j : Nat)
    (hj : j ≠ i) : (b.markLoaded i flags).seg j = b.seg j := by
  unfold markLoaded
  simp only
  split_ifs <;> simp [seg_setSeg_ne _ _ _ _ hj]

theorem loadControl_ne (env : Env) (b : ServerStreamBuffer) (i : Nat) (loc : StorageLocation)
    (j : Nat) (hj : j ≠ i) : (b.loadControl env i loc).seg j = b.seg j := by
  unfold loadControl
  simp only
  rw [seg_setSeg_ne _ _ _ _ hj]
  rfl

theorem requestLoad_ne {b : ServerStreamBuffer} {lf ls : List Nat} {i : Nat}
    (h : b.HeldL lf ls i) (env : Env) (stream : Option ServerStream)
    (flags : StreamAccessFlags) (loc : StorageLocation) (prefetch : Bool) (rd : ReadOutcome)
    (j : Nat) (hj : j ≠ i) :
    (b.requestLoad env i stream flags loc prefetch rd).1.seg j = b.seg j := by
  have h1 := heldL_loadControl (heldL_markLoaded h flags) env loc
  have hid := (heldL_flags h1).2.2.2
  have hbase : ((b.markLoaded i flags).loadControl env i loc).seg j = b.seg j := by
    rw [loadControl_ne env _ i loc j hj, markLoaded_ne b i flags j hj]
  unfold requestLoad
  cases rd with
  | returns completed => exact hbase
  | throws code =>
    simp only
    show (_ : ServerStreamBuffer).seg j = _
    have hid2 : (((b.markLoaded i flags).loadControl env i loc).call
        (Call.read (streamId stream) (((b.markLoaded i flags).loadControl env i loc).seg i).id
          prefetch)).seg i = ((b.markLoaded i flags).loadControl env i loc).seg i := rfl
    rw [hid2, hid, seg_purgeSegment_ne _ i j hj]
    exact hbase

theorem requestFresh_ne (b : ServerStreamBuffer) (i : Nat) (stream : Option ServerStream)
    (j : Nat) (hj : j ≠ i) : (b.requestFresh i stream).1.seg j = b.seg j := by
  unfold requestFresh
  cases stream with
  | none => exact seg_setSeg_ne _ _ _ _ hj
  | some s =>
    simp only
    split_ifs
    · exact seg_setSeg_ne _ _ _ _ hj
    · rfl

/-- `_requestSegment` leaves every held segment as it is; the segment it
returns was on one of the lists and is held afterwards. -/
theorem requestSegment_frame {b : ServerStreamBuffer} {lf ls : List Nat} (h : b.InvL lf ls)
    (env : Env) (stream : Option ServerStream) (sequenceNumber : Nat)
    (flags : StreamAccessFlags) (location : Option StorageLocation) (prefetch : Bool)
    (now : Nat) (rd : ReadOutcome) :
    (∀ j, j ∉ lf → j ∉ ls →
      (b._requestSegment env stream sequenceNumber flags location prefetch now rd).1.seg j =
        b.seg j) ∧
    (∀ (id : Nat) (c : Bool),
      (b._requestSegment env stream sequenceNumber flags location prefetch now rd).2 =
        .ok (id, c) → id ≠ INVALID_SEGMENT_ID →
      (id ∈ lf ∨ id ∈ ls) ∧
      id < (b._requestSegment env stream sequenceNumber flags location prefetch now
        rd).1.getNumSegments ∧
      ((b._requestSegment env stream sequenceNumber flags location prefetch now rd).1.seg
        id).flags.inUse = true ∧
      ((b._requestSegment env stream sequenceNumber flags location prefetch now rd).1.seg
        id).next = none) := by
  unfold _requestSegment
  have hmiss : ∀ r : Result (Nat × Bool),
      r = (match b._tryAllocateFreeSegment env stream sequenceNumber prefetch now with
          | (b, none) => ((b, .ok (INVALID_SEGMENT_ID, true)) : Result (Nat × Bool))
          | (b, some i) =>
            match location with
            | some loc => b.requestLoad env i stream flags loc prefetch rd
            | none => b.requestFresh i stream) →
      (∀ j, j ∉ lf → j ∉ ls → r.1.seg j = b.seg j) ∧
      (∀ (id : Nat) (c : Bool), r.2 = .ok (id, c) → id ≠ INVALID_SEGMENT_ID →
        (id ∈ lf ∨ id ∈ ls) ∧ id < r.1.getNumSegments ∧
        (r.1.seg id).flags.inUse = true ∧ (r.1.seg id).next = none) := by
    intro r hr
    rw [hr]
    obtain ⟨-, -, h3⟩ := invL_tryAllocateLoop env stream sequenceNumber prefetch now
      env.retryCount 1 b _ _ h
    obtain ⟨-, -, e3, e4⟩ := tryAllocateLoop_effect env stream sequenceNumber prefetch now
      env.retryCount 1 b _ _ h
    unfold _tryAllocateFreeSegment
    rcases ha : tryAllocateLoop env stream sequenceNumber prefetch now env.retryCount 1 b
      with ⟨b2, _ | i⟩
    · rw [ha] at e3
      simp only
      refine ⟨fun j _ _ => e3 rfl j, ?_⟩
      intro id c hres hv
      simp only [Except.ok.injEq, Prod.mk.injEq] at hres
      exact absurd hres.1.symm hv
    · rw [ha] at h3 e4
      have hh := h3 i rfl
      obtain ⟨k1, -, -, -, -, -, k7⟩ := e4 i rfl
      have hne : ∀ j, j ∉ lf → j ∉ ls → j ≠ i := by
        intro j hjf hjs e1
        rcases k1 with hm | hm
        · exact hjf (e1 ▸ hm)
        · exact hjs (e1 ▸ hm)
      cases location with
      | none =>
        simp only
        have hf := heldL_requestFresh hh stream
        refine ⟨fun j hjf hjs => by
          rw [requestFresh_ne b2 i stream j (hne j hjf hjs)]; exact k7 j hjf hjs, ?_⟩
        intro id c hres hv
        have hid : id = i := by
          have h0 : (b2.requestFresh i stream).2 =
              .ok (((b2.requestFresh i stream).1.seg i).id, true) := by
            unfold requestFresh
            cases stream with
            | none => rfl
            | some s => rfl
          rw [h0] at hres
          simp only [Except.ok.injEq, Prod.mk.injEq] at hres
          rw [← hres.1]
          exact (heldL_flags hf).2.2.2
        rw [hid]
        exact ⟨k1, hf.2.1, (heldL_flags hf).1, (heldL_flags hf).2.1⟩
      | some loc =>
        simp only
        refine ⟨fun j hjf hjs => by
          rw [requestLoad_ne hh env stream flags loc prefetch rd j (hne j hjf hjs)]
          exact k7 j hjf hjs, ?_⟩
        intro id c hres hv
        have h1 := heldL_call (heldL_loadControl (heldL_markLoaded hh flags) env loc)
          (Call.read (streamId stream) (((b2.markLoaded i flags).loadControl env i loc).seg i).id
            prefetch)
        cases rd with
        | throws code =>
          unfold requestLoad at hres
          simp at hres
        | returns completed =>
          have hst : (b2.requestLoad env i stream flags loc prefetch
              (ReadOutcome.returns completed)).1 =
              ((b2.markLoaded i flags).loadControl env i loc).call
                (Call.read (streamId stream)
                  (((b2.markLoaded i flags).loadControl env i loc).seg i).id prefetch) := rfl
          have hid : id = i := by
            unfold requestLoad at hres
            simp only [Except.ok.injEq, Prod.mk.injEq] at hres
            rw [← hres.1]
            exact (heldL_flags h1).2.2.2
          rw [hid, hst]
          exact ⟨k1, h1.2.1, (heldL_flags h1).1, (heldL_flags h1).2.1⟩
  cases stream with
  | none =>
    simp only [lookupStandby]
    exact hmiss _ rfl
  | some s =>
    simp only [lookupStandby]
    cases hf : indexFind b.standbyIndex
        { store := s.store, stream := s.id, sequenceNumber := sequenceNumber } with
    | none =>
      rw [removeStandbySegment_none hf]
      exact hmiss _ rfl
    | some i =>
      have h1 := invL_remove h hf
      obtain ⟨hi, -, e, -⟩ := standbyL_remove h.standby hf
      rw [e] at h1
      rw [e]
      simp only
      have hlt : i < b.getNumSegments := h.standby.list.lt i hi
      have hl : (b.setStandbyIndex (indexErase b.standbyIndex
          { store := s.store, stream := s.id, sequenceNumber := sequenceNumber })).ListL ls :=
        listL_frame h.standby.list rfl rfl (fun _ _ => rfl) (fun _ _ => rfl)
      have hid := h1.standby.ids i (by rw [dequeueFromStandbyList_valid_size]; exact hlt)
      have hnot : i ∉ ls.erase i :=
        fun hm => ((List.Nodup.mem_erase_iff h.standby.list.nodup).1 hm).1 rfl
      have hheld := h1.held i (by rw [dequeueFromStandbyList_valid_size]; exact hlt)
        (fun hm => invL_disjoint h hm hi) hnot
      refine ⟨fun j _ hjs => by rw [dequeueFromStandbyList_outside hl hi hjs]; rfl, ?_⟩
      intro id c hres _
      simp only [Except.ok.injEq, Prod.mk.injEq] at hres
      rw [← hres.1, hid]
      exact ⟨Or.inr hi, by rw [dequeueFromStandbyList_valid_size]; exact hlt, hheld.1,
        hheld.2.1⟩

theorem submitCopyControl_ne (b : ServerStreamBuffer) (i j : Nat) (hj : j ≠ i) :
    (b.submitCopyControl i).seg j = b.seg j := by
  unfold submitCopyControl
  simp only
  split_ifs
  · rw [seg_setSeg_ne _ _ _ _ hj, seg_setSeg_ne _ _ _ _ hj]
  · rfl

theorem submitFixEntryCount_ne (b : ServerStreamBuffer) (i j : Nat) (hj : j ≠ i) :
    (b.submitFixEntryCount i).seg j = b.seg j := by
  unfold submitFixEntryCount
  split_ifs
  · rw [seg_setSeg_ne _ _ _ _ hj]
  · rfl

theorem submitStampRanges_ne (b : ServerStreamBuffer) (i now j : Nat) (hj : j ≠ i) :
    (b.submitStampRanges i now).seg j = b.seg j := by
  unfold submitStampRanges
  simp only
  split_ifs
  · rw [seg_setSeg_ne _ _ _ _ hj, seg_setSeg_ne _ _ _ _ hj, seg_setSeg_ne _ _ _ _ hj]
  · rw [seg_setSeg_ne _ _ _ _ hj, seg_setSeg_ne _ _ _ _ hj]

theorem submitCatch_ne (b : ServerStreamBuffer) (i j : Nat) (hj : j ≠ i) :
    (b.submitCatch i).seg j = b.seg j :=
  seg_setSeg_ne _ _ _ _ hj

/-- `_freeSegment(k)` leaves alone every segment other than `k` that is not on
the standby list. -/
theorem freeSegment_frame {b : ServerStreamBuffer} {lf ls : List Nat} {k : Nat}
    (h : b.HeldL lf ls k) (env : Env) (prefetch : Bool) (j : Nat) (hjs : j ∉ ls)
    (hjk : j ≠ k) : (b._freeSegment env k prefetch).seg j = b.seg j := by
  have hlt := h.2.1
  rw [freeSegment_eq env b k prefetch hlt]
  have h3 := heldL_cacheState h env prefetch
  have hseg := seg_cacheState env b k prefetch hlt
  have hkey := standbyKey_cacheState env b k prefetch hlt k
  have hidx := (cacheState_rest env b k prefetch).2.2.2.2.1
  by_cases hw : b.cacheWanted k = true
  · rw [if_pos hw]
    have hca : (b.seg k).flags.cacheable = true := by
      unfold cacheWanted at hw
      cases hx : (b.seg k).flags.cacheable
      · simp [hx] at hw
      · rfl
    cases hf : indexFind b.standbyIndex (b.standbyKey k) with
    | none =>
      have hf3 : indexFind (b.cacheState env k prefetch).standbyIndex
          ((b.cacheState env k prefetch).standbyKey k) = none := by rw [hidx, hkey, hf]
      have := (add_step h3.1 h3.2.1 h3.2.2.1 h3.2.2.2 (by rw [hseg]) (by rw [hseg]; exact hca)
        hf3).2.1 j hjs hjk
      rw [this, seg_cacheState_ne env b k prefetch j hjk]
    | some q =>
      have hf3 : indexFind (b.cacheState env k prefetch).standbyIndex
          ((b.cacheState env k prefetch).standbyKey k) = some q := by rw [hidx, hkey, hf]
      rw [addStandbySegment_duplicate hf3, (heldL_flags h3).2.2.2,
        seg_purgeSegment_ne _ k j hjk, seg_cacheState_ne env b k prefetch j hjk]
  · rw [if_neg hw, seg_purgeSegment_ne _ k j hjk, seg_setSeg_ne _ _ _ _ hjk]

theorem submitEncode_frame {b : ServerStreamBuffer} {lf ls : List Nat} {k : Nat}
    (h : b.HeldL lf ls k) (env : Env) (wr : WriteOutcome) (j : Nat) (hjs : j ∉ ls)
    (hjk : j ≠ k) : (b.submitEncode env k wr).1.seg j = b.seg j := by
  unfold submitEncode
  have h1 : ((b.setSeg k { b.seg k with
      control := { (b.seg k).control with
        cookie := b._computeControlCookie env (b.seg k).control (b.seg k) } }).call
      (Call.write (streamId ((b.setSeg k { b.seg k with
      control := { (b.seg k).control with
        cookie := b._computeControlCookie env (b.seg k).control (b.seg k) } }).seg k).stream)
          k)).HeldL lf ls k := by
    apply heldL_call
    apply heldL_setSeg _ _ (by rfl) (by rfl) (by rfl) (by rfl)
    exact h
  have hb : ((b.setSeg k { b.seg k with
      control := { (b.seg k).control with
        cookie := b._computeControlCookie env (b.seg k).control (b.seg k) } }).call
      (Call.write (streamId ((b.setSeg k { b.seg k with
      control := { (b.seg k).control with
        cookie := b._computeControlCookie env (b.seg k).control (b.seg k) } }).seg k).stream)
          k)).seg j = b.seg j := by
    show (b.setSeg k _).seg j = _
    exact seg_setSeg_ne _ _ _ _ hjk
  cases wr with
  | throws code => exact hb
  | returns completed location =>
    simp only
    split_ifs
    · rw [freeSegment_frame h1 env false j hjs hjk]; exact hb
    · rw [seg_purgeSegment_ne _ k j hjk]; exact hb
    · exact hb

theorem submitTry_frame {b : ServerStreamBuffer} {lf ls : List Nat} {k : Nat}
    (h : b.HeldL lf ls k) (env : Env) (now : Nat) (wr : WriteOutcome) (j : Nat)
    (hjs : j ∉ ls) (hjk : j ≠ k) : (b.submitTry env k now wr).1.seg j = b.seg j := by
  unfold submitTry
  simp only
  split_ifs
  · exact submitFixEntryCount_ne b k j hjk
  · rw [submitStampRanges_ne _ k now j hjk, submitFixEntryCount_ne b k j hjk]
  · rw [submitEncode_frame (heldL_submitStampRanges (heldL_submitFixEntryCount h) now) env wr
      j hjs hjk, submitStampRanges_ne _ k now j hjk, submitFixEntryCount_ne b k j hjk]

/-- `_submitSegment(k)` leaves alone every segment other than `k` that is not
on the standby list. -/
theorem submitSegment_frame {b : ServerStreamBuffer} {lf ls : List Nat} {k : Nat}
    (h : b.HeldL lf ls k) (env : Env) (now : Nat) (wr : WriteOutcome) (j : Nat)
    (hjs : j ∉ ls) (hjk : j ≠ k) : (b._submitSegment env k now wr).1.seg j = b.seg j := by
  unfold _submitSegment
  simp only
  have h1 := heldL_submitCopyControl h
  have e1 := submitCopyControl_ne b k j hjk
  generalize b.submitCopyControl k = b1 at h1 e1 ⊢
  have h2 : (b1.setSeg k { b1.seg k with isSubmitted := true }).HeldL lf ls k :=
    heldL_setSeg h1 _ rfl rfl rfl rfl
  have e2 : (b1.setSeg k { b1.seg k with isSubmitted := true }).seg j = b.seg j := by
    rw [seg_setSeg_ne _ _ _ _ hjk]; exact e1
  generalize b1.setSeg k { b1.seg k with isSubmitted := true } = b2 at h2 e2 ⊢
  have hcatch : (withSubmitCatch k (b2.submitTry env k now wr)).1.seg j = b.seg j := by
    rcases hT : b2.submitTry env k now wr with ⟨bT, e | r⟩
    · have := submitTry_frame h2 env now wr j hjs hjk
      rw [hT] at this
      show (bT.submitCatch k).seg j = _
      rw [submitCatch_ne _ k j hjk]
      exact this.trans e2
    · have := submitTry_frame h2 env now wr j hjs hjk
      rw [hT] at this
      exact this.trans e2
  have hfree : (b2._freeSegment env k false).seg j = b.seg j := by
    rw [freeSegment_frame h2 env false j hjs hjk]; exact e2
  have hpurge : ∀ c : Call, ((b2.call c)._purgeSegment k).seg j = b.seg j := by
    intro c
    rw [seg_purgeSegment_ne _ k j hjk]; exact e2
  split_ifs
  all_goals first
    | with_reducible exact e1
    | with_reducible exact hfree
    | with_reducible exact hpurge _
    | with_reducible exact hcatch

theorem getNumSegments_flushOne (b : ServerStreamBuffer) (x : Nat) :
    (b.flushOne x).getNumSegments = b.getNumSegments := by
  unfold flushOne
  simp only
  rw [(purgeSegment_rest _ _).1, dequeueFromStandbyList_valid_size]
  unfold _findStandbySegment
  split <;> rfl

theorem getNumSegments_flushLoop (store last : Nat) :
    ∀ (fuel seg : Nat) (b : ServerStreamBuffer),
      (flushLoop store last fuel seg b).getNumSegments = b.getNumSegments := by
  intro fuel
  induction fuel with
  | zero => intro seg b; rfl
  | succ fuel ih =>
    intro seg b
    rw [flushLoop_succ]
    have hv : (if flushes store (storeId (b.seg seg).stream) = true then b.flushOne seg
        else b).getNumSegments = b.getNumSegments := by
      split_ifs
      · exact getNumSegments_flushOne b seg
      · rfl
    generalize (if flushes store (storeId (b.seg seg).stream) = true then b.flushOne seg
        else b) = b1 at hv ⊢
    by_cases hl : seg = last
    · rw [if_pos hl]; exact hv
    · rw [if_neg hl]
      cases (b.seg seg).next with
      | none => exact hv
      | some n =>
        simp only
        rw [ih n b1]
        exact hv

theorem getNumSegments_flushStandbyList (b : ServerStreamBuffer) (store : Nat) :
    (b.flushStandbyList store).getNumSegments = b.getNumSegments := by
  unfold flushStandbyList
  split
  · rfl
  · split
    · rfl
    · exact getNumSegments_flushLoop _ _ _ _ _

/-- `flushStandbyList` leaves every held segment as it is. -/
theorem flushStandbyList_frame {b : ServerStreamBuffer} {lf ls : List Nat} (h : b.InvL lf ls)
    (store : Nat) (j : Nat) (hjn : j < b.getNumSegments) (hjf : j ∉ lf) (hjs : j ∉ ls) :
    (b.flushStandbyList store).seg j = b.seg j := by
  obtain ⟨hinv, hun⟩ := invL_flushStandbyList h store
  have hu := hun j (fun hm => hjs (List.mem_filter.1 hm).1)
  have hb := h.held j hjn hjf hjs
  have hn : j < (b.flushStandbyList store).getNumSegments := by
    rw [getNumSegments_flushStandbyList]; exact hjn
  have ha := hinv.held j hn
    (by
      intro hm
      rcases List.mem_append.1 hm with hm | hm
      · exact hjs (List.mem_filter.1 (List.mem_reverse.1 hm)).1
      · exact hjf hm)
    (fun hm => hjs (List.mem_filter.1 hm).1)
  exact segment_ext_links hu (ha.2.1.trans hb.2.1.symm) (ha.2.2.trans hb.2.2.symm)

/-! ## Sequences of calls -/

theorem reachable_applyOp {env : Env} {b : ServerStreamBuffer} (hr : Reachable env b)
    (op : ApiOp) : Reachable env (applyOp env b op) := by
  cases op with
  | requestSegment stream sequenceNumber now => exact Reachable.requestSegment _ _ _ _ hr
  | requestScratchSegment now => exact Reachable.requestScratchSegment _ _ hr
  | openSegment stream flags location prefetch now rd =>
    exact Reachable.openSegment _ _ _ _ _ _ _ hr
  | submitSegment segment now wr => exact Reachable.submitSegment _ _ _ _ hr
  | freeSegment segment prefetch => exact Reachable.freeSegment _ _ _ hr
  | purgeSegment segment => exact Reachable.purgeSegment _ _ hr
  | flushStandbyList store => exact Reachable.flushStandbyList _ _ hr
  | clientWriteControl i c => exact Reachable.clientWriteControl _ _ _ hr
  | clientWritePayload i bytes => exact Reachable.clientWritePayload _ _ _ hr

theorem reachable_applyOps {env : Env} (ops : List ApiOp) :
    ∀ {b : ServerStreamBuffer}, Reachable env b → Reachable env (applyOps env b ops) := by
  induction ops with
  | nil => intro b hr; exact hr
  | cons op ops ih =>
    intro b hr
    exact ih (reachable_applyOp hr op)

theorem requestSegment_state (env : Env) (b : ServerStreamBuffer) (stream : ServerStream)
    (sequenceNumber now : Nat) :
    (requestSegment env b stream sequenceNumber now).1 = b ∨
    (requestSegment env b stream sequenceNumber now).1 =
      (b._requestSegment env (some stream) sequenceNumber SafNone none false now
        (ReadOutcome.returns true)).1 := by
  unfold requestSegment
  split_ifs
  · exact Or.inl rfl
  · right
    rcases b._requestSegment env (some stream) sequenceNumber SafNone none false now
      (ReadOutcome.returns true) with ⟨b1, e | ⟨id, c⟩⟩ <;> rfl

theorem requestScratchSegment_state (env : Env) (b : ServerStreamBuffer) (now : Nat) :
    (requestScratchSegment env b now).1 =
      (b._requestSegment env none INVALID_STREAM_SEGMENT_ID SafNone none false now
        (ReadOutcome.returns true)).1 := by
  unfold requestScratchSegment
  rcases b._requestSegment env none INVALID_STREAM_SEGMENT_ID SafNone none false now
    (ReadOutcome.returns true) with ⟨b1, e | ⟨id, c⟩⟩ <;> rfl

theorem submitSegment_state (env : Env) (b : ServerStreamBuffer) (segment now : Nat)
    (wr : WriteOutcome) :
    submitSegment env b segment now wr = (b, .error Error.ArgumentOutOfBoundsException) ∨
    submitSegment env b segment now wr = (b, .error Error.InvalidOperationException) ∨
    (segment < b.getNumSegments ∧ (b.seg segment).stream.isSome = true ∧
      (b.seg segment).flags.inUse = true ∧ (b.seg segment).next = none ∧
      (b.seg segment).isSubmitted = false ∧
      submitSegment env b segment now wr = b._submitSegment env segment now wr) := by
  unfold submitSegment
  by_cases h1 : segment ≥ b.getNumSegments
  · rw [if_pos h1]; exact Or.inl rfl
  · rw [if_neg h1]
    by_cases h2 : (b.seg segment).stream.isNone = true
    · rw [if_pos h2]; exact Or.inr (Or.inl rfl)
    · rw [if_neg h2]
      by_cases h3 : (!(b.seg segment).flags.inUse || (b.seg segment).next.isSome ||
          (b.seg segment).isSubmitted) = true
      · rw [if_pos h3]; exact Or.inr (Or.inl rfl)
      · rw [if_neg h3]
        refine Or.inr (Or.inr ⟨by omega, ?_, ?_, ?_, ?_, rfl⟩)
        · cases hs : (b.seg segment).stream <;> simp [hs] at h2 ⊢
        · cases hu : (b.seg segment).flags.inUse <;> simp [hu] at h3 ⊢
        · cases hn : (b.seg segment).next <;> simp [hn] at h3 ⊢
        · cases hsb : (b.seg segment).isSubmitted <;> simp [hsb] at h3 ⊢

theorem freeSegment_state (env : Env) (b : ServerStreamBuffer) (segment : Nat)
    (prefetch : Bool) :
    freeSegment env b segment prefetch = (b, .error Error.ArgumentOutOfBoundsException) ∨
    freeSegment env b segment prefetch = (b, .error Error.InvalidOperationException) ∨
    (segment < b.getNumSegments ∧ (b.seg segment).flags.inUse = true ∧
      (b.seg segment).next = none ∧
      ((b.seg segment).flags.readOnly = true ∨ (b.seg segment).isSubmitted = true) ∧
      freeSegment env b segment prefetch = (b._freeSegment env segment prefetch, .ok ())) := by
  unfold freeSegment
  by_cases h1 : segment ≥ b.getNumSegments
  · rw [if_pos h1]; exact Or.inl rfl
  · rw [if_neg h1]
    by_cases h3 : (!(b.seg segment).flags.inUse || (b.seg segment).next.isSome ||
        (!(b.seg segment).flags.readOnly && !(b.seg segment).isSubmitted)) = true
    · rw [if_pos h3]; exact Or.inr (Or.inl rfl)
    · rw [if_neg h3]
      refine Or.inr (Or.inr ⟨by omega, ?_, ?_, ?_, rfl⟩)
      · cases hu : (b.seg segment).flags.inUse <;> simp [hu] at h3 ⊢
      · cases hn : (b.seg segment).next <;> simp [hn] at h3 ⊢
      · cases hro : (b.seg segment).flags.readOnly <;>
          cases hsb : (b.seg segment).isSubmitted <;> simp [hro, hsb] at h3 ⊢

theorem purgeSegment_state (b : ServerStreamBuffer) (segment : Nat) :
    purgeSegment b segment = (b, .error Error.ArgumentOutOfBoundsException) ∨
    purgeSegment b segment = (b, .error Error.InvalidOperationException) ∨
    (segment < b.getNumSegments ∧ (b.seg segment).flags.inUse = true ∧
      (b.seg segment).next = none ∧
      purgeSegment b segment = (b._purgeSegment segment, .ok ())) := by
  unfold purgeSegment
  by_cases h1 : segment ≥ b.getNumSegments
  · rw [if_pos h1]; exact Or.inl rfl
  · rw [if_neg h1]
    by_cases h3 : (!(b.seg segment).flags.inUse || (b.seg segment).next.isSome) = true
    · rw [if_pos h3]; exact Or.inr (Or.inl rfl)
    · rw [if_neg h3]
      refine Or.inr (Or.inr ⟨by omega, ?_, ?_, rfl⟩)
      · cases hu : (b.seg segment).flags.inUse <;> simp [hu] at h3 ⊢
      · cases hn : (b.seg segment).next <;> simp [hn] at h3 ⊢

/-- A held segment is as before after every call that does not name it. -/
theorem held_frame {env : Env} {b : ServerStreamBuffer} (hr : Reachable env b) {i : Nat}
    (hi : i < b.getNumSegments) (hu : (b.seg i).flags.inUse = true)
    (hn : (b.seg i).next = none) (op : ApiOp) (ht : op.target ≠ some i) :
    (applyOp env b op).seg i = b.seg i := by
  have hW := reachable_wellFormed hr
  have hheld := heldL_reachable hr hi hu hn
  cases op with
  | requestSegment stream sequenceNumber now =>
    show (requestSegment env b stream sequenceNumber now).1.seg i = _
    rcases requestSegment_state env b stream sequenceNumber now with e | e
    · rw [e]
    · rw [e]
      exact (requestSegment_frame hW env _ _ _ _ _ _ _).1 i hheld.2.2.1 hheld.2.2.2
  | requestScratchSegment now =>
    show (requestScratchSegment env b now).1.seg i = _
    rw [requestScratchSegment_state]
    exact (requestSegment_frame hW env _ _ _ _ _ _ _).1 i hheld.2.2.1 hheld.2.2.2
  | openSegment stream flags location prefetch now rd =>
    exact (requestSegment_frame hW env _ _ _ _ _ _ _).1 i hheld.2.2.1 hheld.2.2.2
  | submitSegment segment now wr =>
    have hne : i ≠ segment := fun e => ht (by rw [e]; rfl)
    show (submitSegment env b segment now wr).1.seg i = _
    rcases submitSegment_state env b segment now wr with e | e | ⟨h1, -, h3, h4, -, e⟩
    · rw [e]
    · rw [e]
    · rw [e]
      exact submitSegment_frame (heldL_reachable hr h1 h3 h4) env now wr i hheld.2.2.2 hne
  | freeSegment segment prefetch =>
    have hne : i ≠ segment := fun e => ht (by rw [e]; rfl)
    show (freeSegment env b segment prefetch).1.seg i = _
    rcases freeSegment_state env b segment prefetch with e | e | ⟨h1, h3, h4, -, e⟩
    · rw [e]
    · rw [e]
    · rw [e]
      exact freeSegment_frame (heldL_reachable hr h1 h3 h4) env prefetch i hheld.2.2.2 hne
  | purgeSegment segment =>
    have hne : i ≠ segment := fun e => ht (by rw [e]; rfl)
    show (purgeSegment b segment).1.seg i = _
    rcases purgeSegment_state b segment with e | e | ⟨-, -, -, e⟩
    · rw [e]
    · rw [e]
    · rw [e]
      exact seg_purgeSegment_ne b segment i hne
  | flushStandbyList store =>
    exact flushStandbyList_frame hW store i hi hheld.2.2.1 hheld.2.2.2
  | clientWriteControl k c => rfl
  | clientWritePayload k bytes => rfl

theorem validPool_applyOp {env : Env} {n : Nat} {b : ServerStreamBuffer} (hv : ValidPool n b)
    (op : ApiOp) : ValidPool n (applyOp env b op) := by
  cases op with
  | requestSegment stream sequenceNumber now =>
    show ValidPool n (requestSegment env b stream sequenceNumber now).1
    rcases requestSegment_state env b stream sequenceNumber now with e | e
    · rw [e]; exact hv
    · rw [e]; exact hv.requestSegment' env _ _ _ _ _ _ _
  | requestScratchSegment now =>
    show ValidPool n (requestScratchSegment env b now).1
    rw [requestScratchSegment_state]
    exact hv.requestSegment' env _ _ _ _ _ _ _
  | openSegment stream flags location prefetch now rd =>
    exact hv.requestSegment' env _ _ _ _ _ _ _
  | submitSegment segment now wr =>
    show ValidPool n (submitSegment env b segment now wr).1
    rcases submitSegment_state env b segment now wr with e | e | ⟨h1, -, -, -, -, e⟩
    · rw [e]; exact hv
    · rw [e]; exact hv
    · rw [e]; exact hv.submitSegment' env segment (by rw [← hv.2]; exact h1) now wr
  | freeSegment segment prefetch =>
    show ValidPool n (freeSegment env b segment prefetch).1
    rcases freeSegment_state env b segment prefetch with e | e | ⟨h1, -, -, -, e⟩
    · rw [e]; exact hv
    · rw [e]; exact hv
    · rw [e]; exact hv.free env segment prefetch (by rw [← hv.2]; exact h1)
  | purgeSegment segment =>
    show ValidPool n (purgeSegment b segment).1
    rcases purgeSegment_state b segment with e | e | ⟨h1, -, -, e⟩
    · rw [e]; exact hv
    · rw [e]; exact hv
    · rw [e]; exact hv.purge segment (by rw [← hv.2]; exact h1)
  | flushStandbyList store => exact hv.flushStandbyList store
  | clientWriteControl i c => exact hv.setShared i c
  | clientWritePayload i bytes => exact hv

theorem getNumSegments_applyOp {env : Env} {b : ServerStreamBuffer} (hr : Reachable env b)
    (op : ApiOp) : (applyOp env b op).getNumSegments = b.getNumSegments := by
  obtain ⟨n, -, hv⟩ := hr.validPool
  rw [(validPool_applyOp hv op).2, hv.2]

/-- The segment `requestScratchSegment` returns is held with the flags `InUse`
and `Scratch`, no stream and no sequence number. -/
theorem requestScratchSegment_effect {b : ServerStreamBuffer} {lf ls : List Nat}
    (h : b.InvL lf ls) (env : Env) (now : Nat) (i : Nat)
    (hres : (requestScratchSegment env b now).2 = .ok i) (hi : i ≠ INVALID_SEGMENT_ID) :
    i < (requestScratchSegment env b now).1.getNumSegments ∧
    ((requestScratchSegment env b now).1.seg i).flags = { SgfInUse with scratch := true } ∧
    ((requestScratchSegment env b now).1.seg i).stream = none ∧
    ((requestScratchSegment env b now).1.seg i).sequenceNumber = INVALID_STREAM_SEGMENT_ID ∧
    ((requestScratchSegment env b now).1.seg i).isSubmitted = false ∧
    ((requestScratchSegment env b now).1.seg i).next = none := by
  have hst : ∀ r : Result Nat, r = requestScratchSegment env b now →
      r = (match tryAllocateLoop env none INVALID_STREAM_SEGMENT_ID false now env.retryCount 1 b
        with
        | (b1, none) => ((b1, .ok INVALID_SEGMENT_ID) : Result Nat)
        | (b1, some k) =>
          (b1.setSeg k { b1.seg k with flags := { (b1.seg k).flags with scratch := true } },
            .ok ((b1.setSeg k { b1.seg k with
              flags := { (b1.seg k).flags with scratch := true } }).seg k).id)) := by
    intro r hr
    rw [hr]
    unfold requestScratchSegment _requestSegment lookupStandby _tryAllocateFreeSegment
    simp only
    rcases tryAllocateLoop env none INVALID_STREAM_SEGMENT_ID false now env.retryCount 1 b
      with ⟨b1, _ | k⟩ <;> rfl
  have e := hst _ rfl
  obtain ⟨-, -, h3⟩ := invL_tryAllocateLoop env none INVALID_STREAM_SEGMENT_ID false now
    env.retryCount 1 b _ _ h
  obtain ⟨-, -, -, e4⟩ := tryAllocateLoop_effect env none INVALID_STREAM_SEGMENT_ID false now
    env.retryCount 1 b _ _ h
  rw [e] at hres ⊢
  rcases ha : tryAllocateLoop env none INVALID_STREAM_SEGMENT_ID false now env.retryCount 1 b
    with ⟨b1, _ | k⟩
  · rw [ha] at hres
    simp only [Except.ok.injEq] at hres
    exact absurd hres.symm hi
  · rw [ha] at hres h3 e4
    simp only at hres ⊢
    have hh := h3 k rfl
    obtain ⟨-, k2, k3, k4, k5, -, -⟩ := e4 k rfl
    have hf : (b1.setSeg k { b1.seg k with
        flags := { (b1.seg k).flags with scratch := true } }).HeldL _ _ k :=
      heldL_setSeg hh _ rfl rfl rfl rfl
    have hid : i = k := by
      simp only [Except.ok.injEq] at hres
      rw [← hres]
      exact (heldL_flags hf).2.2.2
    rw [hid]
    refine ⟨hf.2.1, ?_, ?_, ?_, ?_, (heldL_flags hf).2.1⟩
    · rw [seg_setSeg_self _ _ _ hh.2.1, k2]
    · rw [seg_setSeg_self _ _ _ hh.2.1]; exact k4
    · rw [seg_setSeg_self _ _ _ hh.2.1]; exact k5
    · rw [seg_setSeg_self _ _ _ hh.2.1]; exact k3

/-- A held segment without a stream that is neither read-only nor submitted
is as before after every call but its purge. -/
theorem scratch_applyOp {env : Env} {b : ServerStreamBuffer} (hr : Reachable env b) {i : Nat}
    (hi : i < b.getNumSegments) (hu : (b.seg i).flags.inUse = true)
    (hn : (b.seg i).next = none) (hs : (b.seg i).stream = none)
    (hro : (b.seg i).flags.readOnly = false) (hsb : (b.seg i).isSubmitted = false)
    (op : ApiOp) (hop : op ≠ ApiOp.purgeSegment i) :
    (applyOp env b op).seg i = b.seg i := by
  by_cases ht : op.target = some i
  · cases op with
    | submitSegment segment now wr =>
      have e0 : segment = i := by simpa [ApiOp.target] using ht
      rw [e0]
      show (submitSegment env b i now wr).1.seg i = _
      rcases submitSegment_state env b i now wr with e | e | ⟨-, h2, -⟩
      · rw [e]
      · rw [e]
      · rw [hs] at h2; simp at h2
    | freeSegment segment prefetch =>
      have e0 : segment = i := by simpa [ApiOp.target] using ht
      rw [e0]
      show (freeSegment env b i prefetch).1.seg i = _
      rcases freeSegment_state env b i prefetch with e | e | ⟨-, -, -, h4, -⟩
      · rw [e]
      · rw [e]
      · rw [hro, hsb] at h4; simp at h4
    | purgeSegment segment =>
      have e0 : segment = i := by simpa [ApiOp.target] using ht
      exact absurd (by rw [e0]) hop
    | requestSegment stream sequenceNumber now => simp [ApiOp.target] at ht
    | requestScratchSegment now => simp [ApiOp.target] at ht
    | openSegment stream flags location prefetch now rd => simp [ApiOp.target] at ht
    | flushStandbyList store => simp [ApiOp.target] at ht
    | clientWriteControl k c => simp [ApiOp.target] at ht
    | clientWritePayload k bytes => simp [ApiOp.target] at ht
  · exact held_frame hr hi hu hn op ht

theorem scratch_applyOps {env : Env} (i : Nat) (ops : List ApiOp) :
    ∀ {b : ServerStreamBuffer}, Reachable env b → i < b.getNumSegments →
      (b.seg i).flags.inUse = true → (b.seg i).next = none → (b.seg i).stream = none →
      (b.seg i).flags.readOnly = false → (b.seg i).isSubmitted = false →
      ApiOp.purgeSegment i ∉ ops →
      (applyOps env b ops).seg i = b.seg i ∧
      (applyOps env b ops).getNumSegments = b.getNumSegments := by
  induction ops with
  | nil => intro b _ _ _ _ _ _ _ _; exact ⟨rfl, rfl⟩
  | cons op ops ih =>
    intro b hr hi hu hn hs hro hsb hops
    have hop : op ≠ ApiOp.purgeSegment i := fun e => hops (by rw [e]; exact List.mem_cons_self _ _)
    have h1 := scratch_applyOp hr hi hu hn hs hro hsb op hop
    have hn1 := getNumSegments_applyOp hr op
    have h2 := @ih (applyOp env b op) (reachable_applyOp hr op) (by rw [hn1]; exact hi)
      (by rw [h1]; exact hu) (by rw [h1]; exact hn) (by rw [h1]; exact hs)
      (by rw [h1]; exact hro) (by rw [h1]; exact hsb)
      (fun hm => hops (List.mem_cons_of_mem _ hm))
    exact ⟨h2.1.trans h1, h2.2.trans hn1⟩

/-- A segment of a well-formed pool that is not read-only is not cached, and
one that is in use is not free. -/
theorem not_cached_of_writable {b : ServerStreamBuffer} (hW : b.WellFormed) {i : Nat}
    (hu : (b.seg i).flags.inUse = true) (hro : (b.seg i).flags.readOnly = false) :
    i ∉ b.standbyList ∧ (∀ e, e ∈ b.standbyIndex → e.2 ≠ i) ∧ i ∉ b.freeList := by
  have hns : i ∉ b.standbyList := by
    intro hm
    have := (hW.standbyFlags i hm).2.1
    rw [hro] at this
    exact Bool.noConfusion this
  refine ⟨hns, ?_, ?_⟩
  · intro e he hei
    exact hns (hei ▸ (hW.standby.index.mem e he).1)
  · intro hm
    have := (hW.freeFlags i hm).1
    rw [this] at hu
    exact Bool.noConfusion hu

/-! ## Scratch segments -/

/-- C22: the segment `requestScratchSegment` returns has the flags `InUse` and
`Scratch` and no others, no stream and the invalid sequence number. After any
sequence of calls of the engine and writes of the client that does not purge
it, the descriptor is as it was returned, `submitSegment` on it raises
`InvalidOperationException` and leaves the state as it is, and the segment is
neither on the standby list nor in the standby index. -/
theorem scratch_segment_never_cached {env : Env} {b : ServerStreamBuffer}
    (hr : Reachable env b) (now i : Nat)
    (hres : (requestScratchSegment env b now).2 = .ok i) (hi : i ≠ INVALID_SEGMENT_ID)
    (ops : List ApiOp) (hops : ApiOp.purgeSegment i ∉ ops) (now2 : Nat) (wr : WriteOutcome) :
    ((requestScratchSegment env b now).1.seg i).flags = { SgfInUse with scratch := true } ∧
    ((requestScratchSegment env b now).1.seg i).stream = none ∧
    ((requestScratchSegment env b now).1.seg i).sequenceNumber = INVALID_STREAM_SEGMENT_ID ∧
    (applyOps env (requestScratchSegment env b now).1 ops).seg i =
      (requestScratchSegment env b now).1.seg i ∧
    submitSegment env (applyOps env (requestScratchSegment env b now).1 ops) i now2 wr =
      (applyOps env (requestScratchSegment env b now).1 ops,
        .error Error.InvalidOperationException) ∧
    i ∉ (applyOps env (requestScratchSegment env b now).1 ops).standbyList ∧
    (∀ e, e ∈ (applyOps env (requestScratchSegment env b now).1 ops).standbyIndex → e.2 ≠ i) := by
  have hr1 : Reachable env (requestScratchSegment env b now).1 :=
    Reachable.requestScratchSegment _ _ hr
  obtain ⟨h1, h2, h3, h4, h5, h6⟩ :=
    requestScratchSegment_effect (reachable_wellFormed hr) env now i hres hi
  have hu : ((requestScratchSegment env b now).1.seg i).flags.inUse = true := by rw [h2]; rfl
  have hro : ((requestScratchSegment env b now).1.seg i).flags.readOnly = false := by
    rw [h2]; rfl
  obtain ⟨e1, e2⟩ := scratch_applyOps i ops hr1 h1 hu h6 h3 hro h5 hops
  have hW := reachable_wellFormed (reachable_applyOps ops hr1)
  obtain ⟨n1, n2, -⟩ := not_cached_of_writable hW (by rw [e1]; exact hu) (by rw [e1]; exact hro)
  refine ⟨h2, h3, h4, e1, ?_, n1, n2⟩
  unfold submitSegment
  rw [if_neg (by rw [e2]; omega), e1, h3]
  rfl

theorem scratch_segment_never_cached_witness :
    (requestScratchSegment sampleEnv samplePool 100).2 = .ok 0 ∧
    ((applyOps sampleEnv (requestScratchSegment sampleEnv samplePool 100).1
        sampleScratchOps).seg 0).flags = { SgfInUse with scratch := true } ∧
    submitSegment sampleEnv
      (applyOps sampleEnv (requestScratchSegment sampleEnv samplePool 100).1 sampleScratchOps)
      0 200 (WriteOutcome.returns true (some sampleLocation)) =
      (applyOps sampleEnv (requestScratchSegment sampleEnv samplePool 100).1 sampleScratchOps,
        .error Error.InvalidOperationException) ∧
    0 ∉ (applyOps sampleEnv (requestScratchSegment sampleEnv samplePool 100).1
      sampleScratchOps).standbyList :=
  ⟨by decide,
   (fun h => ⟨(congrArg Segment.flags h.2.2.2.1).trans h.1, h.2.2.2.2.1, h.2.2.2.2.2.1⟩)
     (scratch_segment_never_cached (Reachable.create 12345 1024 2 true (by decide)) 100 0
       (by decide) (by decide) sampleScratchOps (by simp [sampleScratchOps]) 200
       (WriteOutcome.returns true (some sampleLocation)))⟩

/-! ## Segments per key -/

/-- C21, for the cached segments only: in every reachable state no two segments
of the standby list have the same key (store of the stream, stream id and
sequence number) and the standby index has one entry per key. Held segments
are not limited: two `openSegment` calls for the same location with no free
between them that both return a segment return two different segments, and
after the second call both are in use, on neither list, and bound to the key
of the location. -/
theorem one_cached_segment_per_key {env : Env} {b : ServerStreamBuffer}
    (hr : Reachable env b) (s : ServerStream) (flags flags2 : StreamAccessFlags)
    (loc : StorageLocation) (prefetch prefetch2 : Bool) (now now2 : Nat)
    (rd rd2 : ReadOutcome) (i j : Nat) (c c2 : Bool)
    (hres : (openSegment env b s flags loc prefetch now rd).2 = .ok (i, c))
    (hi : i ≠ INVALID_SEGMENT_ID)
    (hres2 : (openSegment env (openSegment env b s flags loc prefetch now rd).1 s flags2 loc
      prefetch2 now2 rd2).2 = .ok (j, c2))
    (hj : j ≠ INVALID_SEGMENT_ID) :
    (∀ x y, x ∈ b.standbyList → y ∈ b.standbyList → b.standbyKey x = b.standbyKey y →
      x = y) ∧
    (b.standbyIndex.map Prod.fst).Nodup ∧
    i ≠ j ∧
    (((openSegment env (openSegment env b s flags loc prefetch now rd).1 s flags2 loc
      prefetch2 now2 rd2).1.seg i).flags.inUse = true ∧
     ((openSegment env (openSegment env b s flags loc prefetch now rd).1 s flags2 loc
      prefetch2 now2 rd2).1.seg j).flags.inUse = true) ∧
    ((openSegment env (openSegment env b s flags loc prefetch now rd).1 s flags2 loc
      prefetch2 now2 rd2).1.standbyKey i =
      { store := s.store, stream := s.id, sequenceNumber := loc.link.sequenceNumber } ∧
     (openSegment env (openSegment env b s flags loc prefetch now rd).1 s flags2 loc
      prefetch2 now2 rd2).1.standbyKey j =
      { store := s.store, stream := s.id, sequenceNumber := loc.link.sequenceNumber }) ∧
    (i ∉ (openSegment env (openSegment env b s flags loc prefetch now rd).1 s flags2 loc
      prefetch2 now2 rd2).1.standbyList ∧
     j ∉ (openSegment env (openSegment env b s flags loc prefetch now rd).1 s flags2 loc
      prefetch2 now2 rd2).1.standbyList) := by
  have hW := reachable_wellFormed hr
  have hr1 : Reachable env (openSegment env b s flags loc prefetch now rd).1 :=
    Reachable.openSegment _ _ _ _ _ _ _ hr
  have hr2 : Reachable env (openSegment env (openSegment env b s flags loc prefetch now rd).1
      s flags2 loc prefetch2 now2 rd2).1 := Reachable.openSegment _ _ _ _ _ _ _ hr1
  have hW1 := reachable_wellFormed hr1
  have hW2 := reachable_wellFormed hr2
  -- the first call
  obtain ⟨-, a2, a3, a4⟩ := (requestSegment_frame hW env (some s) loc.link.sequenceNumber flags
    (some loc) prefetch now rd).2 i c hres hi
  have k1 := openSegment_key hr s flags loc prefetch now rd
    (Prod.ext rfl hres : openSegment env b s flags loc prefetch now rd =
      ((openSegment env b s flags loc prefetch now rd).1, .ok (i, c))) hi
  have hheld := heldL_reachable hr1 a2 a3 a4
  -- the second call
  have e1 : (openSegment env (openSegment env b s flags loc prefetch now rd).1 s flags2 loc
      prefetch2 now2 rd2).1.seg i = (openSegment env b s flags loc prefetch now rd).1.seg i :=
    (requestSegment_frame hW1 env (some s) loc.link.sequenceNumber flags2 (some loc) prefetch2
      now2 rd2).1 i hheld.2.2.1 hheld.2.2.2
  obtain ⟨b1, -, b3, b4⟩ := (requestSegment_frame hW1 env (some s) loc.link.sequenceNumber
    flags2 (some loc) prefetch2 now2 rd2).2 j c2 hres2 hj
  have k2 := openSegment_key hr1 s flags2 loc prefetch2 now2 rd2
    (Prod.ext rfl hres2 : openSegment env (openSegment env b s flags loc prefetch now rd).1 s
      flags2 loc prefetch2 now2 rd2 =
      ((openSegment env (openSegment env b s flags loc prefetch now rd).1 s flags2 loc
        prefetch2 now2 rd2).1, .ok (j, c2))) hj
  have hne : i ≠ j := by
    intro e
    rcases b1 with hm | hm
    · exact hheld.2.2.1 (e ▸ hm)
    · exact hheld.2.2.2 (e ▸ hm)
  have hui : ((openSegment env (openSegment env b s flags loc prefetch now rd).1 s flags2 loc
      prefetch2 now2 rd2).1.seg i).flags.inUse = true := by rw [e1]; exact a3
  have hni : ((openSegment env (openSegment env b s flags loc prefetch now rd).1 s flags2 loc
      prefetch2 now2 rd2).1.seg i).next = none := by rw [e1]; exact a4
  refine ⟨fun x y hx hy hk => indexL_key_inj hW.standby.index hx hy hk,
    hW.standby.index.nodup, hne, ⟨hui, b3⟩, ⟨?_, k2⟩, (invL_held hW2 hui hni).2,
    (invL_held hW2 b3 b4).2⟩
  have : (openSegment env (openSegment env b s flags loc prefetch now rd).1 s flags2 loc
      prefetch2 now2 rd2).1.standbyKey i =
      (openSegment env b s flags loc prefetch now rd).1.standbyKey i := by
    unfold standbyKey
    rw [e1]
  exact this.trans k1

theorem one_cached_segment_per_key_witness :
    ((openSegment sampleEnv samplePool sampleStream SafNone sampleLocation false 100
      (ReadOutcome.returns true)).2 = .ok (0, true) ∧
     (openSegment sampleEnv
      (openSegment sampleEnv samplePool sampleStream SafNone sampleLocation false 100
        (ReadOutcome.returns true)).1
      sampleStream SafNone sampleLocation false 101 (ReadOutcome.returns true)).2 =
        .ok (1, true)) ∧
    (sampleOpenedTwice.standbyKey 0 = { store := 1, stream := 7, sequenceNumber := 0 } ∧
     sampleOpenedTwice.standbyKey 1 = { store := 1, stream := 7, sequenceNumber := 0 }) :=
  ⟨⟨by decide, by decide⟩,
   (one_cached_segment_per_key (Reachable.create 12345 1024 2 true (by decide)) sampleStream
      SafNone SafNone sampleLocation false false 100 101 (ReadOutcome.returns true)
      (ReadOutcome.returns true) 0 1 true true (by decide) (by decide) (by decide)
      (by decide)).2.2.2.2.1⟩

/-- C21 as stated fails: after two `openSegment` calls for `sampleLocation` on
the sample pool with no free between them, the reachable state has the two
segments 0 and 1 in use, on neither list, with the same stream and the same
sequence number (and the same key). -/
theorem two_held_segments_counterexample :
    Reachable sampleEnv sampleOpenedTwice ∧
    ((sampleOpenedTwice.seg 0).flags.inUse = true ∧
     (sampleOpenedTwice.seg 1).flags.inUse = true) ∧
    ((sampleOpenedTwice.seg 0).stream = some sampleStream ∧
     (sampleOpenedTwice.seg 1).stream = some sampleStream) ∧
    ((sampleOpenedTwice.seg 0).sequenceNumber = 0 ∧
     (sampleOpenedTwice.seg 1).sequenceNumber = 0) ∧
    sampleOpenedTwice.standbyKey 0 = sampleOpenedTwice.standbyKey 1 ∧
    sampleOpenedTwice.standbyList = [] ∧ sampleOpenedTwice.freeList = [] ∧
    ¬ (∀ b : ServerStreamBuffer, Reachable sampleEnv b → ∀ i j : Nat,
        i < b.getNumSegments → j < b.getNumSegments →
        (b.seg i).flags ≠ SgfFree → (b.seg j).flags ≠ SgfFree →
        (b.seg i).stream.isSome = true → (b.seg i).stream = (b.seg j).stream →
        (b.seg i).sequenceNumber = (b.seg j).sequenceNumber → i = j) := by
  have hr : Reachable sampleEnv sampleOpenedTwice :=
    Reachable.openSegment _ _ _ _ _ _ _
      (Reachable.openSegment _ _ _ _ _ _ _ (Reachable.create 12345 1024 2 true (by decide)))
  refine ⟨hr, by decide, by decide, by decide, by decide, by decide, by decide, ?_⟩
  intro h
  exact absurd (h sampleOpenedTwice hr 0 1 (by decide) (by decide) (by decide) (by decide)
    (by decide) (by decide) (by decide)) (by decide)

/-! ## The cookies of the read-only segments -/

theorem cookieOk_writable (env : Env) (pc : Nat) {s : Segment}
    (h : s.flags.readOnly = false) : s.cookieOk env pc := by
  intro h1
  rw [h] at h1
  exact Bool.noConfusion h1

theorem cookieOk_of_fields (env : Env) (pc : Nat) {s t : Segment} (hid : s.id = t.id)
    (hf : s.flags.readOnly = t.flags.readOnly) (hc : s.control = t.control)
    (h : t.cookieOk env pc) : s.cookieOk env pc := by
  intro h1
  rw [hid, hc]
  exact h (hf ▸ h1)

theorem cookieOk_of_unlinked (env : Env) (pc : Nat) {s t : Segment}
    (hu : s.unlinked = t.unlinked) (h : t.cookieOk env pc) : s.cookieOk env pc :=
  cookieOk_of_fields env pc (id_of_unlinked hu)
    (congrArg SegmentFlags.readOnly (flags_of_unlinked hu))
    (by have := congrArg Segment.control hu; exact this) h

/-- A step after which every descriptor has the id, the `ReadOnly` bit and the
private control element of before, or is writable. -/
theorem cookiesOk_step (env : Env) {b b1 : ServerStreamBuffer} (hc : b1.cookie = b.cookie)
    (hs : ∀ j, ((b1.seg j).id = (b.seg j).id ∧
        (b1.seg j).flags.readOnly = (b.seg j).flags.readOnly ∧
        (b1.seg j).control = (b.seg j).control) ∨ (b1.seg j).flags.readOnly = false)
    (h : b.CookiesOk env) : b1.CookiesOk env := by
  intro j
  rw [hc]
  rcases hs j with ⟨h1, h2, h3⟩ | h1
  · exact cookieOk_of_fields env _ h1 h2 h3 (h j)
  · exact cookieOk_writable env _ h1

theorem cookiesOk_unlinked (env : Env) {b b1 : ServerStreamBuffer} (hc : b1.cookie = b.cookie)
    (hs : ∀ j, (b1.seg j).unlinked = (b.seg j).unlinked ∨ (b1.seg j).flags.readOnly = false)
    (h : b.CookiesOk env) : b1.CookiesOk env := by
  intro j
  rw [hc]
  rcases hs j with h1 | h1
  · exact cookieOk_of_unlinked env _ h1 (h j)
  · exact cookieOk_writable env _ h1

theorem cookiesOk_seg (env : Env) {b b1 : ServerStreamBuffer} (hc : b1.cookie = b.cookie)
    (hs : ∀ j, b1.seg j = b.seg j) (h : b.CookiesOk env) : b1.CookiesOk env :=
  cookiesOk_unlinked env hc (fun j => Or.inl (by rw [hs j])) h

theorem cookiesOk_setSeg (env : Env) {b : ServerStreamBuffer} (h : b.CookiesOk env) (i : Nat)
    (s : Segment) (hs : s.cookieOk env b.cookie) : (b.setSeg i s).CookiesOk env := by
  intro j
  rw [seg_setSeg, cookie_setSeg]
  split_ifs
  · exact hs
  · exact h j

theorem cookiesOk_call (env : Env) {b : ServerStreamBuffer} (h : b.CookiesOk env) (k : Call) :
    (b.call k).CookiesOk env := h

theorem cookiesOk_setShared (env : Env) {b : ServerStreamBuffer} (h : b.CookiesOk env)
    (i : Nat) (c : SegmentControlElement) : (b.setShared i c).CookiesOk env := h

theorem cookiesOk_create (env : Env) (cookie segmentSize numSegments : Nat)
    (enableCache : Bool) : (create cookie segmentSize numSegments enableCache).CookiesOk env := by
  intro j
  apply cookieOk_writable
  by_cases hj : j < numSegments
  · rw [seg_create _ _ _ _ _ hj]
    rfl
  · have e : (create cookie segmentSize numSegments enableCache).seg j = default := by
      simp only [create, seg, List.getD_eq_getElem?_getD]
      rw [List.getElem?_eq_none (by simpa using hj)]
      rfl
    rw [e]
    rfl

theorem purgeSegment_cookie (b : ServerStreamBuffer) (i : Nat) :
    (b._purgeSegment i).cookie = b.cookie := by
  rw [purgeSegment_eq]
  unfold _enqueueToFreeList
  rfl

theorem cookiesOk_purge (env : Env) {b : ServerStreamBuffer} (h : b.CookiesOk env) (i : Nat) :
    (b._purgeSegment i).CookiesOk env := by
  apply cookiesOk_step env (purgeSegment_cookie b i) _ h
  intro j
  by_cases hj : j = i
  · by_cases hi : i < b.getNumSegments
    · right
      rw [hj, purgeSegment_eq]
      unfold _enqueueToFreeList
      rw [seg_setFreeHead, seg_setSeg_self _ _ _ (show i < (b.callAll (b.purgeCalls i)).getNumSegments from hi)]
      rfl
    · left
      rw [hj, purgeSegment_eq]
      unfold _enqueueToFreeList
      rw [seg_setFreeHead, seg_setSeg]
      rw [if_neg (fun hh => hi hh.2)]
      exact ⟨rfl, rfl, rfl⟩
  · left
    rw [seg_purgeSegment_ne b i j hj]
    exact ⟨rfl, rfl, rfl⟩

theorem cookiesOk_tryAllocateLoop {b : ServerStreamBuffer} {lf ls : List Nat}
    (h : b.InvL lf ls) (env : Env) (stream : Option ServerStream) (sequenceNumber : Nat)
    (prefetch : Bool) (now fuel tryCount : Nat) (hc : b.CookiesOk env) :
    (tryAllocateLoop env stream sequenceNumber prefetch now fuel tryCount b).1.CookiesOk env := by
  obtain ⟨e1, -, e3, e4⟩ := tryAllocateLoop_effect env stream sequenceNumber prefetch now
    fuel tryCount b lf ls h
  apply cookiesOk_unlinked env e1 _ hc
  intro j
  cases hres : (tryAllocateLoop env stream sequenceNumber prefetch now fuel tryCount b).2 with
  | none => left; rw [e3 hres j]
  | some k =>
    obtain ⟨-, k2, -, -, -, k6, -⟩ := e4 k hres
    by_cases hj : j = k
    · right; rw [hj, k2]; rfl
    · left; exact k6 j hj

theorem cookiesOk_requestFresh (env : Env) {b : ServerStreamBuffer} (hc : b.CookiesOk env)
    (i : Nat) (stream : Option ServerStream) : (b.requestFresh i stream).1.CookiesOk env := by
  unfold requestFresh
  cases stream with
  | none =>
    apply cookiesOk_setSeg env hc
    exact cookieOk_of_fields env _ rfl rfl rfl (hc i)
  | some s =>
    simp only
    split_ifs
    · apply cookiesOk_setSeg env hc
      exact cookieOk_of_fields env _ rfl rfl rfl (hc i)
    · exact hc

theorem markLoaded_cookie (b : ServerStreamBuffer) (i : Nat) (flags : StreamAccessFlags) :
    (b.markLoaded i flags).cookie = b.cookie := by
  unfold markLoaded
  simp only
  split_ifs <;> rfl

/-- The control element written for a loaded segment carries the cookie of the
segment as it is then, whatever it was before. -/
theorem cookiesOk_loadControl (env : Env) (b : ServerStreamBuffer) (i : Nat)
    (loc : StorageLocation) (hi : i < b.getNumSegments)
    (hc : ∀ j, j ≠ i → (b.seg j).cookieOk env b.cookie) :
    (b.loadControl env i loc).CookiesOk env := by
  intro j
  by_cases hj : j = i
  · rw [hj]
    unfold loadControl
    simp only
    rw [seg_setSeg_self _ _ _ (by simpa using hi)]
    intro hro
    have hro1 : (b.seg i).flags.readOnly = true := hro
    show b._computeControlCookie env _ (b.seg i) = _
    rw [computeControlCookie_eq, hro1]
    rfl
  · rw [loadControl_ne env b i loc j hj]
    exact hc j hj

theorem cookiesOk_requestLoad {b : ServerStreamBuffer} {lf ls : List Nat} {i : Nat}
    (h : b.HeldL lf ls i) (env : Env) (hc : b.CookiesOk env) (stream : Option ServerStream)
    (flags : StreamAccessFlags) (loc : StorageLocation) (prefetch : Bool) (rd : ReadOutcome) :
    (b.requestLoad env i stream flags loc prefetch rd).1.CookiesOk env := by
  have hm := heldL_markLoaded h flags
  have h0 : ((b.markLoaded i flags).loadControl env i loc).CookiesOk env := by
    apply cookiesOk_loadControl env _ i loc hm.2.1
    intro j hj
    rw [markLoaded_ne b i flags j hj, markLoaded_cookie]
    exact hc j
  unfold requestLoad
  cases rd with
  | returns completed => exact h0
  | throws code => exact cookiesOk_purge env (cookiesOk_call env h0 _) _

theorem dequeueFromStandbyList_cookiesOk (env : Env) {b : ServerStreamBuffer}
    (hc : b.CookiesOk env) (i : Nat) : (b._dequeueFromStandbyList i).CookiesOk env := by
  apply cookiesOk_step env (dequeueFromStandbyList_frame b i).1 _ hc
  intro j
  have hf := dequeueFromStandbyList_fields b i j
  exact Or.inl ⟨hf.2.2.2.2, congrArg SegmentFlags.readOnly hf.1, hf.2.1⟩

/-- `_requestSegment` keeps the cookies of the read-only segments valid. -/
theorem cookiesOk_requestSegment {b : ServerStreamBuffer} {lf ls : List Nat}
    (h : b.InvL lf ls) (env : Env) (hc : b.CookiesOk env) (stream : Option ServerStream)
    (sequenceNumber : Nat) (flags : StreamAccessFlags) (location : Option StorageLocation)
    (prefetch : Bool) (now : Nat) (rd : ReadOutcome) :
    (b._requestSegment env stream sequenceNumber flags location prefetch now rd).1.CookiesOk
      env := by
  unfold _requestSegment
  have hmiss : ∀ r : Result (Nat × Bool),
      r = (match b._tryAllocateFreeSegment env stream sequenceNumber prefetch now with
          | (b, none) => ((b, .ok (INVALID_SEGMENT_ID, true)) : Result (Nat × Bool))
          | (b, some i) =>
            match location with
            | some loc => b.requestLoad env i stream flags loc prefetch rd
            | none => b.requestFresh i stream) →
      r.1.CookiesOk env := by
    intro r hr
    rw [hr]
    obtain ⟨-, -, h3⟩ := invL_tryAllocateLoop env stream sequenceNumber prefetch now
      env.retryCount 1 b _ _ h
    have h4 := cookiesOk_tryAllocateLoop h env stream sequenceNumber prefetch now
      env.retryCount 1 hc
    unfold _tryAllocateFreeSegment
    rcases ha : tryAllocateLoop env stream sequenceNumber prefetch now env.retryCount 1 b
      with ⟨b2, _ | i⟩
    · rw [ha] at h4
      exact h4
    · rw [ha] at h3 h4
      have hh := h3 i rfl
      cases location with
      | none => exact cookiesOk_requestFresh env h4 i stream
      | some loc => exact cookiesOk_requestLoad hh env h4 stream flags loc prefetch rd
  cases stream with
  | none =>
    simp only [lookupStandby]
    exact hmiss _ rfl
  | some s =>
    simp only [lookupStandby]
    cases hf : indexFind b.standbyIndex
        { store := s.store, stream := s.id, sequenceNumber := sequenceNumber } with
    | none =>
      rw [removeStandbySegment_none hf]
      exact hmiss _ rfl
    | some i =>
      obtain ⟨-, -, e, -⟩ := standbyL_remove h.standby hf
      rw [e]
      exact dequeueFromStandbyList_cookiesOk env
        (show (b.setStandbyIndex (indexErase b.standbyIndex
          { store := s.store, stream := s.id, sequenceNumber := sequenceNumber })).CookiesOk env
          from hc) i

theorem cookiesOk_addStandby (env : Env) {b : ServerStreamBuffer} (hc : b.CookiesOk env)
    (i : Nat) (hi : i < b.getNumSegments) : (b._addStandbySegment i).CookiesOk env := by
  cases hf : indexFind b.standbyIndex (b.standbyKey i) with
  | none =>
    rw [addStandbySegment_new hf]
    apply cookiesOk_step env (enqueueToStandbyList_rest _ i).2.2.2.2.1 _
      (show (b.setStandbyIndex (indexSet b.standbyIndex (b.standbyKey i) i)).CookiesOk env
        from hc)
    intro j
    left
    by_cases hj : j = i
    · rw [hj]
      have hs := unlinked_enqueueToStandbyList_self
        (b.setStandbyIndex (indexSet b.standbyIndex (b.standbyKey i) i)) i hi
      have h1 := congrArg Segment.id hs
      have h2 := congrArg (fun s : Segment => s.flags.readOnly) hs
      have h3 := congrArg Segment.control hs
      refine ⟨h1, ?_, h3⟩
      refine Eq.trans h2 ?_
      show (if _ then _ else _ : SegmentFlags).readOnly = _
      split_ifs <;> rfl
    · have hs := unlinked_enqueueToStandbyList
        (b.setStandbyIndex (indexSet b.standbyIndex (b.standbyKey i) i)) i j hj
      have h3 := congrArg Segment.control hs
      exact ⟨id_of_unlinked hs, congrArg SegmentFlags.readOnly (flags_of_unlinked hs), h3⟩
  | some k =>
    rw [addStandbySegment_duplicate hf]
    exact cookiesOk_purge env hc _

theorem cacheState_cookie (env : Env) (b : ServerStreamBuffer) (i : Nat) (prefetch : Bool) :
    (b.cacheState env i prefetch).cookie = b.cookie := by
  unfold cacheState
  simp only
  split_ifs <;> rfl

/-- `_freeSegment` keeps the cookies of the read-only segments valid: a
writable segment that is cached gets its read-only cookie. -/
theorem cookiesOk_freeSegment (env : Env) {b : ServerStreamBuffer} (hc : b.CookiesOk env)
    (i : Nat) (hi : i < b.getNumSegments) (prefetch : Bool) :
    (b._freeSegment env i prefetch).CookiesOk env := by
  rw [freeSegment_eq env b i prefetch hi]
  split_ifs
  · apply cookiesOk_addStandby env _ i (by rw [(cacheState_rest env b i prefetch).1]; exact hi)
    intro j
    rw [cacheState_cookie]
    by_cases hj : j = i
    · rw [hj, seg_cacheState env b i prefetch hi]
      intro _
      cases hro : (b.seg i).flags.readOnly with
      | false => simp only [Bool.false_eq_true, if_false]; rfl
      | true => simp only [if_true]; exact hc i hro
    · rw [seg_cacheState_ne env b i prefetch j hj]
      exact hc j
  · apply cookiesOk_purge
    apply cookiesOk_setSeg env hc
    exact cookieOk_of_fields env _ rfl rfl rfl (hc i)

/-- An assignment to a descriptor that keeps its `ReadOnly` bit clear. -/
theorem writableOk_setSeg (env : Env) {b : ServerStreamBuffer} {i : Nat}
    (h : b.WritableOk env i) (s : Segment)
    (hf : s.flags.readOnly = (b.seg i).flags.readOnly) : (b.setSeg i s).WritableOk env i := by
  refine ⟨cookiesOk_setSeg env h.1 i s (cookieOk_writable env _ (hf.trans h.2)), ?_⟩
  rw [seg_setSeg]
  split_ifs
  · exact hf.trans h.2
  · exact h.2

theorem cookiesOk_submitCopyControl (env : Env) {b : ServerStreamBuffer}
    (hc : b.CookiesOk env) (i : Nat) : (b.submitCopyControl i).CookiesOk env := by
  unfold submitCopyControl
  split_ifs with hw
  · have hw1 : (b.seg i).flags.readOnly = false := by simpa using hw
    simp only
    refine (?_ : WritableOk env i _).1
    apply writableOk_setSeg env _ _ (by rfl)
    apply writableOk_setSeg env _ _ (by rfl)
    exact ⟨hc, hw1⟩
  · exact hc

theorem writableOk_submitFixEntryCount (env : Env) {b : ServerStreamBuffer} {i : Nat}
    (h : b.WritableOk env i) : (b.submitFixEntryCount i).WritableOk env i := by
  unfold submitFixEntryCount
  split_ifs
  · apply writableOk_setSeg env _ _ (by rfl)
    exact h
  · exact h

theorem writableOk_submitStampRanges (env : Env) {b : ServerStreamBuffer} {i : Nat}
    (h : b.WritableOk env i) (now : Nat) : (b.submitStampRanges i now).WritableOk env i := by
  unfold submitStampRanges
  simp only
  repeat (first
    | apply writableOk_setSeg env _ _ (by rfl)
    | split_ifs
    | exact h)

theorem cookiesOk_submitCatch (env : Env) {b : ServerStreamBuffer} (hc : b.CookiesOk env)
    (i : Nat) : (b.submitCatch i).CookiesOk env := by
  unfold submitCatch
  apply cookiesOk_setSeg env hc
  exact cookieOk_of_fields env _ rfl rfl rfl (hc i)

theorem cookiesOk_submitEncode {b : ServerStreamBuffer} {lf ls : List Nat} {i : Nat}
    (hh : b.HeldL lf ls i) (env : Env)
    (h : b.WritableOk env i) (wr : WriteOutcome) :
    (withSubmitCatch i (b.submitEncode env i wr)).1.CookiesOk env := by
  unfold submitEncode
  simp only
  have h1 : (b.setSeg i { b.seg i with
    control := { (b.seg i).control with
      cookie := b._computeControlCookie env (b.seg i).control (b.seg i) } }).WritableOk env i :=
    writableOk_setSeg env h _ rfl
  have hh1 : (b.setSeg i { b.seg i with
    control := { (b.seg i).control with
      cookie := b._computeControlCookie env (b.seg i).control (b.seg i) } }).HeldL lf ls i :=
    heldL_setSeg hh _ rfl rfl rfl rfl
  generalize b.setSeg i { b.seg i with
    control := { (b.seg i).control with
      cookie := b._computeControlCookie env (b.seg i).control (b.seg i) } } = b1 at h1 hh1 ⊢
  have h2 : (b1.call (Call.write (streamId (b1.seg i).stream) i)).CookiesOk env := h1.1
  have hi2 : i < (b1.call (Call.write (streamId (b1.seg i).stream) i)).getNumSegments :=
    hh1.2.1
  generalize b1.call (Call.write (streamId (b1.seg i).stream) i) = b2 at h2 hi2 ⊢
  cases wr with
  | throws code => exact cookiesOk_submitCatch env h2 i
  | returns completed location =>
    cases completed with
    | false => exact h2
    | true =>
      cases location with
      | none => exact cookiesOk_purge env h2 i
      | some loc => exact cookiesOk_freeSegment env h2 i hi2 false

theorem cookiesOk_submitTry {b : ServerStreamBuffer} {lf ls : List Nat} {i : Nat}
    (hh : b.HeldL lf ls i) (env : Env)
    (h : b.WritableOk env i) (now : Nat) (wr : WriteOutcome) :
    (withSubmitCatch i (b.submitTry env i now wr)).1.CookiesOk env := by
  unfold submitTry
  simp only
  have h1 := writableOk_submitFixEntryCount env h
  have hh1 := heldL_submitFixEntryCount hh
  have h2 := writableOk_submitStampRanges env h1 now
  have hh2 := heldL_submitStampRanges hh1 now
  split_ifs
  · exact cookiesOk_submitCatch env h1.1 i
  · exact cookiesOk_submitCatch env h2.1 i
  · exact cookiesOk_submitEncode hh2 env h2 wr

/-- `_submitSegment` keeps the cookies of the read-only segments valid. -/
theorem cookiesOk_submitSegment {b : ServerStreamBuffer} {lf ls : List Nat} {i : Nat}
    (hh : b.HeldL lf ls i) (env : Env) (hc : b.CookiesOk env) (now : Nat) (wr : WriteOutcome) :
    (b._submitSegment env i now wr).1.CookiesOk env := by
  unfold _submitSegment
  simp only
  have h1 := cookiesOk_submitCopyControl env hc i
  have hh1 := heldL_submitCopyControl hh
  generalize b.submitCopyControl i = b1 at h1 hh1 ⊢
  have h2 : (b1.setSeg i { b1.seg i with isSubmitted := true }).CookiesOk env := by
    apply cookiesOk_setSeg env h1
    exact cookieOk_of_fields env _ rfl rfl rfl (h1 i)
  have hh2 : (b1.setSeg i { b1.seg i with isSubmitted := true }).HeldL lf ls i :=
    heldL_setSeg hh1 _ rfl rfl rfl rfl
  generalize b1.setSeg i { b1.seg i with isSubmitted := true } = b2 at h2 hh2 ⊢
  by_cases hcookie : (!b1._testControlCookie env
      (if (!(b.seg i).flags.readOnly) = true then (b1.seg i).control else b1.sharedControl i)
      (b1.seg i)) = true
  · rw [if_pos hcookie]
    exact h1
  · rw [if_neg hcookie]
    by_cases hro : (b2.seg i).flags.readOnly = true
    · rw [if_pos hro]
      exact cookiesOk_freeSegment env h2 i hh2.2.1 false
    · rw [if_neg hro]
      have hro1 : (b2.seg i).flags.readOnly = false := by simpa using hro
      by_cases hraw : (b2.seg i).control.rawEntryCount = 0
      · rw [if_pos hraw]
        exact cookiesOk_purge env (cookiesOk_call env h2 _) i
      · rw [if_neg hraw]
        exact cookiesOk_submitTry hh2 env ⟨h2, hro1⟩ now wr

theorem cookiesOk_flushOne (env : Env) {b : ServerStreamBuffer} (hc : b.CookiesOk env)
    (x : Nat) : (b.flushOne x).CookiesOk env := by
  unfold flushOne
  simp only
  apply cookiesOk_purge
  apply dequeueFromStandbyList_cookiesOk
  unfold _findStandbySegment
  split
  · exact hc
  · split <;> exact hc

theorem cookiesOk_flushLoop (env : Env) (store last : Nat) :
    ∀ (fuel seg : Nat) (b : ServerStreamBuffer), b.CookiesOk env →
      (flushLoop store last fuel seg b).CookiesOk env := by
  intro fuel
  induction fuel with
  | zero => intro seg b hc; exact hc
  | succ fuel ih =>
    intro seg b hc
    rw [flushLoop_succ]
    have hv : (if flushes store (storeId (b.seg seg).stream) = true then b.flushOne seg
        else b).CookiesOk env := by
      split_ifs
      · exact cookiesOk_flushOne env hc seg
      · exact hc
    generalize (if flushes store (storeId (b.seg seg).stream) = true then b.flushOne seg
        else b) = b1 at hv ⊢
    by_cases hl : seg = last
    · rw [if_pos hl]; exact hv
    · rw [if_neg hl]
      cases (b.seg seg).next with
      | none => exact hv
      | some n => exact ih n b1 hv

theorem cookiesOk_flushStandbyList (env : Env) {b : ServerStreamBuffer}
    (hc : b.CookiesOk env) (store : Nat) : (b.flushStandbyList store).CookiesOk env := by
  unfold flushStandbyList
  split
  · exact hc
  · split
    · exact hc
    · exact cookiesOk_flushLoop env _ _ _ _ _ hc

/-- In every reachable state every read-only segment has a valid cookie in its
private control element. -/
theorem reachable_cookiesOk {env : Env} {b : ServerStreamBuffer} (hr : Reachable env b) :
    b.CookiesOk env := by
  induction hr with
  | create cookie segmentSize numSegments enableCache hpos =>
    exact cookiesOk_create env _ _ _ _
  | requestSegment b stream sequenceNumber now hr ih =>
    rcases requestSegment_state env b stream sequenceNumber now with e | e
    · rw [e]; exact ih
    · rw [e]; exact cookiesOk_requestSegment (reachable_wellFormed hr) env ih _ _ _ _ _ _ _
  | requestScratchSegment b now hr ih =>
    rw [requestScratchSegment_state]
    exact cookiesOk_requestSegment (reachable_wellFormed hr) env ih _ _ _ _ _ _ _
  | openSegment b stream flags location prefetch now rd hr ih =>
    exact cookiesOk_requestSegment (reachable_wellFormed hr) env ih _ _ _ _ _ _ _
  | submitSegment b segment now wr hr ih =>
    rcases submitSegment_state env b segment now wr with e | e | ⟨h1, -, h3, h4, -, e⟩
    · rw [e]; exact ih
    · rw [e]; exact ih
    · rw [e]; exact cookiesOk_submitSegment (heldL_reachable hr h1 h3 h4) env ih now wr
  | freeSegment b segment prefetch hr ih =>
    rcases freeSegment_state env b segment prefetch with e | e | ⟨h1, -, -, -, e⟩
    · rw [e]; exact ih
    · rw [e]; exact ih
    · rw [e]; exact cookiesOk_freeSegment env ih segment h1 prefetch
  | purgeSegment b segment hr ih =>
    rcases purgeSegment_state b segment with e | e | ⟨-, -, -, e⟩
    · rw [e]; exact ih
    · rw [e]; exact ih
    · rw [e]; exact cookiesOk_purge env ih segment
  | flushStandbyList b store hr ih => exact cookiesOk_flushStandbyList env ih store
  | clientWriteControl b i c hr ih => exact ih
  | clientWritePayload b i bytes hr ih => exact ih

theorem testControlCookie_of_cookieOk (env : Env) (b : ServerStreamBuffer) {s : Segment}
    (h : s.cookieOk env b.cookie) (hro : s.flags.readOnly = true) :
    b._testControlCookie env s.control s = true := by
  unfold _testControlCookie
  rw [computeControlCookie_eq, hro, beq_iff_eq]
  exact h hro

theorem cookiesOk_foldl_flushVisit (env : Env) (store : Nat) :
    ∀ (l : List Nat) (b : ServerStreamBuffer), b.CookiesOk env →
      (l.foldl (flushVisit store) b).CookiesOk env := by
  intro l
  induction l with
  | nil => intro b hc; exact hc
  | cons y l ih =>
    intro b hc
    rw [List.foldl_cons]
    apply ih
    by_cases hfl : flushes store (storeId (b.seg y).stream) = true
    · have e : flushVisit store b y = b.flushOne y := by
        unfold flushVisit
        rw [if_pos hfl]
      rw [e]
      exact cookiesOk_flushOne env hc y
    · have e : flushVisit store b y = b := by
        unfold flushVisit
        rw [if_neg hfl]
      rw [e]
      exact hc

/-- The pass of `flushStandbyList` over the segments in front of `x` leaves
the descriptor of `x` alone, but for its links. -/
theorem flushVisit_prefix (store x : Nat) (l2 : List Nat) :
    ∀ (l1 : List Nat) (b : ServerStreamBuffer) (lf kept : List Nat),
      b.InvL lf (kept ++ l1 ++ x :: l2) →
      ((l1.foldl (flushVisit store) b).seg x).unlinked = (b.seg x).unlinked := by
  intro l1
  induction l1 with
  | nil => intro b lf kept _; rfl
  | cons y l1 ih =>
    intro b lf kept h
    rw [List.foldl_cons]
    have hnd := h.standby.list.nodup
    have hsplit : kept ++ (y :: l1) ++ x :: l2 = kept ++ y :: (l1 ++ x :: l2) := by simp
    rw [hsplit] at hnd
    have hyk : y ∉ kept := by
      rw [List.nodup_append] at hnd
      exact fun hc => hnd.2.2 hc (List.mem_cons_self _ _)
    have hyx : x ≠ y := by
      rw [List.nodup_append] at hnd
      have := (List.nodup_cons.mp hnd.2.1).1
      intro e
      exact this (by rw [← e]; simp)
    by_cases hfl : flushes store (storeId (b.seg y).stream) = true
    · have e : flushVisit store b y = b.flushOne y := by
        unfold flushVisit
        rw [if_pos hfl]
      rw [e]
      have hy : y ∈ kept ++ (y :: l1) ++ x :: l2 := by simp
      obtain ⟨h1, h2⟩ := invL_flushOne h hy
      have he : (kept ++ (y :: l1) ++ x :: l2).erase y = kept ++ l1 ++ x :: l2 := by
        rw [hsplit, List.erase_append_right _ hyk, List.erase_cons_head]
        simp
      rw [he] at h1
      rw [ih (b.flushOne y) (y :: lf) kept h1]
      exact h2 x hyx
    · have e : flushVisit store b y = b := by
        unfold flushVisit
        rw [if_neg hfl]
      rw [e]
      have h1 : b.InvL lf ((kept ++ [y]) ++ l1 ++ x :: l2) := by
        have e : (kept ++ [y]) ++ l1 ++ x :: l2 = kept ++ (y :: l1) ++ x :: l2 := by simp
        rw [e]
        exact h
      exact ih b lf (kept ++ [y]) h1

/-- C27: in every reachable state every segment of the standby list, and
every other read-only segment, passes the cookie test on its private control
element: `_computeControlCookie(seg.control, seg) == seg.control.cookie`. So
does every segment `_dequeueFromStandbyList` removes: the segment a lookup of
the index finds (a hit), the segment an eviction returns, and every segment of
the list in the state in which the pass of `flushStandbyList` reaches it, the
pass being the visit of the segments of the list in their order. -/
theorem standby_cookies_valid {env : Env} {b : ServerStreamBuffer} (hr : Reachable env b) :
    (∀ i, i ∈ b.standbyList → b._testControlCookie env (b.seg i).control (b.seg i) = true) ∧
    (∀ i, (b.seg i).flags.readOnly = true →
      b._testControlCookie env (b.seg i).control (b.seg i) = true) ∧
    (∀ key i, indexFind b.standbyIndex key = some i →
      b._testControlCookie env (b.seg i).control (b.seg i) = true) ∧
    (∀ i, b._evictFromStandbyList.2 = some i →
      b._testControlCookie env (b.seg i).control (b.seg i) = true) ∧
    (∀ store, b.flushStandbyList store = b.standbyList.foldl (flushVisit store) b) ∧
    (∀ store l1 x l2, b.standbyList = l1 ++ x :: l2 →
      (l1.foldl (flushVisit store) b)._testControlCookie env
        ((l1.foldl (flushVisit store) b).seg x).control
        ((l1.foldl (flushVisit store) b).seg x) = true) := by
  have hW := reachable_wellFormed hr
  have hc := reachable_cookiesOk hr
  have hmem : ∀ i, i ∈ b.standbyList →
      b._testControlCookie env (b.seg i).control (b.seg i) = true :=
    fun i hi => testControlCookie_of_cookieOk env b (hc i) (hW.standbyFlags i hi).2.1
  refine ⟨hmem, fun i hro => testControlCookie_of_cookieOk env b (hc i) hro, ?_, ?_,
    fun store => (flushStandbyList_fold hW store).1, ?_⟩
  · intro key i hf
    exact hmem i (standbyL_remove hW.standby hf).1
  · intro i he
    by_cases hne : b.standbyList = []
    · have hh : b.standbyHead = none := by
        have := hW.standby.list.head
        rw [hne] at this
        exact this
      rw [evictFromStandbyList_empty b hh] at he
      exact Option.noConfusion he
    · rw [evictFromStandbyList_eq hW.standby hne] at he
      have e : b.standbyList.getLast hne = i := Option.some.inj he
      rw [← e]
      exact hmem _ (List.getLast_mem hne)
  · intro store l1 x l2 hl
    have h1 : b.InvL b.freeList ([] ++ l1 ++ x :: l2) := by
      rw [List.nil_append, ← hl]
      exact hW
    have hu := flushVisit_prefix store x l2 l1 b b.freeList [] h1
    have hc1 := cookiesOk_foldl_flushVisit env store l1 b hc
    have hro : ((l1.foldl (flushVisit store) b).seg x).flags.readOnly = true := by
      rw [congrArg SegmentFlags.readOnly (flags_of_unlinked hu)]
      exact (hW.standbyFlags x (by rw [hl]; simp)).2.1
    exact testControlCookie_of_cookieOk env _ (hc1 x) hro

theorem standby_cookies_valid_witness :
    (sampleCached.standbyList = [0] ∧
      sampleCached._testControlCookie sampleEnv (sampleCached.seg 0).control
        (sampleCached.seg 0) = true) ∧
    ((freeSegment sampleEnv sampleRandomHeld 0 true).1.standbyList = [0] ∧
      ((freeSegment sampleEnv sampleRandomHeld 0 true).1.seg 0).flags.prefetch = true ∧
      (freeSegment sampleEnv sampleRandomHeld 0 true).1._testControlCookie sampleEnv
        ((freeSegment sampleEnv sampleRandomHeld 0 true).1.seg 0).control
        ((freeSegment sampleEnv sampleRandomHeld 0 true).1.seg 0) = true) :=
  ⟨⟨by decide, (standby_cookies_valid sampleCached_reachable).1 0 (by decide)⟩,
   by decide, by decide,
   (standby_cookies_valid
      (Reachable.freeSegment _ 0 true sampleRandomHeld_reachable)).1 0 (by decide)⟩

/-! ## The sleep between two allocation attempts -/

/-- C39: on POSIX `ThreadBase::sleep(ms)` calls `usleep` with `(ms * 1000) mod
2^32` microseconds. This is `ms` milliseconds exactly when `ms <= 4294967`, and
less than `ms` milliseconds for every larger `ms`; so is the sleep
`_handleContention` asks for with `ms = retrySleep`. -/
theorem sleep_microseconds (ms : Nat) :
    ThreadBase.sleep false ms = SleepRequest.usleep ((ms * 1000) % 4294967296) ∧
    (ms ≤ 4294967 → (ThreadBase.sleep false ms).microseconds = ms * 1000) ∧
    (4294967 < ms → (ThreadBase.sleep false ms).microseconds < ms * 1000) ∧
    ((ThreadBase.sleep false ms).microseconds = ms * 1000 ↔ ms ≤ 4294967) ∧
    (∀ (env : Env) (b : ServerStreamBuffer) (tryCount : Nat),
      env.retrySleep = ms → tryCount < env.retryCount →
      (b._handleContention env tryCount).1.calls = b.calls ++ [Call.sleep ms]) := by
  have e : (ThreadBase.sleep false ms).microseconds = (ms * 1000) % 4294967296 := rfl
  refine ⟨rfl, ?_, ?_, ?_, ?_⟩
  · intro h
    rw [e]
    omega
  · intro h
    rw [e]
    omega
  · rw [e]
    omega
  · intro env b tryCount hs ht
    unfold _handleContention
    rw [if_neg (by omega), ← hs]
    rfl

theorem sleep_microseconds_witness :
    (ThreadBase.sleep false 4294967).microseconds = 4294967000 ∧
    (ThreadBase.sleep false 4294968).microseconds = 704 ∧
    (sampleHeld._handleContention sampleEnv 1).1.calls = sampleHeld.calls ++ [Call.sleep 10] :=
  ⟨(sleep_microseconds 4294967).2.1 (by decide), by decide,
   (sleep_microseconds 10).2.2.2.2 sampleEnv sampleHeld 1 (by decide) (by decide)⟩

/-! ## The cookie of a writable segment can be adjusted -/

theorem xor_retime (x s t : Nat) : x ^^^ s ^^^ s ^^^ t = x ^^^ t := by
  rw [Nat.xor_assoc x s s, Nat.xor_self, Nat.xor_zero]

/-- C35: for a writable segment, a control element that passes the cookie test
still passes it after `startTime` is set to any `t` and the cookie to
`cookie XOR startTime XOR t`, a value computed without the pool cookie. Hence
for a held writable segment whose shared control element would pass the test
of `submitSegment`, the call on the element the client has changed in this way
does not throw the invalid-cookie `Exception`. -/
theorem cookie_malleable (env : Env) (b : ServerStreamBuffer) (t : Nat) :
    (∀ (c : SegmentControlElement) (s : Segment), s.flags.readOnly = false →
      b._testControlCookie env c s = true →
      b._testControlCookie env
        { c with startTime := t, cookie := c.cookie ^^^ c.startTime ^^^ t } s = true) ∧
    (∀ (segment now : Nat) (wr : WriteOutcome) (st : ServerStream),
      segment < b.getNumSegments → segment < b.shared.length →
      (b.seg segment).stream = some st → (b.seg segment).flags.inUse = true →
      (b.seg segment).next = none → (b.seg segment).isSubmitted = false →
      (b.seg segment).flags.readOnly = false →
      (b.sharedControl segment).cookie =
        b._computeControlCookie env (b.copiedControl segment) (b.seg segment) →
      (submitSegment env
        (b.clientWriteControl segment
          { b.sharedControl segment with
            startTime := t,
            cookie := (b.sharedControl segment).cookie ^^^
              (b.sharedControl segment).startTime ^^^ t })
        segment now wr).2 ≠ .error (Error.Exception Corruption.invalidCookie)) := by
  have key : ∀ (c : SegmentControlElement) (s : Segment), s.flags.readOnly = false →
      c.cookie = b._computeControlCookie env c s →
      c.cookie ^^^ c.startTime ^^^ t =
        b._computeControlCookie env
          { c with startTime := t, cookie := c.cookie ^^^ c.startTime ^^^ t } s := by
    intro c s hw hc
    have e : ∀ c1 : SegmentControlElement, b._computeControlCookie env c1 s =
        b.cookie ^^^ ((s.id <<< 32) ||| s.id) ^^^ (c1.link.stream <<< 32) ^^^
          c1.link.sequenceNumber ^^^ c1.startTime := by
      intro c1
      unfold _computeControlCookie
      simp only [hw, Bool.false_eq_true, if_false]
    rw [e] at hc
    rw [e]
    conv_lhs => rw [hc]
    exact xor_retime _ _ _
  refine ⟨?_, ?_⟩
  · intro c s hw hc
    unfold _testControlCookie at hc ⊢
    rw [beq_iff_eq] at hc ⊢
    exact key c s hw hc
  · intro segment now wr st hlt hsh hst hu hn hs hw hc h
    have hiff := submitSegment_cookie_iff env
      (b.clientWriteControl segment
        { b.sharedControl segment with
          startTime := t,
          cookie := (b.sharedControl segment).cookie ^^^
            (b.sharedControl segment).startTime ^^^ t })
      segment now wr st hlt hst hu hn hs hw
    have hne := hiff.1 h
    apply hne
    unfold copiedControl clientWriteControl
    rw [sharedControl_setShared_self _ _ _ hsh]
    exact key (b.copiedControl segment) (b.seg segment) hw hc

theorem cookie_malleable_witness :
    ((sampleHeld.seg 0).flags.readOnly = false ∧
      sampleHeld._testControlCookie sampleEnv (sampleHeld.sharedControl 0)
        (sampleHeld.seg 0) = true ∧
      (sampleHeld.sharedControl 0).startTime = 100) ∧
    sampleHeld._testControlCookie sampleEnv
      { sampleHeld.sharedControl 0 with
        startTime := 5,
        cookie := (sampleHeld.sharedControl 0).cookie ^^^
          (sampleHeld.sharedControl 0).startTime ^^^ 5 } (sampleHeld.seg 0) = true :=
  ⟨by decide,
   (cookie_malleable sampleEnv sampleHeld 5).1 (sampleHeld.sharedControl 0) (sampleHeld.seg 0)
     (by decide) (by decide)⟩

/-! ## The number of allocation attempts on an exhausted pool -/

theorem tryAllocateTries_exhausted (env : Env) :
    ∀ (fuel tryCount : Nat) (b : ServerStreamBuffer),
      b.freeHead = none → b.standbyHead = none → env.retryCount ≤ fuel + tryCount →
      tryAllocateTries env false fuel tryCount b = max tryCount env.retryCount := by
  intro fuel
  induction fuel with
  | zero =>
    intro tryCount b hf hs hle
    have hge : tryCount ≥ env.retryCount := by omega
    unfold tryAllocateTries
    rw [allocateOnce_empty b hf hs]
    simp only [_handleContention, hge, if_true, Bool.false_eq_true, if_false]
    omega
  | succ fuel ih =>
    intro tryCount b hf hs hle
    unfold tryAllocateTries
    rw [allocateOnce_empty b hf hs]
    by_cases hge : tryCount ≥ env.retryCount
    · simp only [_handleContention, hge, if_true, Bool.false_eq_true, if_false]
      omega
    · simp only [_handleContention, hge, Bool.false_eq_true, if_false]
      rw [ih (tryCount + 1) (b.call (Call.sleep env.retrySleep)) hf hs (by omega)]
      omega

/-- C37: with the free list and the standby list empty (and no other thread
changing that), a request that is not a prefetch leaves
`_tryAllocateFreeSegment` with `nullptr` after `max(1, retryCount)` allocation
attempts and `max(1, retryCount) - 1` calls of `ThreadBase::sleep(retrySleep)`,
which are the only calls it makes. The loop terminates: every bound of at least
`retryCount - 1` further passes gives this result. -/
theorem tryAllocate_exhausted_counts (env : Env) (b : ServerStreamBuffer)
    (stream : Option ServerStream) (sequenceNumber now : Nat)
    (hf : b.freeHead = none) (hs : b.standbyHead = none) :
    b._tryAllocateFreeSegment env stream sequenceNumber false now =
      (b.callAll (List.replicate (max 1 env.retryCount - 1) (Call.sleep env.retrySleep)),
       none) ∧
    tryAllocateTries env false env.retryCount 1 b = max 1 env.retryCount ∧
    (b._tryAllocateFreeSegment env stream sequenceNumber false now).1.calls =
      b.calls ++ List.replicate (max 1 env.retryCount - 1) (Call.sleep env.retrySleep) ∧
    (∀ fuel, env.retryCount ≤ fuel + 1 →
      tryAllocateLoop env stream sequenceNumber false now fuel 1 b =
        (b.callAll (List.replicate (max 1 env.retryCount - 1) (Call.sleep env.retrySleep)),
         none) ∧
      tryAllocateTries env false fuel 1 b = max 1 env.retryCount) := by
  have hm : max 1 env.retryCount - 1 = env.retryCount - 1 := by omega
  have h1 : ∀ fuel, env.retryCount ≤ fuel + 1 →
      tryAllocateLoop env stream sequenceNumber false now fuel 1 b =
        (b.callAll (List.replicate (max 1 env.retryCount - 1) (Call.sleep env.retrySleep)),
         none) := by
    intro fuel hle
    rw [tryAllocateLoop_exhausted env stream sequenceNumber now fuel 1 b hf hs hle, hm]
  have h2 : b._tryAllocateFreeSegment env stream sequenceNumber false now =
      (b.callAll (List.replicate (max 1 env.retryCount - 1) (Call.sleep env.retrySleep)),
       none) := h1 env.retryCount (by omega)
  refine ⟨h2, tryAllocateTries_exhausted env env.retryCount 1 b hf hs (by omega), ?_,
    fun fuel hle => ⟨h1 fuel hle, tryAllocateTries_exhausted env fuel 1 b hf hs hle⟩⟩
  rw [h2]
  rfl

theorem tryAllocate_exhausted_counts_witness :
    (sampleExhausted.freeHead = none ∧ sampleExhausted.standbyHead = none ∧
      sampleEnv.retryCount = 3) ∧
    tryAllocateTries sampleEnv false sampleEnv.retryCount 1 sampleExhausted = 3 ∧
    (sampleExhausted._tryAllocateFreeSegment sampleEnv (some sampleStream) 1 false 300).1.calls =
      sampleExhausted.calls ++ [Call.sleep 10, Call.sleep 10] :=
  ⟨by decide,
   (tryAllocate_exhausted_counts sampleEnv sampleExhausted (some sampleStream) 1 300
      (by decide) (by decide)).2.1,
   (tryAllocate_exhausted_counts sampleEnv sampleExhausted (some sampleStream) 1 300
      (by decide) (by decide)).2.2.1⟩

/-! ## Releasing a scratch segment -/

/-- C36: a segment `requestScratchSegment` has returned, in the state after
any sequence of calls of the engine and writes of the client that does not
purge it, is neither `ReadOnly` nor submitted; `freeSegment` on it raises
`InvalidOperationException` and leaves the state as it is; the segment is not
on the free list, and no single call other than its purge puts it there;
`purgeSegment` succeeds and pushes it on the free list. -/
theorem scratch_segment_free_fails {env : Env} {b : ServerStreamBuffer}
    (hr : Reachable env b) (now i : Nat)
    (hres : (requestScratchSegment env b now).2 = .ok i) (hi : i ≠ INVALID_SEGMENT_ID)
    (ops : List ApiOp) (hops : ApiOp.purgeSegment i ∉ ops) (prefetch : Bool) :
    (((applyOps env (requestScratchSegment env b now).1 ops).seg i).flags.readOnly = false ∧
      ((applyOps env (requestScratchSegment env b now).1 ops).seg i).isSubmitted = false) ∧
    freeSegment env (applyOps env (requestScratchSegment env b now).1 ops) i prefetch =
      (applyOps env (requestScratchSegment env b now).1 ops,
        .error Error.InvalidOperationException) ∧
    i ∉ (applyOps env (requestScratchSegment env b now).1 ops).freeList ∧
    (∀ op, op ≠ ApiOp.purgeSegment i →
      i ∉ (applyOp env (applyOps env (requestScratchSegment env b now).1 ops) op).freeList) ∧
    purgeSegment (applyOps env (requestScratchSegment env b now).1 ops) i =
      ((applyOps env (requestScratchSegment env b now).1 ops)._purgeSegment i, .ok ()) ∧
    ((applyOps env (requestScratchSegment env b now).1 ops)._purgeSegment i).freeList =
      i :: (applyOps env (requestScratchSegment env b now).1 ops).freeList := by
  have hr1 : Reachable env (requestScratchSegment env b now).1 :=
    Reachable.requestScratchSegment _ _ hr
  obtain ⟨h1, h2, h3, -, h5, h6⟩ :=
    requestScratchSegment_effect (reachable_wellFormed hr) env now i hres hi
  have hu : ((requestScratchSegment env b now).1.seg i).flags.inUse = true := by rw [h2]; rfl
  have hro : ((requestScratchSegment env b now).1.seg i).flags.readOnly = false := by
    rw [h2]; rfl
  obtain ⟨e1, e2⟩ := scratch_applyOps i ops hr1 h1 hu h6 h3 hro h5 hops
  have hr2 := reachable_applyOps ops hr1
  have hW := reachable_wellFormed hr2
  generalize applyOps env (requestScratchSegment env b now).1 ops = b2 at e1 e2 hr2 hW ⊢
  have hi2 : i < b2.getNumSegments := by rw [e2]; exact h1
  have hu2 : (b2.seg i).flags.inUse = true := by rw [e1]; exact hu
  have hro2 : (b2.seg i).flags.readOnly = false := by rw [e1]; exact hro
  have hs2 : (b2.seg i).isSubmitted = false := by rw [e1]; exact h5
  have hn2 : (b2.seg i).next = none := by rw [e1]; exact h6
  have hst2 : (b2.seg i).stream = none := by rw [e1]; exact h3
  obtain ⟨n1, -, n3⟩ := not_cached_of_writable hW hu2 hro2
  refine ⟨⟨hro2, hs2⟩, ?_, n3, ?_, ?_, ?_⟩
  · unfold freeSegment
    rw [if_neg (by omega), hu2, hn2, hro2, hs2]
    rfl
  · intro op hop
    have e3 := scratch_applyOp hr2 hi2 hu2 hn2 hst2 hro2 hs2 op hop
    exact (not_cached_of_writable (reachable_wellFormed (reachable_applyOp hr2 op))
      (by rw [e3]; exact hu2) (by rw [e3]; exact hro2)).2.2
  · unfold purgeSegment
    rw [if_neg (by omega), hu2, hn2]
    rfl
  · exact (invL_lists (invL_purge hW hi2 n3 n1)).1

theorem scratch_segment_free_fails_witness :
    (requestScratchSegment sampleEnv samplePool 100).2 = .ok 0 ∧
    freeSegment sampleEnv
      (applyOps sampleEnv (requestScratchSegment sampleEnv samplePool 100).1 sampleScratchOps)
      0 false =
      (applyOps sampleEnv (requestScratchSegment sampleEnv samplePool 100).1 sampleScratchOps,
        .error Error.InvalidOperationException) ∧
    ((applyOps sampleEnv (requestScratchSegment sampleEnv samplePool 100).1
        sampleScratchOps)._purgeSegment 0).freeList =
      0 :: (applyOps sampleEnv (requestScratchSegment sampleEnv samplePool 100).1
        sampleScratchOps).freeList :=
  ⟨by decide,
   (fun h => ⟨h.2.1, h.2.2.2.2.2⟩)
     (scratch_segment_free_fails (Reachable.create 12345 1024 2 true (by decide)) 100 0
       (by decide) (by decide) sampleScratchOps (by simp [sampleScratchOps]) false)⟩

/-! ## A request that misses the standby cache -/

/-- `_requestSegment` when the standby index has no entry for the key: the
allocation, then the load from the location or the flags of a fresh segment. -/
theorem requestSegment_miss_eq (env : Env) (b : ServerStreamBuffer)
    (stream : Option ServerStream) (sequenceNumber : Nat) (flags : StreamAccessFlags)
    (location : Option StorageLocation) (prefetch : Bool) (now : Nat) (rd : ReadOutcome)
    (hmiss : ∀ s, stream = some s → indexFind b.standbyIndex
      { store := s.store, stream := s.id, sequenceNumber := sequenceNumber } = none) :
    b._requestSegment env stream sequenceNumber flags location prefetch now rd =
      (match tryAllocateLoop env stream sequenceNumber prefetch now env.retryCount 1 b with
       | (b1, none) => ((b1, .ok (INVALID_SEGMENT_ID, true)) : Result (Nat × Bool))
       | (b1, some i) =>
         match location with
         | some loc => b1.requestLoad env i stream flags loc prefetch rd
         | none => b1.requestFresh i stream) := by
  unfold _requestSegment
  cases stream with
  | none =>
    simp only [lookupStandby]
    rfl
  | some s =>
    simp only [lookupStandby]
    rw [removeStandbySegment_none (hmiss s rfl)]
    rfl

theorem seg_requestFresh (b : ServerStreamBuffer) (i : Nat) (s : ServerStream)
    (hi : i < b.getNumSegments) :
    ((b.requestFresh i (some s)).1.seg i) =
      { b.seg i with
        flags := if b.enableCache then
            { (b.seg i).flags with cacheable := true, lowPriority := true }
          else (b.seg i).flags } ∧
    (∀ j, (b.requestFresh i (some s)).1.sharedControl j = b.sharedControl j) ∧
    (b.requestFresh i (some s)).1.getNumSegments = b.getNumSegments ∧
    (b.requestFresh i (some s)).1.cookie = b.cookie ∧
    (b.requestFresh i (some s)).1.calls = b.calls ∧
    (b.requestFresh i (some s)).2 = .ok (((b.requestFresh i (some s)).1.seg i).id, true) := by
  by_cases hc : b.enableCache = true
  · have e : b.requestFresh i (some s) =
        (b.setSeg i { b.seg i with
            flags := { (b.seg i).flags with cacheable := true, lowPriority := true } },
          .ok (((b.setSeg i { b.seg i with
            flags := { (b.seg i).flags with cacheable := true, lowPriority := true } }).seg
              i).id, true)) := by
      unfold requestFresh
      simp only [hc, if_true]
    rw [e, if_pos hc]
    exact ⟨seg_setSeg_self _ _ _ hi, fun _ => rfl, getNumSegments_setSeg _ _ _, rfl, rfl, rfl⟩
  · have e : b.requestFresh i (some s) = (b, .ok ((b.seg i).id, true)) := by
      unfold requestFresh
      simp only [hc, if_false, Bool.false_eq_true]
    rw [e, if_neg hc]
    exact ⟨rfl, fun _ => rfl, rfl, rfl, rfl, rfl⟩

theorem seg_markLoaded (b : ServerStreamBuffer) (i : Nat) (flags : StreamAccessFlags)
    (hi : i < b.getNumSegments) :
    ((b.markLoaded i flags).seg i) =
      { b.seg i with
        flags := { (b.seg i).flags with
          readOnly := true,
          cacheable := b.enableCache || (b.seg i).flags.cacheable,
          lowPriority := (b.enableCache && (flags.randomAccess || flags.sequentialScan)) ||
            (b.seg i).flags.lowPriority } } := by
  unfold markLoaded
  simp only [enableCache_setSeg]
  cases hc : b.enableCache <;> cases hra : flags.randomAccess <;>
    cases hss : flags.sequentialScan <;>
    simp [seg_setSeg_self, hi, setSeg_setSeg]

/-- C31: in a reachable state, a `requestSegment(stream, sqn)` that finds no
entry for its key in the standby index and returns a segment returns the head
of the free list, or with an empty free list the last segment of the standby
list. The shared control element of the segment equals the private copy and is
zero except for `link = (stream id, sqn)`, the two cycle counts and `endTime`,
which are invalid, `startTime`, which is the clock value, and the cookie, which
passes the cookie test. The flags are `InUse`, `Cacheable` and `LowPriority`
with caching enabled and `InUse` alone without, and `isSubmitted` is false. -/
theorem requestSegment_fresh (env : Env) (b b' : ServerStreamBuffer) (stream : ServerStream)
    (sequenceNumber now id : Nat)
    (hreach : Reachable env b)
    (hres : requestSegment env b stream sequenceNumber now = (b', .ok id))
    (hvalid : id ≠ INVALID_SEGMENT_ID)
    (hmiss : indexFind b.standbyIndex
      { store := stream.store, stream := stream.id, sequenceNumber := sequenceNumber } = none) :
    id < b'.getNumSegments ∧
    some id = b.freeList.head?.or b.standbyList.getLast? ∧
    b'.sharedControl id = (b'.seg id).control ∧
    b'.sharedControl id =
      { zeroControl with
        link := { stream := stream.id, sequenceNumber := sequenceNumber },
        startCycle := INVALID_CYCLE_COUNT, endCycle := INVALID_CYCLE_COUNT,
        startTime := now, endTime := INVALID_TIME_STAMP,
        cookie := (b'.sharedControl id).cookie } ∧
    b'._testControlCookie env (b'.sharedControl id) (b'.seg id) = true ∧
    (b'.seg id).flags =
      (if b.enableCache then { SgfInUse with cacheable := true, lowPriority := true }
       else SgfInUse) ∧
    (b'.seg id).isSubmitted = false := by
  obtain ⟨n, -, hv⟩ := hreach.validPool
  have hW := reachable_wellFormed hreach
  obtain ⟨c, hreq⟩ := requestSegment_ok hres
  rw [requestSegment_miss_eq env b (some stream) sequenceNumber SafNone none false now
    (ReadOutcome.returns true) (fun s hs => by rw [← Option.some.inj hs]; exact hmiss)] at hreq
  obtain ⟨-, hhead, -⟩ := invL_tryAllocateLoop env (some stream) sequenceNumber false now
    env.retryCount 1 b _ _ hW
  rcases ha : tryAllocateLoop env (some stream) sequenceNumber false now env.retryCount 1 b
    with ⟨b2, _ | i⟩
  · rw [ha] at hreq
    simp only [Prod.mk.injEq, Except.ok.injEq] at hreq
    exact absurd hreq.2.1.symm hvalid
  · rw [ha] at hreq hhead
    obtain ⟨hi, hv2, hid, hfl, hsub, -, -, -, hctl, hshared, hec, hck⟩ :=
      tryAllocateLoop_some env (some stream) sequenceNumber false now env.retryCount 1 b b2 i
        hv (by rw [hv.1.1, hv.2]) ha
    have hi2 : i < b2.getNumSegments := by rw [hv2.2]; exact hi
    obtain ⟨f1, f2, f3, f4, -, f6⟩ := seg_requestFresh b2 i stream hi2
    simp only at hreq
    have hb' : (b2.requestFresh i (some stream)).1 = b' := congrArg Prod.fst hreq
    have hr2 : (b2.requestFresh i (some stream)).2 = .ok (id, c) := congrArg Prod.snd hreq
    rw [hb'] at f1 f2 f3 f4 f6
    have hidi : id = i := by
      rw [hr2, f1] at f6
      simp only [Except.ok.injEq, Prod.mk.injEq] at f6
      rw [f6.1]
      exact hid
    subst hidi
    have hsc : b'.sharedControl id =
        freshControl env b.cookie id (some stream) sequenceNumber now := by
      rw [f2, hshared]
    refine ⟨by rw [f3]; exact hi2, hhead, ?_, ?_, ?_, ?_, ?_⟩
    · rw [f1, f2]
      exact hctl.symm
    · rw [hsc]
      rfl
    · unfold _testControlCookie
      rw [computeControlCookie_eq, beq_iff_eq, f4, hck, hsc, f1]
      have hro : ({ b2.seg id with
          flags := if b2.enableCache = true then
              { (b2.seg id).flags with cacheable := true, lowPriority := true }
            else (b2.seg id).flags } : Segment).flags.readOnly = false := by
        show (if _ then _ else _ : SegmentFlags).readOnly = false
        split_ifs <;> rw [hfl] <;> rfl
      rw [hro]
      show _ = cookieValue env b.cookie (b2.seg id).id false _
      rw [hid]
      rfl
    · rw [f1, hec, hfl]
    · rw [f1]
      exact hsub

theorem requestSegment_fresh_witness :
    (requestSegment sampleEnv samplePool sampleStream 0 100 = (sampleHeld, .ok 0) ∧
      samplePool.standbyIndex = []) ∧
    (sampleHeld.seg 0).flags = { SgfInUse with cacheable := true, lowPriority := true } ∧
    (sampleHeld.sharedControl 0).startTime = 100 :=
  ⟨by decide,
   (fun h => ⟨h.2.2.2.2.2.1, (congrArg SegmentControlElement.startTime h.2.2.2.1)⟩)
     (requestSegment_fresh sampleEnv samplePool sampleHeld sampleStream 0 100 0
       (Reachable.create 12345 1024 2 true (by decide)) (by decide) (by decide) (by decide))⟩

theorem seg_loadControl (env : Env) (b : ServerStreamBuffer) (i : Nat) (loc : StorageLocation)
    (hi : i < b.getNumSegments) :
    ((b.loadControl env i loc).seg i).flags = (b.seg i).flags ∧
    ((b.loadControl env i loc).seg i).id = (b.seg i).id := by
  unfold loadControl
  simp only
  rw [seg_setSeg_self _ _ _ (by simpa using hi)]
  exact ⟨rfl, rfl⟩

/-- C32, with the condition the code has for `LowPriority`: in a reachable
state, an `openSegment` that finds no entry for its key in the standby index
and obtains a segment calls the encoder's `read` for it (the last call made,
whatever the encoder then does) in a state in which the flags of the segment
are `InUse` and `ReadOnly`, `Cacheable` exactly when caching is enabled, and
`LowPriority` exactly when caching is enabled and the access flags contain
`RandomAccess` or `SequentialScan`. -/
theorem openSegment_miss_flags (env : Env) (b b' : ServerStreamBuffer) (stream : ServerStream)
    (flags : StreamAccessFlags) (location : StorageLocation) (prefetch : Bool) (now id : Nat)
    (completed c : Bool)
    (hreach : Reachable env b)
    (hres : openSegment env b stream flags location prefetch now
      (ReadOutcome.returns completed) = (b', .ok (id, c)))
    (hvalid : id ≠ INVALID_SEGMENT_ID)
    (hmiss : indexFind b.standbyIndex
      { store := stream.store, stream := stream.id,
        sequenceNumber := location.link.sequenceNumber } = none) :
    (b'.seg id).flags =
      { SgfInUse with
        readOnly := true, cacheable := b.enableCache,
        lowPriority := b.enableCache && (flags.randomAccess || flags.sequentialScan) } ∧
    (b'.seg id).flags.readOnly = true ∧
    ((b'.seg id).flags.cacheable = true ↔ b.enableCache = true) ∧
    ((b'.seg id).flags.lowPriority = true ↔
      (b.enableCache = true ∧
        (flags.randomAccess = true ∨ flags.sequentialScan = true))) ∧
    b'.calls.getLast? = some (Call.read stream.id id prefetch) ∧
    (∀ code, (openSegment env b stream flags location prefetch now
      (ReadOutcome.throws code)).1 = b'._purgeSegment id) := by
  obtain ⟨n, -, hv⟩ := hreach.validPool
  have hm := requestSegment_miss_eq env b (some stream) location.link.sequenceNumber flags
    (some location) prefetch now
  have hmiss1 : ∀ s, some stream = some s → indexFind b.standbyIndex
      { store := s.store, stream := s.id,
        sequenceNumber := location.link.sequenceNumber } = none :=
    fun s hs => by rw [← Option.some.inj hs]; exact hmiss
  unfold ServerStreamBuffer.openSegment at hres ⊢
  rw [hm _ hmiss1] at hres
  rcases ha : tryAllocateLoop env (some stream) location.link.sequenceNumber prefetch now
    env.retryCount 1 b with ⟨b2, _ | i⟩
  · rw [ha] at hres
    simp only [Prod.mk.injEq, Except.ok.injEq] at hres
    exact absurd hres.2.1.symm hvalid
  · rw [ha] at hres
    obtain ⟨hi, hv2, hid, hfl, -, -, -, -, -, -, hec, -⟩ :=
      tryAllocateLoop_some env (some stream) location.link.sequenceNumber prefetch now
        env.retryCount 1 b b2 i hv (by rw [hv.1.1, hv.2]) ha
    have hi2 : i < b2.getNumSegments := by rw [hv2.2]; exact hi
    have hm2 := markLoaded_fields b2 i flags hi2
    have hsm := seg_markLoaded b2 i flags hi2
    obtain ⟨l1, l2⟩ := seg_loadControl env (b2.markLoaded i flags) i location
      (by rw [hm2.2.2.2]; exact hi2)
    have hst : ∀ rd, b2.requestLoad env i (some stream) flags location prefetch rd =
        (match rd with
         | .returns completed =>
           ((((b2.markLoaded i flags).loadControl env i location)).call
              (Call.read stream.id i prefetch), .ok (i, completed))
         | .throws code =>
           (((((b2.markLoaded i flags).loadControl env i location)).call
              (Call.read stream.id i prefetch))._purgeSegment i,
            .error (Error.encoder code))) := by
      intro rd
      have hid2 : (((b2.markLoaded i flags).loadControl env i location).seg i).id = i := by
        rw [l2, hm2.1, hid]
      unfold requestLoad
      cases rd with
      | returns completed =>
        simp only
        rw [show (((b2.markLoaded i flags).loadControl env i location).call
          (Call.read (streamId (some stream))
            (((b2.markLoaded i flags).loadControl env i location).seg i).id prefetch)).seg i =
          ((b2.markLoaded i flags).loadControl env i location).seg i from rfl, hid2]
        rfl
      | throws code =>
        simp only
        rw [show (((b2.markLoaded i flags).loadControl env i location).call
          (Call.read (streamId (some stream))
            (((b2.markLoaded i flags).loadControl env i location).seg i).id prefetch)).seg i =
          ((b2.markLoaded i flags).loadControl env i location).seg i from rfl, hid2]
        rfl
    simp only at hres
    rw [hst] at hres
    simp only [Prod.mk.injEq, Except.ok.injEq] at hres
    obtain ⟨hb', hidi, -⟩ := hres
    subst hidi
    have hflags : (b'.seg i).flags =
        { SgfInUse with
          readOnly := true, cacheable := b.enableCache,
          lowPriority := b.enableCache && (flags.randomAccess || flags.sequentialScan) } := by
      rw [← hb']
      show (((b2.markLoaded i flags).loadControl env i location).seg i).flags = _
      rw [l1, hsm, hfl, hec]
      simp [SgfInUse, SgfFree]
    refine ⟨hflags, by rw [hflags], by rw [hflags], ?_, ?_, ?_⟩
    · rw [hflags]
      simp
    · rw [← hb']
      show (_ ++ [_] : List Call).getLast? = _
      simp
    · intro code
      rw [hm _ hmiss1, ha]
      simp only
      rw [hst, ← hb']

theorem openSegment_miss_flags_witness :
    (openSegment sampleEnv samplePool sampleStream
        { randomAccess := true, sequentialScan := false, synchronous := false }
        sampleLocation false 100 (ReadOutcome.returns true) = (sampleRandomHeld, .ok (0, true)) ∧
      samplePool.enableCache = true) ∧
    (sampleRandomHeld.seg 0).flags =
      { SgfInUse with readOnly := true, cacheable := true, lowPriority := true } ∧
    sampleRandomHeld.calls.getLast? = some (Call.read 7 0 false) :=
  ⟨by decide,
   (fun h => ⟨h.1, h.2.2.2.2.1⟩)
     (openSegment_miss_flags sampleEnv samplePool sampleRandomHeld sampleStream
       { randomAccess := true, sequentialScan := false, synchronous := false }
       sampleLocation false 100 0 true true (Reachable.create 12345 1024 2 true (by decide))
       (by decide) (by decide) (by decide))⟩

/-- C32 as stated fails with caching disabled: `openSegment` with `RandomAccess`
on a pool without cache misses the (empty) standby cache and obtains segment 0,
whose flags when the encoder's `read` is called are `InUse` and `ReadOnly`
without `LowPriority`. -/
theorem openSegment_uncached_counterexample :
    sampleUncachedPool.standbyIndex = [] ∧
    (openSegment sampleEnv sampleUncachedPool sampleStream
      { randomAccess := true, sequentialScan := false, synchronous := false }
      sampleLocation false 100 (ReadOutcome.returns true)).2 = .ok (0, true) ∧
    ((openSegment sampleEnv sampleUncachedPool sampleStream
      { randomAccess := true, sequentialScan := false, synchronous := false }
      sampleLocation false 100 (ReadOutcome.returns true)).1.seg 0).flags =
      { SgfInUse with readOnly := true } ∧
    ((openSegment sampleEnv sampleUncachedPool sampleStream
      { randomAccess := true, sequentialScan := false, synchronous := false }
      sampleLocation false 100 (ReadOutcome.returns true)).1.seg 0).flags.lowPriority = false ∧
    (openSegment sampleEnv sampleUncachedPool sampleStream
      { randomAccess := true, sequentialScan := false, synchronous := false }
      sampleLocation false 100 (ReadOutcome.returns true)).1.calls = [Call.read 7 0 false] := by
  decide

/-! ## The free list as a stack -/

/-- An allocation with a non-empty free list takes its head: the descriptor is
unlinked and prepared, and nothing else changes. -/
theorem tryAllocateLoop_free {b : ServerStreamBuffer} {lf ls : List Nat} {i : Nat}
    (h : b.InvL (i :: lf) ls) (env : Env) (stream : Option ServerStream)
    (sequenceNumber : Nat) (prefetch : Bool) (now fuel tryCount : Nat) :
    tryAllocateLoop env stream sequenceNumber prefetch now fuel tryCount b =
      (((b.setFreeHead (b.seg i).next).setSeg i
          { b.seg i with isSubmitted := false, flags := SgfInUse, next := none })._prepareSegment
          env i stream sequenceNumber now, some i) := by
  obtain ⟨e, -⟩ := dequeueFromFreeList_cons h.free
  have hi : i < b.getNumSegments := h.free.lt i (List.mem_cons_self _ _)
  have hid : (b.seg i).id = i := h.standby.ids i hi
  unfold tryAllocateLoop
  have ea : b.allocateOnce = ((b.setFreeHead (b.seg i).next).setSeg i
      { b.seg i with isSubmitted := false, flags := SgfInUse, next := none }, some i) := by
    unfold allocateOnce
    rw [e]
  rw [ea]
  simp only
  rw [seg_setSeg_self _ _ _ (by simpa using hi)]
  simp only [hid]

/-- A request that misses the standby cache and keeps its segment returns the
head of the free list, or with an empty free list the last segment of the
standby list, and takes it from its list. -/
theorem requestSegment_miss_lists {b : ServerStreamBuffer} {lf ls : List Nat}
    (h : b.InvL lf ls) (env : Env) (stream : Option ServerStream) (sequenceNumber : Nat)
    (flags : StreamAccessFlags) (location : Option StorageLocation) (prefetch : Bool)
    (now : Nat) (completed : Bool)
    (hmiss : ∀ s, stream = some s → indexFind b.standbyIndex
      { store := s.store, stream := s.id, sequenceNumber := sequenceNumber } = none) :
    (b._requestSegment env stream sequenceNumber flags location prefetch now
      (ReadOutcome.returns completed)).1.InvL lf.tail (if lf = [] then ls.dropLast else ls) ∧
    ∀ k, (lf.head?).or ls.getLast? = some k →
      ∃ c, (b._requestSegment env stream sequenceNumber flags location prefetch now
        (ReadOutcome.returns completed)).2 = .ok (k, c) := by
  rw [requestSegment_miss_eq env b stream sequenceNumber flags location prefetch now _ hmiss]
  obtain ⟨h1, h2, h3⟩ := invL_tryAllocateLoop env stream sequenceNumber prefetch now
    env.retryCount 1 b _ _ h
  rcases ha : tryAllocateLoop env stream sequenceNumber prefetch now env.retryCount 1 b
    with ⟨b2, _ | i⟩
  · rw [ha] at h1 h2
    refine ⟨h1, ?_⟩
    intro k hk
    rw [hk] at h2
    exact Option.noConfusion h2
  · rw [ha] at h2 h3
    have hh := h3 i rfl
    have hki : ∀ k, (lf.head?).or ls.getLast? = some k → k = i := by
      intro k hk
      rw [hk] at h2
      exact (Option.some.inj h2).symm
    cases location with
    | none =>
      simp only
      have hf := heldL_requestFresh hh stream
      refine ⟨hf.1, ?_⟩
      intro k hk
      rw [hki k hk]
      have h0 : (b2.requestFresh i stream).2 =
          .ok (((b2.requestFresh i stream).1.seg i).id, true) := by
        unfold requestFresh
        cases stream with
        | none => rfl
        | some s => rfl
      rw [h0, (heldL_flags hf).2.2.2]
      exact ⟨true, rfl⟩
    | some loc =>
      simp only
      have hl := heldL_call (heldL_loadControl (heldL_markLoaded hh flags) env loc)
        (Call.read (streamId stream) (((b2.markLoaded i flags).loadControl env i loc).seg i).id
          prefetch)
      refine ⟨hl.1, ?_⟩
      intro k hk
      rw [hki k hk]
      refine ⟨completed, ?_⟩
      show Except.ok (_, completed) = _
      rw [(heldL_flags hl).2.2.2]

theorem index_empty_of_invL {b : ServerStreamBuffer} {lf : List Nat} (h : b.InvL lf [])
    (key : StoreStreamSegmentLink) : indexFind b.standbyIndex key = none := by
  cases hf : indexFind b.standbyIndex key with
  | none => rfl
  | some i => exact absurd (indexL_find h.standby.index hf).1 (List.not_mem_nil _)

/-- With an empty standby list, a request takes the head of the free list. -/
theorem request_pops_free {env : Env} {b : ServerStreamBuffer} {j : Nat} {lf : List Nat}
    (h : b.InvL (j :: lf) []) (op : ApiOp) (hop : op.isRequest = true) :
    returnedSegment env b op = some j ∧ (applyOp env b op).InvL lf [] := by
  have hm : ∀ (stream : Option ServerStream) (sequenceNumber : Nat), ∀ s, stream = some s →
      indexFind b.standbyIndex
        { store := s.store, stream := s.id, sequenceNumber := sequenceNumber } = none :=
    fun _ _ _ _ => index_empty_of_invL h _
  have key : ∀ (stream : Option ServerStream) (sequenceNumber : Nat)
      (flags : StreamAccessFlags) (location : Option StorageLocation) (prefetch : Bool)
      (now : Nat) (completed : Bool),
      (b._requestSegment env stream sequenceNumber flags location prefetch now
        (ReadOutcome.returns completed)).1.InvL lf [] ∧
      ∃ c, (b._requestSegment env stream sequenceNumber flags location prefetch now
        (ReadOutcome.returns completed)).2 = .ok (j, c) := by
    intro stream sequenceNumber flags location prefetch now completed
    obtain ⟨h1, h2⟩ := requestSegment_miss_lists h env stream sequenceNumber flags location
      prefetch now completed (hm stream sequenceNumber)
    exact ⟨h1, h2 j rfl⟩
  cases op with
  | requestSegment stream sequenceNumber now =>
    have hs : sequenceNumber ≠ INVALID_STREAM_SEGMENT_ID := by
      simpa [ApiOp.isRequest] using hop
    obtain ⟨k1, c, k2⟩ := key (some stream) sequenceNumber SafNone none false now true
    have e : requestSegment env b stream sequenceNumber now =
        ((b._requestSegment env (some stream) sequenceNumber SafNone none false now
          (ReadOutcome.returns true)).1, .ok j) := by
      unfold requestSegment
      rw [if_neg hs]
      rcases hr : b._requestSegment env (some stream) sequenceNumber SafNone none false now
        (ReadOutcome.returns true) with ⟨b1, e | ⟨id, c1⟩⟩
      · rw [hr] at k2
        exact Except.noConfusion k2
      · rw [hr] at k2
        simp only [Except.ok.injEq, Prod.mk.injEq] at k2
        rw [k2.1]
    constructor
    · show (match (requestSegment env b stream sequenceNumber now).2 with
        | .ok id => some id
        | .error _ => none) = some j
      rw [e]
    · show (requestSegment env b stream sequenceNumber now).1.InvL lf []
      rw [e]
      exact k1
  | requestScratchSegment now =>
    obtain ⟨k1, c, k2⟩ := key none INVALID_STREAM_SEGMENT_ID SafNone none false now true
    have e : requestScratchSegment env b now =
        ((b._requestSegment env none INVALID_STREAM_SEGMENT_ID SafNone none false now
          (ReadOutcome.returns true)).1, .ok j) := by
      unfold requestScratchSegment
      rcases hr : b._requestSegment env none INVALID_STREAM_SEGMENT_ID SafNone none false now
        (ReadOutcome.returns true) with ⟨b1, e | ⟨id, c1⟩⟩
      · rw [hr] at k2
        exact Except.noConfusion k2
      · rw [hr] at k2
        simp only [Except.ok.injEq, Prod.mk.injEq] at k2
        rw [k2.1]
    constructor
    · show (match (requestScratchSegment env b now).2 with
        | .ok id => some id
        | .error _ => none) = some j
      rw [e]
    · show (requestScratchSegment env b now).1.InvL lf []
      rw [e]
      exact k1
  | openSegment stream flags location prefetch now rd =>
    cases rd with
    | throws code => simp [ApiOp.isRequest] at hop
    | returns completed =>
      obtain ⟨k1, c, k2⟩ := key (some stream) location.link.sequenceNumber flags (some location)
        prefetch now completed
      constructor
      · show (match (b._requestSegment env (some stream) location.link.sequenceNumber flags
            (some location) prefetch now (ReadOutcome.returns completed)).2 with
          | .ok (id, _) => some id
          | .error _ => none) = some j
        rw [k2]
      · exact k1
  | submitSegment segment now wr => simp [ApiOp.isRequest] at hop
  | freeSegment segment prefetch => simp [ApiOp.isRequest] at hop
  | purgeSegment segment => simp [ApiOp.isRequest] at hop
  | flushStandbyList store => simp [ApiOp.isRequest] at hop
  | clientWriteControl i c => simp [ApiOp.isRequest] at hop
  | clientWritePayload i bytes => simp [ApiOp.isRequest] at hop

theorem requests_pop_in_order (env : Env) :
    ∀ (ops : List ApiOp) (b : ServerStreamBuffer) (j m : Nat),
      b.InvL (List.range' j m) [] → ops.length ≤ m → (∀ op, op ∈ ops → op.isRequest = true) →
      returnedSegments env b ops = (List.range' j ops.length).map some := by
  intro ops
  induction ops with
  | nil => intro b j m _ _ _; rfl
  | cons op ops ih =>
    intro b j m h hlen hall
    obtain ⟨m1, rfl⟩ : ∃ m1, m = m1 + 1 := ⟨m - 1, by simp at hlen; omega⟩
    rw [List.range'_succ] at h
    obtain ⟨h1, h2⟩ := @request_pops_free env _ _ _ h op (hall op (List.mem_cons_self _ _))
    show returnedSegment env b op :: returnedSegments env (applyOp env b op) ops = _
    rw [h1, ih (applyOp env b op) (j + 1) m1 h2 (by simp at hlen; omega)
      (fun o ho => hall o (List.mem_cons_of_mem _ ho))]
    simp [List.range'_succ]

/-- C33: the free list is a stack. A freshly constructed pool of `n` segments
has the free list 0, 1, ..., `n - 1`, and the first `k <= n` requests on it
(each a `requestSegment`, a `requestScratchSegment` or an `openSegment` whose
read returns) return the ids 0, 1, ..., `k - 1` in this order. In every
reachable state with a non-empty free list an allocation returns the head of the
free list and leaves its tail; it makes no call and leaves the standby list
and the standby index as they are. A successful `purgeSegment` pushes its
segment on the free list, and the next allocation returns it. -/
theorem free_list_is_stack (env : Env) {b : ServerStreamBuffer} (hr : Reachable env b) :
    (∀ (cookie segmentSize n : Nat) (enableCache : Bool), 0 < n →
      (create cookie segmentSize n enableCache).freeList = List.range n) ∧
    (∀ (cookie segmentSize n : Nat) (enableCache : Bool) (ops : List ApiOp), 0 < n →
      ops.length ≤ n → (∀ op, op ∈ ops → op.isRequest = true) →
      returnedSegments env (create cookie segmentSize n enableCache) ops =
        (List.range ops.length).map some) ∧
    (∀ (i : Nat) (rest : List Nat), b.freeList = i :: rest →
      ∀ (stream : Option ServerStream) (sequenceNumber : Nat) (prefetch : Bool) (now : Nat),
        (b._tryAllocateFreeSegment env stream sequenceNumber prefetch now).2 = some i ∧
        (b._tryAllocateFreeSegment env stream sequenceNumber prefetch now).1.freeList = rest ∧
        (b._tryAllocateFreeSegment env stream sequenceNumber prefetch now).1.standbyList =
          b.standbyList ∧
        (b._tryAllocateFreeSegment env stream sequenceNumber prefetch now).1.standbyIndex =
          b.standbyIndex ∧
        (b._tryAllocateFreeSegment env stream sequenceNumber prefetch now).1.calls =
          b.calls) ∧
    (∀ (segment : Nat) (b1 : ServerStreamBuffer), purgeSegment b segment = (b1, .ok ()) →
      b1.freeList = segment :: b.freeList ∧
      ∀ (stream : Option ServerStream) (sequenceNumber : Nat) (prefetch : Bool) (now : Nat),
        (b1._tryAllocateFreeSegment env stream sequenceNumber prefetch now).2 =
          some segment) := by
  have hW := reachable_wellFormed hr
  have hpop : ∀ (b0 : ServerStreamBuffer) (lf ls : List Nat) (i : Nat), b0.InvL (i :: lf) ls →
      ∀ (stream : Option ServerStream) (sequenceNumber : Nat) (prefetch : Bool) (now : Nat),
        (b0._tryAllocateFreeSegment env stream sequenceNumber prefetch now).2 = some i ∧
        (b0._tryAllocateFreeSegment env stream sequenceNumber prefetch now).1.freeList = lf ∧
        (b0._tryAllocateFreeSegment env stream sequenceNumber prefetch now).1.standbyList =
          ls ∧
        (b0._tryAllocateFreeSegment env stream sequenceNumber prefetch now).1.standbyIndex =
          b0.standbyIndex ∧
        (b0._tryAllocateFreeSegment env stream sequenceNumber prefetch now).1.calls =
          b0.calls := by
    intro b0 lf ls i h stream sequenceNumber prefetch now
    obtain ⟨h1, -, -⟩ := invL_tryAllocateLoop env stream sequenceNumber prefetch now
      env.retryCount 1 b0 _ _ h
    have hl := invL_lists h1
    unfold _tryAllocateFreeSegment
    rw [tryAllocateLoop_free h env stream sequenceNumber prefetch now env.retryCount 1] at hl ⊢
    refine ⟨rfl, hl.1, ?_, ?_, ?_⟩
    · rw [hl.2, if_neg (List.cons_ne_nil _ _)]
    · simp [_prepareSegment]
    · simp [_prepareSegment]
  refine ⟨?_, ?_, ?_, ?_⟩
  · intro cookie segmentSize n enableCache hn
    exact (invL_lists (create_invL cookie segmentSize n enableCache hn)).1
  · intro cookie segmentSize n enableCache ops hn hlen hall
    have h0 := create_invL cookie segmentSize n enableCache hn
    rw [List.range_eq_range'] at h0 ⊢
    exact requests_pop_in_order env ops _ 0 n h0 hlen hall
  · intro i rest hfl
    have h : b.InvL (i :: rest) b.standbyList := by
      rw [← hfl]
      exact hW
    exact hpop b rest b.standbyList i h
  · intro segment b1 hres
    rcases purgeSegment_state b segment with e | e | ⟨h1, h3, h4, e⟩
    · rw [e] at hres
      simp only [Prod.mk.injEq] at hres
      exact Except.noConfusion hres.2
    · rw [e] at hres
      simp only [Prod.mk.injEq] at hres
      exact Except.noConfusion hres.2
    · rw [e] at hres
      have hb1 : b._purgeSegment segment = b1 := congrArg Prod.fst hres
      have hheld := heldL_reachable hr h1 h3 h4
      have hp := invL_purge hW h1 hheld.2.2.1 hheld.2.2.2
      rw [hb1] at hp
      exact ⟨(invL_lists hp).1, fun stream sequenceNumber prefetch now =>
        (hpop b1 b.freeList b.standbyList segment hp stream sequenceNumber prefetch now).1⟩

theorem free_list_is_stack_witness :
    (samplePool.freeList = [0, 1] ∧ sampleHeld.freeList = [1]) ∧
    returnedSegments sampleEnv samplePool sampleRequests = [some 0, some 1] ∧
    (sampleHeld._tryAllocateFreeSegment sampleEnv none INVALID_STREAM_SEGMENT_ID false 101).2 =
      some 1 ∧
    (purgeSegment sampleHeld 0).1.freeList = [0, 1] :=
  ⟨by decide,
   (free_list_is_stack sampleEnv
      (Reachable.requestSegment _ sampleStream 0 100
        (Reachable.create 12345 1024 2 true (by decide)))).2.1 12345 1024 2 true sampleRequests
      (by decide) (by decide) (by simp [sampleRequests, ApiOp.isRequest, INVALID_STREAM_SEGMENT_ID, INVALID_OBJECT_ID]),
   ((free_list_is_stack sampleEnv
      (Reachable.requestSegment _ sampleStream 0 100
        (Reachable.create 12345 1024 2 true (by decide)))).2.2.1 1 [] (by decide) none
      INVALID_STREAM_SEGMENT_ID false 101).1,
   ((free_list_is_stack sampleEnv
      (Reachable.requestSegment _ sampleStream 0 100
        (Reachable.create 12345 1024 2 true (by decide)))).2.2.2 0 (purgeSegment sampleHeld 0).1
      (by decide)).1⟩

/-! ## The streams of the cacheable segments -/

theorem streamOk_plain {s : Segment} (h : s.flags.cacheable = false) : s.streamOk := by
  intro h1
  rw [h] at h1
  exact Bool.noConfusion h1

theorem streamOk_of_fields {s t : Segment} (hf : s.flags.cacheable = t.flags.cacheable)
    (hs : s.stream = t.stream) (h : t.streamOk) : s.streamOk := by
  intro h1
  rw [hs]
  exact h (hf ▸ h1)

theorem streamOk_of_unlinked {s t : Segment} (hu : s.unlinked = t.unlinked)
    (h : t.streamOk) : s.streamOk :=
  streamOk_of_fields (congrArg SegmentFlags.cacheable (flags_of_unlinked hu))
    (by have := congrArg Segment.stream hu; exact this) h

theorem streamsOk_step {b b1 : ServerStreamBuffer}
    (hs : ∀ j, ((b1.seg j).flags.cacheable = (b.seg j).flags.cacheable ∧
        (b1.seg j).stream = (b.seg j).stream) ∨ (b1.seg j).flags.cacheable = false)
    (h : b.StreamsOk) : b1.StreamsOk := by
  intro j
  rcases hs j with ⟨h1, h2⟩ | h1
  · exact streamOk_of_fields h1 h2 (h j)
  · exact streamOk_plain h1

theorem streamsOk_unlinked {b b1 : ServerStreamBuffer}
    (hs : ∀ j, (b1.seg j).unlinked = (b.seg j).unlinked ∨ (b1.seg j).flags.cacheable = false)
    (h : b.StreamsOk) : b1.StreamsOk := by
  intro j
  rcases hs j with h1 | h1
  · exact streamOk_of_unlinked h1 (h j)
  · exact streamOk_plain h1

theorem streamsOk_setSeg {b : ServerStreamBuffer} (h : b.StreamsOk) (i : Nat)
    (s : Segment) (hs : s.streamOk) : (b.setSeg i s).StreamsOk := by
  intro j
  rw [seg_setSeg]
  split_ifs
  · exact hs
  · exact h j

/-- An assignment to a descriptor that keeps its `Cacheable` bit and its
stream. -/
theorem streamsOk_setSeg_same {b : ServerStreamBuffer} (h : b.StreamsOk) (i : Nat)
    (s : Segment) (hf : s.flags.cacheable = (b.seg i).flags.cacheable)
    (hs : s.stream = (b.seg i).stream) : (b.setSeg i s).StreamsOk :=
  streamsOk_setSeg h i s (streamOk_of_fields hf hs (h i))

theorem streamsOk_call {b : ServerStreamBuffer} (h : b.StreamsOk) (k : Call) :
    (b.call k).StreamsOk := h

theorem streamsOk_setShared {b : ServerStreamBuffer} (h : b.StreamsOk)
    (i : Nat) (c : SegmentControlElement) : (b.setShared i c).StreamsOk := h

theorem streamsOk_create (cookie segmentSize numSegments : Nat)
    (enableCache : Bool) : (create cookie segmentSize numSegments enableCache).StreamsOk := by
  intro j
  apply streamOk_plain
  by_cases hj : j < numSegments
  · rw [seg_create _ _ _ _ _ hj]
    rfl
  · have e : (create cookie segmentSize numSegments enableCache).seg j = default := by
      simp only [create, seg, List.getD_eq_getElem?_getD]
      rw [List.getElem?_eq_none (by simpa using hj)]
      rfl
    rw [e]
    rfl

theorem streamsOk_purge {b : ServerStreamBuffer} (h : b.StreamsOk) (i : Nat) :
    (b._purgeSegment i).StreamsOk := by
  apply streamsOk_step _ h
  intro j
  by_cases hj : j = i
  · by_cases hi : i < b.getNumSegments
    · right
      rw [hj, purgeSegment_eq]
      unfold _enqueueToFreeList
      rw [seg_setFreeHead, seg_setSeg_self _ _ _
        (show i < (b.callAll (b.purgeCalls i)).getNumSegments from hi)]
      rfl
    · left
      rw [hj, purgeSegment_eq]
      unfold _enqueueToFreeList
      rw [seg_setFreeHead, seg_setSeg]
      rw [if_neg (fun hh => hi hh.2)]
      exact ⟨rfl, rfl⟩
  · left
    rw [seg_purgeSegment_ne b i j hj]
    exact ⟨rfl, rfl⟩

theorem streamsOk_tryAllocateLoop {b : ServerStreamBuffer} {lf ls : List Nat}
    (h : b.InvL lf ls) (env : Env) (stream : Option ServerStream) (sequenceNumber : Nat)
    (prefetch : Bool) (now fuel tryCount : Nat) (hc : b.StreamsOk) :
    (tryAllocateLoop env stream sequenceNumber prefetch now fuel tryCount b).1.StreamsOk := by
  obtain ⟨-, -, e3, e4⟩ := tryAllocateLoop_effect env stream sequenceNumber prefetch now
    fuel tryCount b lf ls h
  apply streamsOk_unlinked _ hc
  intro j
  cases hres : (tryAllocateLoop env stream sequenceNumber prefetch now fuel tryCount b).2 with
  | none => left; rw [e3 hres j]
  | some k =>
    obtain ⟨-, k2, -, -, -, k6, -⟩ := e4 k hres
    by_cases hj : j = k
    · right; rw [hj, k2]; rfl
    · left; exact k6 j hj

theorem streamsOk_requestFresh {b : ServerStreamBuffer} (hc : b.StreamsOk)
    (i : Nat) (stream : Option ServerStream) (hst : (b.seg i).stream = stream) :
    (b.requestFresh i stream).1.StreamsOk := by
  unfold requestFresh
  cases stream with
  | none =>
    apply streamsOk_setSeg_same hc _ _ (by rfl) (by rfl)
  | some s =>
    simp only
    split_ifs
    · apply streamsOk_setSeg hc
      intro _
      show (b.seg i).stream.isSome = true
      rw [hst]
      rfl
    · exact hc

theorem streamsOk_markLoaded {b : ServerStreamBuffer} (hc : b.StreamsOk)
    (i : Nat) (flags : StreamAccessFlags) (hst : (b.seg i).stream.isSome = true) :
    (b.markLoaded i flags).StreamsOk := by
  intro j
  by_cases hj : j = i
  · by_cases hi : i < b.getNumSegments
    · rw [hj, seg_markLoaded b i flags hi]
      intro _
      exact hst
    · rw [hj]
      have e : (b.markLoaded i flags).seg i = b.seg i := by
        unfold markLoaded
        simp only
        split_ifs <;> simp [seg_setSeg, hi]
      rw [e]
      exact hc i
  · rw [markLoaded_ne b i flags j hj]
    exact hc j

theorem streamsOk_loadControl {b : ServerStreamBuffer} (hc : b.StreamsOk) (env : Env)
    (i : Nat) (loc : StorageLocation) : (b.loadControl env i loc).StreamsOk := by
  unfold loadControl
  simp only
  apply streamsOk_setSeg_same _ _ _ (by rfl) (by rfl)
  exact hc

theorem streamsOk_requestLoad {b : ServerStreamBuffer} (hc : b.StreamsOk) (env : Env)
    (i : Nat) (stream : Option ServerStream) (flags : StreamAccessFlags)
    (loc : StorageLocation) (prefetch : Bool) (rd : ReadOutcome)
    (hst : (b.seg i).stream.isSome = true) :
    (b.requestLoad env i stream flags loc prefetch rd).1.StreamsOk := by
  have h0 := streamsOk_loadControl (streamsOk_markLoaded hc i flags hst) env i loc
  unfold requestLoad
  cases rd with
  | returns completed => exact h0
  | throws code => exact streamsOk_purge (streamsOk_call h0 _) _

theorem streamsOk_dequeueFromStandbyList {b : ServerStreamBuffer}
    (hc : b.StreamsOk) (i : Nat) : (b._dequeueFromStandbyList i).StreamsOk := by
  apply streamsOk_step _ hc
  intro j
  have hf := dequeueFromStandbyList_fields b i j
  exact Or.inl ⟨congrArg SegmentFlags.cacheable hf.1, hf.2.2.1⟩

/-- `_requestSegment` keeps the streams of the cacheable segments, when a load
is requested for a stream only. -/
theorem streamsOk_requestSegment {b : ServerStreamBuffer} {lf ls : List Nat}
    (h : b.InvL lf ls) (env : Env) (hc : b.StreamsOk) (stream : Option ServerStream)
    (sequenceNumber : Nat) (flags : StreamAccessFlags) (location : Option StorageLocation)
    (prefetch : Bool) (now : Nat) (rd : ReadOutcome) :
    (location.isSome = true → stream.isSome = true) →
    (b._requestSegment env stream sequenceNumber flags location prefetch now rd).1.StreamsOk := by
  unfold _requestSegment
  have hmiss : ∀ r : Result (Nat × Bool),
      r = (match b._tryAllocateFreeSegment env stream sequenceNumber prefetch now with
          | (b, none) => ((b, .ok (INVALID_SEGMENT_ID, true)) : Result (Nat × Bool))
          | (b, some i) =>
            match location with
            | some loc => b.requestLoad env i stream flags loc prefetch rd
            | none => b.requestFresh i stream) →
      (location.isSome = true → stream.isSome = true) → r.1.StreamsOk := by
    intro r hr hloc
    rw [hr]
    have h4 := streamsOk_tryAllocateLoop h env stream sequenceNumber prefetch now
      env.retryCount 1 hc
    obtain ⟨-, -, -, e4⟩ := tryAllocateLoop_effect env stream sequenceNumber prefetch now
      env.retryCount 1 b lf ls h
    unfold _tryAllocateFreeSegment
    rcases ha : tryAllocateLoop env stream sequenceNumber prefetch now env.retryCount 1 b
      with ⟨b2, _ | i⟩
    · rw [ha] at h4
      exact h4
    · rw [ha] at h4 e4
      obtain ⟨-, -, -, k4, -, -, -⟩ := e4 i rfl
      cases location with
      | none => exact streamsOk_requestFresh h4 i stream k4
      | some loc =>
        exact streamsOk_requestLoad h4 env i stream flags loc prefetch rd
          (by
            show (b2.seg i).stream.isSome = true
            rw [k4]
            exact hloc rfl)
  intro hloc
  cases stream with
  | none =>
    simp only [lookupStandby]
    exact hmiss _ rfl hloc
  | some s =>
    simp only [lookupStandby]
    cases hf : indexFind b.standbyIndex
        { store := s.store, stream := s.id, sequenceNumber := sequenceNumber } with
    | none =>
      rw [removeStandbySegment_none hf]
      exact hmiss _ rfl hloc
    | some i =>
      obtain ⟨-, -, e, -⟩ := standbyL_remove h.standby hf
      rw [e]
      exact streamsOk_dequeueFromStandbyList
        (show (b.setStandbyIndex (indexErase b.standbyIndex
          { store := s.store, stream := s.id, sequenceNumber := sequenceNumber })).StreamsOk
          from hc) i

theorem streamsOk_addStandby {b : ServerStreamBuffer} (hc : b.StreamsOk)
    (i : Nat) (hi : i < b.getNumSegments) : (b._addStandbySegment i).StreamsOk := by
  cases hf : indexFind b.standbyIndex (b.standbyKey i) with
  | none =>
    rw [addStandbySegment_new hf]
    apply streamsOk_step _
      (show (b.setStandbyIndex (indexSet b.standbyIndex (b.standbyKey i) i)).StreamsOk
        from hc)
    intro j
    left
    by_cases hj : j = i
    · rw [hj]
      have hs := unlinked_enqueueToStandbyList_self
        (b.setStandbyIndex (indexSet b.standbyIndex (b.standbyKey i) i)) i hi
      have h2 := congrArg (fun s : Segment => s.flags.cacheable) hs
      have h3 := congrArg Segment.stream hs
      refine ⟨?_, h3⟩
      refine Eq.trans h2 ?_
      show (if _ then _ else _ : SegmentFlags).cacheable = _
      split_ifs <;> rfl
    · have hs := unlinked_enqueueToStandbyList
        (b.setStandbyIndex (indexSet b.standbyIndex (b.standbyKey i) i)) i j hj
      have h3 := congrArg Segment.stream hs
      exact ⟨congrArg SegmentFlags.cacheable (flags_of_unlinked hs), h3⟩
  | some k =>
    rw [addStandbySegment_duplicate hf]
    exact streamsOk_purge hc _

theorem streamsOk_freeSegment (env : Env) {b : ServerStreamBuffer} (hc : b.StreamsOk)
    (i : Nat) (hi : i < b.getNumSegments) (prefetch : Bool) :
    (b._freeSegment env i prefetch).StreamsOk := by
  rw [freeSegment_eq env b i prefetch hi]
  split_ifs
  · apply streamsOk_addStandby _ i (by rw [(cacheState_rest env b i prefetch).1]; exact hi)
    intro j
    by_cases hj : j = i
    · rw [hj, seg_cacheState env b i prefetch hi]
      exact hc i
    · rw [seg_cacheState_ne env b i prefetch j hj]
      exact hc j
  · apply streamsOk_purge
    apply streamsOk_setSeg_same hc _ _ (by rfl) (by rfl)

theorem streamsOk_submitCopyControl {b : ServerStreamBuffer} (h : b.StreamsOk) (i : Nat) :
    (b.submitCopyControl i).StreamsOk := by
  unfold submitCopyControl
  simp only
  repeat (first
    | apply streamsOk_setSeg_same _ _ _ (by rfl) (by rfl)
    | split_ifs
    | exact h)

theorem streamsOk_submitFixEntryCount {b : ServerStreamBuffer} (h : b.StreamsOk) (i : Nat) :
    (b.submitFixEntryCount i).StreamsOk := by
  unfold submitFixEntryCount
  repeat (first
    | apply streamsOk_setSeg_same _ _ _ (by rfl) (by rfl)
    | split_ifs
    | exact h)

theorem streamsOk_submitStampRanges {b : ServerStreamBuffer} (h : b.StreamsOk) (i now : Nat) :
    (b.submitStampRanges i now).StreamsOk := by
  unfold submitStampRanges
  simp only
  repeat (first
    | apply streamsOk_setSeg_same _ _ _ (by rfl) (by rfl)
    | split_ifs
    | exact h)

theorem streamsOk_submitCatch {b : ServerStreamBuffer} (h : b.StreamsOk) (i : Nat) :
    (b.submitCatch i).StreamsOk := by
  unfold submitCatch
  apply streamsOk_setSeg_same h _ _ (by rfl) (by rfl)

theorem streamsOk_submitEncode {b : ServerStreamBuffer} {lf ls : List Nat} {i : Nat}
    (hh : b.HeldL lf ls i) (env : Env) (h : b.StreamsOk) (wr : WriteOutcome) :
    (withSubmitCatch i (b.submitEncode env i wr)).1.StreamsOk := by
  unfold submitEncode
  simp only
  have h1 : (b.setSeg i { b.seg i with
    control := { (b.seg i).control with
      cookie := b._computeControlCookie env (b.seg i).control (b.seg i) } }).StreamsOk :=
    streamsOk_setSeg_same h _ _ rfl rfl
  have hh1 : (b.setSeg i { b.seg i with
    control := { (b.seg i).control with
      cookie := b._computeControlCookie env (b.seg i).control (b.seg i) } }).HeldL lf ls i :=
    heldL_setSeg hh _ rfl rfl rfl rfl
  generalize b.setSeg i { b.seg i with
    control := { (b.seg i).control with
      cookie := b._computeControlCookie env (b.seg i).control (b.seg i) } } = b1 at h1 hh1 ⊢
  have h2 : (b1.call (Call.write (streamId (b1.seg i).stream) i)).StreamsOk := h1
  have hi2 : i < (b1.call (Call.write (streamId (b1.seg i).stream) i)).getNumSegments :=
    hh1.2.1
  generalize b1.call (Call.write (streamId (b1.seg i).stream) i) = b2 at h2 hi2 ⊢
  cases wr with
  | throws code => exact streamsOk_submitCatch h2 i
  | returns completed location =>
    cases completed with
    | false => exact h2
    | true =>
      cases location with
      | none => exact streamsOk_purge h2 i
      | some loc => exact streamsOk_freeSegment env h2 i hi2 false

theorem streamsOk_submitTry {b : ServerStreamBuffer} {lf ls : List Nat} {i : Nat}
    (hh : b.HeldL lf ls i) (env : Env) (h : b.StreamsOk) (now : Nat) (wr : WriteOutcome) :
    (withSubmitCatch i (b.submitTry env i now wr)).1.StreamsOk := by
  unfold submitTry
  simp only
  have h1 := streamsOk_submitFixEntryCount h i
  have hh1 := heldL_submitFixEntryCount hh
  have h2 := streamsOk_submitStampRanges h1 i now
  have hh2 := heldL_submitStampRanges hh1 now
  split_ifs
  · exact streamsOk_submitCatch h1 i
  · exact streamsOk_submitCatch h2 i
  · exact streamsOk_submitEncode hh2 env h2 wr

theorem streamsOk_submitSegment {b : ServerStreamBuffer} {lf ls : List Nat} {i : Nat}
    (hh : b.HeldL lf ls i) (env : Env) (hc : b.StreamsOk) (now : Nat) (wr : WriteOutcome) :
    (b._submitSegment env i now wr).1.StreamsOk := by
  unfold _submitSegment
  simp only
  have h1 := streamsOk_submitCopyControl hc i
  have hh1 := heldL_submitCopyControl hh
  generalize b.submitCopyControl i = b1 at h1 hh1 ⊢
  have h2 : (b1.setSeg i { b1.seg i with isSubmitted := true }).StreamsOk :=
    streamsOk_setSeg_same h1 _ _ rfl rfl
  have hh2 : (b1.setSeg i { b1.seg i with isSubmitted := true }).HeldL lf ls i :=
    heldL_setSeg hh1 _ rfl rfl rfl rfl
  generalize b1.setSeg i { b1.seg i with isSubmitted := true } = b2 at h2 hh2 ⊢
  by_cases hcookie : (!b1._testControlCookie env
      (if (!(b.seg i).flags.readOnly) = true then (b1.seg i).control else b1.sharedControl i)
      (b1.seg i)) = true
  · rw [if_pos hcookie]
    exact h1
  · rw [if_neg hcookie]
    by_cases hro : (b2.seg i).flags.readOnly = true
    · rw [if_pos hro]
      exact streamsOk_freeSegment env h2 i hh2.2.1 false
    · rw [if_neg hro]
      by_cases hraw : (b2.seg i).control.rawEntryCount = 0
      · rw [if_pos hraw]
        exact streamsOk_purge (streamsOk_call h2 _) i
      · rw [if_neg hraw]
        exact streamsOk_submitTry hh2 env h2 now wr

theorem streamsOk_flushOne {b : ServerStreamBuffer} (hc : b.StreamsOk)
    (x : Nat) : (b.flushOne x).StreamsOk := by
  unfold flushOne
  simp only
  apply streamsOk_purge
  apply streamsOk_dequeueFromStandbyList
  unfold _findStandbySegment
  split
  · exact hc
  · split <;> exact hc

theorem streamsOk_flushLoop (store last : Nat) :
    ∀ (fuel seg : Nat) (b : ServerStreamBuffer), b.StreamsOk →
      (flushLoop store last fuel seg b).StreamsOk := by
  intro fuel
  induction fuel with
  | zero => intro seg b hc; exact hc
  | succ fuel ih =>
    intro seg b hc
    rw [flushLoop_succ]
    have hv : (if flushes store (storeId (b.seg seg).stream) = true then b.flushOne seg
        else b).StreamsOk := by
      split_ifs
      · exact streamsOk_flushOne hc seg
      · exact hc
    generalize (if flushes store (storeId (b.seg seg).stream) = true then b.flushOne seg
        else b) = b1 at hv ⊢
    by_cases hl : seg = last
    · rw [if_pos hl]; exact hv
    · rw [if_neg hl]
      cases (b.seg seg).next with
      | none => exact hv
      | some n => exact ih n b1 hv

theorem streamsOk_flushStandbyList {b : ServerStreamBuffer}
    (hc : b.StreamsOk) (store : Nat) : (b.flushStandbyList store).StreamsOk := by
  unfold flushStandbyList
  split
  · exact hc
  · split
    · exact hc
    · exact streamsOk_flushLoop _ _ _ _ _ hc

/-- In every reachable state every `Cacheable` segment has a stream. -/
theorem reachable_streamsOk {env : Env} {b : ServerStreamBuffer} (hr : Reachable env b) :
    b.StreamsOk := by
  induction hr with
  | create cookie segmentSize numSegments enableCache hpos =>
    exact streamsOk_create _ _ _ _
  | requestSegment b stream sequenceNumber now hr ih =>
    rcases requestSegment_state env b stream sequenceNumber now with e | e
    · rw [e]; exact ih
    · rw [e]
      exact streamsOk_requestSegment (reachable_wellFormed hr) env ih _ _ _ _ _ _ _
        (fun _ => rfl)
  | requestScratchSegment b now hr ih =>
    rw [requestScratchSegment_state]
    exact streamsOk_requestSegment (reachable_wellFormed hr) env ih _ _ _ _ _ _ _
      (fun h => Bool.noConfusion h)
  | openSegment b stream flags location prefetch now rd hr ih =>
    exact streamsOk_requestSegment (reachable_wellFormed hr) env ih _ _ _ _ _ _ _
      (fun _ => rfl)
  | submitSegment b segment now wr hr ih =>
    rcases submitSegment_state env b segment now wr with e | e | ⟨h1, -, h3, h4, -, e⟩
    · rw [e]; exact ih
    · rw [e]; exact ih
    · rw [e]; exact streamsOk_submitSegment (heldL_reachable hr h1 h3 h4) env ih now wr
  | freeSegment b segment prefetch hr ih =>
    rcases freeSegment_state env b segment prefetch with e | e | ⟨h1, -, -, -, e⟩
    · rw [e]; exact ih
    · rw [e]; exact ih
    · rw [e]; exact streamsOk_freeSegment env ih segment h1 prefetch
  | purgeSegment b segment hr ih =>
    rcases purgeSegment_state b segment with e | e | ⟨-, -, -, e⟩
    · rw [e]; exact ih
    · rw [e]; exact ih
    · rw [e]; exact streamsOk_purge ih segment
  | flushStandbyList b store hr ih => exact streamsOk_flushStandbyList ih store
  | clientWriteControl b i c hr ih => exact ih
  | clientWritePayload b i bytes hr ih => exact ih

/-- In a reachable state every segment of the standby list has a stream. -/
theorem standby_has_stream {env : Env} {b : ServerStreamBuffer} (hr : Reachable env b)
    {i : Nat} (hi : i ∈ b.standbyList) : (b.seg i).stream.isSome = true :=
  reachable_streamsOk hr i ((reachable_wellFormed hr).standbyFlags i hi).2.2

/-! ## The notifications of the encoder -/

theorem flushCalls_congr (store : Nat) {b b1 : ServerStreamBuffer} :
    ∀ (l : List Nat), (∀ x, x ∈ l → (b1.seg x).unlinked = (b.seg x).unlinked) →
      flushCalls store b1 l = flushCalls store b l := by
  intro l
  induction l with
  | nil => intro _; rfl
  | cons y l ih =>
    intro h
    have hy := h y (List.mem_cons_self _ _)
    have hs : (b1.seg y).stream = (b.seg y).stream := by
      have := congrArg Segment.stream hy; exact this
    have hq : (b1.seg y).sequenceNumber = (b.seg y).sequenceNumber := by
      have := congrArg Segment.sequenceNumber hy; exact this
    unfold flushCalls
    rw [ih (fun x hx => h x (List.mem_cons_of_mem _ hx))]
    unfold notifyCall
    rw [hs, hq]

theorem flushCalls_length (store : Nat) (b : ServerStreamBuffer) :
    ∀ (l : List Nat), (flushCalls store b l).length =
      2 * (l.filter (fun x => flushes store (storeId (b.seg x).stream))).length := by
  intro l
  induction l with
  | nil => rfl
  | cons y l ih =>
    unfold flushCalls
    rw [List.length_append, ih]
    by_cases hf : flushes store (storeId (b.seg y).stream) = true
    · rw [if_pos hf]
      simp only [List.filter_cons, hf, if_true, List.length_cons, List.length_nil]
      omega
    · rw [if_neg hf]
      simp only [List.filter_cons, hf, if_false, List.length_nil, Bool.false_eq_true]
      omega

/-- What `flushStandbyList` does to one segment makes two notifications. -/
theorem flushOne_calls (b : ServerStreamBuffer) (x : Nat) (hid : (b.seg x).id = x)
    (hst : (b.seg x).stream.isSome = true) :
    (b.flushOne x).calls = b.calls ++ [b.notifyCall x, b.notifyCall x] := by
  have hfind : ∀ (b0 : ServerStreamBuffer) (k : StoreStreamSegmentLink),
      (b0._findStandbySegment k true).1.calls = b0.calls ∧
      ∀ j, (b0._findStandbySegment k true).1.seg j = b0.seg j := by
    intro b0 k
    unfold _findStandbySegment
    split
    · exact ⟨rfl, fun _ => rfl⟩
    · exact ⟨rfl, fun _ => rfl⟩
  unfold flushOne
  simp only
  have h1 := hfind (b._notifyEncoderCacheClosed x) ((b._notifyEncoderCacheClosed x).standbyKey x)
  generalize ((b._notifyEncoderCacheClosed x)._findStandbySegment
    ((b._notifyEncoderCacheClosed x).standbyKey x) true).1 = b2 at h1 ⊢
  have hf := dequeueFromStandbyList_fields b2 x x
  have hc := (dequeueFromStandbyList_frame b2 x).2.2.2.2
  have e1 : (b2.seg x) = b.seg x := h1.2 x
  rw [e1] at hf
  rw [hf.2.2.2.2, hid, (purgeSegment_rest _ _).2.1, hc, h1.1]
  unfold purgeCalls
  rw [hf.2.2.1, if_pos hst, hf.2.2.2.1]
  show (b.calls ++ [_]) ++ [_] = _
  rw [List.append_assoc]
  rfl

/-- The pass of `flushStandbyList` over segments of the list makes two
notifications for each segment it removes and no other call. -/
theorem flushVisit_calls (store : Nat) :
    ∀ (l : List Nat) (b : ServerStreamBuffer) (lf kept : List Nat),
      b.InvL lf (kept ++ l) → (∀ x, x ∈ l → (b.seg x).stream.isSome = true) →
      (l.foldl (flushVisit store) b).calls = b.calls ++ flushCalls store b l := by
  intro l
  induction l with
  | nil =>
    intro b lf kept _ _
    simp [flushCalls]
  | cons y l ih =>
    intro b lf kept h hst
    rw [List.foldl_cons]
    have hnd := h.standby.list.nodup
    have hyk : y ∉ kept := by
      rw [List.nodup_append] at hnd
      exact fun hc => hnd.2.2 hc (List.mem_cons_self _ _)
    have hyl : y ∉ l := by
      rw [List.nodup_append] at hnd
      exact (List.nodup_cons.mp hnd.2.1).1
    have hy : y ∈ kept ++ y :: l := by simp
    have hylt : y < b.getNumSegments := h.standby.list.lt y hy
    by_cases hfl : flushes store (storeId (b.seg y).stream) = true
    · have e : flushVisit store b y = b.flushOne y := by
        unfold flushVisit
        rw [if_pos hfl]
      rw [e]
      obtain ⟨h1, h2⟩ := invL_flushOne h hy
      have he : (kept ++ y :: l).erase y = kept ++ l := by
        rw [List.erase_append_right _ hyk, List.erase_cons_head]
      rw [he] at h1
      have hun : ∀ x, x ∈ l → ((b.flushOne y).seg x).unlinked = (b.seg x).unlinked :=
        fun x hx => h2 x (fun e0 => hyl (e0 ▸ hx))
      rw [ih (b.flushOne y) (y :: lf) kept h1
        (fun x hx => by
          have := congrArg Segment.stream (hun x hx)
          have e2 : ((b.flushOne y).seg x).stream = (b.seg x).stream := this
          rw [e2]
          exact hst x (List.mem_cons_of_mem _ hx)),
        flushCalls_congr store l hun,
        flushOne_calls b y (h.standby.ids y hylt) (hst y (List.mem_cons_self _ _))]
      conv_rhs => unfold flushCalls
      rw [if_pos hfl, List.append_assoc]
    · have e : flushVisit store b y = b := by
        unfold flushVisit
        rw [if_neg hfl]
      rw [e]
      have h1 : b.InvL lf ((kept ++ [y]) ++ l) := by
        have e0 : (kept ++ [y]) ++ l = kept ++ y :: l := by simp
        rw [e0]
        exact h
      rw [ih b lf (kept ++ [y]) h1 (fun x hx => hst x (List.mem_cons_of_mem _ hx))]
      conv_rhs => unfold flushCalls
      rw [if_neg hfl, List.nil_append]

/-- An eviction makes one notification, for its victim. -/
theorem evictFromStandbyList_calls {b : ServerStreamBuffer} {ls : List Nat}
    (h : b.StandbyL ls) (hne : ls ≠ []) :
    b._evictFromStandbyList.2 = some (ls.getLast hne) ∧
    b._evictFromStandbyList.1.calls = b.calls ++ [b.notifyCall (ls.getLast hne)] := by
  rw [evictFromStandbyList_eq h hne]
  refine ⟨rfl, ?_⟩
  show ((_ : ServerStreamBuffer).setSeg _ _).calls = _
  rw [calls_setSeg, (dequeueFromStandbyList_frame _ _).2.2.2.2]
  rfl

/-- C38: in a reachable state, `flushStandbyList` makes two calls of
`notifySegmentCacheClosed` for every segment it removes (all of them have a
stream), in the order of the standby list, and no other call: one directly and
one inside `_purgeSegment`. An eviction makes one such call, for its victim,
and so does an allocation that evicts; the removal of a segment by a lookup of
the index, and with it an `openSegment` that hits the standby cache, makes no
call. -/
theorem notify_counts {env : Env} {b : ServerStreamBuffer} (hr : Reachable env b) :
    (∀ x, x ∈ b.standbyList → (b.seg x).stream.isSome = true) ∧
    (∀ store, (b.flushStandbyList store).calls =
      b.calls ++ flushCalls store b b.standbyList) ∧
    (∀ store, (flushCalls store b b.standbyList).length =
      2 * (b.standbyList.filter
        (fun x => flushes store (storeId (b.seg x).stream))).length) ∧
    (∀ x, x ∈ b.standbyList →
      (b.flushOne x).calls = b.calls ++ [b.notifyCall x, b.notifyCall x]) ∧
    (∀ i, b._evictFromStandbyList.2 = some i →
      b._evictFromStandbyList.1.calls = b.calls ++ [b.notifyCall i]) ∧
    (∀ (i : Nat) (stream : Option ServerStream) (sequenceNumber : Nat) (prefetch : Bool)
      (now : Nat), b.freeList = [] →
      (b._tryAllocateFreeSegment env stream sequenceNumber prefetch now).2 = some i →
      (b._tryAllocateFreeSegment env stream sequenceNumber prefetch now).1.calls =
        b.calls ++ [b.notifyCall i]) ∧
    (∀ key, (b._removeStandbySegment key).1.calls = b.calls) ∧
    (∀ (stream : ServerStream) (flags : StreamAccessFlags) (location : StorageLocation)
      (prefetch : Bool) (now : Nat) (rd : ReadOutcome) (i : Nat),
      indexFind b.standbyIndex
        { store := stream.store, stream := stream.id,
          sequenceNumber := location.link.sequenceNumber } = some i →
      (openSegment env b stream flags location prefetch now rd).1.calls = b.calls) := by
  have hW := reachable_wellFormed hr
  have hst : ∀ x, x ∈ b.standbyList → (b.seg x).stream.isSome = true :=
    fun x hx => standby_has_stream hr hx
  have hev : ∀ i, b._evictFromStandbyList.2 = some i →
      b._evictFromStandbyList.1.calls = b.calls ++ [b.notifyCall i] := by
    intro i he
    by_cases hne : b.standbyList = []
    · have hh : b.standbyHead = none := by
        have := hW.standby.list.head
        rw [hne] at this
        exact this
      rw [evictFromStandbyList_empty b hh] at he
      exact Option.noConfusion he
    · obtain ⟨e1, e2⟩ := evictFromStandbyList_calls hW.standby hne
      rw [e1] at he
      rw [e2, Option.some.inj he]
  refine ⟨hst, ?_, fun store => flushCalls_length store b _, ?_, hev, ?_, ?_, ?_⟩
  · intro store
    rw [(flushStandbyList_fold hW store).1]
    exact flushVisit_calls store b.standbyList b b.freeList []
      (by rw [List.nil_append]; exact hW) hst
  · intro x hx
    exact flushOne_calls b x (hW.standby.ids x (hW.standby.list.lt x hx)) (hst x hx)
  · intro i stream sequenceNumber prefetch now hfl hres
    have hfh : b.freeHead = none := by
      have := hW.free.chain
      rw [hfl] at this
      exact this
    have ea : b.allocateOnce = b._evictFromStandbyList := by
      unfold allocateOnce
      rw [dequeueFromFreeList_empty b hfh]
    by_cases hne : b.standbyList = []
    · exfalso
      have hh : b.standbyHead = none := by
        have := hW.standby.list.head
        rw [hne] at this
        exact this
      unfold _tryAllocateFreeSegment at hres
      cases prefetch with
      | true =>
        unfold tryAllocateLoop at hres
        rw [allocateOnce_empty b hfh hh] at hres
        simp at hres
      | false =>
        rw [tryAllocateLoop_exhausted env stream sequenceNumber now env.retryCount 1 b hfh hh
          (by omega)] at hres
        exact Option.noConfusion hres
    · obtain ⟨e1, e2⟩ := evictFromStandbyList_calls hW.standby hne
      unfold _tryAllocateFreeSegment at hres ⊢
      unfold tryAllocateLoop at hres ⊢
      rw [ea] at hres ⊢
      rcases he : b._evictFromStandbyList with ⟨b1, _ | k⟩
      · rw [he] at e1
        exact Option.noConfusion e1
      · rw [he] at hres e1 e2
        simp only at hres e1 e2 ⊢
        have hki : k = i := Option.some.inj hres
        rw [← hki, Option.some.inj e1]
        simp only [_prepareSegment, calls_setSeg, calls_setShared]
        exact e2
  · intro key
    unfold _removeStandbySegment _findStandbySegment
    cases indexFind b.standbyIndex key with
    | none => rfl
    | some i =>
      simp only [if_true]
      exact (dequeueFromStandbyList_frame _ _).2.2.2.2
  · intro stream flags location prefetch now rd i hf
    exact (openSegment_hit hW env stream flags location prefetch now rd hf).2.1

theorem notify_counts_witness :
    sampleCached.standbyList = [0] ∧
    (sampleCached.flushStandbyList 1).calls =
      sampleCached.calls ++
        [Call.notifySegmentCacheClosed 7 0, Call.notifySegmentCacheClosed 7 0] ∧
    sampleCached._evictFromStandbyList.1.calls =
      sampleCached.calls ++ [Call.notifySegmentCacheClosed 7 0] :=
  ⟨by decide,
   ((notify_counts sampleCached_reachable).2.1 1).trans (by decide),
   ((notify_counts sampleCached_reachable).2.2.2.2.1 0 (by decide)).trans (by decide)⟩

/-! ## Lock order -/

theorem standbyScopes_append {l r : List LockEvent} (hl : StandbyScopes l)
    (hr : StandbyScopes r) : StandbyScopes (l ++ r) := by
  induction hl with
  | nil => exact hr
  | scope l _ ih => exact StandbyScopes.scope _ ih

theorem standbyScopes_under_segment {l : List LockEvent} (hl : StandbyScopes l)
    (r : List LockEvent) :
    acquiresStandbyUnderSegment 0 (l ++ r) = acquiresStandbyUnderSegment 0 r := by
  induction hl with
  | nil => rfl
  | scope l _ ih =>
    show (decide (0 < 0) || acquiresStandbyUnderSegment 0 (l ++ r)) = _
    rw [ih]
    rfl

theorem standbyScopes_under_standby {l : List LockEvent} (hl : StandbyScopes l)
    (r : List LockEvent) :
    acquiresSegmentUnderStandby false (l ++ r) = acquiresSegmentUnderStandby false r := by
  induction hl with
  | nil => rfl
  | scope l _ ih =>
    show acquiresSegmentUnderStandby false (l ++ r) = _
    exact ih

theorem standbyScopes_one : StandbyScopes [LockEvent.acquireStandby, LockEvent.releaseStandby] :=
  StandbyScopes.scope [] StandbyScopes.nil

theorem evictLocks_scopes (b : ServerStreamBuffer) : StandbyScopes b.evictLocks := by
  unfold evictLocks
  cases b.standbyHead with
  | none => exact StandbyScopes.nil
  | some h => exact standbyScopes_one

theorem allocateOnceLocks_scopes (b : ServerStreamBuffer) : StandbyScopes b.allocateOnceLocks := by
  unfold allocateOnceLocks
  rcases h : b._dequeueFromFreeList with ⟨b1, _ | i⟩
  · exact evictLocks_scopes b1
  · exact StandbyScopes.nil

theorem tryAllocateLocks_scopes (env : Env) (prefetch : Bool) (fuel : Nat) :
    ∀ (tryCount : Nat) (b : ServerStreamBuffer),
      StandbyScopes (tryAllocateLocks env prefetch fuel tryCount b) := by
  induction fuel with
  | zero =>
    intro tryCount b
    unfold tryAllocateLocks
    apply standbyScopes_append (allocateOnceLocks_scopes b)
    split
    · exact StandbyScopes.nil
    · split
      · exact StandbyScopes.nil
      · split
        · exact StandbyScopes.nil
        · exact StandbyScopes.nil
  | succ fuel ih =>
    intro tryCount b
    unfold tryAllocateLocks
    apply standbyScopes_append (allocateOnceLocks_scopes b)
    split
    · exact StandbyScopes.nil
    · split
      · exact StandbyScopes.nil
      · split
        · exact StandbyScopes.nil
        · exact ih _ _

theorem optionalScope_nil : OptionalScope [] := Or.inl rfl

theorem optionalScope_ite (c : Prop) [Decidable c] {l r : List LockEvent}
    (hl : OptionalScope l) (hr : OptionalScope r) : OptionalScope (if c then l else r) := by
  by_cases h : c
  · rw [if_pos h]; exact hl
  · rw [if_neg h]; exact hr

theorem freeLocks_cases (b : ServerStreamBuffer) (segment : Nat) :
    OptionalScope (b.freeLocks segment) := by
  unfold freeLocks
  exact optionalScope_ite _ (Or.inr rfl) optionalScope_nil

theorem freeLocks_eq (b : ServerStreamBuffer) (segment : Nat)
    (hlt : segment < b.getNumSegments) :
    b.freeLocks segment =
      if b.cacheWanted segment then [LockEvent.acquireStandby, LockEvent.releaseStandby]
      else [] := by
  unfold freeLocks cacheWanted
  simp only [seg_setSeg_self _ _ _ hlt, enableCache_setSeg]
  rfl

theorem submitLocks_cases (env : Env) (b : ServerStreamBuffer) (segment now : Nat)
    (wr : WriteOutcome) : OptionalScope (b.submitLocks env segment now wr) := by
  unfold submitLocks
  apply optionalScope_ite _ optionalScope_nil
  apply optionalScope_ite _ (freeLocks_cases _ _)
  apply optionalScope_ite _ optionalScope_nil
  unfold submitTryLocks
  apply optionalScope_ite _ optionalScope_nil
  apply optionalScope_ite _ optionalScope_nil
  unfold submitEncodeLocks
  cases wr with
  | throws code => exact optionalScope_nil
  | returns completed location =>
    apply optionalScope_ite _ _ optionalScope_nil
    exact optionalScope_ite _ (freeLocks_cases _ _) optionalScope_nil

theorem allocateLocks_monitors (env : Env) (b : ServerStreamBuffer)
    (stream : Option ServerStream) (sequenceNumber : Nat) (location : Option StorageLocation)
    (prefetch : Bool) (now : Nat) :
    acquiresStandbyUnderSegment 0
        (b.allocateLocks env stream sequenceNumber location prefetch now) = false ∧
    acquiresSegmentUnderStandby false
        (b.allocateLocks env stream sequenceNumber location prefetch now) = false := by
  unfold allocateLocks
  rw [standbyScopes_under_segment (tryAllocateLocks_scopes env prefetch _ _ _),
    standbyScopes_under_standby (tryAllocateLocks_scopes env prefetch _ _ _)]
  rcases h : b._tryAllocateFreeSegment env stream sequenceNumber prefetch now with ⟨b1, _ | i⟩
  · exact ⟨rfl, rfl⟩
  · cases location with
    | none => exact ⟨rfl, rfl⟩
    | some loc => exact ⟨rfl, rfl⟩

theorem requestLocks_monitors (env : Env) (b : ServerStreamBuffer)
    (stream : Option ServerStream) (sequenceNumber : Nat) (location : Option StorageLocation)
    (prefetch : Bool) (now : Nat) :
    acquiresStandbyUnderSegment 0
        (b.requestLocks env stream sequenceNumber location prefetch now) = false ∧
    acquiresSegmentUnderStandby false
        (b.requestLocks env stream sequenceNumber location prefetch now) = false := by
  unfold requestLocks
  cases stream with
  | none => exact allocateLocks_monitors env b none sequenceNumber location prefetch now
  | some s =>
    simp only
    have hs : StandbyScopes removeStandbyLocks := standbyScopes_one
    rw [standbyScopes_under_segment hs, standbyScopes_under_standby hs]
    rcases h : b._removeStandbySegment
        { store := s.store, stream := s.id, sequenceNumber := sequenceNumber } with ⟨b1, _ | i⟩
    · exact allocateLocks_monitors env b1 (some s) sequenceNumber location prefetch now
    · exact ⟨rfl, rfl⟩

theorem segment_scope_monitors (segment : Nat) (l : List LockEvent)
    (hl : OptionalScope l) :
    acquiresSegmentUnderStandby false
        ([LockEvent.acquireSegment segment] ++ l ++ [LockEvent.releaseSegment segment]) = false ∧
    (acquiresStandbyUnderSegment 0
        ([LockEvent.acquireSegment segment] ++ l ++ [LockEvent.releaseSegment segment]) = true ↔
      l = [LockEvent.acquireStandby, LockEvent.releaseStandby]) ∧
    (l = [LockEvent.acquireStandby, LockEvent.releaseStandby] ↔
      [LockEvent.acquireSegment segment] ++ l ++ [LockEvent.releaseSegment segment] =
        [LockEvent.acquireSegment segment, LockEvent.acquireStandby,
         LockEvent.releaseStandby, LockEvent.releaseSegment segment]) := by
  rcases hl with h | h
  · subst h
    have e : acquiresStandbyUnderSegment 0
        ([LockEvent.acquireSegment segment] ++ [] ++ [LockEvent.releaseSegment segment]) =
        false := rfl
    refine ⟨rfl, ⟨?_, ?_⟩, ⟨?_, ?_⟩⟩
    · intro h; rw [e] at h; cases h
    · intro h; cases h
    · intro h; cases h
    · intro h; cases h
  · subst h
    exact ⟨rfl, ⟨fun _ => rfl, fun _ => rfl⟩, ⟨fun _ => rfl, fun _ => rfl⟩⟩

theorem ite_ne_nil_cases {c : Prop} [Decidable c] {l r : List LockEvent}
    (h : (if c then l else r) ≠ []) : (c ∧ l ≠ []) ∨ (¬ c ∧ r ≠ []) := by
  by_cases hc : c
  · rw [if_pos hc] at h; exact Or.inl ⟨hc, h⟩
  · rw [if_neg hc] at h; exact Or.inr ⟨hc, h⟩

theorem submitLocks_ok (env : Env) (b : ServerStreamBuffer) (segment now : Nat)
    (wr : WriteOutcome) (h : b.submitLocks env segment now wr ≠ []) :
    ∃ v, (b._submitSegment env segment now wr).2 = .ok v := by
  unfold submitLocks at h
  unfold _submitSegment
  dsimp only at h ⊢
  rcases ite_ne_nil_cases h with ⟨_, h⟩ | ⟨hc, h⟩
  · exact absurd rfl h
  rw [if_neg hc]
  rcases ite_ne_nil_cases h with ⟨hro, _⟩ | ⟨hro, h⟩
  · rw [if_pos hro]
    exact ⟨_, rfl⟩
  rw [if_neg hro]
  rcases ite_ne_nil_cases h with ⟨_, h⟩ | ⟨hraw, h⟩
  · exact absurd rfl h
  rw [if_neg hraw]
  unfold submitTryLocks at h
  unfold submitTry
  dsimp only at h ⊢
  rcases ite_ne_nil_cases h with ⟨_, h⟩ | ⟨h1, h⟩
  · exact absurd rfl h
  rw [if_neg h1]
  rcases ite_ne_nil_cases h with ⟨_, h⟩ | ⟨h2, h⟩
  · exact absurd rfl h
  rw [if_neg h2]
  unfold submitEncodeLocks at h
  unfold submitEncode
  cases wr with
  | throws code => exact absurd rfl h
  | returns completed location => exact ⟨_, rfl⟩

/-- C34 (as the code has it): no call of the engine acquires the mutex of a
segment while it holds `_standbyLock`, and `purgeSegment`, `openSegment`,
`requestSegment`, `requestScratchSegment` and `flushStandbyList` never acquire
`_standbyLock` while they hold the mutex of a segment. `freeSegment` does:
it acquires `_standbyLock` inside the scope of the mutex of its segment
exactly when the call succeeds and `_freeSegment` hands the segment to the
standby cache, and its lock events are then the two nested scopes.
`submitSegment` does so exactly when its lock events are the two nested
scopes, and then the call returns without an exception. -/
theorem lock_order (env : Env) (b : ServerStreamBuffer) :
    (∀ op : ApiOp, acquiresSegmentUnderStandby false (b.lockTrace env op) = false) ∧
    (∀ segment : Nat,
      acquiresStandbyUnderSegment 0 (b.lockTrace env (ApiOp.purgeSegment segment)) = false) ∧
    (∀ stream flags location prefetch now rd,
      acquiresStandbyUnderSegment 0
        (b.lockTrace env (ApiOp.openSegment stream flags location prefetch now rd)) = false) ∧
    (∀ stream sequenceNumber now,
      acquiresStandbyUnderSegment 0
        (b.lockTrace env (ApiOp.requestSegment stream sequenceNumber now)) = false) ∧
    (∀ now,
      acquiresStandbyUnderSegment 0
        (b.lockTrace env (ApiOp.requestScratchSegment now)) = false) ∧
    (∀ store,
      acquiresStandbyUnderSegment 0
        (b.lockTrace env (ApiOp.flushStandbyList store)) = false) ∧
    (∀ segment prefetch,
      (acquiresStandbyUnderSegment 0
          (b.lockTrace env (ApiOp.freeSegment segment prefetch)) = true ↔
        ((freeSegment env b segment prefetch).2 = .ok () ∧ b.cacheWanted segment = true)) ∧
      (acquiresStandbyUnderSegment 0
          (b.lockTrace env (ApiOp.freeSegment segment prefetch)) = true →
        b.lockTrace env (ApiOp.freeSegment segment prefetch) =
          [LockEvent.acquireSegment segment, LockEvent.acquireStandby,
           LockEvent.releaseStandby, LockEvent.releaseSegment segment])) ∧
    (∀ segment now wr,
      (acquiresStandbyUnderSegment 0
          (b.lockTrace env (ApiOp.submitSegment segment now wr)) = true ↔
        b.lockTrace env (ApiOp.submitSegment segment now wr) =
          [LockEvent.acquireSegment segment, LockEvent.acquireStandby,
           LockEvent.releaseStandby, LockEvent.releaseSegment segment]) ∧
      (acquiresStandbyUnderSegment 0
          (b.lockTrace env (ApiOp.submitSegment segment now wr)) = true →
        ∃ v, (submitSegment env b segment now wr).2 = .ok v)) := by
  refine ⟨?_, ?_, ?_, ?_, ?_, ?_, ?_, ?_⟩
  · intro op
    cases op with
    | requestSegment stream sequenceNumber now =>
      simp only [lockTrace]
      split
      · rfl
      · exact (requestLocks_monitors env b _ _ _ _ _).2
    | requestScratchSegment now =>
      simp only [lockTrace]
      exact (requestLocks_monitors env b _ _ _ _ _).2
    | openSegment stream flags location prefetch now rd =>
      simp only [lockTrace]
      exact (requestLocks_monitors env b _ _ _ _ _).2
    | submitSegment segment now wr =>
      simp only [lockTrace]
      split
      · rfl
      · split
        · rfl
        · split
          · rfl
          · exact (segment_scope_monitors segment _ (submitLocks_cases env b segment now wr)).1
    | freeSegment segment prefetch =>
      simp only [lockTrace]
      split
      · rfl
      · split
        · rfl
        · exact (segment_scope_monitors segment _ (freeLocks_cases b segment)).1
    | purgeSegment segment =>
      simp only [lockTrace]
      split
      · rfl
      · rfl
    | flushStandbyList store => rfl
    | clientWriteControl i c => rfl
    | clientWritePayload i bytes => rfl
  · intro segment
    simp only [lockTrace]
    split
    · rfl
    · rfl
  · intro stream flags location prefetch now rd
    simp only [lockTrace]
    exact (requestLocks_monitors env b _ _ _ _ _).1
  · intro stream sequenceNumber now
    simp only [lockTrace]
    split
    · rfl
    · exact (requestLocks_monitors env b _ _ _ _ _).1
  · intro now
    simp only [lockTrace]
    exact (requestLocks_monitors env b _ _ _ _ _).1
  · intro store
    rfl
  · intro segment prefetch
    simp only [lockTrace]
    unfold freeSegment
    by_cases hge : segment ≥ b.getNumSegments
    · rw [if_pos hge, if_pos hge]
      refine ⟨⟨fun h => absurd h (by decide), fun h => ?_⟩, fun h => absurd h (by decide)⟩
      exact absurd h.1 (by simp)
    · rw [if_neg hge, if_neg hge]
      have hlt : segment < b.getNumSegments := Nat.lt_of_not_ge hge
      by_cases hbad : (!(b.seg segment).flags.inUse || (b.seg segment).next.isSome ||
          (!(b.seg segment).flags.readOnly && !(b.seg segment).isSubmitted)) = true
      · rw [if_pos hbad, if_pos hbad]
        have hm := (segment_scope_monitors segment [] optionalScope_nil).2.1
        refine ⟨⟨fun h => ?_, fun h => ?_⟩, fun h => ?_⟩
        · exact absurd (hm.1 h) (by simp)
        · exact absurd h.1 (by simp)
        · exact absurd (hm.1 h) (by simp)
      · rw [if_neg hbad, if_neg hbad]
        have hm := (segment_scope_monitors segment _ (freeLocks_cases b segment)).2
        rw [freeLocks_eq b segment hlt] at hm ⊢
        by_cases hw : b.cacheWanted segment = true
        · rw [if_pos hw] at hm ⊢
          exact ⟨⟨fun _ => ⟨rfl, hw⟩, fun _ => rfl⟩, fun _ => rfl⟩
        · rw [if_neg hw] at hm ⊢
          refine ⟨⟨fun h => ?_, fun h => absurd h.2 hw⟩, fun h => ?_⟩
          · exact absurd (hm.1.1 h) (by simp)
          · exact absurd (hm.1.1 h) (by simp)
  · intro segment now wr
    simp only [lockTrace]
    unfold submitSegment
    by_cases hge : segment ≥ b.getNumSegments
    · rw [if_pos hge, if_pos hge]
      exact ⟨⟨fun h => absurd h (by decide), fun h => absurd h (by simp)⟩,
        fun h => absurd h (by decide)⟩
    · rw [if_neg hge, if_neg hge]
      by_cases hnone : (b.seg segment).stream.isNone = true
      · rw [if_pos hnone, if_pos hnone]
        exact ⟨⟨fun h => absurd h (by decide), fun h => absurd h (by simp)⟩,
          fun h => absurd h (by decide)⟩
      · rw [if_neg hnone, if_neg hnone]
        by_cases hbad : (!(b.seg segment).flags.inUse || (b.seg segment).next.isSome ||
            (b.seg segment).isSubmitted) = true
        · rw [if_pos hbad, if_pos hbad]
          have hm := (segment_scope_monitors segment [] optionalScope_nil).2
          refine ⟨⟨fun h => ?_, fun h => ?_⟩, fun h => ?_⟩
          · exact absurd (hm.1.1 h) (by simp)
          · exact absurd (hm.2.2 h) (by simp)
          · exact absurd (hm.1.1 h) (by simp)
        · rw [if_neg hbad, if_neg hbad]
          have hm := (segment_scope_monitors segment _
            (submitLocks_cases env b segment now wr)).2
          refine ⟨⟨fun h => hm.2.1 (hm.1.1 h), fun h => hm.1.2 (hm.2.2 h)⟩, fun h => ?_⟩
          apply submitLocks_ok
          rw [hm.1.1 h]
          simp

/-- C34, the calls that break the sentence of the specification: the
`freeSegment` of the loaded cacheable segment 0 of `sampleRandomHeld`, and
the `submitSegment` of the written segment 0 of `sampleWritten` whose encoder
completes with a location, acquire `_standbyLock` inside the scope of the
mutex of segment 0, and both calls return without an exception. -/
theorem lock_order_counterexample :
    sampleRandomHeld.lockTrace sampleEnv (ApiOp.freeSegment 0 false) =
      [LockEvent.acquireSegment 0, LockEvent.acquireStandby,
       LockEvent.releaseStandby, LockEvent.releaseSegment 0] ∧
    acquiresStandbyUnderSegment 0
      (sampleRandomHeld.lockTrace sampleEnv (ApiOp.freeSegment 0 false)) = true ∧
    (freeSegment sampleEnv sampleRandomHeld 0 false).2 = .ok () ∧
    sampleWritten.lockTrace sampleEnv
        (ApiOp.submitSegment 0 200 (WriteOutcome.returns true (some sampleLocation))) =
      [LockEvent.acquireSegment 0, LockEvent.acquireStandby,
       LockEvent.releaseStandby, LockEvent.releaseSegment 0] ∧
    acquiresStandbyUnderSegment 0
      (sampleWritten.lockTrace sampleEnv
        (ApiOp.submitSegment 0 200 (WriteOutcome.returns true (some sampleLocation)))) = true ∧
    (submitSegment sampleEnv sampleWritten 0 200
        (WriteOutcome.returns true (some sampleLocation))).2 =
      .ok (true, some sampleLocation) := by
  decide

/-- C34 on `sampleRandomHeld`: the `freeSegment` of segment 0 acquires
`_standbyLock` under the mutex of the segment, and its lock events are the
two nested scopes. -/
theorem lock_order_witness :
    acquiresStandbyUnderSegment 0
      (sampleRandomHeld.lockTrace sampleEnv (ApiOp.freeSegment 0 false)) = true ∧
    sampleRandomHeld.lockTrace sampleEnv (ApiOp.freeSegment 0 false) =
      [LockEvent.acquireSegment 0, LockEvent.acquireStandby,
       LockEvent.releaseStandby, LockEvent.releaseSegment 0] ∧
    (∃ v, (submitSegment sampleEnv sampleWritten 0 200
        (WriteOutcome.returns true (some sampleLocation))).2 = .ok v) :=
  ⟨by decide,
   ((lock_order sampleEnv sampleRandomHeld).2.2.2.2.2.2.1 0 false).2 (by decide),
   ((lock_order sampleEnv sampleWritten).2.2.2.2.2.2.2 0 200
      (WriteOutcome.returns true (some sampleLocation))).2 (by decide)⟩

/-! ## ClientStream: validation of the handle -/

/-- C40: `ClientStream` validates the handle of the caller before it touches
any handle state. `append` throws `InvalidOperationException` for a non-null
handle of another stream or with the read flag, `open` for a non-null handle
of another stream or without the read flag, and `close` throws
`ArgumentNullException` for a null handle and `InvalidOperationException` for
a handle of another stream; the state is then the state before the call, so
`_writeHandle` and `_readHandles` are unchanged and neither `_append`,
`_open`, `_closeHandle` nor `_releaseHandle` has been called, whatever the
subclass does in them. Any other handle passes: `append` and `open` call
`_append` and `_open`, and `close` releases the handle after `_closeHandle`
has returned, or at once for a handle that is not dynamic and has no control
element. -/
theorem clientStream_validates_handle (impl : ClientStreamImpl) (s : ClientStream) :
    (∀ h : StreamStateDescriptor, h.stream ≠ s.address ∨ h.flags.SsfRead = true →
      s.append impl (some h) = (s, .error Error.InvalidOperationException)) ∧
    (∀ (type value : Nat) (flags : StreamAccessFlags) (h : StreamStateDescriptor),
      h.stream ≠ s.address ∨ h.flags.SsfRead = false →
      ClientStream.open impl s type value flags (some h) =
        (s, .error Error.InvalidOperationException)) ∧
    s.close impl none = (s, .error Error.ArgumentNullException) ∧
    (∀ h : StreamStateDescriptor, h.stream ≠ s.address →
      s.close impl (some h) = (s, .error Error.InvalidOperationException)) ∧
    (∀ handle : StreamHandle,
      (∀ h, handle = some h → h.stream = s.address ∧ h.flags.SsfRead = false) →
      s.append impl handle = impl._append (s.call (HandleCall.callAppend handle)) handle) ∧
    (∀ (type value : Nat) (flags : StreamAccessFlags) (handle : StreamHandle),
      (∀ h, handle = some h → h.stream = s.address ∧ h.flags.SsfRead = true) →
      ClientStream.open impl s type value flags handle =
        impl._open (s.call (HandleCall.callOpen type value flags handle))
          type value flags handle) ∧
    (∀ h : StreamStateDescriptor, h.stream = s.address →
      ((h.flags.SsfDynamic || h.control) = false →
        s.close impl (some h) = (s._releaseHandle h, .ok ())) ∧
      ((h.flags.SsfDynamic || h.control) = true →
        ∀ s1, impl._closeHandle (s.call (HandleCall.callCloseHandle h)) h = (s1, .ok ()) →
          s.close impl (some h) = (s1._releaseHandle h, .ok ()))) := by
  refine ⟨?_, ?_, rfl, ?_, ?_, ?_, ?_⟩
  · intro h hbad
    unfold ClientStream.append
    by_cases hs : h.stream ≠ s.address
    · simp only [if_pos hs]
    · rcases hbad with hb | hb
      · exact absurd hb hs
      · simp only [if_neg hs, hb, if_true]
  · intro type value flags h hbad
    unfold ClientStream.open
    by_cases hs : h.stream ≠ s.address
    · simp only [if_pos hs]
    · rcases hbad with hb | hb
      · exact absurd hb hs
      · simp only [if_neg hs, hb, Bool.not_false, if_true]
  · intro h hs
    unfold ClientStream.close
    simp only [if_pos hs]
  · intro handle hok
    unfold ClientStream.append
    cases handle with
    | none => rfl
    | some h =>
      obtain ⟨h1, h2⟩ := hok h rfl
      have hs : ¬ h.stream ≠ s.address := fun hn => hn h1
      simp only [if_neg hs, h2, Bool.false_eq_true, if_false]
  · intro type value flags handle hok
    unfold ClientStream.open
    cases handle with
    | none => rfl
    | some h =>
      obtain ⟨h1, h2⟩ := hok h rfl
      have hs : ¬ h.stream ≠ s.address := fun hn => hn h1
      simp only [if_neg hs, h2, Bool.not_true, Bool.false_eq_true, if_false]
  · intro h h1
    have hs : ¬ h.stream ≠ s.address := fun hn => hn h1
    constructor
    · intro hc
      unfold ClientStream.close
      simp only [if_neg hs, hc, Bool.false_eq_true, if_false]
    · intro hc s1 himpl
      unfold ClientStream.close
      simp only [if_neg hs, hc, if_true, himpl]

/-- C40 on `sampleClientStream`: `append` with its read handle, `open` with
its write handle, and `close` with the handle of another stream throw and
leave the stream as it was. -/
theorem clientStream_validates_handle_witness :
    (sampleReadHandle.stream ≠ sampleClientStream.address ∨
      sampleReadHandle.flags.SsfRead = true) ∧
    sampleClientStream.append sampleClientImpl (some sampleReadHandle) =
      (sampleClientStream, .error Error.InvalidOperationException) ∧
    (sampleWriteHandle.stream ≠ sampleClientStream.address ∨
      sampleWriteHandle.flags.SsfRead = false) ∧
    ClientStream.open sampleClientImpl sampleClientStream 0 0 SafNone (some sampleWriteHandle) =
      (sampleClientStream, .error Error.InvalidOperationException) ∧
    sampleForeignHandle.stream ≠ sampleClientStream.address ∧
    sampleClientStream.close sampleClientImpl (some sampleForeignHandle) =
      (sampleClientStream, .error Error.InvalidOperationException) ∧
    sampleReadHandle.stream = sampleClientStream.address ∧
    (sampleReadHandle.flags.SsfDynamic || sampleReadHandle.control) = true ∧
    sampleClientStream.close sampleClientImpl (some sampleReadHandle) =
      ((sampleClientStream.call
          (HandleCall.callCloseHandle sampleReadHandle))._releaseHandle sampleReadHandle,
        .ok ()) ∧
    (sampleClientStream.close sampleClientImpl (some sampleReadHandle)).1._readHandles = [] :=
  ⟨by decide,
   (clientStream_validates_handle sampleClientImpl sampleClientStream).1
     sampleReadHandle (by decide),
   by decide,
   (clientStream_validates_handle sampleClientImpl sampleClientStream).2.1
     0 0 SafNone sampleWriteHandle (by decide),
   by decide,
   (clientStream_validates_handle sampleClientImpl sampleClientStream).2.2.2.1
     sampleForeignHandle (by decide),
   by decide, by decide,
   ((clientStream_validates_handle sampleClientImpl sampleClientStream).2.2.2.2.2.2
     sampleReadHandle (by decide)).2 (by decide) _ rfl,
   by decide⟩

end SimuTrace
